import Mathlib

/-! GenICam camera source: feature configuration engine and frame delivery.

A shallow embedding of `genicam.cc` / `genicam.h` / `gencambase.h` / `gstgencamsrc.c`
(plugin `src-gst-gencamsrc`).  The device access layer (`rcg::…`, `rcg::Device`,
`rcg::Stream`) is external to these sources: it is modelled as a `Device`, an
arbitrary deterministic oracle whose answer to a call may depend on every call
issued before it.  All calls are recorded, in order, in a trace.

C++ exceptions are modelled by an explicit result type; `int` / `int64_t`
arithmetic is modelled on `Int` with explicit two's-complement wrapping; a `float`
or `double` value is a rational number, an infinity, or not-a-number.
-/

namespace Gencam

/-! ## Machine integers -/

/-- Value of `x` after conversion to a signed two's-complement integer of `w` bits. -/
def wrapSigned (w : Nat) (x : Int) : Int :=
  (x + 2 ^ (w - 1)) % 2 ^ w - 2 ^ (w - 1)

/-- Conversion to C `int` (32 bit). -/
def toInt (x : Int) : Int := wrapSigned 32 x

/-- Result of an `int64_t` operation. -/
def toInt64 (x : Int) : Int := wrapSigned 64 x

def INT_MIN : Int := -2147483648
def INT_MAX : Int := 2147483647
def INT64_MIN : Int := -9223372036854775808
def INT64_MAX : Int := 9223372036854775807

/-- C++ `a % b` on integers: the remainder of the division truncated towards zero. -/
def cMod (a b : Int) : Int := Int.tmod a b

/-! ## Floating-point values -/

/-- A value of the C types `float` and `double`: a number, an infinity, or
not-a-number. -/
inductive CFloat where
  | num (q : Rat)
  | posInf
  | negInf
  | nan
  deriving DecidableEq, Repr

instance : OfNat CFloat n := ⟨.num n⟩

instance : IntCast CFloat := ⟨fun i => .num i⟩

instance : Neg CFloat :=
  ⟨fun x => match x with
    | .num q => .num (-q)
    | .posInf => .negInf
    | .negInf => .posInf
    | .nan => .nan⟩

/-- The comparison `a < b` of C: false as soon as an operand is not-a-number. -/
def CFloat.lt : CFloat → CFloat → Bool
  | .num a, .num b => decide (a < b)
  | .num _, .posInf => true
  | .negInf, .num _ => true
  | .negInf, .posInf => true
  | _, _ => false

/-- The comparison `a <= b` of C: false as soon as an operand is not-a-number. -/
def CFloat.le : CFloat → CFloat → Bool
  | .num a, .num b => decide (a ≤ b)
  | .num _, .posInf => true
  | .negInf, .num _ => true
  | .negInf, .negInf => true
  | .negInf, .posInf => true
  | .posInf, .posInf => true
  | _, _ => false

instance : LT CFloat := ⟨fun a b => CFloat.lt a b = true⟩

instance : LE CFloat := ⟨fun a b => CFloat.le a b = true⟩

instance (a b : CFloat) : Decidable (a < b) :=
  inferInstanceAs (Decidable (CFloat.lt a b = true))

instance (a b : CFloat) : Decidable (a ≤ b) :=
  inferInstanceAs (Decidable (CFloat.le a b = true))

/-! ## Exceptions -/

/-- The three kinds of exception the sources distinguish in their `catch` clauses. -/
inductive Exc where
  /-- `std::exception` (and subclasses), with its `what()` text. -/
  | std (what : String)
  /-- `GENICAM_NAMESPACE::GenericException`, with its `what()` text. -/
  | generic (what : String)
  /-- any other thrown object, only caught by `catch (...)`. -/
  | unknown
  deriving DecidableEq, Repr

/-! ## Calls into the device access layer -/

/-- One call into the device access layer, with its arguments. -/
inductive Call where
  | getSystems
  | getDevice (serial : Option String)
  | devOpen
  | devClose
  | getRemoteNodeMap
  | getStreams
  | streamOpen
  | startStreaming
  | stopStreaming
  | streamClose
  | clearSystems
  | grab
  | getEnum (name : String) (exception : Bool)
  | getEnumList (name : String) (exception : Bool)
  | setEnum (name value : String) (exception : Bool)
  | getInteger (name : String) (exception igncache : Bool)
  | setInteger (name : String) (value : Int) (exception : Bool)
  | getFloat (name : String) (exception igncache : Bool)
  | setFloat (name : String) (value : CFloat) (exception : Bool)
  | getBoolean (name : String) (exception igncache : Bool)
  | setBoolean (name : String) (value : Bool) (exception : Bool)
  | getString (name : String) (exception igncache : Bool)
  | callCommand (name : String) (exception : Bool)
  deriving DecidableEq, Repr

/-- Answer of `rcg::getInteger`: current value and the reported range and increment. -/
structure IntInfo where
  value : Int
  vMin : Int
  vMax : Int
  vInc : Int
  deriving DecidableEq, Repr

/-- Answer of `rcg::getFloat`: current value and the reported range. -/
structure FloatInfo where
  value : CFloat
  vMin : CFloat
  vMax : CFloat
  deriving DecidableEq, Repr

/-- A received buffer: global size and device timestamp. -/
structure Buffer where
  globalSize : Nat
  timestampNS : Nat
  deriving DecidableEq, Repr

/-- The connected camera together with the access library in front of it, and
the platform the element runs on.  Every operation receives the list of calls
issued so far and either answers or throws.  -/
structure Device where
  /-- serial numbers of all cameras on all systems and interfaces, in enumeration order -/
  getSystems : List Call → Except Exc (List String)
  /-- `rcg::getDevice`: is a device with this serial number found? -/
  getDevice : List Call → Option String → Except Exc Bool
  devOpen : List Call → Except Exc Unit
  devClose : List Call → Except Exc Unit
  getRemoteNodeMap : List Call → Except Exc Unit
  /-- `dev->getStreams ()`: number of streams -/
  getStreams : List Call → Except Exc Nat
  streamOpen : List Call → Except Exc Unit
  startStreaming : List Call → Except Exc Unit
  stopStreaming : List Call → Except Exc Unit
  streamClose : List Call → Except Exc Unit
  clearSystems : List Call → Except Exc Unit
  grab : List Call → Except Exc (Option Buffer)
  getEnum : List Call → String → Bool → Except Exc String
  getEnumList : List Call → String → Bool → Except Exc (List String)
  setEnum : List Call → String → String → Bool → Except Exc Bool
  getInteger : List Call → String → Bool → Bool → Except Exc IntInfo
  setInteger : List Call → String → Int → Bool → Except Exc Bool
  getFloat : List Call → String → Bool → Bool → Except Exc FloatInfo
  setFloat : List Call → String → CFloat → Bool → Except Exc Bool
  getBoolean : List Call → String → Bool → Bool → Except Exc Bool
  setBoolean : List Call → String → Bool → Bool → Except Exc Bool
  getString : List Call → String → Bool → Bool → Except Exc String
  callCommand : List Call → String → Bool → Except Exc Bool
  /-- is the debug threshold at least `GST_LEVEL_INFO`?  (the arguments of a
  logging statement are evaluated only then) -/
  logInfo : Bool
  /-- is the debug threshold at least `GST_LEVEL_WARNING`? -/
  logWarning : Bool
  /-- conversion of a `double` to `float` -/
  toFloat : CFloat → CFloat
  /-- the `int` whose object representation is that of the given `float` -/
  floatBits : CFloat → Int
  /-- the `float` whose object representation is that of the given `int` -/
  bitsFloat : Int → CFloat
  /-- content of an uninitialised `char[32]` buffer read as a string -/
  garbage : String
  /-- does `gst_buffer_new_allocate` return a buffer of the given size? -/
  allocate : Nat → Bool

/-! ## Code that only talks to the device -/

/-- Outcome of device-level code: normal completion or a thrown exception, with
the trace of calls issued so far (oldest first). -/
inductive DRes (α : Type) where
  | ok (a : α) (trace : List Call)
  | raise (e : Exc) (trace : List Call)

/-- Trace after the run. -/
def DRes.trace {α : Type} : DRes α → List Call
  | .ok _ t => t
  | .raise _ t => t

/-- Returned value, if the run completed normally. -/
def DRes.value? {α : Type} : DRes α → Option α
  | .ok a _ => some a
  | .raise _ _ => none

/-- Code whose only effect is to call the device. -/
def D (α : Type) : Type := Device → List Call → DRes α

def D.pure {α : Type} (a : α) : D α := fun _ t => .ok a t

def D.bind {α β : Type} (m : D α) (f : α → D β) : D β := fun d t =>
  match m d t with
  | .ok a t1 => f a d t1
  | .raise e t1 => .raise e t1

instance : Monad D where
  pure := D.pure
  bind := D.bind

/-- Issue a call: it is appended to the trace, and answered by the device from the
trace before the call. -/
def call {α : Type} (c : Call) (answer : Device → List Call → Except Exc α) : D α :=
  fun d t =>
    match answer d t with
    | .ok a => .ok a (t ++ [c])
    | .error e => .raise e (t ++ [c])

/-- `try body catch (const std::exception & ex) handler`: other exceptions pass. -/
def catchStd {α : Type} (body : D α) (handler : String → D α) : D α := fun d t =>
  match body d t with
  | .ok a t1 => .ok a t1
  | .raise (.std what) t1 => handler what d t1
  | .raise e t1 => .raise e t1

/-- `try body` with handlers for every exception (a `catch (...)` clause is
present): the outcome of the body is handed to the code after the handlers. -/
def tryAll {α : Type} (body : D α) : D (Except Exc α) := fun d t =>
  match body d t with
  | .ok a t1 => .ok (.ok a) t1
  | .raise e t1 => .ok (.error e) t1

/-- Arguments of a `GST_INFO_OBJECT` statement: evaluated when the level is logged. -/
def logInfo {α : Type} (args : D α) : D Unit := fun d t =>
  if d.logInfo then (do let _ ← args; pure ()) d t else .ok () t

/-- Arguments of a `GST_WARNING_OBJECT` statement. -/
def logWarning {α : Type} (args : D α) : D Unit := fun d t =>
  if d.logWarning then (do let _ ← args; pure ()) d t else .ok () t

/-- Reading a platform function. -/
def platform {α : Type} (f : Device → α) : D α := fun d t => .ok (f d) t

/-- `strcasecmp (a, b) == 0`. -/
def strcaseeq (a b : String) : Bool :=
  a.data.map Char.toLower == b.data.map Char.toLower

/-- `strncmp (what, prefix, strlen (prefix)) == 0`. -/
def startsWith (what pre : String) : Bool :=
  pre.data.isPrefixOf what.data

/-! ## The `rcg::` node-map operations -/

namespace rcg

def getEnum (name : String) (exception : Bool) : D String :=
  call (.getEnum name exception) (fun d h => d.getEnum h name exception)

def getEnumList (name : String) (exception : Bool) : D (List String) :=
  call (.getEnumList name exception) (fun d h => d.getEnumList h name exception)

def setEnum (name value : String) (exception : Bool) : D Bool :=
  call (.setEnum name value exception) (fun d h => d.setEnum h name value exception)

def getInteger (name : String) (exception igncache : Bool) : D IntInfo :=
  call (.getInteger name exception igncache) (fun d h => d.getInteger h name exception igncache)

def setInteger (name : String) (value : Int) (exception : Bool) : D Bool :=
  call (.setInteger name value exception) (fun d h => d.setInteger h name value exception)

def getFloat (name : String) (exception igncache : Bool) : D FloatInfo :=
  call (.getFloat name exception igncache) (fun d h => d.getFloat h name exception igncache)

def setFloat (name : String) (value : CFloat) (exception : Bool) : D Bool :=
  call (.setFloat name value exception) (fun d h => d.setFloat h name value exception)

def getBoolean (name : String) (exception igncache : Bool) : D Bool :=
  call (.getBoolean name exception igncache) (fun d h => d.getBoolean h name exception igncache)

def setBoolean (name : String) (value : Bool) (exception : Bool) : D Bool :=
  call (.setBoolean name value exception) (fun d h => d.setBoolean h name value exception)

def getString (name : String) (exception igncache : Bool) : D String :=
  call (.getString name exception igncache) (fun d h => d.getString h name exception igncache)

def callCommand (name : String) (exception : Bool) : D Bool :=
  call (.callCommand name exception) (fun d h => d.callCommand h name exception)

end rcg

/-! ## `Genicam::setIntFeature` (genicam.cc 977–1031) -/

namespace Genicam

/-- Lines 986–988 of `setIntFeature`: a reported increment of 0 is replaced by 1. -/
def setIntFeature.step (r : IntInfo) : Int :=
  if r.vInc = 0 then 1 else r.vInc

/-- Lines 990–1009 of `setIntFeature`: the value of `*val` when the write is issued,
from the requested `val` (an `int`) and the range reported by the device
(`int64_t` each).  Assignments to `*val` convert to `int`. -/
def setIntFeature.capped (val : Int) (r : IntInfo) : Int :=
  let vInc := setIntFeature.step r
  let val1 :=
    if val > r.vMin then
      let diff := toInt64 (val - r.vMin)
      toInt (toInt64 (val - cMod diff vInc))
    else val
  if val1 < r.vMin then toInt r.vMin
  else if val1 > r.vMax then
    let diff := toInt64 (r.vMax - r.vMin)
    toInt (toInt64 (r.vMax - cMod diff vInc))
  else val1

/-- Lines 984–1009 of `setIntFeature`: the range is read and `*val` is aligned and
capped.  Returns the new `*val`. -/
def setIntFeature.prepare (featureName : String) (val : Int) : D Int := do
  let r ← rcg.getInteger featureName false false
  pure (setIntFeature.capped val r)

/-- Lines 1010–1030 of `setIntFeature`: the write of `*val`, and the read-back. -/
def setIntFeature.commit (featureName : String) (val : Int) (ex : Bool) : D Bool := do
  let isIntFeatureSet ← catchStd (rcg.setInteger featureName val ex) (fun _ => pure false)
  let _ ← rcg.getInteger featureName false false
  pure isIntFeatureSet

/-- `bool Genicam::setIntFeature (const char *featureName, int *val, const bool ex)`.
Returns the result together with the final `*val`. -/
def setIntFeature (featureName : String) (val : Int) (ex : Bool) : D (Bool × Int) := do
  let val ← setIntFeature.prepare featureName val
  let isIntFeatureSet ← setIntFeature.commit featureName val ex
  pure (isIntFeatureSet, val)

end Genicam

/-! ## Reading the trace -/

/-- The calls issued by a run started with trace `t`. -/
def issued {α : Type} (t : List Call) (r : DRes α) : List Call :=
  r.trace.drop t.length

/-- Integer writes in a list of calls: feature name and written value. -/
def intWrites : List Call → List (String × Int)
  | [] => []
  | .setInteger n v _ :: cs => (n, v) :: intWrites cs
  | _ :: cs => intWrites cs

/-- Enumeration writes in a list of calls: feature name and written value. -/
def enumWrites : List Call → List (String × String)
  | [] => []
  | .setEnum n v _ :: cs => (n, v) :: enumWrites cs
  | _ :: cs => enumWrites cs

/-- Float writes in a list of calls: feature name and written value. -/
def floatWrites : List Call → List (String × CFloat)
  | [] => []
  | .setFloat n v _ :: cs => (n, v) :: floatWrites cs
  | _ :: cs => floatWrites cs

/-- Calls of the float accessors (`rcg::getFloat`, `rcg::setFloat`) in a list of calls. -/
def floatCalls (cs : List Call) : List Call :=
  cs.filter (fun c => match c with
    | .getFloat _ _ _ => true
    | .setFloat _ _ _ => true
    | _ => false)

/-! ## Example devices -/

/-- A device access layer on which nothing is found: every feature read answers
an empty value, every write answers `false`, nothing throws. -/
def Device.silent : Device where
  getSystems := fun _ => .ok []
  getDevice := fun _ _ => .ok false
  devOpen := fun _ => .ok ()
  devClose := fun _ => .ok ()
  getRemoteNodeMap := fun _ => .ok ()
  getStreams := fun _ => .ok 0
  streamOpen := fun _ => .ok ()
  startStreaming := fun _ => .ok ()
  stopStreaming := fun _ => .ok ()
  streamClose := fun _ => .ok ()
  clearSystems := fun _ => .ok ()
  grab := fun _ => .ok none
  getEnum := fun _ _ _ => .ok ""
  getEnumList := fun _ _ _ => .ok []
  setEnum := fun _ _ _ _ => .ok false
  getInteger := fun _ _ _ _ => .ok ⟨0, 0, 0, 0⟩
  setInteger := fun _ _ _ _ => .ok false
  getFloat := fun _ _ _ _ => .ok ⟨0, 0, 0⟩
  setFloat := fun _ _ _ _ => .ok false
  getBoolean := fun _ _ _ _ => .ok false
  setBoolean := fun _ _ _ _ => .ok false
  getString := fun _ _ _ _ => .ok ""
  callCommand := fun _ _ _ => .ok false
  logInfo := false
  logWarning := false
  toFloat := fun q => q
  floatBits := fun _ => 0
  bitsFloat := fun _ => 0
  garbage := ""
  allocate := fun _ => true

/-- A device on which every integer feature reports the range `r` and accepts
every write. -/
def Device.withRange (r : IntInfo) : Device :=
  { Device.silent with
    getInteger := fun _ _ _ _ => .ok r
    setInteger := fun _ _ _ _ => .ok true }

/-! ## `Genicam::isFeature` (genicam.cc 787–910) -/

namespace Genicam

/-- `enum featureType` of genicam.h (167–177). -/
inductive featureType where
  | TYPE_NO
  | TYPE_ENUM
  | TYPE_INT
  | TYPE_FLOAT
  | TYPE_BOOL
  | TYPE_STRING
  | TYPE_CMD
  deriving DecidableEq, Repr

/-- `featureStr` of `isFeature` (line 791). -/
def isFeature.featureStr : String := "Feature not found"

/-- `typeStr` of `isFeature` (lines 792–799). -/
def isFeature.typeStr : featureType → String
  | .TYPE_NO => ""
  | .TYPE_ENUM => "Feature not enumeration"
  | .TYPE_INT => "Feature not integer"
  | .TYPE_FLOAT => "Feature not float"
  | .TYPE_BOOL => "Feature not boolean"
  | .TYPE_STRING => "Feature of unknown datatype"
  | .TYPE_CMD => ""

/-- One probing block of `isFeature` (833–846, 852–865, 871–884, 890–903):
`*fType` is set to `t`, the typed read is attempted, and a `std::exception` whose
text begins with `typeStr[t]` resets `*fType` to `TYPE_NO`.  Returns `*fType`. -/
def isFeature.probe {α : Type} (t : featureType) (read : D α) : D featureType :=
  catchStd (do let _ ← read; pure t)
    (fun what => pure (if startsWith what (isFeature.typeStr t) then .TYPE_NO else t))

/-- First block of `isFeature` (804–823).  `none`: the function returns `false`
from inside the handler (feature not found); `some t`: execution continues with
`*fType = t`. -/
def isFeature.first (featureName : String) : D (Option featureType) :=
  catchStd (do let _ ← rcg.getEnum featureName true; pure (some featureType.TYPE_ENUM))
    (fun what =>
      if startsWith what isFeature.featureStr then pure none
      else if startsWith what (isFeature.typeStr .TYPE_ENUM) then pure (some .TYPE_NO)
      else pure (some .TYPE_ENUM))

/-- `bool Genicam::isFeature (const char *featureName, featureType * fType)`.
`fType` tells whether the pointer is non-null; the second component of the result
is `*fType` on return (`none` for a null pointer). -/
def isFeature (featureName : String) (fType : Bool) : D (Bool × Option featureType) := do
  let r ← isFeature.first featureName
  match r with
  | none => pure (false, if fType then some .TYPE_NO else none)
  | some t =>
    if fType && t != .TYPE_NO then pure (true, some t)
    else if !fType then pure (true, none)
    else do
      let t ← isFeature.probe .TYPE_INT (rcg.getInteger featureName true false)
      if t != .TYPE_NO then pure (true, some t) else do
      let t ← isFeature.probe .TYPE_FLOAT (rcg.getFloat featureName true false)
      if t != .TYPE_NO then pure (true, some t) else do
      let t ← isFeature.probe .TYPE_BOOL (rcg.getBoolean featureName true false)
      if t != .TYPE_NO then pure (true, some t) else do
      let t ← isFeature.probe .TYPE_STRING (rcg.getString featureName true false)
      pure (true, some (if t = .TYPE_NO then .TYPE_CMD else t))

/-- The order in which `isFeature` attempts the typed reads. -/
def isFeature.order : List featureType :=
  [.TYPE_ENUM, .TYPE_INT, .TYPE_FLOAT, .TYPE_BOOL, .TYPE_STRING]

end Genicam

/-- The read failed with a `std::exception` whose text begins with `reason`. -/
def failsWith {α : Type} (reason : String) : Except Exc α → Bool
  | .error (.std what) => startsWith what reason
  | _ => false

/-- The read answered, or failed with a `std::exception`. -/
def answersOrStd {α : Type} : Except Exc α → Bool
  | .ok _ => true
  | .error (.std _) => true
  | .error _ => false

/-- Specification of the reported type, following the wording of the feature
directory: the first type of the probing order whose typed read does not fail with
the "wrong type" reason, and `TYPE_CMD` when all of them do. -/
def firstAcceptedType (wrong : Genicam.featureType → Bool) : Genicam.featureType :=
  (Genicam.isFeature.order.find? (fun t => !wrong t)).getD .TYPE_CMD

/-- Does the typed read that `isFeature` attempts for type `t` fail with the
"wrong type" reason of `t`?  Each read is put to the device after the reads of the
types before it. -/
def typedReadFails (d : Device) (trace : List Call) (name : String) :
    Genicam.featureType → Bool
  | .TYPE_ENUM =>
    failsWith (Genicam.isFeature.typeStr .TYPE_ENUM) (d.getEnum trace name true)
  | .TYPE_INT =>
    failsWith (Genicam.isFeature.typeStr .TYPE_INT)
      (d.getInteger (trace ++ [.getEnum name true]) name true false)
  | .TYPE_FLOAT =>
    failsWith (Genicam.isFeature.typeStr .TYPE_FLOAT)
      (d.getFloat (trace ++ [.getEnum name true] ++ [.getInteger name true false])
        name true false)
  | .TYPE_BOOL =>
    failsWith (Genicam.isFeature.typeStr .TYPE_BOOL)
      (d.getBoolean (trace ++ [.getEnum name true] ++ [.getInteger name true false]
        ++ [.getFloat name true false]) name true false)
  | .TYPE_STRING =>
    failsWith (Genicam.isFeature.typeStr .TYPE_STRING)
      (d.getString (trace ++ [.getEnum name true] ++ [.getInteger name true false]
        ++ [.getFloat name true false] ++ [.getBoolean name true false]) name true false)
  | _ => false

/-- Each of the five typed reads answers or fails with a `std::exception`. -/
def typedReadsStd (d : Device) (trace : List Call) (name : String) : Bool :=
  answersOrStd (d.getEnum trace name true)
  && answersOrStd (d.getInteger (trace ++ [.getEnum name true]) name true false)
  && answersOrStd (d.getFloat (trace ++ [.getEnum name true]
      ++ [.getInteger name true false]) name true false)
  && answersOrStd (d.getBoolean (trace ++ [.getEnum name true]
      ++ [.getInteger name true false] ++ [.getFloat name true false]) name true false)
  && answersOrStd (d.getString (trace ++ [.getEnum name true]
      ++ [.getInteger name true false] ++ [.getFloat name true false]
      ++ [.getBoolean name true false]) name true false)

/-- A device on which every feature is a float: the enumeration and integer reads
are refused with the "wrong type" reason. -/
def Device.floatOnly : Device :=
  { Device.silent with
    getEnum := fun _ _ _ => .error (.std "Feature not enumeration: Gain")
    getInteger := fun _ _ _ _ => .error (.std "Feature not integer: Gain")
    getFloat := fun _ _ _ _ => .ok ⟨2, 0, 10⟩ }

/-- A device without any feature: every read is refused with "Feature not found". -/
def Device.featureless : Device :=
  { Device.silent with
    getEnum := fun _ _ _ => .error (.std "Feature not found: Gain")
    getInteger := fun _ _ _ _ => .error (.std "Feature not found: Gain")
    getFloat := fun _ _ _ _ => .error (.std "Feature not found: Gain")
    getBoolean := fun _ _ _ _ => .error (.std "Feature not found: Gain")
    getString := fun _ _ _ _ => .error (.std "Feature not found: Gain") }

/-! ## `Genicam::setEnumFeature` (912–974) and `Genicam::setFloatFeature` (1034–1073) -/

namespace Genicam

/-- Lines 951–973 of `setEnumFeature`: the statements after the `try` block. -/
def setEnumFeature.report (featureName : String) (matchFound isEnumFeatureSet : Bool) :
    D Bool := do
  if !matchFound then
    logWarning (rcg.getEnum featureName false)
  else
    let _ ← rcg.getEnum featureName false
  pure isEnumFeatureSet

/-- `bool Genicam::setEnumFeature (const char *featureName, const char *str, const bool ex)`.
`str` is `none` for a null pointer. -/
def setEnumFeature (featureName : String) (str : Option String) (ex : Bool) : D Bool :=
  match str with
  | none => pure false
  | some str => do
    let featureList ← tryAll (rcg.getEnumList featureName ex)
    match featureList with
    | .error _ => setEnumFeature.report featureName false false
    | .ok featureList =>
      if featureList.length = 0 then pure false
      else
        match featureList.find? (fun entry => strcaseeq str entry) with
        | none => setEnumFeature.report featureName false false
        | some entry => do
          let isEnumFeatureSet ← tryAll (rcg.setEnum featureName entry ex)
          match isEnumFeatureSet with
          | .error _ => setEnumFeature.report featureName true false
          | .ok isEnumFeatureSet => setEnumFeature.report featureName true isEnumFeatureSet

/-- Lines 1042–1051 of `setFloatFeature`: `*val` when the write is issued.  The
bounds are `double`, the assignment converts to `float`. -/
def setFloatFeature.capped (toFloat : CFloat → CFloat) (val : CFloat) (r : FloatInfo) : CFloat :=
  if val < r.vMin then toFloat r.vMin
  else if val > r.vMax then toFloat r.vMax
  else val

/-- Lines 1040–1051 of `setFloatFeature`: the range is read and `*val` is capped.
Returns the new `*val`. -/
def setFloatFeature.prepare (featureName : String) (val : CFloat) : D CFloat := do
  let r ← rcg.getFloat featureName false false
  let toFloat ← platform (fun d => d.toFloat)
  pure (setFloatFeature.capped toFloat val r)

/-- Lines 1052–1072 of `setFloatFeature`: the write of `*val`, and the read-back. -/
def setFloatFeature.commit (featureName : String) (val : CFloat) (ex : Bool) : D Bool := do
  let isFloatFeatureSet ← catchStd (rcg.setFloat featureName val ex) (fun _ => pure false)
  let _ ← rcg.getFloat featureName false false
  pure isFloatFeatureSet

/-- `bool Genicam::setFloatFeature (const char *featureName, float *val, const bool ex)`.
Returns the result together with the final `*val`. -/
def setFloatFeature (featureName : String) (val : CFloat) (ex : Bool) : D (Bool × CFloat) := do
  let val ← setFloatFeature.prepare featureName val
  let isFloatFeatureSet ← setFloatFeature.commit featureName val ex
  pure (isFloatFeatureSet, val)

end Genicam

/-- A device that accepts every enumeration write and goes on reporting the value
`"On"` for every enumeration feature whose legal values are `"Off"` and `"On"`. -/
def Device.stuck : Device :=
  { Device.silent with
    getEnumList := fun _ _ _ => .ok ["Off", "On"]
    setEnum := fun _ _ _ _ => .ok true
    getEnum := fun _ _ _ => .ok "On" }

/-- A device reporting the range `r` for every float feature, on a platform whose
`float` has a 24 bit significand: the `double` 16777217 (2^24 + 1) converts to the
`float` 16777216. -/
def Device.floatRange (r : FloatInfo) : Device :=
  { Device.silent with
    getFloat := fun _ _ _ _ => .ok r
    setFloat := fun _ _ _ _ => .ok true
    toFloat := fun q => if q = 16777217 then 16777216 else q }

/-! ## Parameter structure and class members -/

/-- `GencamParams` of `gencambase.h`.  A `char *` is `none` when `NULL`. -/
structure GencamParams where
  deviceSerialNumber : Option String
  pixelFormat : String
  binningSelector : Option String
  binningHorizontalMode : Option String
  binningVerticalMode : Option String
  exposureAuto : Option String
  exposureTimeSelector : Option String
  exposureMode : Option String
  triggerOverlap : Option String
  triggerActivation : Option String
  triggerSelector : Option String
  triggerSource : Option String
  acquisitionMode : Option String
  blackLevelSelector : Option String
  blackLevelAuto : Option String
  gammaSelector : Option String
  gainSelector : Option String
  gainAuto : Option String
  gainAutoBalance : Option String
  balanceRatioSelector : Option String
  balanceWhiteAuto : Option String
  deviceClockSelector : Option String
  binningHorizontal : Int
  binningVertical : Int
  decimationHorizontal : Int
  decimationVertical : Int
  width : Int
  height : Int
  offsetX : Int
  offsetY : Int
  triggerDivider : Int
  triggerMultiplier : Int
  hwTriggerTimeout : Int
  deviceLinkThroughputLimit : Int
  channelPacketSize : Int
  channelPacketDelay : Int
  triggerDelay : CFloat
  exposureTime : CFloat
  gain : CFloat
  acquisitionFrameRate : CFloat
  blackLevel : CFloat
  gamma : CFloat
  balanceRatio : CFloat
  deviceReset : Bool
  useDefaultProperties : Bool
  propertyHolder : Fin 45 → Int

/-- Data members of `class Genicam` (`genicam.h`).  `dev` tells whether the device
pointer is non-null, `stream` is the size of the stream vector. -/
structure Genicam where
  serials : List String
  dev : Bool
  stream : Nat
  vendorName : String
  modelName : String
  triggerMode : String
  blackLevelAuto : String
  gainAuto : String
  widthMax : Int
  heightMax : Int
  offsetXYwritable : Bool
  triggerSource : String
  acquisitionMode : String
  isAcquisitionStatusFeature : Bool
  deviceLinkThroughputLimitMode : String

/-! ## Initial values -/

/-- The property values set by `gst_gencamsrc_init` (gstgencamsrc.c 495–549). -/
def gst_gencamsrc_init : GencamParams where
  deviceSerialNumber := none
  pixelFormat := "mono8"
  width := 7680
  height := 4320
  offsetX := 0
  offsetY := 0
  decimationHorizontal := 0
  decimationVertical := 0
  balanceRatio := 9999
  balanceWhiteAuto := some "Off"
  balanceRatioSelector := none
  binningSelector := none
  binningHorizontalMode := none
  binningHorizontal := 0
  binningVerticalMode := none
  binningVertical := 0
  acquisitionMode := some "continuous"
  exposureMode := some "Timed"
  exposureAuto := some "Once"
  exposureTimeSelector := none
  exposureTime := -1
  blackLevelSelector := some "All"
  blackLevelAuto := some "Off"
  blackLevel := 9999
  gamma := 1
  gammaSelector := none
  gainSelector := some "All"
  gain := 9999
  gainAuto := some "Off"
  gainAutoBalance := some "Off"
  triggerDelay := -1
  triggerSelector := none
  triggerSource := some "Software"
  triggerOverlap := none
  triggerActivation := none
  triggerMultiplier := 0
  triggerDivider := 0
  hwTriggerTimeout := 10
  deviceLinkThroughputLimit := 10000000
  channelPacketSize := 0
  channelPacketDelay := -1
  acquisitionFrameRate := 0
  deviceClockSelector := none
  deviceReset := false
  useDefaultProperties := false
  propertyHolder := fun _ => -1

/-- A newly constructed `Genicam` object after `Genicam::Init` (genicam.cc 44–57):
strings and vectors are empty and the device pointer is null, `triggerMode` and
`deviceLinkThroughputLimitMode` are "Off".  The members of scalar type are not
initialised by the sources; their initial values are the arguments. -/
def Genicam.Init (widthMax heightMax : Int) (offsetXYwritable isAcquisitionStatusFeature : Bool) :
    Genicam where
  serials := []
  dev := false
  stream := 0
  vendorName := ""
  modelName := ""
  triggerMode := "Off"
  blackLevelAuto := ""
  gainAuto := ""
  widthMax := widthMax
  heightMax := heightMax
  offsetXYwritable := offsetXYwritable
  triggerSource := ""
  acquisitionMode := ""
  isAcquisitionStatusFeature := isAcquisitionStatusFeature
  deviceLinkThroughputLimitMode := "Off"

/-! ## The execution monad of the member functions -/

/-- The member functions of `Genicam` that `Start` calls to apply the settings. -/
inductive Setter where
  | resetDevice
  | setBinningSelector
  | setBinningHorizontalMode
  | setBinningHorizontal
  | setBinningVerticalMode
  | setBinningVertical
  | setDecimationHorizontal
  | setDecimationVertical
  | setWidthHeight
  | setPixelFormat
  | setOffsetXY
  | setDeviceClockSelector
  | getDeviceClockFrequency
  | setDeviceLinkThroughputLimit
  | setAcquisitionFrameRate
  | setAcquisitionMode
  | setTriggerSelector
  | setTriggerActivation
  | setTriggerSource
  | setTriggerMultiplier
  | setTriggerDivider
  | setTriggerDelay
  | setTriggerOverlap
  | setExposureMode
  | setExposureAuto
  | setBalanceWhiteAuto
  | setBalanceRatio
  | setExposureTimeSelector
  | setExposureTime
  | setBlackLevelSelector
  | setGamma
  | setBlackLevelAuto
  | setBlackLevel
  | setGainSelector
  | setGainAuto
  | setGain
  | setGainAutoBalance
  | setChannelPacketSize
  | setChannelPacketDelay
  | setTriggerSoftware
  deriving DecidableEq, Repr

/-- Record of the calls that `Start` makes to the setters: entry into a setter,
and its return with the result.  `pos` is the number of device calls issued before
that moment. -/
inductive Mark where
  | enter (f : Setter) (pos : Nat)
  | leave (f : Setter) (result : Bool) (pos : Nat)
  deriving DecidableEq, Repr

/-- Program state: the parameter structure, the object's members, the trace of
device calls (oldest first) and the record of setter calls made by `Start`. -/
structure St where
  params : GencamParams
  self : Genicam
  trace : List Call
  log : List Mark

/-- The provenance update of `gst_gencamsrc_set_property` (gstgencamsrc.c 571–573):
`prop->propertyHolder[property_id] = property_id`. -/
def GencamParams.markExplicit (p : GencamParams) (property_id : Fin 45) : GencamParams :=
  { p with
    propertyHolder := fun i => if i = property_id then (property_id.val : Int)
      else p.propertyHolder i }

/-- The property identifiers `enum { PROP_0, PROP_SERIAL, … }` of gstgencamsrc.c
(91–139), in declaration order. -/
inductive PropertyId where
  | PROP_0
  | PROP_SERIAL
  | PROP_PIXELFORMAT
  | PROP_WIDTH
  | PROP_HEIGHT
  | PROP_OFFSETX
  | PROP_OFFSETY
  | PROP_DECIMATIONHORIZONTAL
  | PROP_DECIMATIONVERTICAL
  | PROP_BINNINGSELECTOR
  | PROP_BINNINGHORIZONTALMODE
  | PROP_BINNINGVERTICALMODE
  | PROP_BINNINGHORIZONTAL
  | PROP_BINNINGVERTICAL
  | PROP_ACQUISITIONMODE
  | PROP_DEVICECLOCKSELECTOR
  | PROP_TRIGGERDELAY
  | PROP_TRIGGERDIVIDER
  | PROP_TRIGGERMULTIPLIER
  | PROP_TRIGGEROVERLAP
  | PROP_TRIGGERACTIVATION
  | PROP_TRIGGERSELECTOR
  | PROP_TRIGGERSOURCE
  | PROP_HWTRIGGERTIMEOUT
  | PROP_EXPOSUREMODE
  | PROP_EXPOSURETIME
  | PROP_EXPOSUREAUTO
  | PROP_EXPOSURETIMESELECTOR
  | PROP_BLACKLEVELSELECTOR
  | PROP_BLACKLEVELAUTO
  | PROP_BLACKLEVEL
  | PROP_GAMMA
  | PROP_GAMMASELECTOR
  | PROP_GAINSELECTOR
  | PROP_GAIN
  | PROP_GAINAUTO
  | PROP_GAINAUTOBALANCE
  | PROP_BALANCERATIOSELECTOR
  | PROP_BALANCERATIO
  | PROP_BALANCEWHITEAUTO
  | PROP_DEVICELINKTHROUGHPUTLIMIT
  | PROP_CHANNELPACKETSIZE
  | PROP_CHANNELPACKETDELAY
  | PROP_FRAMERATE
  | PROP_RESET
  | PROP_USEDEFAULTPROPERTIES
  deriving DecidableEq, Repr

/-- The value of an enumerator: its position in the declaration, from 0. -/
def PropertyId.id (x : PropertyId) : Nat := x.toCtorIdx

/-- The property identifiers that `gst_gencamsrc_set_property` is called with: the
properties installed by the class, `PROP_SERIAL` through `PROP_USEDEFAULTPROPERTIES`. -/
def PropertyId.installed : List PropertyId :=
  [ .PROP_SERIAL, .PROP_PIXELFORMAT,
    .PROP_WIDTH, .PROP_HEIGHT, .PROP_OFFSETX,
    .PROP_OFFSETY, .PROP_DECIMATIONHORIZONTAL, .PROP_DECIMATIONVERTICAL,
    .PROP_BINNINGSELECTOR, .PROP_BINNINGHORIZONTALMODE, .PROP_BINNINGVERTICALMODE,
    .PROP_BINNINGHORIZONTAL, .PROP_BINNINGVERTICAL, .PROP_ACQUISITIONMODE,
    .PROP_DEVICECLOCKSELECTOR, .PROP_TRIGGERDELAY, .PROP_TRIGGERDIVIDER,
    .PROP_TRIGGERMULTIPLIER, .PROP_TRIGGEROVERLAP, .PROP_TRIGGERACTIVATION,
    .PROP_TRIGGERSELECTOR, .PROP_TRIGGERSOURCE, .PROP_HWTRIGGERTIMEOUT,
    .PROP_EXPOSUREMODE, .PROP_EXPOSURETIME, .PROP_EXPOSUREAUTO,
    .PROP_EXPOSURETIMESELECTOR, .PROP_BLACKLEVELSELECTOR, .PROP_BLACKLEVELAUTO,
    .PROP_BLACKLEVEL, .PROP_GAMMA, .PROP_GAMMASELECTOR,
    .PROP_GAINSELECTOR, .PROP_GAIN, .PROP_GAINAUTO,
    .PROP_GAINAUTOBALANCE, .PROP_BALANCERATIOSELECTOR, PropertyId.PROP_BALANCERATIO,
    .PROP_BALANCEWHITEAUTO, .PROP_DEVICELINKTHROUGHPUTLIMIT, .PROP_CHANNELPACKETSIZE,
    .PROP_CHANNELPACKETDELAY, .PROP_FRAMERATE, .PROP_RESET,
    .PROP_USEDEFAULTPROPERTIES ]

/-- Number of elements of `int propertyHolder[45]` (gencambase.h 107). -/
def propertyHolderSize : Nat := 45

/-- The first statement of `gst_gencamsrc_set_property` (gstgencamsrc.c 573):
`prop->propertyHolder[property_id] = property_id`.  `none`: the index is not an
index of the array, the write falls outside the object. -/
def gst_gencamsrc_set_property.provenance (p : GencamParams) (property_id : Nat) :
    Option GencamParams :=
  if h : property_id < 45 then some (p.markExplicit ⟨property_id, h⟩) else none

/-- State of a newly initialised element with parameters `p`: nothing called yet. -/
def St.init (p : GencamParams) : St where
  params := p
  self := Genicam.Init 0 0 false false
  trace := []
  log := []

/-- Outcome of running a member function: normal completion or a thrown exception. -/
inductive Res (α : Type) where
  | ok (a : α) (s : St)
  | raise (e : Exc) (s : St)

/-- State after the run. -/
def Res.state {α : Type} : Res α → St
  | .ok _ s => s
  | .raise _ s => s

/-- Returned value, if the run completed normally. -/
def Res.value? {α : Type} : Res α → Option α
  | .ok a _ => some a
  | .raise _ _ => none

/-- The exception that left the function, if one did. -/
def Res.exception? {α : Type} : Res α → Option Exc
  | .ok _ _ => none
  | .raise e _ => some e

/-- A member function running against a device. -/
def M (α : Type) : Type := Device → St → Res α

def M.pure {α : Type} (a : α) : M α := fun _ s => .ok a s

def M.bind {α β : Type} (m : M α) (f : α → M β) : M β := fun d s =>
  match m d s with
  | .ok a s1 => f a d s1
  | .raise e s1 => .raise e s1

instance : Monad M where
  pure := M.pure
  bind := M.bind

/-- Device-level code run from a member function. -/
def liftD {α : Type} (m : D α) : M α := fun d s =>
  match m d s.trace with
  | .ok a t => .ok a { s with trace := t }
  | .raise e t => .raise e { s with trace := t }

/-- Reading the parameter structure. -/
def getParams : M GencamParams := fun _ s => .ok s.params s

/-- Reading the object's members. -/
def getSelf : M Genicam := fun _ s => .ok s.self s

/-- Updating the parameter structure. -/
def modifyParams (f : GencamParams → GencamParams) : M Unit :=
  fun _ s => .ok () { s with params := f s.params }

/-- Updating the object's members. -/
def modifySelf (f : Genicam → Genicam) : M Unit :=
  fun _ s => .ok () { s with self := f s.self }

/-- Outcome of a `try` block all of whose exceptions are handled. -/
def tryAllM {α : Type} (body : M α) : M (Except Exc α) := fun d s =>
  match body d s with
  | .ok a s1 => .ok (.ok a) s1
  | .raise e s1 => .ok (.error e) s1

/-- Adding a mark to the record of setter calls. -/
def mark (m : Nat → Mark) : M Unit :=
  fun _ s => .ok () { s with log := s.log ++ [m s.trace.length] }

/-! ## Member functions of `Genicam` (genicam.cc) -/

namespace Genicam

/-- `#define ROUNDED_DOWN(val, align) ((val) & ~((align)))` (genicam.h 66). -/
def ROUNDED_DOWN (val align : Int) : Int := Int.land val (Int.lnot align)

/-- A call `setIntFeature (featureName, &gencamParams->field, ex)`: the field is
assigned before the write is issued. -/
def setIntFeatureOn (featureName : String) (get : GencamParams → Int)
    (set : Int → GencamParams → GencamParams) (ex : Bool) : M Bool := do
  let p ← getParams
  let val ← liftD (setIntFeature.prepare featureName (get p))
  modifyParams (set val)
  liftD (setIntFeature.commit featureName val ex)

/-- A call `setFloatFeature (featureName, &gencamParams->field, ex)`. -/
def setFloatFeatureOn (featureName : String) (get : GencamParams → CFloat)
    (set : CFloat → GencamParams → GencamParams) (ex : Bool) : M Bool := do
  let p ← getParams
  let val ← liftD (setFloatFeature.prepare featureName (get p))
  modifyParams (set val)
  liftD (setFloatFeature.commit featureName val ex)

/-- `bool Genicam::Stop (void)` (675–705). -/
def Stop : M Bool := do
  let self ← getSelf
  let _ ← liftD (tryAll (do
    if self.stream > 0 then
      call .stopStreaming (fun d h => d.stopStreaming h)
      call .streamClose (fun d h => d.streamClose h)
    if self.dev then
      call .devClose (fun d h => d.devClose h)))
  liftD (call .clearSystems (fun d h => d.clearSystems h))
  pure true

/-- `void Genicam::getCameraInfo (void)` (1076–1092). -/
def getCameraInfo : M Unit := do
  let (found, _) ← liftD (isFeature "DeviceVendorName" false)
  if found then
    let v ← liftD (rcg.getString "DeviceVendorName" false false)
    modifySelf (fun g => { g with vendorName := v })
  let (found, _) ← liftD (isFeature "DeviceModelName" false)
  if found then
    let v ← liftD (rcg.getString "DeviceModelName" false false)
    modifySelf (fun g => { g with modelName := v })

/-- `bool Genicam::getCameraSerialNumber (void)` (1095–1144).  The loops over the
systems, interfaces and devices are one call answering all serial numbers. -/
def getCameraSerialNumber : M Bool := do
  let found ← liftD (call .getSystems (fun d h => d.getSystems h))
  let self ← getSelf
  let serials := found.foldl (fun acc x => if acc.contains x then acc else acc ++ [x])
    self.serials
  modifySelf (fun g => { g with serials := serials })
  match serials with
  | [] => pure false
  | first :: _ =>
    modifyParams (fun p => { p with deviceSerialNumber := some first })
    pure true

/-- `bool Genicam::resetDevice (void)` (1147–1166). -/
def resetDevice : M Bool := do
  let _ ← liftD (rcg.callCommand "DeviceReset" true)
  let _ ← Stop
  pure false

/-- `bool Genicam::setBinningSelector (void)` (1169–1183). -/
def setBinningSelector : M Bool := do
  let p ← getParams
  liftD (setEnumFeature "BinningSelector" p.binningSelector true)

/-- Body shared by `setBinningHorizontalMode` (1186–1272) and
`setBinningVerticalMode` (1293–1371), which differ in the feature names only:
`feature` is the standard name, `deviation` the vendor deviation. -/
def setBinningMode (feature deviation : String) (mode : Option String) : M Bool :=
  match mode with
  | none => pure false
  | some mode => do
    let modes ← liftD (rcg.getEnumList feature false)
    let modes ← if modes.isEmpty then liftD (rcg.getEnumList deviation false) else pure modes
    let spellings : Option (List String) :=
      if strcaseeq mode "sum" then some ["Sum", "Summing"]
      else if strcaseeq mode "average" then some ["Average", "Averaging"]
      else none
    match spellings with
    | none => pure false
    | some spellings =>
      match modes.find? (fun m => spellings.contains m) with
      | none => pure true
      | some m => do
        let isSet ← liftD (rcg.setEnum feature m false)
        if !isSet then
          let _ ← liftD (rcg.setEnum deviation m false)
        pure true

/-- `bool Genicam::setBinningHorizontalMode (void)`. -/
def setBinningHorizontalMode : M Bool := do
  let p ← getParams
  setBinningMode "BinningHorizontalMode" "BinningModeHorizontal" p.binningHorizontalMode

/-- `bool Genicam::setBinningVerticalMode (void)`. -/
def setBinningVerticalMode : M Bool := do
  let p ← getParams
  setBinningMode "BinningVerticalMode" "BinningModeVertical" p.binningVerticalMode

/-- `bool Genicam::setBinningHorizontal (void)` (1275–1290). -/
def setBinningHorizontal : M Bool := do
  let r ← liftD (rcg.getInteger "BinningHorizontal" false true)
  if r.value ≠ 0 then
    setIntFeatureOn "BinningHorizontal" (fun p => p.binningHorizontal)
      (fun v p => { p with binningHorizontal := v }) false
  else pure false

/-- `bool Genicam::setBinningVertical (void)` (1374–1389). -/
def setBinningVertical : M Bool := do
  let r ← liftD (rcg.getInteger "BinningVertical" false true)
  if r.value ≠ 0 then
    setIntFeatureOn "BinningVertical" (fun p => p.binningVertical)
      (fun v p => { p with binningVertical := v }) false
  else pure false

/-- `bool Genicam::setDecimationHorizontal (void)` (1392–1411). -/
def setDecimationHorizontal : M Bool := do
  let (found, _) ← liftD (isFeature "DecimationHorizontal" false)
  if !found then pure false
  else
    setIntFeatureOn "DecimationHorizontal" (fun p => p.decimationHorizontal)
      (fun v p => { p with decimationHorizontal := v }) true

/-- `bool Genicam::setDecimationVertical (void)` (1414–1432). -/
def setDecimationVertical : M Bool := do
  let (found, _) ← liftD (isFeature "DecimationVertical" false)
  if !found then pure false
  else
    setIntFeatureOn "DecimationVertical" (fun p => p.decimationVertical)
      (fun v p => { p with decimationVertical := v }) true

/-- The device spellings that `setPixelFormat` accepts for the configured format
(the `strcasecmp` chain and the comparisons of lines 1448–1539). -/
def setPixelFormat.spellings (pixelFormat : String) : List String :=
  if strcaseeq pixelFormat "mono8" then ["Mono8"]
  else if strcaseeq pixelFormat "ycbcr411_8" then ["YCbCr411_8"]
  else if strcaseeq pixelFormat "ycbcr422_8" then
    ["YUV422_8", "YUV422_YUYV_Packed", "YCbCr422_8"]
  else if strcaseeq pixelFormat "bayerbggr" then ["BayerBG8"]
  else if strcaseeq pixelFormat "bayerrggb" then ["BayerRG8"]
  else if strcaseeq pixelFormat "bayergrbg" then ["BayerGR8"]
  else if strcaseeq pixelFormat "bayergbrg" then ["BayerGB8"]
  else if strcaseeq pixelFormat "rgb8" then ["RGB8", "RGB8Packed"]
  else if strcaseeq pixelFormat "bgr8" then ["BGR8", "BGR8Packed"]
  else []

/-- `bool Genicam::setPixelFormat (void)` (1435–1564). -/
def setPixelFormat : M Bool := do
  let p ← getParams
  let pixelFormats ← liftD (rcg.getEnumList "PixelFormat" true)
  let spellings := setPixelFormat.spellings p.pixelFormat
  match pixelFormats.find? (fun f => spellings.contains f) with
  | some f => do
    let _ ← liftD (rcg.setEnum "PixelFormat" f true)
    liftD (logInfo (rcg.getEnum "PixelFormat" false))
    let (found, _) ← liftD (isFeature "PixelSize" false)
    if found then
      liftD (logInfo (rcg.getEnum "PixelSize" false))
    pure true
  | none => do
    let _ ← Stop
    pure false

/-- Lines 1579–1591 of `setWidthHeight`: the offsets are written as 0, and the
member `offsetXYwritable` records whether they are writable. -/
def setWidthHeight.offsets : M Unit := do
  modifySelf (fun g => { g with offsetXYwritable := true })
  let writable ← liftD (catchStd
    (do
      let _ ← rcg.setInteger "OffsetX" 0 true
      let _ ← rcg.setInteger "OffsetY" 0 true
      pure true)
    (fun what => pure (!startsWith what "Feature not writable")))
  modifySelf (fun g => { g with offsetXYwritable := writable })

/-- Lines 1594–1598 of `setWidthHeight`: the maximum resolution is read. -/
def setWidthHeight.maxima : M Unit := do
  let wMax ← liftD (rcg.getInteger "WidthMax" false false)
  modifySelf (fun g => { g with widthMax := toInt wMax.value })
  let hMax ← liftD (rcg.getInteger "HeightMax" false false)
  modifySelf (fun g => { g with heightMax := toInt hMax.value })

/-- Lines 1601–1615 of `setWidthHeight`: width and height are capped to the
reported maxima. -/
def setWidthHeight.cap : M Unit := do
  let rX ← liftD (rcg.getInteger "Width" false false)
  let p ← getParams
  if p.width > rX.vMax then
    modifyParams (fun p => { p with width := toInt (ROUNDED_DOWN rX.vMax (0x4 - 1)) })
  let rY ← liftD (rcg.getInteger "Height" false false)
  let p ← getParams
  if p.height > rY.vMax then
    modifyParams (fun p => { p with height := toInt (ROUNDED_DOWN rY.vMax (0x4 - 1)) })

/-- Lines 1622–1631 of `setWidthHeight`: the outcome is logged, and the device is
stopped on failure. -/
def setWidthHeight.report (isWidthHeightSet : Bool) : M Bool := do
  if isWidthHeightSet then
    liftD (logInfo (do
      let _ ← rcg.getInteger "Width" false true
      rcg.getInteger "Height" false true))
  else
    let _ ← Stop
  pure isWidthHeightSet

/-- Lines 1617–1631 of `setWidthHeight`: width and height are written. -/
def setWidthHeight.write : M Bool := do
  let p ← getParams
  let w ← liftD (rcg.setInteger "Width" p.width true)
  let h ← liftD (rcg.setInteger "Height" p.height true)
  setWidthHeight.report (w || h)

/-- `bool Genicam::setWidthHeight (void)` (1567–1632). -/
def setWidthHeight : M Bool := do
  setWidthHeight.offsets
  setWidthHeight.maxima
  setWidthHeight.cap
  setWidthHeight.write

/-- `bool Genicam::setOffsetXY (void)` (1635–1646). -/
def setOffsetXY : M Bool := do
  let x ← setIntFeatureOn "OffsetX" (fun p => p.offsetX) (fun v p => { p with offsetX := v }) true
  let y ← setIntFeatureOn "OffsetY" (fun p => p.offsetY) (fun v p => { p with offsetY := v }) true
  pure (x || y)

/-- `bool Genicam::setAcquisitionFrameRate (void)` (1649–1695).  When neither
feature exists the name buffer is left uninitialised. -/
def setAcquisitionFrameRate : M Bool := do
  let (found, _) ← liftD (isFeature "AcquisitionFrameRate" false)
  let frameRateString ←
    if found then pure "AcquisitionFrameRate"
    else do
      let (found, _) ← liftD (isFeature "AcquisitionFrameRateAbs" false)
      if found then pure "AcquisitionFrameRateAbs"
      else liftD (platform (fun d => d.garbage))
  let r ← liftD (rcg.getFloat frameRateString false false)
  let toFloat ← liftD (platform (fun d => d.toFloat))
  let frameRate := toFloat r.value
  let p ← getParams
  if p.acquisitionFrameRate = 0 then
    modifyParams (fun p => { p with acquisitionFrameRate := frameRate })
  let enable ← liftD (rcg.setBoolean "AcquisitionFrameRateEnable" true false)
  let isFrameRateSet ←
    if enable then pure true
    else liftD (rcg.setBoolean "AcquisitionFrameRateEnabled" true false)
  if !isFrameRateSet then
    modifyParams (fun p => { p with acquisitionFrameRate := frameRate })
    pure false
  else
    setFloatFeatureOn frameRateString (fun p => p.acquisitionFrameRate)
      (fun v p => { p with acquisitionFrameRate := v }) true

/-- `bool Genicam::setExposureMode (void)` (1698–1722). -/
def setExposureMode : M Bool := do
  let r ← liftD (rcg.getFloat "ExposureTime" false false)
  let r ← if r.value ≠ 0 then pure r else liftD (rcg.getFloat "ExposureTimeAbs" false false)
  let _ ← liftD (rcg.setFloat "AutoExposureTimeAbsLowerLimit" r.vMin false)
  let _ ← liftD (rcg.setFloat "AutoExposureTimeLowerLimit" r.vMin false)
  let _ ← liftD (rcg.setFloat "AutoExposureTimeAbsUpperLimit" r.vMax false)
  let _ ← liftD (rcg.setFloat "AutoExposureTimeUpperLimit" r.vMax false)
  let p ← getParams
  liftD (setEnumFeature "ExposureMode" p.exposureMode false)

/-- `bool Genicam::setExposureTime (void)` (1725–1756). -/
def setExposureTime : M Bool := do
  let (found, _) ← liftD (isFeature "ExposureTime" false)
  let exposureTimeStr ←
    if found then pure (some "ExposureTime")
    else do
      let (found, _) ← liftD (isFeature "ExposureTimeAbs" false)
      if found then pure (some "ExposureTimeAbs") else pure none
  match exposureTimeStr with
  | none => pure false
  | some exposureTimeStr => do
    let exposureMode ← liftD (rcg.getEnum "ExposureMode" false)
    let exposureAuto ← liftD (rcg.getEnum "ExposureAuto" false)
    if exposureMode ≠ "Timed" || exposureAuto ≠ "Off" then pure false
    else
      setFloatFeatureOn exposureTimeStr (fun p => p.exposureTime)
        (fun v p => { p with exposureTime := v }) false

/-- `bool Genicam::setBlackLevelSelector (void)` (1759–1777). -/
def setBlackLevelSelector : M Bool := do
  let (found, _) ← liftD (isFeature "BlackLevelSelector" false)
  if !found then pure false
  else
    let p ← getParams
    liftD (setEnumFeature "BlackLevelSelector" p.blackLevelSelector false)

/-- `bool Genicam::setBlackLevelAuto (void)` (1780–1800). -/
def setBlackLevelAuto : M Bool := do
  let (found, _) ← liftD (isFeature "BlackLevelAuto" false)
  if !found then pure false
  else
    let p ← getParams
    let isBlackLevelAutoSet ← liftD (setEnumFeature "BlackLevelAuto" p.blackLevelAuto false)
    let str ← liftD (rcg.getEnum "BlackLevelAuto" false)
    modifySelf (fun g => { g with blackLevelAuto := str })
    pure isBlackLevelAutoSet

/-- Lines 1821–1832 of `setBlackLevel`: the name of the black level feature and its
type; `none` when neither `BlackLevel` nor `BlackLevelRaw` is found. -/
def setBlackLevel.feature : M (Option (String × Option featureType)) := do
  let (found, fTypeTemp) ← liftD (isFeature "BlackLevel" true)
  if found then pure (some ("BlackLevel", fTypeTemp))
  else do
    let (found, fTypeTemp) ← liftD (isFeature "BlackLevelRaw" true)
    if found then pure (some ("BlackLevelRaw", fTypeTemp)) else pure none

/-- Lines 1834–1845 of `setBlackLevel`: the value is written through the integer or
the float setter, according to the type of the feature. -/
def setBlackLevel.write (blackLevelStr : String) (fType : Option featureType) : M Bool := do
  let floatBits ← liftD (platform (fun d => d.floatBits))
  let bitsFloat ← liftD (platform (fun d => d.bitsFloat))
  let isBlackLevelSet ←
    if fType = some .TYPE_INT then
      setIntFeatureOn blackLevelStr (fun p => floatBits p.blackLevel)
        (fun v p => { p with blackLevel := bitsFloat v }) false
    else pure false
  if fType = some .TYPE_FLOAT then
    setFloatFeatureOn blackLevelStr (fun p => p.blackLevel)
      (fun v p => { p with blackLevel := v }) false
  else pure isBlackLevelSet

/-- `bool Genicam::setBlackLevel (void)` (1803–1849).  For an integer feature the
`float` member is accessed through an `int *`. -/
def setBlackLevel : M Bool := do
  let (auto, _) ← liftD (isFeature "BlackLevelAuto" false)
  let self ← getSelf
  if auto && self.blackLevelAuto ≠ "Off" && self.blackLevelAuto ≠ "" then pure false
  else
    let (enabled, _) ← liftD (isFeature "BlackLevelEnabled" false)
    if enabled then
      let _ ← liftD (rcg.setBoolean "BlackLevelEnabled" true false)
    let target ← setBlackLevel.feature
    match target with
    | none => pure false
    | some (blackLevelStr, fType) => setBlackLevel.write blackLevelStr fType

/-- `bool Genicam::setGamma (void)` (1852–1891). -/
def setGamma : M Bool := do
  let (found, _) ← liftD (isFeature "Gamma" false)
  if !found then pure false
  else
    let p ← getParams
    if p.gammaSelector.isSome then
      let (sel, _) ← liftD (isFeature "GammaSelector" false)
      if sel then
        let _ ← liftD (setEnumFeature "GammaSelector" p.gammaSelector false)
    let _ ← liftD (rcg.setBoolean "GammaEnable" true false)
    let _ ← liftD (rcg.setBoolean "GammaEnabled" true false)
    let gammaSelector ← liftD (rcg.getEnum "GammaSelector" false)
    let (sel, _) ← liftD (isFeature "GammaSelector" false)
    if sel && gammaSelector ≠ "User" then pure false
    else
      setFloatFeatureOn "Gamma" (fun p => p.gamma) (fun v p => { p with gamma := v }) false

/-- `bool Genicam::setBalanceRatio (void)` (1893–1969). -/
def setBalanceRatio : M Bool := do
  let (sel, _) ← liftD (isFeature "BalanceRatioSelector" false)
  let p ← getParams
  if sel && p.balanceRatioSelector.isSome then
    let _ ← liftD (setEnumFeature "BalanceRatioSelector" p.balanceRatioSelector false)
  if p.balanceRatio = 9999 then pure false
  else
    let (found, _) ← liftD (isFeature "BalanceRatio" false)
    let balanceRatioStr ←
      if found then pure (some "BalanceRatio")
      else do
        let (found, _) ← liftD (isFeature "BalanceRatioAbs" false)
        if found then pure (some "BalanceRatioAbs") else pure none
    match balanceRatioStr with
    | none => pure false
    | some balanceRatioStr => do
      let balanceWhiteAuto ← liftD (rcg.getEnum "BalanceWhiteAuto" false)
      if balanceWhiteAuto ≠ "Off" then pure false
      else
        let r ← liftD (rcg.getFloat balanceRatioStr false false)
        let toFloat ← liftD (platform (fun d => d.toFloat))
        modifyParams (fun p =>
          { p with balanceRatio := setFloatFeature.capped toFloat p.balanceRatio r })
        let p ← getParams
        let isBalanceRatioSet ← liftD (rcg.setFloat balanceRatioStr p.balanceRatio false)
        if isBalanceRatioSet then
          let _ ← liftD (rcg.getEnum "BalanceRatioSelector" false)
        pure isBalanceRatioSet

/-- `bool Genicam::setBalanceWhiteAuto (void)` (1971–1989). -/
def setBalanceWhiteAuto : M Bool := do
  let (found, _) ← liftD (isFeature "BalanceWhiteAuto" false)
  if !found then pure false
  else
    let p ← getParams
    liftD (setEnumFeature "BalanceWhiteAuto" p.balanceWhiteAuto false)

/-- `bool Genicam::setExposureAuto (void)` (1992–2009). -/
def setExposureAuto : M Bool := do
  let (found, _) ← liftD (isFeature "ExposureAuto" false)
  if !found then pure false
  else
    let p ← getParams
    liftD (setEnumFeature "ExposureAuto" p.exposureAuto false)

/-- `bool Genicam::setExposureTimeSelector (void)` (2012–2043). -/
def setExposureTimeSelector : M Bool := do
  let (found, _) ← liftD (isFeature "ExposureTimeSelector" false)
  if !found then pure false
  else
    let p ← getParams
    match p.exposureTimeSelector with
    | none => pure false
    | some selector => do
      if strcaseeq selector "Common" then
        let _ ← liftD (rcg.setEnum "ExposureTimeMode" "Common" false)
      else
        let _ ← liftD (rcg.setEnum "ExposureTimeMode" "Individual" false)
      liftD (setEnumFeature "ExposureTimeSelector" (some selector) false)

/-- `bool Genicam::setGainSelector (void)` (2046–2063). -/
def setGainSelector : M Bool := do
  let (found, _) ← liftD (isFeature "GainSelector" false)
  if !found then pure false
  else
    let p ← getParams
    liftD (setEnumFeature "GainSelector" p.gainSelector true)

/-- Conversion `(int) x` of a `float`: truncation towards zero; for a value that is
no number, the result of the conversion instruction of x86. -/
def truncToInt : CFloat → Int
  | .num x => toInt (Int.tdiv x.num x.den)
  | _ => INT_MIN

/-- `bool Genicam::setGain (void)` (2066–2104). -/
def setGain : M Bool := do
  let (auto, _) ← liftD (isFeature "GainAuto" false)
  let self ← getSelf
  if auto && self.gainAuto ≠ "Off" && self.gainAuto ≠ "" then pure false
  else
    let r ← liftD (rcg.getFloat "Gain" false false)
    if r.value = 0 && r.vMin = 0 && r.vMax = 0 then
      let ri ← liftD (rcg.getInteger "GainRaw" false false)
      if ri.value = 0 && ri.vMin = 0 && ri.vMax = 0 then pure false
      else
        let p ← getParams
        let gainTemp := truncToInt p.gain
        let (isGainSet, gainTemp) ← liftD (setIntFeature "GainRaw" gainTemp false)
        let toFloat ← liftD (platform (fun d => d.toFloat))
        modifyParams (fun p => { p with gain := toFloat gainTemp })
        pure isGainSet
    else
      setFloatFeatureOn "Gain" (fun p => p.gain) (fun v p => { p with gain := v }) false

/-- `bool Genicam::setGainAuto (void)` (2107–2125). -/
def setGainAuto : M Bool := do
  let (found, _) ← liftD (isFeature "GainAuto" false)
  if !found then pure false
  else
    let p ← getParams
    let isGainAutoSet ← liftD (setEnumFeature "GainAuto" p.gainAuto false)
    let str ← liftD (rcg.getEnum "GainAuto" false)
    modifySelf (fun g => { g with gainAuto := str })
    pure isGainAutoSet

/-- `bool Genicam::setGainAutoBalance (void)` (2128–2146). -/
def setGainAutoBalance : M Bool := do
  let (found, _) ← liftD (isFeature "GainAutoBalance" false)
  if !found then pure false
  else
    let p ← getParams
    liftD (setEnumFeature "GainAutoBalance" p.gainAutoBalance false)

/-- `bool Genicam::setTriggerDivider (void)` (2149–2166). -/
def setTriggerDivider : M Bool := do
  let (found, _) ← liftD (isFeature "TriggerDivider" false)
  if !found then pure false
  else
    setIntFeatureOn "TriggerDivider" (fun p => p.triggerDivider)
      (fun v p => { p with triggerDivider := v }) false

/-- `bool Genicam::setTriggerMultiplier (void)` (2169–2187). -/
def setTriggerMultiplier : M Bool := do
  let (found, _) ← liftD (isFeature "TriggerMultiplier" false)
  if !found then pure false
  else
    setIntFeatureOn "TriggerMultiplier" (fun p => p.triggerMultiplier)
      (fun v p => { p with triggerMultiplier := v }) false

/-- `bool Genicam::setTriggerDelay (void)` (2190–2214). -/
def setTriggerDelay : M Bool := do
  let (found, _) ← liftD (isFeature "TriggerDelay" false)
  let triggerDelayStr ←
    if found then pure (some "TriggerDelay")
    else do
      let (found, _) ← liftD (isFeature "TriggerDelayAbs" false)
      if found then pure (some "TriggerDelayAbs") else pure none
  match triggerDelayStr with
  | none => pure false
  | some triggerDelayStr =>
    setFloatFeatureOn triggerDelayStr (fun p => p.triggerDelay)
      (fun v p => { p with triggerDelay := v }) false

/-- `bool Genicam::setTriggerMode (const char *tMode)` (2217–2235). -/
def setTriggerMode (tMode : String) : M Bool := do
  let ret ← liftD (rcg.setEnum "TriggerMode" tMode false)
  if ret then
    modifySelf (fun g => { g with triggerMode := tMode })
  pure ret

/-- `bool Genicam::setTriggerOverlap (void)` (2238–2255). -/
def setTriggerOverlap : M Bool := do
  let (found, _) ← liftD (isFeature "TriggerOverlap" false)
  if !found then pure false
  else
    let p ← getParams
    liftD (setEnumFeature "TriggerOverlap" p.triggerOverlap false)

/-- `bool Genicam::setTriggerActivation (void)` (2258–2276). -/
def setTriggerActivation : M Bool := do
  let (found, _) ← liftD (isFeature "TriggerActivation" false)
  if !found then pure false
  else
    let p ← getParams
    liftD (setEnumFeature "TriggerActivation" p.triggerActivation false)

/-- `bool Genicam::setAcquisitionMode (void)` (2279–2309). -/
def setAcquisitionMode : M Bool := do
  let p ← getParams
  let isAcquisitionModeSet ← liftD (setEnumFeature "AcquisitionMode" p.acquisitionMode false)
  let aMode ← liftD (rcg.getEnum "AcquisitionMode" false)
  modifySelf (fun g => { g with acquisitionMode := aMode })
  if aMode = "Continuous" then
    let _ ← setTriggerMode "Off"
  else
    let _ ← setTriggerMode "On"
    let _ ← liftD (rcg.setEnum "AcquisitionStatusSelector" "FrameTriggerWait" false)
  pure isAcquisitionModeSet

/-- `bool Genicam::setDeviceClockSelector (void)` (2312–2331). -/
def setDeviceClockSelector : M Bool := do
  let (found, _) ← liftD (isFeature "DeviceClockSelector" false)
  if !found then pure false
  else
    let p ← getParams
    liftD (setEnumFeature "DeviceClockSelector" p.deviceClockSelector false)

/-- `bool Genicam::getDeviceClockFrequency (void)` (2334–2357). -/
def getDeviceClockFrequency : M Bool := do
  let (found, _) ← liftD (isFeature "DeviceClockFrequency" false)
  if !found then pure false
  else
    let _ ← liftD (rcg.getFloat "DeviceClockFrequency" false false)
    let _ ← liftD (rcg.getEnum "DeviceClockSelector" false)
    pure true

/-- `bool Genicam::setTriggerSoftware (void)` (2360–2382). -/
def setTriggerSoftware : M Bool := do
  let self ← getSelf
  if self.triggerSource ≠ "Software" then pure false
  else liftD (rcg.callCommand "TriggerSoftware" false)

/-- `bool Genicam::setTriggerSelector (void)` (2385–2405). -/
def setTriggerSelector : M Bool := do
  let (found, _) ← liftD (isFeature "TriggerSelector" false)
  if !found then pure false
  else
    let p ← getParams
    liftD (setEnumFeature "TriggerSelector" p.triggerSelector false)

/-- `bool Genicam::setTriggerSource (void)` (2408–2440). -/
def setTriggerSource : M Bool := do
  let triggerSources ← liftD (rcg.getEnumList "TriggerSource" false)
  if triggerSources.length = 0 then pure false
  else
    let self ← getSelf
    if self.triggerMode ≠ "On" then pure false
    else
      let p ← getParams
      let isTriggerSourceSet ← liftD (setEnumFeature "TriggerSource" p.triggerSource false)
      let tSource ← liftD (rcg.getEnum "TriggerSource" false)
      modifySelf (fun g => { g with triggerSource := tSource })
      pure isTriggerSourceSet

/-- `bool Genicam::setDeviceLinkThroughputLimit (void)` (2443–2474). -/
def setDeviceLinkThroughputLimit : M Bool := do
  let (found, _) ← liftD (isFeature "DeviceLinkThroughputLimit" false)
  if !found then pure false
  else
    let throughputLimitModes ← liftD (rcg.getEnumList "DeviceLinkThroughputLimitMode" false)
    if throughputLimitModes.length > 0 then
      modifySelf (fun g => { g with deviceLinkThroughputLimitMode := "On" })
      let _ ← liftD (rcg.setEnum "DeviceLinkThroughputLimitMode" "On" false)
    setIntFeatureOn "DeviceLinkThroughputLimit" (fun p => p.deviceLinkThroughputLimit)
      (fun v p => { p with deviceLinkThroughputLimit := v }) true

/-- `bool Genicam::setChannelPacketSize (void)` (2477–2495). -/
def setChannelPacketSize : M Bool := do
  let (found, _) ← liftD (isFeature "GevSCPSPacketSize" false)
  if !found then pure false
  else
    setIntFeatureOn "GevSCPSPacketSize" (fun p => p.channelPacketSize)
      (fun v p => { p with channelPacketSize := v }) true

/-- `bool Genicam::setChannelPacketDelay (void)` (2498–2515). -/
def setChannelPacketDelay : M Bool := do
  let (found, _) ← liftD (isFeature "GevSCPD" false)
  if !found then pure false
  else
    setIntFeatureOn "GevSCPD" (fun p => p.channelPacketDelay)
      (fun v p => { p with channelPacketDelay := v }) false

end Genicam

/-! ## `Genicam::Start` (genicam.cc 60–672) -/

/-- The member function behind each setter name. -/
def Setter.run : Setter → M Bool
  | .resetDevice => Genicam.resetDevice
  | .setBinningSelector => Genicam.setBinningSelector
  | .setBinningHorizontalMode => Genicam.setBinningHorizontalMode
  | .setBinningHorizontal => Genicam.setBinningHorizontal
  | .setBinningVerticalMode => Genicam.setBinningVerticalMode
  | .setBinningVertical => Genicam.setBinningVertical
  | .setDecimationHorizontal => Genicam.setDecimationHorizontal
  | .setDecimationVertical => Genicam.setDecimationVertical
  | .setWidthHeight => Genicam.setWidthHeight
  | .setPixelFormat => Genicam.setPixelFormat
  | .setOffsetXY => Genicam.setOffsetXY
  | .setDeviceClockSelector => Genicam.setDeviceClockSelector
  | .getDeviceClockFrequency => Genicam.getDeviceClockFrequency
  | .setDeviceLinkThroughputLimit => Genicam.setDeviceLinkThroughputLimit
  | .setAcquisitionFrameRate => Genicam.setAcquisitionFrameRate
  | .setAcquisitionMode => Genicam.setAcquisitionMode
  | .setTriggerSelector => Genicam.setTriggerSelector
  | .setTriggerActivation => Genicam.setTriggerActivation
  | .setTriggerSource => Genicam.setTriggerSource
  | .setTriggerMultiplier => Genicam.setTriggerMultiplier
  | .setTriggerDivider => Genicam.setTriggerDivider
  | .setTriggerDelay => Genicam.setTriggerDelay
  | .setTriggerOverlap => Genicam.setTriggerOverlap
  | .setExposureMode => Genicam.setExposureMode
  | .setExposureAuto => Genicam.setExposureAuto
  | .setBalanceWhiteAuto => Genicam.setBalanceWhiteAuto
  | .setBalanceRatio => Genicam.setBalanceRatio
  | .setExposureTimeSelector => Genicam.setExposureTimeSelector
  | .setExposureTime => Genicam.setExposureTime
  | .setBlackLevelSelector => Genicam.setBlackLevelSelector
  | .setGamma => Genicam.setGamma
  | .setBlackLevelAuto => Genicam.setBlackLevelAuto
  | .setBlackLevel => Genicam.setBlackLevel
  | .setGainSelector => Genicam.setGainSelector
  | .setGainAuto => Genicam.setGainAuto
  | .setGain => Genicam.setGain
  | .setGainAutoBalance => Genicam.setGainAutoBalance
  | .setChannelPacketSize => Genicam.setChannelPacketSize
  | .setChannelPacketDelay => Genicam.setChannelPacketDelay
  | .setTriggerSoftware => Genicam.setTriggerSoftware

/-- A call of a setter made by `Start` (or `Create`): entry and return are recorded. -/
def invoke (f : Setter) : M Bool := do
  mark (.enter f)
  let result ← f.run
  mark (.leave f result)
  pure result

/-- The condition on the parameter value under which `Start` considers calling
the setter (the outer `if` around the call); for `setOffsetXY` it is the member
`offsetXYwritable`, passed as `writable`.  Line numbers refer to genicam.cc. -/
def Setter.guard : Setter → GencamParams → Bool → Bool
  | .setBinningSelector, p, _ => p.binningSelector.isSome            -- 96
  | .setBinningHorizontalMode, p, _ => p.binningHorizontalMode.isSome -- 110
  | .setBinningHorizontal, p, _ => p.binningHorizontal > 0           -- 124
  | .setBinningVerticalMode, p, _ => p.binningVerticalMode.isSome    -- 138
  | .setBinningVertical, p, _ => p.binningVertical > 0               -- 152
  | .setDecimationHorizontal, p, _ => p.decimationHorizontal > 0     -- 166
  | .setDecimationVertical, p, _ => p.decimationVertical > 0         -- 180
  | .setOffsetXY, _, writable => writable                            -- 245
  | .setDeviceClockSelector, p, _ => p.deviceClockSelector.isSome    -- 258
  | .setDeviceLinkThroughputLimit, p, _ => p.deviceLinkThroughputLimit > 0 -- 274
  | .setAcquisitionMode, p, _ => p.acquisitionMode.isSome            -- 303
  | .setTriggerSelector, p, _ => p.triggerSelector.isSome            -- 318
  | .setTriggerActivation, p, _ => p.triggerActivation.isSome        -- 332
  | .setTriggerSource, p, _ => p.triggerSource.isSome                -- 346
  | .setTriggerMultiplier, p, _ => p.triggerMultiplier > 0           -- 360
  | .setTriggerDivider, p, _ => p.triggerDivider > 0                 -- 374
  | .setTriggerDelay, p, _ => p.triggerDelay > -1                    -- 388
  | .setTriggerOverlap, p, _ => p.triggerOverlap.isSome              -- 402
  | .setExposureMode, p, _ => p.exposureMode.isSome                  -- 416
  | .setExposureAuto, p, _ => p.exposureAuto.isSome                  -- 430
  | .setBalanceWhiteAuto, p, _ => p.balanceWhiteAuto.isSome          -- 444
  | .setBalanceRatio, p, _ =>
    p.balanceRatio ≠ 9999 || p.balanceRatioSelector.isSome           -- 458
  | .setExposureTimeSelector, p, _ => p.exposureTimeSelector.isSome  -- 473
  | .setExposureTime, p, _ => p.exposureTime > -1                    -- 488
  | .setBlackLevelSelector, p, _ => p.blackLevelSelector.isSome      -- 503
  | .setGamma, p, _ => p.gamma > 0                                   -- 517
  | .setBlackLevelAuto, p, _ => p.blackLevelAuto.isSome              -- 531
  | .setBlackLevel, p, _ => p.blackLevel ≠ 9999                      -- 545
  | .setGainSelector, p, _ => p.gainSelector.isSome                  -- 559
  | .setGainAuto, p, _ => p.gainAuto.isSome                          -- 573
  | .setGain, p, _ => p.gain ≠ 9999                                  -- 586
  | .setGainAutoBalance, p, _ => p.gainAutoBalance.isSome            -- 599
  | .setChannelPacketSize, p, _ => p.channelPacketSize > 0           -- 612
  | .setChannelPacketDelay, p, _ => p.channelPacketDelay > -1        -- 625
  | _, _, _ => true

/-- The entries of `propertyHolder` that `Start` consults before calling the
setter; `none` where it calls the setter without consulting provenance. -/
def Setter.holders : Setter → Option (List (Fin 45))
  | .setBinningSelector => some [9]
  | .setBinningHorizontalMode => some [10]
  | .setBinningHorizontal => some [12]
  | .setBinningVerticalMode => some [11]
  | .setBinningVertical => some [13]
  | .setDecimationHorizontal => some [7]
  | .setDecimationVertical => some [8]
  | .setOffsetXY => some [5, 6]
  | .setDeviceClockSelector => some [15]
  | .setDeviceLinkThroughputLimit => some [40]
  | .setAcquisitionFrameRate => some [43]
  | .setTriggerSelector => some [21]
  | .setTriggerActivation => some [20]
  | .setTriggerSource => some [22]
  | .setTriggerMultiplier => some [18]
  | .setTriggerDivider => some [17]
  | .setTriggerDelay => some [16]
  | .setTriggerOverlap => some [19]
  | .setExposureMode => some [24]
  | .setExposureAuto => some [26]
  | .setBalanceWhiteAuto => some [39]
  | .setBalanceRatio => some [38]
  | .setExposureTimeSelector => some [27]
  | .setExposureTime => some [25]
  | .setBlackLevelSelector => some [28]
  | .setGamma => some [31]
  | .setBlackLevelAuto => some [29]
  | .setBlackLevel => some [30]
  | .setGainSelector => some [33]
  | .setGainAuto => some [35]
  | .setGain => some [34]
  | .setGainAutoBalance => some [36]
  | .setChannelPacketSize => some [41]
  | .setChannelPacketDelay => some [42]
  | _ => none

/-- One guarded setter call of `Start`:
`if (guard) { if (propertyHolder[i] != -1) set (); else if (useDefaultProperties == true) set (); }`.
The result of the setter is dropped. -/
def Setter.exec (f : Setter) : M Unit := do
  let p ← getParams
  let self ← getSelf
  if f.guard p self.offsetXYwritable then
    match f.holders with
    | none =>
      let _ ← invoke f
    | some hs =>
      if hs.any (fun i => p.propertyHolder i != -1) then
        let _ ← invoke f
      else if p.useDefaultProperties = true then
        let _ ← invoke f

/-- Execution of guarded setter calls in sequence. -/
def runSteps : List Setter → M Unit
  | [] => pure ()
  | f :: rest => do
    f.exec
    runSteps rest

namespace Genicam

/-- The guarded setter calls of lines 95–191 of `Start`, in source order. -/
def Start.binning : List Setter :=
  [ .setBinningSelector, .setBinningHorizontalMode, .setBinningHorizontal,
    .setBinningVerticalMode, .setBinningVertical, .setDecimationHorizontal,
    .setDecimationVertical ]

/-- The guarded setter calls of lines 243–637 of `Start`, in source order. -/
def Start.features : List Setter :=
  [ .setOffsetXY, .setDeviceClockSelector, .getDeviceClockFrequency,
    .setDeviceLinkThroughputLimit, .setAcquisitionFrameRate, .setAcquisitionMode,
    .setTriggerSelector, .setTriggerActivation, .setTriggerSource, .setTriggerMultiplier,
    .setTriggerDivider, .setTriggerDelay, .setTriggerOverlap, .setExposureMode,
    .setExposureAuto, .setBalanceWhiteAuto, .setBalanceRatio, .setExposureTimeSelector,
    .setExposureTime, .setBlackLevelSelector, .setGamma, .setBlackLevelAuto, .setBlackLevel,
    .setGainSelector, .setGainAuto, .setGain, .setGainAutoBalance, .setChannelPacketSize,
    .setChannelPacketDelay ]

/-- The `try` block of `Start` (lines 90–223).  `some b`: the block executes
`return b`; `none`: control leaves the block at its end. -/
def Start.configure : M (Option Bool) := do
  let p ← getParams
  if p.deviceReset = true then
    let r ← invoke .resetDevice
    pure (some r)
  else
    runSteps Start.binning
    let ok ← invoke .setWidthHeight
    if !ok then pure (some false)
    else
      let ok ← invoke .setPixelFormat
      if !ok then pure (some false)
      else pure none

/-- Lines 649–661 of `Start`: the trigger settings are completed. -/
def Start.trigger : M Unit := do
  let self ← getSelf
  if self.acquisitionMode ≠ "Continuous" && self.triggerMode = "On" then
    if self.triggerSource = "Software" then
      let _ ← invoke .setTriggerSoftware
    else
      modifyParams (fun p =>
        { p with hwTriggerTimeout := if p.hwTriggerTimeout ≤ 0 then 10 else p.hwTriggerTimeout })
  else if self.acquisitionMode = "Continuous" && self.triggerMode = "Off" then
    modifyParams (fun p => { p with hwTriggerTimeout := 0 })

/-- Lines 643–662 of `Start`: the stream is opened and started, and the trigger
settings are completed. -/
def Start.stream : M Unit := do
  let n ← liftD (call .getStreams (fun d h => d.getStreams h))
  modifySelf (fun g => { g with stream := n })
  if n > 0 then
    liftD (call .streamOpen (fun d h => d.streamOpen h))
    liftD (call .startStreaming (fun d h => d.startStreaming h))
    Start.trigger

/-- Lines 69–84 of `Start`: the device is looked up and opened.  Returns whether
the device pointer is non-null. -/
def Start.open : M Bool := do
  let p ← getParams
  if p.deviceSerialNumber.isNone then
    let _ ← getCameraSerialNumber
  let p ← getParams
  let dev ← liftD (call (.getDevice p.deviceSerialNumber)
    (fun d h => d.getDevice h p.deviceSerialNumber))
  modifySelf (fun g => { g with dev := dev })
  if dev then
    liftD (call .devOpen (fun d h => d.devOpen h))
    liftD (call .getRemoteNodeMap (fun d h => d.getRemoteNodeMap h))
    getCameraInfo
  pure dev

/-- Lines 639–662 of `Start`: the acquisition status feature is looked up and the
stream is started. -/
def Start.acquire : M Unit := do
  let (found, _) ← liftD (isFeature "AcquisitionStatus" false)
  modifySelf (fun g => { g with isAcquisitionStatusFeature := found })
  Start.stream

/-- Lines 240–662 of `Start`: the settings whose failure does not abort, and the
start of streaming. -/
def Start.finish : M Unit := do
  runSteps Start.features
  Start.acquire

/-- `bool Genicam::Start (void)`. -/
def Start : M Bool := do
  let dev ← Start.open
  if dev then
    let r ← tryAllM Start.configure
    match r with
    | .error _ =>
      let _ ← Stop
      pure false
    | .ok (some b) => pure b
    | .ok none =>
      Start.finish
      pure true
  else pure false

/-! ### `Genicam::Create` (genicam.cc 707–785)

The two `while` loops of `Create` need not end; they are run for at most `fuel`
iterations each.  The frame handed back through `buf` and `mapInfo` is not part of
the model, only the returned `bool` and the calls issued. -/

/-- The loop of lines 723–737, entered with the given value of `hwTriggerCheck`.
`none`: the loop has not ended within `fuel` iterations; `some none`: the function
returns `FALSE` from inside the loop ("No frame received from the camera");
`some (some b)`: the loop ended with the buffer `b`.  The increment
`++hwTriggerCheck` of the `int` counter is taken modulo 2^32. -/
def Create.grabLoop : Nat → Int → M (Option (Option Buffer))
  | 0, _ => pure none
  | fuel + 1, hwTriggerCheck => do
    let buffer ← liftD (call .grab (fun d h => d.grab h))
    match buffer with
    | some b => pure (some (some b))
    | none =>
      let self ← getSelf
      let p ← getParams
      let hwTriggerCheck :=
        if self.acquisitionMode ≠ "Continuous" && self.triggerMode = "On"
            && self.triggerSource ≠ "Software" then toInt (hwTriggerCheck + 1)
        else hwTriggerCheck
      if hwTriggerCheck = p.hwTriggerTimeout then pure (some none)
      else Create.grabLoop fuel hwTriggerCheck

/-- The loop of lines 759–760:
`while (!(rcg::getBoolean (nodemap, "AcquisitionStatus", false, false)) && isAcquisitionStatusFeature);`.
`false`: the loop has not ended within `fuel` iterations. -/
def Create.awaitStatus : Nat → M Bool
  | 0 => pure false
  | fuel + 1 => do
    let status ← liftD (rcg.getBoolean "AcquisitionStatus" false false)
    let self ← getSelf
    if !status && self.isAcquisitionStatusFeature then Create.awaitStatus fuel
    else pure true

/-- Lines 739–766 of `Create`: the frame is copied, and in the non continuous modes
the stream is restarted and the software trigger executed.  `none`: the status loop
has not ended within `fuel` iterations. -/
def Create.deliver (fuel : Nat) (buffer : Buffer) : M (Option Bool) := do
  let allocate ← liftD (platform (fun d => d.allocate))
  if !allocate buffer.globalSize then pure (some false)
  else
    let self ← getSelf
    if self.acquisitionMode ≠ "Continuous" then
      liftD (call .stopStreaming (fun d h => d.stopStreaming h))
      liftD (call .startStreaming (fun d h => d.startStreaming h))
      if self.triggerMode = "On" && self.triggerSource = "Software" then
        let ended ← Create.awaitStatus fuel
        if !ended then pure none
        else
          let _ ← setTriggerSoftware
          pure (some true)
      else pure (some true)
    else pure (some true)

/-- The `try` block of `Create` (lines 713–767). -/
def Create.body (fuel : Nat) : M (Option Bool) := do
  let r ← Create.grabLoop fuel 0
  match r with
  | none => pure none
  | some none => pure (some false)
  | some (some buffer) => Create.deliver fuel buffer

/-- `bool Genicam::Create (GstBuffer ** buf, GstMapInfo * mapInfo)`.  `none`: the
function has not returned within `fuel` iterations of one of its loops. -/
def Create (fuel : Nat) : M (Option Bool) := do
  let r ← tryAllM (Create.body fuel)
  match r with
  | .ok b => pure b
  | .error _ => pure (some false)

end Genicam

/-! ## More example devices -/

/-- A camera that is found, reports the range `r` for every integer feature, offers
the pixel formats `formats`, has one stream, and accepts every write. -/
def Device.camera (r : IntInfo) (formats : List String) : Device :=
  { Device.silent with
    getDevice := fun _ _ => .ok true
    getStreams := fun _ => .ok 1
    getEnumList := fun _ name _ => .ok (if name = "PixelFormat" then formats else [])
    setEnum := fun _ _ _ _ => .ok true
    getInteger := fun _ _ _ _ => .ok r
    setInteger := fun _ _ _ _ => .ok true }

/-- A camera like `Device.camera r formats`, except that it refuses every integer or
enumeration write to the feature `rejected`: the write throws when it is issued with
the exception flag and returns `false` otherwise. -/
def Device.rejecting (r : IntInfo) (formats : List String) (rejected : String) : Device :=
  { Device.camera r formats with
    setEnum := fun _ name _ exception =>
      if name = rejected then
        (if exception then .error (.std "Value not accepted") else .ok false)
      else .ok true
    setInteger := fun _ name _ exception =>
      if name = rejected then
        (if exception then .error (.std "Value not accepted") else .ok false)
      else .ok true }

/-- A camera that accepts every write and goes on reporting the pixel format
`"BayerRG8"`. -/
def Device.keepsFormat : Device :=
  { Device.camera ⟨0, 16, 9999, 1⟩ ["Mono8"] with
    getEnum := fun _ name _ => .ok (if name = "PixelFormat" then "BayerRG8" else "") }

/-- A device on which the exposure time exists, the exposure mode is `"Timed"` and
the automatic exposure is `"Once"`. -/
def Device.autoExposure : Device :=
  { Device.silent with
    getEnum := fun _ name _ =>
      .ok (if name = "ExposureMode" then "Timed" else if name = "ExposureAuto" then "Once"
        else "") }

/-- A device on which `GainAuto` and `BlackLevelAuto` exist with the current value
`"Continuous"`, and the float features `Gain` and `BlackLevel` exist with range
0 … 10 and accept every write. -/
def Device.autoGain : Device :=
  { Device.silent with
    getEnum := fun _ name _ =>
      if name = "GainAuto" ∨ name = "BlackLevelAuto" then .ok "Continuous"
      else .error (.std "Feature not enumeration: Gain")
    getInteger := fun _ _ _ _ => .error (.std "Feature not integer: Gain")
    getFloat := fun _ _ _ _ => .ok ⟨2, 0, 10⟩
    setFloat := fun _ _ _ _ => .ok true }

/-- The state of an element whose session holds `"Continuous"` for the automatic
gain and the automatic black level. -/
def St.autoOn : St :=
  { St.init gst_gencamsrc_init with
    self := { Genicam.Init 0 0 false false with
      gainAuto := "Continuous"
      blackLevelAuto := "Continuous" } }

/-- A device that reports the acquisition mode `"SingleFrame"` and refuses every
write (each write returns `false`). -/
def Device.singleFrame : Device :=
  { Device.silent with
    getEnumList := fun _ name _ =>
      .ok (if name = "AcquisitionMode" then ["SingleFrame", "Continuous"] else [])
    getEnum := fun _ name _ => .ok (if name = "AcquisitionMode" then "SingleFrame" else "") }

/-- A camera that reports the acquisition mode `"SingleFrame"` and accepts every
write. -/
def Device.triggered : Device :=
  { Device.camera ⟨0, 16, 9999, 1⟩ ["Mono8"] with
    getEnum := fun _ name _ => .ok (if name = "AcquisitionMode" then "SingleFrame" else "") }

/-- The parameters after the properties `exposure-time` (as 100), `black-level-auto`,
`gamma` and `balance-white-auto` have been set explicitly, the last three to their
default values. -/
def GencamParams.fourSettings : GencamParams :=
  { (((gst_gencamsrc_init.markExplicit 25).markExplicit 29).markExplicit 31).markExplicit 39
    with exposureTime := 100 }

/-- A session as `Start` leaves it: device and stream open, with the given session
acquisition mode, trigger mode and trigger source, and the given timeout budget. -/
def St.session (acquisitionMode triggerMode triggerSource : String) (hwTriggerTimeout : Int) :
    St :=
  { St.init { gst_gencamsrc_init with hwTriggerTimeout := hwTriggerTimeout } with
    self := { Genicam.Init 0 0 false false with
      dev := true
      stream := 1
      acquisitionMode := acquisitionMode
      triggerMode := triggerMode
      triggerSource := triggerSource } }

/-- A device that delivers a buffer on every grab, reports the acquisition status
`true` and executes every command. -/
def Device.streaming : Device :=
  { Device.silent with
    grab := fun _ => .ok (some ⟨640, 0⟩)
    getBoolean := fun _ _ _ _ => .ok true
    callCommand := fun _ _ _ => .ok true }

/-- A camera with `streams` streams that reports the acquisition mode
`"Continuous"` and refuses every write to the feature `rejected`. -/
def Device.continuous (rejected : String) (streams : Nat) : Device :=
  { Device.rejecting ⟨0, 16, 9999, 1⟩ ["Mono8"] rejected with
    getStreams := fun _ => .ok streams
    getEnum := fun _ name _ => .ok (if name = "AcquisitionMode" then "Continuous" else "") }

/-- The state of an element whose session trigger mode is `"On"`. -/
def St.triggerOn : St :=
  { St.init gst_gencamsrc_init with
    self := { Genicam.Init 0 0 false false with triggerMode := "On" } }

/-- The setter a mark is about. -/
def Mark.setter : Mark → Setter
  | .enter f _ => f
  | .leave f _ _ => f

/-- Is the mark the return of setter `f` with result `result`? -/
def Mark.isLeave (f : Setter) (result : Bool) : Mark → Bool
  | .enter _ _ => false
  | .leave g r _ => g = f && r = result

/-- The device calls issued by a run of a member function started in state `s`. -/
def issuedBy {α : Type} (s : St) (r : Res α) : List Call :=
  r.state.trace.drop s.trace.length

/-- The setter calls recorded by a run started in state `s`. -/
def marksBy {α : Type} (s : St) (r : Res α) : List Mark :=
  r.state.log.drop s.log.length

/-- The values written to the integer feature `name`, in order. -/
def writesTo (name : String) (calls : List Call) : List Int :=
  ((intWrites calls).filter (fun w => w.1 = name)).map (fun w => w.2)

/-- Specification: `x` rounded down to a multiple of 4. -/
def roundDownToMultipleOf4 (x : Int) : Int := 4 * (x / 4)

/-! ## Frames: what a member function leaves unchanged -/

/-- The features a setter addresses with an integer write, an enumeration write or a
command (read off the bodies of the setters). -/
def Setter.writes : Setter → List String
  | .resetDevice => ["DeviceReset"]
  | .setBinningSelector => ["BinningSelector"]
  | .setBinningHorizontalMode => ["BinningHorizontalMode", "BinningModeHorizontal"]
  | .setBinningHorizontal => ["BinningHorizontal"]
  | .setBinningVerticalMode => ["BinningVerticalMode", "BinningModeVertical"]
  | .setBinningVertical => ["BinningVertical"]
  | .setDecimationHorizontal => ["DecimationHorizontal"]
  | .setDecimationVertical => ["DecimationVertical"]
  | .setWidthHeight => ["OffsetX", "OffsetY", "Width", "Height"]
  | .setPixelFormat => ["PixelFormat"]
  | .setOffsetXY => ["OffsetX", "OffsetY"]
  | .setDeviceClockSelector => ["DeviceClockSelector"]
  | .getDeviceClockFrequency => []
  | .setDeviceLinkThroughputLimit => ["DeviceLinkThroughputLimitMode", "DeviceLinkThroughputLimit"]
  | .setAcquisitionFrameRate => []
  | .setAcquisitionMode => ["AcquisitionMode", "TriggerMode", "AcquisitionStatusSelector"]
  | .setTriggerSelector => ["TriggerSelector"]
  | .setTriggerActivation => ["TriggerActivation"]
  | .setTriggerSource => ["TriggerSource"]
  | .setTriggerMultiplier => ["TriggerMultiplier"]
  | .setTriggerDivider => ["TriggerDivider"]
  | .setTriggerDelay => []
  | .setTriggerOverlap => ["TriggerOverlap"]
  | .setExposureMode => ["ExposureMode"]
  | .setExposureAuto => ["ExposureAuto"]
  | .setBalanceWhiteAuto => ["BalanceWhiteAuto"]
  | .setBalanceRatio => ["BalanceRatioSelector"]
  | .setExposureTimeSelector => ["ExposureTimeMode", "ExposureTimeSelector"]
  | .setExposureTime => []
  | .setBlackLevelSelector => ["BlackLevelSelector"]
  | .setGamma => ["GammaSelector"]
  | .setBlackLevelAuto => ["BlackLevelAuto"]
  | .setBlackLevel => ["BlackLevel", "BlackLevelRaw"]
  | .setGainSelector => ["GainSelector"]
  | .setGainAuto => ["GainAuto"]
  | .setGain => ["GainRaw"]
  | .setGainAutoBalance => ["GainAutoBalance"]
  | .setChannelPacketSize => ["GevSCPSPacketSize"]
  | .setChannelPacketDelay => ["GevSCPD"]
  | .setTriggerSoftware => ["TriggerSoftware"]

/-- Every run of `m` relates the start state to the end state by `R`. -/
structure Sat {α : Type} (R : St → St → Prop) (m : M α) : Prop where
  run : ∀ (d : Device) (s : St), R s (m d s).state

/-- The parameters with the members blanked that no guard of `Start` reads. -/
def GencamParams.blank (p : GencamParams) : GencamParams :=
  { p with
    deviceSerialNumber := none
    width := 0
    height := 0
    offsetX := 0
    offsetY := 0
    hwTriggerTimeout := 0
    acquisitionFrameRate := 0 }

/-- The parameters with the member blanked that the setter assigns (through the
pointer it hands to `setIntFeature` / `setFloatFeature`, or directly). -/
def Setter.own : Setter → GencamParams → GencamParams
  | .setBinningHorizontal, p => { p with binningHorizontal := 0 }
  | .setBinningVertical, p => { p with binningVertical := 0 }
  | .setDecimationHorizontal, p => { p with decimationHorizontal := 0 }
  | .setDecimationVertical, p => { p with decimationVertical := 0 }
  | .setDeviceLinkThroughputLimit, p => { p with deviceLinkThroughputLimit := 0 }
  | .setTriggerMultiplier, p => { p with triggerMultiplier := 0 }
  | .setTriggerDivider, p => { p with triggerDivider := 0 }
  | .setTriggerDelay, p => { p with triggerDelay := 0 }
  | .setBalanceRatio, p => { p with balanceRatio := 0 }
  | .setExposureTime, p => { p with exposureTime := 0 }
  | .setGamma, p => { p with gamma := 0 }
  | .setBlackLevel, p => { p with blackLevel := 0 }
  | .setGain, p => { p with gain := 0 }
  | .setChannelPacketSize, p => { p with channelPacketSize := 0 }
  | .setChannelPacketDelay, p => { p with channelPacketDelay := 0 }
  | _, p => p

/-- Frame of a member function: the record of setter calls is unchanged, the
parameters are unchanged outside `own` and the members no guard reads, and (when
`writable` is set) the member `offsetXYwritable` is unchanged. -/
def frameRel (own : GencamParams → GencamParams) (writable : Bool) (s s' : St) : Prop :=
  s'.log = s.log ∧ own s'.params.blank = own s.params.blank ∧
    (writable = true → s'.self.offsetXYwritable = s.self.offsetXYwritable)

/-- A relation between start and end states that is reflexive and transitive. -/
class Pre (R : St → St → Prop) : Prop where
  refl : ∀ s, R s s
  trans : ∀ a b c, R a b → R b c → R a c

/-- What a part of `Start` that calls (at most) the setters satisfying `P` leaves
behind: the record of setter calls grows by marks about setters satisfying `P`;
provenance and the defaults policy are unchanged; the guard of every setter that
does not satisfy `P` evaluates as before; and `offsetXYwritable` is unchanged
unless `setWidthHeight` satisfies `P`. -/
def Ran (P : Setter → Prop) (s s' : St) : Prop :=
  (∃ ms : List Mark, s'.log = s.log ++ ms ∧ ∀ m ∈ ms, P m.setter) ∧
  s'.params.propertyHolder = s.params.propertyHolder ∧
  s'.params.useDefaultProperties = s.params.useDefaultProperties ∧
  (∀ f : Setter, ¬ P f → ∀ w : Bool, f.guard s'.params w = f.guard s.params w) ∧
  (¬ P .setWidthHeight → s'.self.offsetXYwritable = s.self.offsetXYwritable)

/-- A relation that holds across every piece of code that calls no setter and
assigns no parameter a guard reads. -/
class Lifts (R : St → St → Prop) extends Pre R : Prop where
  ofRan : ∀ s s', Ran (fun _ => False) s s' → R s s'

/-- The provenance gate of setter `f` is closed in state `s`: `Start` consults
provenance before calling `f`, every consulted entry of `propertyHolder` is `-1`,
and `useDefaultProperties` is `false`. -/
def Closed (f : Setter) (s : St) : Prop :=
  ∃ hs : List (Fin 45), f.holders = some hs ∧
    (∀ i ∈ hs, s.params.propertyHolder i = -1) ∧ s.params.useDefaultProperties = false

/-- Device-level code that issues no integer write, whatever the device answers. -/
def Quiet {α : Type} (m : D α) : Prop :=
  ∀ (d : Device) (t : List Call), ∃ cs, (m d t).trace = t ++ cs ∧ intWrites cs = []

/-- Is the call a write to the device: a feature write or a command? -/
def Call.isWrite : Call → Bool
  | .setEnum _ _ _ => true
  | .setInteger _ _ _ => true
  | .setFloat _ _ _ => true
  | .setBoolean _ _ _ => true
  | .callCommand _ _ => true
  | _ => false

/-- The feature an integer write, an enumeration write or a command is addressed to. -/
def Call.target : Call → Option String
  | .setInteger n _ _ => some n
  | .setEnum n _ _ => some n
  | .callCommand n _ => some n
  | _ => none

/-- The call is no integer write, enumeration write or command, or it is one to a
feature listed in `names`. -/
def Call.within (names : List String) (c : Call) : Bool :=
  match c.target with
  | none => true
  | some n => names.contains n

/-- The call is no integer write, enumeration write or command to a feature listed in
`names`. -/
def Call.avoids (names : List String) (c : Call) : Bool :=
  match c.target with
  | none => true
  | some n => !names.contains n

/-- Device-level code all of whose calls satisfy `Q`, whatever the device answers. -/
def Only {α : Type} (Q : Call → Prop) (m : D α) : Prop :=
  ∀ (d : Device) (t : List Call), ∃ cs, (m d t).trace = t ++ cs ∧ ∀ c ∈ cs, Q c

/-- Between the two states only calls satisfying `Q` were issued. -/
def OnlyCalls (Q : Call → Prop) (s s' : St) : Prop :=
  ∃ cs, s'.trace = s.trace ++ cs ∧ ∀ c ∈ cs, Q c

/-- The features written by the binning and decimation setters of `Start`. -/
def Genicam.Start.binningFeatures : List String :=
  (Genicam.Start.binning.map Setter.writes).flatten

/-- Every write among the calls is an integer write, an enumeration write or a
command addressed to a feature listed in `names`. -/
def Call.writesOnly (names : List String) (c : Call) : Bool :=
  !c.isWrite || (match c.target with
    | none => false
    | some n => names.contains n)

/-- The calls `cs`, issued by `Start` on device `d` after the calls `t`, come in the
order of `Start`: first `pre`, whose only writes are to the binning and decimation
features (or the `DeviceReset` command); then `off`, the offsets written as 0
(`OffsetY` too when the `OffsetX` write answers); then `size`, whose only writes are
to `Width` and `Height`, and which is empty unless `OffsetX` was written as 0 before;
then `fmt`, whose only writes are to `PixelFormat`; then `rest`, without any integer
or enumeration write to the binning and decimation features, `Width`, `Height` or
`PixelFormat`. -/
def Genicam.Start.WriteOrder (d : Device) (t cs : List Call) : Prop :=
  ∃ pre off size fmt rest, cs = pre ++ off ++ size ++ fmt ++ rest ∧
    (∀ c ∈ pre, c.writesOnly (Genicam.Start.binningFeatures ++ ["DeviceReset"]) = true) ∧
    (∀ c ∈ off, c = .setInteger "OffsetX" 0 true ∨ c = .setInteger "OffsetY" 0 true) ∧
    (size ≠ [] → Call.setInteger "OffsetX" 0 true ∈ off) ∧
    (size ≠ [] → (∃ b, d.setInteger (t ++ pre) "OffsetX" 0 true = .ok b) →
      Call.setInteger "OffsetY" 0 true ∈ off) ∧
    (∀ c ∈ size, c.writesOnly ["Width", "Height"] = true) ∧
    (∀ c ∈ fmt, c.writesOnly ["PixelFormat"] = true) ∧
    (∀ c ∈ rest,
      c.avoids (Genicam.Start.binningFeatures ++ ["Width", "Height", "PixelFormat"]) = true)

/-- Between the two states the quantity `φ` of the parameters and the members has
not changed. -/
def Keeps {β : Type} (φ : GencamParams → Genicam → β) (s s' : St) : Prop :=
  φ s'.params s'.self = φ s.params s.self

/-- From a state whose session trigger source is not `"Software"`, no
`TriggerSoftware` command was issued and the session trigger source is unchanged. -/
def NoSoftwareTrigger (s s' : St) : Prop :=
  s.self.triggerSource ≠ "Software" →
    OnlyCalls (fun c => c.avoids ["TriggerSoftware"] = true) s s' ∧
    s'.self.triggerSource = s.self.triggerSource

/-- The lines of `Start` with the guarded setter calls before the one of
`setTriggerSource` (lines 243–344). -/
def Genicam.Start.beforeTriggerSource : List Setter :=
  Genicam.Start.features.take 8

/-- The lines of `Start` with the guarded setter calls after the one of
`setTriggerSource` (lines 358–637). -/
def Genicam.Start.afterTriggerSource : List Setter :=
  Genicam.Start.features.drop 9

/-- The setter a mark records the entry into, if it is an entry mark. -/
def Mark.entered : Mark → Option Setter
  | .enter f _ => some f
  | .leave _ _ _ => none

/-- The setters entered between the two states, in order of entry, form a
subsequence of `L`. -/
def Entered (L : List Setter) (s s' : St) : Prop :=
  ∃ ms, s'.log = s.log ++ ms ∧ (ms.filterMap Mark.entered).Sublist L

/-- The setter calls of `Start` in source order (genicam.cc 90–657). -/
def Genicam.Start.order : List Setter :=
  Setter.resetDevice :: Genicam.Start.binning ++ [.setWidthHeight, .setPixelFormat]
    ++ Genicam.Start.features ++ [.setTriggerSoftware]

/-- The guarded setter calls of lines 415–637 of `Start` (exposure, white balance,
black level, gamma, gain and packet settings), in source order. -/
def Genicam.Start.settings : List Setter :=
  [ .setExposureMode, .setExposureAuto, .setBalanceWhiteAuto, .setBalanceRatio,
    .setExposureTimeSelector, .setExposureTime, .setBlackLevelSelector, .setGamma,
    .setBlackLevelAuto, .setBlackLevel, .setGainSelector, .setGainAuto, .setGain,
    .setGainAutoBalance, .setChannelPacketSize, .setChannelPacketDelay ]

/-- The order of the settings as the specification words it: exposure mode, exposure
auto, exposure time selector, exposure time, black-level selector, black-level auto,
black level, gamma, gain selector, gain auto, gain, balance-white auto, balance ratio
(which sets the balance-ratio selector), packet size, packet delay. -/
def Genicam.Start.specifiedOrder : List Setter :=
  [ .setExposureMode, .setExposureAuto, .setExposureTimeSelector, .setExposureTime,
    .setBlackLevelSelector, .setBlackLevelAuto, .setBlackLevel, .setGamma,
    .setGainSelector, .setGainAuto, .setGain, .setBalanceWhiteAuto, .setBalanceRatio,
    .setChannelPacketSize, .setChannelPacketDelay ]

/-- Between the two states no integer write was issued. -/
def NoIntWrite (s s' : St) : Prop :=
  ∃ cs, s'.trace = s.trace ++ cs ∧ intWrites cs = []

/-- The device answers what `setWidthHeight` asks before it writes the size: the
writes of the offsets answer or throw a `std::exception`, the reads of `WidthMax`
and `HeightMax` answer, and the reads of `Width` and `Height` report the ranges
`rX` and `rY`. -/
def Device.reportsSize (d : Device) (rX rY : IntInfo) : Prop :=
  (∀ h v, answersOrStd (d.setInteger h "OffsetX" v true) = true) ∧
  (∀ h v, answersOrStd (d.setInteger h "OffsetY" v true) = true) ∧
  (∀ h, ∃ r, d.getInteger h "WidthMax" false false = .ok r) ∧
  (∀ h, ∃ r, d.getInteger h "HeightMax" false false = .ok r) ∧
  (∀ h, d.getInteger h "Width" false false = .ok rX) ∧
  (∀ h, d.getInteger h "Height" false false = .ok rY)

/-- From a state in which the gate of `f` is closed, only other setters are called. -/
def NotCalled (f : Setter) (s s' : St) : Prop :=
  Closed f s → Ran (fun g => g ≠ f) s s'

/-! ## Refused writes -/

/-- The exception with which the device answers the write `c`, issued after the
calls `t`, when it answers with one. -/
def Device.refusal (d : Device) (t : List Call) : Call → Option Exc
  | .setInteger n v ex =>
    match d.setInteger t n v ex with
    | .error e => some e
    | .ok _ => none
  | .setEnum n v ex =>
    match d.setEnum t n v ex with
    | .error e => some e
    | .ok _ => none
  | _ => none

/-- An integer or enumeration write to one of the features whose write `Start`
depends on: `Width`, `Height`, `PixelFormat`. -/
def Call.loadBearing : Call → Bool
  | .setInteger n _ _ => n = "Width" || n = "Height"
  | .setEnum n _ _ => n = "PixelFormat"
  | _ => false

/-- Every load-bearing write among the calls `cs`, issued after the calls `t`, was
answered without an exception. -/
def Accepted (d : Device) (t cs : List Call) : Prop :=
  ∀ a c b, cs = a ++ c :: b → c.loadBearing = true → d.refusal (t ++ a) c = none

/-- Outcome of a run from state `s` with respect to the load-bearing writes: either
all of them were answered without an exception, or the run ended with the exception
thrown by the first one that was refused, which is its last call. -/
def Tracked {α : Type} (d : Device) (s : St) (r : Res α) : Prop :=
  (∃ cs, r.state.trace = s.trace ++ cs ∧ Accepted d s.trace cs) ∨
  (∃ P c e, r.exception? = some e ∧ r.state.trace = s.trace ++ P ++ [c] ∧
    Accepted d s.trace P ∧ c.loadBearing = true ∧ d.refusal (s.trace ++ P) c = some e)

/-- Code whose every run is tracked. -/
structure Tracks {α : Type} (m : M α) : Prop where
  run : ∀ (d : Device) (s : St), Tracked d s (m d s)

/-! ## Specification of the pixel formats -/

/-- Specification: the supported logical pixel-format names (the possible values of
the `pixel-format` property, gstgencamsrc.c 206), each with the device spellings known
for it. -/
def Genicam.setPixelFormat.known : List (String × List String) :=
  [ ("mono8", ["Mono8"]),
    ("ycbcr411_8", ["YCbCr411_8"]),
    ("ycbcr422_8", ["YUV422_8", "YUV422_YUYV_Packed", "YCbCr422_8"]),
    ("rgb8", ["RGB8", "RGB8Packed"]),
    ("bgr8", ["BGR8", "BGR8Packed"]),
    ("bayerbggr", ["BayerBG8"]),
    ("bayerrggb", ["BayerRG8"]),
    ("bayergrbg", ["BayerGR8"]),
    ("bayergbrg", ["BayerGB8"]) ]

/-! ## Properties and the setters gated on their provenance -/

/-- The feature a write of any kind (a feature write or a command) is addressed to. -/
def Call.feature : Call → Option String
  | .setEnum n _ _ => some n
  | .setInteger n _ _ => some n
  | .setFloat n _ _ => some n
  | .setBoolean n _ _ => some n
  | .callCommand n _ => some n
  | _ => none

/-- The call is no write, or it is a write to a feature listed in `names`. -/
def Call.touchesOnly (names : List String) (c : Call) : Bool :=
  match c.feature with
  | none => true
  | some n => names.contains n

/-- The features a setter addresses with a write of any kind, by name (read off the
bodies of the setters). -/
def Setter.touches : Setter → List String
  | .setAcquisitionFrameRate =>
    ["AcquisitionFrameRate", "AcquisitionFrameRateAbs", "AcquisitionFrameRateEnable",
      "AcquisitionFrameRateEnabled"]
  | .setTriggerDelay => ["TriggerDelay", "TriggerDelayAbs"]
  | .setExposureMode =>
    ["ExposureMode", "AutoExposureTimeAbsLowerLimit", "AutoExposureTimeLowerLimit",
      "AutoExposureTimeAbsUpperLimit", "AutoExposureTimeUpperLimit"]
  | .setExposureTime => ["ExposureTime", "ExposureTimeAbs"]
  | .setBalanceRatio => ["BalanceRatioSelector", "BalanceRatio", "BalanceRatioAbs"]
  | .setGamma => ["GammaSelector", "GammaEnable", "GammaEnabled", "Gamma"]
  | .setBlackLevel => ["BlackLevelEnabled", "BlackLevel", "BlackLevelRaw"]
  | .setGain => ["GainRaw", "Gain"]
  | f => f.writes

/-- The features a setter addresses with a write of any kind on a platform where an
uninitialised name buffer reads as `garbage`: `setAcquisitionFrameRate` writes to the
name held by its buffer when neither frame-rate feature exists. -/
def Setter.touchesOn (garbage : String) : Setter → List String
  | .setAcquisitionFrameRate => Setter.touches .setAcquisitionFrameRate ++ [garbage]
  | f => f.touches

/-- Code that satisfies `R` on the device `d`. -/
structure SatAt {α : Type} (d : Device) (R : St → St → Prop) (m : M α) : Prop where
  run : ∀ (s : St), R s (m d s).state

/-- The call is attributed to code other than setter `f`: it is the write of 0 to an
offset or a write to `Width` or `Height` (issued by `setWidthHeight`), no write at
all, or a write to a feature that another setter addresses. -/
def Attributed (garbage : String) (f : Setter) (c : Call) : Prop :=
  c = .setInteger "OffsetX" 0 true ∨ c = .setInteger "OffsetY" 0 true ∨
  c.touchesOnly ["Width", "Height"] = true ∨
  ∃ g, g ≠ f ∧ g ≠ Setter.setWidthHeight ∧ c.touchesOnly (g.touchesOn garbage) = true

/-- From a state in which the gate of `f` is closed, only other setters are called and
every call is attributed to code other than `f`. -/
def Skips (d : Device) (f : Setter) (s s' : St) : Prop :=
  Closed f s → Ran (fun g => g ≠ f) s s' ∧ OnlyCalls (Attributed d.garbage f) s s'

open Genicam

/-! ## Basic facts about the monad and machine integers -/

theorem bind_run {α β : Type} (m : D α) (f : α → D β) (d : Device) (s : List Call) :
    (m >>= f) d s = match m d s with
      | .ok a s1 => f a d s1
      | .raise e s1 => .raise e s1 := rfl

theorem pure_run {α : Type} (a : α) (d : Device) (s : List Call) :
    (pure a : D α) d s = .ok a s := rfl

theorem toInt_of_range (x : Int) (h1 : INT_MIN ≤ x) (h2 : x ≤ INT_MAX) : toInt x = x := by
  unfold toInt wrapSigned
  unfold INT_MIN at h1
  unfold INT_MAX at h2
  norm_num
  omega

theorem toInt64_of_range (x : Int) (h1 : INT64_MIN ≤ x) (h2 : x ≤ INT64_MAX) :
    toInt64 x = x := by
  unfold toInt64 wrapSigned
  unfold INT64_MIN at h1
  unfold INT64_MAX at h2
  norm_num
  omega

theorem cMod_of_nonneg (a b : Int) (ha : 0 ≤ a) (hb : 0 ≤ b) : cMod a b = a % b := by
  unfold cMod
  exact Int.tmod_eq_emod ha hb

/-- Rounding `a` down to a multiple of `s` gives a multiple of `s`. -/
theorem sub_emod_self_emod (a s : Int) : (a - a % s) % s = 0 := by
  have h : a - a % s = s * (a / s) := by
    have := Int.emod_add_ediv a s
    omega
  rw [h]
  exact Int.mul_emod_right s (a / s)

/-- Every multiple of `s` that is at most `a` is at most `a` rounded down. -/
theorem le_sub_emod_of_multiple (a b s : Int) (hs : 0 < s) (hb : b ≤ a) (hm : b % s = 0) :
    b ≤ a - a % s := by
  have h : a - a % s = s * (a / s) := by
    have := Int.emod_add_ediv a s
    omega
  obtain ⟨k, hk⟩ := Int.dvd_of_emod_eq_zero hm
  rw [h, hk]
  have hk2 : k ≤ a / s := by
    apply Int.le_ediv_of_mul_le hs
    rw [mul_comm]
    omega
  exact Int.mul_le_mul_of_nonneg_left hk2 (le_of_lt hs)


theorem emod_le_of_nonneg (a s : Int) (ha : 0 ≤ a) (hs : 0 < s) : a % s ≤ a := by
  have h1 := Int.emod_add_ediv a s
  have h2 : 0 ≤ a / s := Int.ediv_nonneg ha (le_of_lt hs)
  have h3 : 0 ≤ s * (a / s) := Int.mul_nonneg (le_of_lt hs) h2
  omega

/-! ## `setIntFeature`: the written value -/

theorem setIntFeature_step_pos (r : IntInfo) (h : 0 ≤ r.vInc) : 0 < setIntFeature.step r := by
  unfold setIntFeature.step
  split <;> omega

/-- At or below the reported minimum the minimum is written. -/
theorem setIntFeature_capped_of_le_min (v : Int) (r : IntInfo)
    (hm1 : INT_MIN ≤ r.vMin) (hm2 : r.vMin ≤ INT_MAX) (hle : r.vMin ≤ r.vMax)
    (h : v ≤ r.vMin) : setIntFeature.capped v r = r.vMin := by
  have e := toInt_of_range r.vMin hm1 hm2
  unfold setIntFeature.capped
  simp only [gt_iff_lt, not_lt.mpr h, if_false]
  by_cases h2 : v < r.vMin
  · simp only [h2, if_true, e]
  · have h4 : ¬ r.vMax < v := by omega
    have h3 : v = r.vMin := by omega
    simp only [h2, h4, if_false]
    exact h3

/-- Above the reported minimum the request is aligned downwards, and replaced by
the last step position of the range when still above the maximum. -/
theorem setIntFeature_capped_of_gt_min (v : Int) (r : IntInfo)
    (hv1 : INT_MIN ≤ v) (hv2 : v ≤ INT_MAX)
    (hm1 : INT_MIN ≤ r.vMin) (hle : r.vMin ≤ r.vMax) (hs : 0 ≤ r.vInc)
    (h : r.vMin < v) :
    setIntFeature.capped v r =
      if r.vMax < v - (v - r.vMin) % setIntFeature.step r
      then r.vMax - (r.vMax - r.vMin) % setIntFeature.step r
      else v - (v - r.vMin) % setIntFeature.step r := by
  have hpos := setIntFeature_step_pos r hs
  have a1 : 0 ≤ (v - r.vMin) % setIntFeature.step r := Int.emod_nonneg _ (by omega)
  have a2 : (v - r.vMin) % setIntFeature.step r ≤ v - r.vMin :=
    emod_le_of_nonneg _ _ (by omega) hpos
  have b1 : 0 ≤ (r.vMax - r.vMin) % setIntFeature.step r := Int.emod_nonneg _ (by omega)
  have b2 : (r.vMax - r.vMin) % setIntFeature.step r ≤ r.vMax - r.vMin :=
    emod_le_of_nonneg _ _ (by omega) hpos
  have i1 : INT_MIN = -2147483648 := rfl
  have i2 : INT_MAX = 2147483647 := rfl
  have i3 : INT64_MIN = -9223372036854775808 := rfl
  have i4 : INT64_MAX = 9223372036854775807 := rfl
  have e1 : toInt64 (v - r.vMin) = v - r.vMin := toInt64_of_range _ (by omega) (by omega)
  have e2 : cMod (v - r.vMin) (setIntFeature.step r) = (v - r.vMin) % setIntFeature.step r :=
    cMod_of_nonneg _ _ (by omega) (by omega)
  have e3 : toInt64 (v - (v - r.vMin) % setIntFeature.step r)
      = v - (v - r.vMin) % setIntFeature.step r := toInt64_of_range _ (by omega) (by omega)
  have e4 : toInt (v - (v - r.vMin) % setIntFeature.step r)
      = v - (v - r.vMin) % setIntFeature.step r := toInt_of_range _ (by omega) (by omega)
  have n1 : ¬ v - (v - r.vMin) % setIntFeature.step r < r.vMin := by omega
  unfold setIntFeature.capped
  simp only [gt_iff_lt, h, if_true, e1, e2, e3, e4, n1, if_false]
  by_cases h2 : r.vMax < v - (v - r.vMin) % setIntFeature.step r
  · have e5 : toInt64 (r.vMax - r.vMin) = r.vMax - r.vMin :=
      toInt64_of_range _ (by omega) (by omega)
    have e6 : cMod (r.vMax - r.vMin) (setIntFeature.step r)
        = (r.vMax - r.vMin) % setIntFeature.step r := cMod_of_nonneg _ _ (by omega) (by omega)
    have e7 : toInt64 (r.vMax - (r.vMax - r.vMin) % setIntFeature.step r)
        = r.vMax - (r.vMax - r.vMin) % setIntFeature.step r :=
      toInt64_of_range _ (by omega) (by omega)
    have e8 : toInt (r.vMax - (r.vMax - r.vMin) % setIntFeature.step r)
        = r.vMax - (r.vMax - r.vMin) % setIntFeature.step r :=
      toInt_of_range _ (by omega) (by omega)
    simp only [h2, if_true, e5, e6, e7, e8]
  · simp only [h2, if_false]

/-- The only integer write of `setIntFeature` carries the capped value. -/
theorem setIntFeature_intWrites (d : Device) (s : List Call) (featureName : String) (v : Int)
    (ex : Bool) (r : IntInfo)
    (hr : d.getInteger s featureName false false = .ok r) :
    intWrites (issued s (setIntFeature featureName v ex d s))
      = [(featureName, setIntFeature.capped v r)] := by
  simp only [setIntFeature, setIntFeature.prepare, setIntFeature.commit, bind_run, pure_run,
    rcg.getInteger, rcg.setInteger, call, catchStd, hr]
  cases d.setInteger (s ++ [Call.getInteger featureName false false]) featureName
      (setIntFeature.capped v r) ex with
  | ok a =>
    simp only []
    cases d.getInteger (s ++ [Call.getInteger featureName false false] ++
      [Call.setInteger featureName (setIntFeature.capped v r) ex]) featureName false false <;>
    simp [issued, DRes.trace, intWrites, pure_run]
  | error e =>
    cases e with
    | std what =>
      simp only [pure_run]
      cases d.getInteger (s ++ [Call.getInteger featureName false false] ++
        [Call.setInteger featureName (setIntFeature.capped v r) ex]) featureName false false <;>
      simp [issued, DRes.trace, intWrites, pure_run]
    | generic what => simp [issued, DRes.trace, intWrites]
    | unknown => simp [issued, DRes.trace, intWrites]

/-! ## C1: range and alignment of the integer written by `setIntFeature` -/

/-- C1, as stated, fails: the claim quantifies over every range the device can
report (`int64_t` values), but the value is computed in an `int`.  For the request
`0` and the reported range `[2147483648, 2147483658]` with increment `1` (so
`min ≤ max` and `step ≥ 1`), line 1002 assigns the minimum to the `int` and the
value written is `-2147483648`, which is below the minimum. -/
theorem setIntFeature_write_below_min :
    ((2147483648 : Int) ≤ 2147483658 ∧ (1 : Int) ≤ 1) ∧
    intWrites (issued []
        (setIntFeature "GevSCPD" 0 false
          (Device.withRange ⟨2147483648, 2147483648, 2147483658, 1⟩)
          []))
      = [("GevSCPD", -2147483648)] ∧
    ¬ ((2147483648 : Int) ≤ -2147483648) := by
  decide

/-- C1, amended: for every requested `int` value `v` and every device-reported
range whose minimum fits in an `int`, with `min ≤ max` and `step ≥ 0` (a step of 0
counting as 1), `setIntFeature` issues exactly one integer write, to the feature
itself, and the written value `v'` satisfies `min ≤ v' ≤ max` and
`(v' - min) mod step = 0`. -/
theorem setIntFeature_write_in_range (d : Device) (s : List Call) (featureName : String)
    (v : Int) (ex : Bool) (r : IntInfo)
    (hr : d.getInteger s featureName false false = .ok r)
    (hv1 : INT_MIN ≤ v) (hv2 : v ≤ INT_MAX)
    (hm1 : INT_MIN ≤ r.vMin) (hm2 : r.vMin ≤ INT_MAX)
    (hle : r.vMin ≤ r.vMax) (hs : 0 ≤ r.vInc) :
    ∃ w : Int,
      intWrites (issued s (setIntFeature featureName v ex d s)) = [(featureName, w)] ∧
      r.vMin ≤ w ∧ w ≤ r.vMax ∧ (w - r.vMin) % setIntFeature.step r = 0 := by
  refine ⟨setIntFeature.capped v r, setIntFeature_intWrites d s featureName v ex r hr, ?_⟩
  have hpos := setIntFeature_step_pos r hs
  by_cases h : v ≤ r.vMin
  · rw [setIntFeature_capped_of_le_min v r hm1 hm2 hle h]
    refine ⟨le_refl _, hle, ?_⟩
    simp
  · have h1 : r.vMin < v := by omega
    rw [setIntFeature_capped_of_gt_min v r hv1 hv2 hm1 hle hs h1]
    have a1 : 0 ≤ (v - r.vMin) % setIntFeature.step r := Int.emod_nonneg _ (by omega)
    have a2 : (v - r.vMin) % setIntFeature.step r ≤ v - r.vMin :=
      emod_le_of_nonneg _ _ (by omega) hpos
    have b1 : 0 ≤ (r.vMax - r.vMin) % setIntFeature.step r := Int.emod_nonneg _ (by omega)
    have b2 : (r.vMax - r.vMin) % setIntFeature.step r ≤ r.vMax - r.vMin :=
      emod_le_of_nonneg _ _ (by omega) hpos
    split
    · refine ⟨by omega, by omega, ?_⟩
      have e : r.vMax - (r.vMax - r.vMin) % setIntFeature.step r - r.vMin
          = (r.vMax - r.vMin) - (r.vMax - r.vMin) % setIntFeature.step r := by omega
      rw [e]
      exact sub_emod_self_emod _ _
    · refine ⟨by omega, by omega, ?_⟩
      have e : v - (v - r.vMin) % setIntFeature.step r - r.vMin
          = (v - r.vMin) - (v - r.vMin) % setIntFeature.step r := by omega
      rw [e]
      exact sub_emod_self_emod _ _

/-- Witness for C1: request 37 on a feature reporting `[16, 100]` with increment 8. -/
theorem setIntFeature_write_in_range_witness :
    ∃ w : Int,
      intWrites (issued []
        (setIntFeature "OffsetX" 37 true (Device.withRange ⟨0, 16, 100, 8⟩)
          [])) = [("OffsetX", w)] ∧
      (16 : Int) ≤ w ∧ w ≤ 100 ∧ (w - 16) % setIntFeature.step ⟨0, 16, 100, 8⟩ = 0 :=
  setIntFeature_write_in_range (Device.withRange ⟨0, 16, 100, 8⟩)
    [] "OffsetX" 37 true ⟨0, 16, 100, 8⟩ rfl
    (by decide) (by decide) (by decide) (by decide) (by decide) (by decide)

/-! ## C2: `setIntFeature` writes the nearest legal value at or below the request -/

/-- C2, as stated, fails for ranges outside `int`: for the request `5` and the
reported range `[4294967296, 4294967304]` with increment `4` the request is below
the minimum, yet the value written is `0` and not the minimum (the assignment of
line 1002 converts the `int64_t` minimum to `int`). -/
theorem setIntFeature_write_not_min :
    ((4294967296 : Int) ≤ 4294967304 ∧ (1 : Int) ≤ 4 ∧ (5 : Int) < 4294967296) ∧
    intWrites (issued []
        (setIntFeature "TriggerDivider" 5 false
          (Device.withRange ⟨4294967296, 4294967296, 4294967304, 4⟩)
          []))
      = [("TriggerDivider", 0)] ∧
    (0 : Int) ≠ 4294967296 := by
  decide

/-- C2, amended: for every requested `int` value `v` and every device-reported
range whose minimum fits in an `int`, with `min ≤ max` and `step ≥ 0` (a step of 0
counting as 1), `setIntFeature` issues exactly one integer write, whose value `w`
is: for `min ≤ v ≤ max` the greatest `w ≤ v` with `(w - min) mod step = 0` (so `v`
itself when `v` is a step position); for `v > max` the greatest step position of
the range; for `v < min` the minimum. -/
theorem setIntFeature_write_nearest (d : Device) (s : List Call) (featureName : String)
    (v : Int) (ex : Bool) (r : IntInfo)
    (hr : d.getInteger s featureName false false = .ok r)
    (hv1 : INT_MIN ≤ v) (hv2 : v ≤ INT_MAX)
    (hm1 : INT_MIN ≤ r.vMin) (hm2 : r.vMin ≤ INT_MAX)
    (hle : r.vMin ≤ r.vMax) (hs : 0 ≤ r.vInc) :
    ∃ w : Int,
      intWrites (issued s (setIntFeature featureName v ex d s)) = [(featureName, w)] ∧
      (r.vMin ≤ v → v ≤ r.vMax →
        IsGreatest {u : Int | u ≤ v ∧ (u - r.vMin) % setIntFeature.step r = 0} w) ∧
      (r.vMin ≤ v → v ≤ r.vMax → (v - r.vMin) % setIntFeature.step r = 0 → w = v) ∧
      (r.vMax < v →
        IsGreatest {u : Int | r.vMin ≤ u ∧ u ≤ r.vMax ∧
          (u - r.vMin) % setIntFeature.step r = 0} w) ∧
      (v < r.vMin → w = r.vMin) := by
  refine ⟨setIntFeature.capped v r, setIntFeature_intWrites d s featureName v ex r hr, ?_⟩
  have hpos := setIntFeature_step_pos r hs
  have a1 : 0 ≤ (v - r.vMin) % setIntFeature.step r := Int.emod_nonneg _ (by omega)
  have b1 : 0 ≤ (r.vMax - r.vMin) % setIntFeature.step r := Int.emod_nonneg _ (by omega)
  have b2 : (r.vMax - r.vMin) % setIntFeature.step r ≤ r.vMax - r.vMin :=
    emod_le_of_nonneg _ _ (by omega) hpos
  have ea : v - (v - r.vMin) % setIntFeature.step r - r.vMin
      = (v - r.vMin) - (v - r.vMin) % setIntFeature.step r := by omega
  have eb : r.vMax - (r.vMax - r.vMin) % setIntFeature.step r - r.vMin
      = (r.vMax - r.vMin) - (r.vMax - r.vMin) % setIntFeature.step r := by omega
  by_cases h : v ≤ r.vMin
  · rw [setIntFeature_capped_of_le_min v r hm1 hm2 hle h]
    refine ⟨?_, ?_, ?_, ?_⟩
    · intro h1 _
      have hv : v = r.vMin := by omega
      constructor
      · show r.vMin ≤ v ∧ (r.vMin - r.vMin) % setIntFeature.step r = 0
        exact ⟨h1, by simp⟩
      · intro u hu
        have : u ≤ v := hu.1
        omega
    · intro h1 _ _
      omega
    · intro h1
      omega
    · intro _
      rfl
  · have h1 : r.vMin < v := by omega
    have a2 : (v - r.vMin) % setIntFeature.step r ≤ v - r.vMin :=
      emod_le_of_nonneg _ _ (by omega) hpos
    rw [setIntFeature_capped_of_gt_min v r hv1 hv2 hm1 hle hs h1]
    refine ⟨?_, ?_, ?_, ?_⟩
    · intro _ h3
      have n : ¬ r.vMax < v - (v - r.vMin) % setIntFeature.step r := by omega
      rw [if_neg n]
      constructor
      · show v - (v - r.vMin) % setIntFeature.step r ≤ v ∧
          (v - (v - r.vMin) % setIntFeature.step r - r.vMin) % setIntFeature.step r = 0
        refine ⟨by omega, ?_⟩
        rw [ea]
        exact sub_emod_self_emod _ _
      · intro u hu
        have hu1 : u ≤ v := hu.1
        have hu2 : (u - r.vMin) % setIntFeature.step r = 0 := hu.2
        have := le_sub_emod_of_multiple (v - r.vMin) (u - r.vMin) _ hpos (by omega) hu2
        omega
    · intro _ h3 h4
      have n : ¬ r.vMax < v - (v - r.vMin) % setIntFeature.step r := by omega
      rw [if_neg n, h4]
      omega
    · intro h3
      split
      · constructor
        · show r.vMin ≤ r.vMax - (r.vMax - r.vMin) % setIntFeature.step r ∧
            r.vMax - (r.vMax - r.vMin) % setIntFeature.step r ≤ r.vMax ∧
            (r.vMax - (r.vMax - r.vMin) % setIntFeature.step r - r.vMin)
              % setIntFeature.step r = 0
          refine ⟨by omega, by omega, ?_⟩
          rw [eb]
          exact sub_emod_self_emod _ _
        · intro u hu
          have hu1 : u ≤ r.vMax := hu.2.1
          have hu2 : (u - r.vMin) % setIntFeature.step r = 0 := hu.2.2
          have := le_sub_emod_of_multiple (r.vMax - r.vMin) (u - r.vMin) _ hpos (by omega) hu2
          omega
      · constructor
        · show r.vMin ≤ v - (v - r.vMin) % setIntFeature.step r ∧
            v - (v - r.vMin) % setIntFeature.step r ≤ r.vMax ∧
            (v - (v - r.vMin) % setIntFeature.step r - r.vMin) % setIntFeature.step r = 0
          refine ⟨by omega, by omega, ?_⟩
          rw [ea]
          exact sub_emod_self_emod _ _
        · intro u hu
          have hu1 : u ≤ r.vMax := hu.2.1
          have hu2 : (u - r.vMin) % setIntFeature.step r = 0 := hu.2.2
          have := le_sub_emod_of_multiple (v - r.vMin) (u - r.vMin) _ hpos (by omega) hu2
          omega
    · intro h3
      omega

/-- Witness for C2: request 1000 on a feature reporting `[16, 100]` with increment 8. -/
theorem setIntFeature_write_nearest_witness :
    ∃ w : Int,
      intWrites (issued []
        (setIntFeature "OffsetY" 1000 true (Device.withRange ⟨0, 16, 100, 8⟩)
          [])) = [("OffsetY", w)] ∧
      ((16 : Int) ≤ 1000 → (1000 : Int) ≤ 100 →
        IsGreatest {u : Int | u ≤ 1000 ∧ (u - 16) % setIntFeature.step ⟨0, 16, 100, 8⟩ = 0} w) ∧
      ((16 : Int) ≤ 1000 → (1000 : Int) ≤ 100 →
        (1000 - 16) % setIntFeature.step ⟨0, 16, 100, 8⟩ = 0 → w = 1000) ∧
      ((100 : Int) < 1000 →
        IsGreatest {u : Int | 16 ≤ u ∧ u ≤ 100 ∧
          (u - 16) % setIntFeature.step ⟨0, 16, 100, 8⟩ = 0} w) ∧
      ((1000 : Int) < 16 → w = 16) :=
  setIntFeature_write_nearest (Device.withRange ⟨0, 16, 100, 8⟩)
    [] "OffsetY" 1000 true ⟨0, 16, 100, 8⟩ rfl
    (by decide) (by decide) (by decide) (by decide) (by decide) (by decide)

/-! ## C9, C10: `isFeature` -/

theorem isFeature_probe_run {α : Type} (t : featureType) (c : Call)
    (answer : Device → List Call → Except Exc α) (d : Device) (s : List Call)
    (h : answersOrStd (answer d s) = true) :
    isFeature.probe t (call c answer) d s =
      .ok (if failsWith (isFeature.typeStr t) (answer d s) then .TYPE_NO else t)
        (s ++ [c]) := by
  unfold isFeature.probe catchStd
  simp only [bind_run, call]
  cases h1 : answer d s with
  | ok a => simp [pure_run, failsWith]
  | error e =>
    cases e with
    | std what =>
      simp only [pure_run, failsWith]
    | generic what => simp [h1, answersOrStd] at h
    | unknown => simp [h1, answersOrStd] at h

theorem isFeature_first_run (featureName : String) (d : Device) (s : List Call)
    (h : answersOrStd (d.getEnum s featureName true) = true) :
    isFeature.first featureName d s =
      .ok (if failsWith isFeature.featureStr (d.getEnum s featureName true) then none
           else if failsWith (isFeature.typeStr .TYPE_ENUM) (d.getEnum s featureName true)
           then some .TYPE_NO else some .TYPE_ENUM)
        (s ++ [.getEnum featureName true]) := by
  unfold isFeature.first catchStd rcg.getEnum
  simp only [bind_run, call]
  cases h1 : d.getEnum s featureName true with
  | ok a => simp [pure_run, failsWith]
  | error e =>
    cases e with
    | std what =>
      simp only [failsWith]
      by_cases c1 : startsWith what isFeature.featureStr = true
      · simp [c1, pure_run]
      · by_cases c2 : startsWith what (isFeature.typeStr .TYPE_ENUM) = true
        · simp [c1, c2, pure_run]
        · simp [c1, c2, pure_run]
    | generic what => simp [h1, answersOrStd] at h
    | unknown => simp [h1, answersOrStd] at h

/-- The specified type is `TYPE_CMD` exactly when every typed read is refused. -/
theorem firstAcceptedType_eq_cmd (wrong : featureType → Bool) :
    firstAcceptedType wrong = .TYPE_CMD ↔ ∀ t ∈ isFeature.order, wrong t = true := by
  unfold firstAcceptedType isFeature.order
  cases h1 : wrong .TYPE_ENUM <;> cases h2 : wrong .TYPE_INT <;>
  cases h3 : wrong .TYPE_FLOAT <;> cases h4 : wrong .TYPE_BOOL <;>
  cases h5 : wrong .TYPE_STRING <;>
  simp [List.find?, h1, h2, h3, h4, h5]

theorem firstAcceptedType_unfold (wrong : featureType → Bool) :
    firstAcceptedType wrong =
      if wrong .TYPE_ENUM = false then .TYPE_ENUM
      else if wrong .TYPE_INT = false then .TYPE_INT
      else if wrong .TYPE_FLOAT = false then .TYPE_FLOAT
      else if wrong .TYPE_BOOL = false then .TYPE_BOOL
      else if wrong .TYPE_STRING = false then .TYPE_STRING
      else .TYPE_CMD := by
  unfold firstAcceptedType isFeature.order
  cases h1 : wrong .TYPE_ENUM <;> cases h2 : wrong .TYPE_INT <;>
  cases h3 : wrong .TYPE_FLOAT <;> cases h4 : wrong .TYPE_BOOL <;>
  cases h5 : wrong .TYPE_STRING <;>
  simp [List.find?, h1, h2, h3, h4, h5]

/-- C9: for a feature that exists (the first read does not fail with "Feature not
found") and whose typed reads answer or fail with a `std::exception`, `isFeature`
called with a type output returns `true` and reports the first type, in the order
Enumeration, Integer, Float, Boolean, String, whose typed read does not fail with
that type's "wrong type" reason; it reports Command exactly when all five typed
reads fail with their "wrong type" reason. -/
theorem isFeature_reports_first_type (d : Device) (s : List Call) (featureName : String)
    (hstd : typedReadsStd d s featureName = true)
    (hex : failsWith isFeature.featureStr (d.getEnum s featureName true) = false) :
    ∃ t : featureType,
      (isFeature featureName true d s).value? = some (true, some t) ∧
      t = firstAcceptedType (typedReadFails d s featureName) ∧
      (t = .TYPE_CMD ↔ ∀ u ∈ isFeature.order, typedReadFails d s featureName u = true) := by
  refine ⟨firstAcceptedType (typedReadFails d s featureName), ?_, rfl,
    firstAcceptedType_eq_cmd _⟩
  simp only [typedReadsStd, Bool.and_eq_true] at hstd
  obtain ⟨⟨⟨⟨g1, g2⟩, g3⟩, g4⟩, g5⟩ := hstd
  rw [firstAcceptedType_unfold]
  simp only [typedReadFails]
  unfold isFeature
  rw [bind_run, isFeature_first_run featureName d s g1]
  simp only [hex]
  by_cases w1 : failsWith (isFeature.typeStr .TYPE_ENUM) (d.getEnum s featureName true) = true
  swap
  · simp [-List.append_assoc, pure_run, DRes.value?, w1]
  simp only [w1, if_true, Bool.true_and, bne_self_eq_false, Bool.false_eq_true, if_false,
    Bool.not_true, rcg.getInteger, rcg.getFloat, rcg.getBoolean, rcg.getString]
  rw [bind_run, isFeature_probe_run _ _ _ d _ g2]
  simp only []
  by_cases w2 : failsWith (isFeature.typeStr .TYPE_INT)
      (d.getInteger (s ++ [.getEnum featureName true]) featureName true false) = true
  swap
  · simp [-List.append_assoc, pure_run, DRes.value?, w2]
  simp only [w2, if_true, bne_self_eq_false, Bool.false_eq_true, if_false]
  rw [bind_run, isFeature_probe_run _ _ _ d _ g3]
  simp only []
  by_cases w3 : failsWith (isFeature.typeStr .TYPE_FLOAT)
      (d.getFloat (s ++ [.getEnum featureName true]
        ++ [.getInteger featureName true false]) featureName true false) = true
  swap
  · simp [-List.append_assoc, pure_run, DRes.value?, w3]
  simp only [w3, if_true, bne_self_eq_false, Bool.false_eq_true, if_false]
  rw [bind_run, isFeature_probe_run _ _ _ d _ g4]
  simp only []
  by_cases w4 : failsWith (isFeature.typeStr .TYPE_BOOL)
      (d.getBoolean (s ++ [.getEnum featureName true]
        ++ [.getInteger featureName true false] ++ [.getFloat featureName true false])
        featureName true false) = true
  swap
  · simp [-List.append_assoc, pure_run, DRes.value?, w4]
  simp only [w4, if_true, bne_self_eq_false, Bool.false_eq_true, if_false]
  rw [bind_run, isFeature_probe_run _ _ _ d _ g5]
  simp only []
  by_cases w5 : failsWith (isFeature.typeStr .TYPE_STRING)
      (d.getString (s ++ [.getEnum featureName true]
        ++ [.getInteger featureName true false] ++ [.getFloat featureName true false]
        ++ [.getBoolean featureName true false]) featureName true false) = true
  · simp [-List.append_assoc, pure_run, DRes.value?, w5]
  · simp [-List.append_assoc, pure_run, DRes.value?, w5]

/-- Witness for C9: on a device where the enumeration and integer reads of "Gain"
are refused as wrong type and the float read answers, Float is reported. -/
theorem isFeature_reports_first_type_witness :
    ∃ t : featureType,
      (isFeature "Gain" true Device.floatOnly []).value?
        = some (true, some t) ∧
      t = firstAcceptedType
        (typedReadFails Device.floatOnly [] "Gain") ∧
      (t = .TYPE_CMD ↔ ∀ u ∈ isFeature.order,
        typedReadFails Device.floatOnly [] "Gain" u = true) :=
  isFeature_reports_first_type Device.floatOnly [] "Gain"
    (by decide) (by decide)

/-- C10: if the first (Enumeration) typed read of a feature fails with a
`std::exception` whose text begins with "Feature not found", `isFeature` returns
`false`, the reported type (when a type output is given) is `TYPE_NO`, and the
enumeration read is the only call issued to the device. -/
theorem isFeature_not_found (d : Device) (s : List Call) (featureName : String) (fType : Bool)
    (what : String)
    (h : d.getEnum s featureName true = .error (.std what))
    (hp : startsWith what isFeature.featureStr = true) :
    (isFeature featureName fType d s).value?
        = some (false, if fType then some .TYPE_NO else none) ∧
      issued s (isFeature featureName fType d s) = [.getEnum featureName true] := by
  have g1 : answersOrStd (d.getEnum s featureName true) = true := by
    rw [h]; rfl
  have g2 : failsWith isFeature.featureStr (d.getEnum s featureName true) = true := by
    rw [h]; exact hp
  unfold isFeature
  rw [bind_run, isFeature_first_run featureName d s g1]
  simp [g2, pure_run, DRes.value?, issued, DRes.trace]

/-- Witness for C10: probing "Gain" on a device without features. -/
theorem isFeature_not_found_witness :
    (isFeature "Gain" true Device.featureless []).value?
        = some (false, if true then some .TYPE_NO else none) ∧
      issued []
        (isFeature "Gain" true Device.featureless [])
        = [.getEnum "Gain" true] :=
  isFeature_not_found Device.featureless [] "Gain" true
    "Feature not found: Gain" rfl (by decide)

/-! ## Running member functions -/

theorem mbind_run {α β : Type} (m : M α) (f : α → M β) (d : Device) (s : St) :
    (m >>= f) d s = match m d s with
      | .ok a s1 => f a d s1
      | .raise e s1 => .raise e s1 := rfl

theorem mpure_run {α : Type} (a : α) (d : Device) (s : St) :
    (pure a : M α) d s = .ok a s := rfl

theorem liftD_run {α : Type} (m : D α) (d : Device) (s : St) :
    liftD m d s = match m d s.trace with
      | .ok a t => .ok a { s with trace := t }
      | .raise e t => .raise e { s with trace := t } := rfl

theorem getParams_run (d : Device) (s : St) : getParams d s = .ok s.params s := rfl

theorem getSelf_run (d : Device) (s : St) : getSelf d s = .ok s.self s := rfl

theorem modifyParams_run (f : GencamParams → GencamParams) (d : Device) (s : St) :
    modifyParams f d s = .ok () { s with params := f s.params } := rfl

theorem modifySelf_run (f : Genicam → Genicam) (d : Device) (s : St) :
    modifySelf f d s = .ok () { s with self := f s.self } := rfl

theorem mark_run (m : Nat → Mark) (d : Device) (s : St) :
    mark m d s = .ok () { s with log := s.log ++ [m s.trace.length] } := rfl

/-! ## Rounding down to a multiple of 4 -/

theorem ldiff_zero_right (m : Nat) : Nat.ldiff m 0 = m := by
  apply Nat.eq_of_testBit_eq
  intro i
  rw [Nat.testBit_ldiff]
  simp

theorem land_neg_one (w : Int) : Int.land w (-1) = w := by
  cases w with
  | ofNat m =>
    show Int.land (Int.ofNat m) (Int.negSucc 0) = Int.ofNat m
    simp [Int.land, ldiff_zero_right]
  | negSucc m =>
    show Int.land (Int.negSucc m) (Int.negSucc 0) = Int.negSucc m
    simp [Int.land]

/-- `ROUNDED_DOWN (v, 0x4 - 1)` is `v` rounded down to a multiple of 4. -/
theorem ROUNDED_DOWN_three (v : Int) : ROUNDED_DOWN v (0x4 - 1) = roundDownToMultipleOf4 v := by
  have h3 : Int.lnot (0x4 - 1) = Int.bit false (Int.bit false (-1)) := by decide
  have hv : v = Int.bit v.bodd (Int.bit v.div2.bodd v.div2.div2) := by
    rw [Int.bit_decomp, Int.bit_decomp]
  unfold ROUNDED_DOWN roundDownToMultipleOf4
  rw [h3]
  conv_lhs => rw [hv]
  rw [Int.land_bit, Int.land_bit, land_neg_one]
  simp only [Bool.and_false, Int.bit_val, Int.div2_val, cond_false, add_zero]
  omega

/-- The value assigned to the `int` member when the request exceeds the maximum. -/
theorem toInt_ROUNDED_DOWN (vMax : Int) (h0 : INT_MIN ≤ vMax) (h1 : vMax ≤ INT_MAX) :
    toInt (ROUNDED_DOWN vMax (0x4 - 1)) = roundDownToMultipleOf4 vMax := by
  rw [ROUNDED_DOWN_three]
  unfold INT_MIN at h0
  apply toInt_of_range
  · unfold roundDownToMultipleOf4 INT_MIN; omega
  · unfold roundDownToMultipleOf4; omega

/-! ## Frame rules -/

theorem frameRel_refl (own : GencamParams → GencamParams) (w : Bool) (s : St) :
    frameRel own w s s := ⟨rfl, rfl, fun _ => rfl⟩

theorem frameRel_trans (own : GencamParams → GencamParams) (w : Bool) (a b c : St)
    (h1 : frameRel own w a b) (h2 : frameRel own w b c) : frameRel own w a c :=
  ⟨h2.1.trans h1.1, h2.2.1.trans h1.2.1, fun hw => (h2.2.2 hw).trans (h1.2.2 hw)⟩

instance frameRel_pre (own : GencamParams → GencamParams) (w : Bool) : Pre (frameRel own w) :=
  ⟨frameRel_refl own w, frameRel_trans own w⟩

theorem rule_pure {α : Type} (R : St → St → Prop) [Pre R] (a : α) :
    Sat R (pure a : M α) := ⟨fun _ s => Pre.refl s⟩

theorem rule_bind {α β : Type} (R : St → St → Prop) [Pre R]
    (m : M α) (f : α → M β)
    (h1 : Sat R m) (h2 : ∀ a, Sat R (f a)) :
    Sat R (m >>= f) := by
  constructor
  intro d s
  have e := h1.run d s
  rw [mbind_run]
  cases hm : m d s with
  | ok a s1 =>
    rw [hm] at e
    exact Pre.trans _ _ _ e ((h2 a).run d s1)
  | raise x s1 =>
    rw [hm] at e
    exact e

theorem rule_mono {α : Type} (R R' : St → St → Prop) (m : M α)
    (h : ∀ s s', R s s' → R' s s') (hm : Sat R m) : Sat R' m :=
  ⟨fun d s => h _ _ (hm.run d s)⟩

theorem rule_tryAllM {α : Type} (R : St → St → Prop) (m : M α) (hm : Sat R m) :
    Sat R (tryAllM m) := by
  constructor
  intro d s
  have e := hm.run d s
  unfold tryAllM
  cases hr : m d s with
  | ok a s1 => rw [hr] at e; exact e
  | raise x s1 => rw [hr] at e; exact e

theorem sat_pure {α : Type} (own : GencamParams → GencamParams) (w : Bool) (a : α) :
    Sat (frameRel own w) (pure a : M α) := rule_pure _ a

theorem sat_bind {α β : Type} (own : GencamParams → GencamParams) (w : Bool)
    (m : M α) (f : α → M β)
    (h1 : Sat (frameRel own w) m) (h2 : ∀ a, Sat (frameRel own w) (f a)) :
    Sat (frameRel own w) (m >>= f) := rule_bind _ m f h1 h2

theorem sat_liftD {α : Type} (own : GencamParams → GencamParams) (w : Bool) (m : D α) :
    Sat (frameRel own w) (liftD m) := by
  constructor
  intro d s
  rw [liftD_run]
  cases m d s.trace <;> exact ⟨rfl, rfl, fun _ => rfl⟩

theorem sat_getParams (own : GencamParams → GencamParams) (w : Bool) :
    Sat (frameRel own w) getParams := ⟨fun _ s => frameRel_refl own w s⟩

theorem sat_getSelf (own : GencamParams → GencamParams) (w : Bool) :
    Sat (frameRel own w) getSelf := ⟨fun _ s => frameRel_refl own w s⟩

theorem sat_modifyParams (own : GencamParams → GencamParams) (w : Bool)
    (f : GencamParams → GencamParams) (h : ∀ p, own (f p).blank = own p.blank) :
    Sat (frameRel own w) (modifyParams f) := ⟨fun _ s => ⟨rfl, h s.params, fun _ => rfl⟩⟩

theorem sat_modifySelf (own : GencamParams → GencamParams) (w : Bool)
    (f : Genicam → Genicam) (h : w = true → ∀ g, (f g).offsetXYwritable = g.offsetXYwritable) :
    Sat (frameRel own w) (modifySelf f) := ⟨fun _ s => ⟨rfl, rfl, fun hw => h hw s.self⟩⟩

theorem sat_setIntFeatureOn (own : GencamParams → GencamParams) (w : Bool)
    (name : String) (get : GencamParams → Int) (set : Int → GencamParams → GencamParams)
    (ex : Bool) (h : ∀ v p, own (set v p).blank = own p.blank) :
    Sat (frameRel own w) (setIntFeatureOn name get set ex) := by
  unfold setIntFeatureOn
  apply sat_bind; exact sat_getParams own w
  intro p
  apply sat_bind; exact sat_liftD own w _
  intro v
  apply sat_bind; exact sat_modifyParams own w _ (h v)
  intro _
  exact sat_liftD own w _

theorem sat_setFloatFeatureOn (own : GencamParams → GencamParams) (w : Bool)
    (name : String) (get : GencamParams → CFloat) (set : CFloat → GencamParams → GencamParams)
    (ex : Bool) (h : ∀ v p, own (set v p).blank = own p.blank) :
    Sat (frameRel own w) (setFloatFeatureOn name get set ex) := by
  unfold setFloatFeatureOn
  apply sat_bind; exact sat_getParams own w
  intro p
  apply sat_bind; exact sat_liftD own w _
  intro v
  apply sat_bind; exact sat_modifyParams own w _ (h v)
  intro _
  exact sat_liftD own w _

set_option linter.unusedTactic false in
set_option linter.unreachableTactic false in
/-- `Stop` changes neither the parameters nor the record of setter calls. -/
theorem sat_Stop (own : GencamParams → GencamParams) (w : Bool) :
    Sat (frameRel own w) Stop := by
  unfold Stop
  repeat' first
    | exact sat_pure _ _ _
    | exact sat_liftD _ _ _
    | exact sat_getParams _ _
    | exact sat_getSelf _ _
    | apply sat_bind
    | (apply sat_setIntFeatureOn; intro v p; rfl)
    | (apply sat_setFloatFeatureOn; intro v p; rfl)
    | (apply sat_modifyParams; intro p; rfl)
    | (apply sat_modifySelf; intro _ g; rfl)
    | (apply sat_modifySelf; intro h; cases h)
    | split
    | intro _
    | dsimp only

set_option linter.unusedTactic false in
set_option linter.unreachableTactic false in
/-- `setWidthHeight` assigns the parameters `width` and `height` only. -/
theorem sat_setWidthHeight :
    Sat (frameRel (Setter.own .setWidthHeight) false) setWidthHeight := by
  unfold setWidthHeight setWidthHeight.offsets setWidthHeight.maxima setWidthHeight.cap
    setWidthHeight.write setWidthHeight.report
  repeat' first
    | exact sat_pure _ _ _
    | exact sat_liftD _ _ _
    | exact sat_getParams _ _
    | exact sat_getSelf _ _
    | exact sat_Stop _ _
    | apply sat_bind
    | (apply sat_setIntFeatureOn; intro v p; rfl)
    | (apply sat_setFloatFeatureOn; intro v p; rfl)
    | (apply sat_modifyParams; intro p; rfl)
    | (apply sat_modifySelf; intro _ g; rfl)
    | (apply sat_modifySelf; intro h; cases h)
    | split
    | intro _
    | dsimp only

set_option linter.unusedTactic false in
set_option linter.unreachableTactic false in
set_option maxHeartbeats 1600000 in
/-- Every setter other than `setWidthHeight` leaves the record of setter calls, the
member `offsetXYwritable` and the parameters unchanged, except for the parameter
it assigns itself and the parameters no guard reads. -/
theorem sat_Setter_run (f : Setter) (hf : f ≠ .setWidthHeight) :
    Sat (frameRel f.own true) f.run := by
  cases f
  case setWidthHeight => exact absurd rfl hf
  all_goals unfold Setter.run
  all_goals
    repeat' first
      | exact sat_pure _ _ _
      | exact sat_liftD _ _ _
      | exact sat_getParams _ _
      | exact sat_getSelf _ _
      | exact sat_Stop _ _
      | apply sat_bind
      | (apply sat_setIntFeatureOn; intro v p; rfl)
      | (apply sat_setFloatFeatureOn; intro v p; rfl)
      | (apply sat_modifyParams; intro p; rfl)
      | (apply sat_modifySelf; intro _ g; rfl)
      | (apply sat_modifySelf; intro h; cases h)
      | split
      | intro _
      | dsimp only
      | unfold setBinningMode

/-! ## Guards and provenance under the frames -/

set_option maxHeartbeats 1600000 in
/-- The guard of a setter does not read the parameter another setter assigns. -/
theorem guard_own_blank (f g : Setter) (h : f ≠ g) (p : GencamParams) (w : Bool) :
    f.guard (g.own p.blank) w = f.guard p w := by
  cases f <;> cases g <;> first | rfl | exact absurd rfl h

theorem guard_blank (f : Setter) (p : GencamParams) (w : Bool) :
    f.guard p.blank w = f.guard p w := by
  cases f <;> rfl

theorem own_blank_propertyHolder (g : Setter) (p : GencamParams) :
    (g.own p.blank).propertyHolder = p.propertyHolder := by
  cases g <;> rfl

theorem own_blank_useDefaultProperties (g : Setter) (p : GencamParams) :
    (g.own p.blank).useDefaultProperties = p.useDefaultProperties := by
  cases g <;> rfl

/-! ## The invariant `Ran` -/

theorem ran_refl (P : Setter → Prop) (s : St) : Ran P s s :=
  ⟨⟨[], by simp, by simp⟩, rfl, rfl, fun _ _ _ => rfl, fun _ => rfl⟩

theorem ran_trans (P : Setter → Prop) (a b c : St) (h1 : Ran P a b) (h2 : Ran P b c) :
    Ran P a c := by
  obtain ⟨⟨m1, e1, p1⟩, q1, u1, g1, w1⟩ := h1
  obtain ⟨⟨m2, e2, p2⟩, q2, u2, g2, w2⟩ := h2
  refine ⟨⟨m1 ++ m2, ?_, ?_⟩, q2.trans q1, u2.trans u1, ?_, ?_⟩
  · rw [e2, e1, List.append_assoc]
  · intro m hm
    rcases List.mem_append.mp hm with h | h
    · exact p1 m h
    · exact p2 m h
  · intro f hf w
    rw [g2 f hf w, g1 f hf w]
  · intro h
    rw [w2 h, w1 h]

instance ran_pre (P : Setter → Prop) : Pre (Ran P) := ⟨ran_refl P, ran_trans P⟩

theorem ran_mono (P Q : Setter → Prop) (h : ∀ f, P f → Q f) (s s' : St) (hr : Ran P s s') :
    Ran Q s s' := by
  obtain ⟨⟨m1, e1, p1⟩, q1, u1, g1, w1⟩ := hr
  exact ⟨⟨m1, e1, fun m hm => h _ (p1 m hm)⟩, q1, u1,
    fun f hf w => g1 f (fun hp => hf (h f hp)) w, fun hw => w1 (fun hp => hw (h _ hp))⟩

/-- A setter's frame gives the invariant for the setter itself, with no new mark. -/
theorem ran_of_frame (g : Setter) (w : Bool) (s s' : St) (h : frameRel g.own w s s')
    (hw : w = true ∨ g = .setWidthHeight) :
    Ran (fun f => f = g) s s' ∧ s'.log = s.log := by
  obtain ⟨hl, hp, hwr⟩ := h
  refine ⟨⟨⟨[], by simp [hl], by simp⟩, ?_, ?_, ?_, ?_⟩, hl⟩
  · have := congrArg GencamParams.propertyHolder hp
    rwa [own_blank_propertyHolder, own_blank_propertyHolder] at this
  · have := congrArg GencamParams.useDefaultProperties hp
    rwa [own_blank_useDefaultProperties, own_blank_useDefaultProperties] at this
  · intro f hf v
    rw [← guard_own_blank f g hf s'.params v, ← guard_own_blank f g hf s.params v, hp]
  · intro hne
    rcases hw with hw | hw
    · exact hwr hw
    · exact absurd hw.symm hne

/-- Code that assigns no parameter a guard reads satisfies the invariant for no
setter at all. -/
theorem ran_of_frame_id (s s' : St) (h : frameRel id true s s') :
    Ran (fun _ => False) s s' := by
  obtain ⟨hl, hp, hwr⟩ := h
  simp only [id] at hp
  refine ⟨⟨[], by simp [hl], by simp⟩, ?_, ?_, ?_, ?_⟩
  · have := congrArg GencamParams.propertyHolder hp
    exact this
  · have := congrArg GencamParams.useDefaultProperties hp
    exact this
  · intro f _ v
    rw [← guard_blank f s'.params v, ← guard_blank f s.params v, hp]
  · intro _
    exact hwr rfl

/-! ## Calls of setters made by `Start` -/

/-- Running the body of a setter: the invariant holds for the setter itself and the
record of setter calls is not touched. -/
theorem run_ran (f : Setter) (d : Device) (s : St) :
    Ran (fun g => g = f) s (f.run d s).state ∧ (f.run d s).state.log = s.log := by
  by_cases hf : f = .setWidthHeight
  · subst hf
    exact ran_of_frame _ false _ _ (sat_setWidthHeight.run d s) (Or.inr rfl)
  · exact ran_of_frame _ true _ _ ((sat_Setter_run f hf).run d s) (Or.inl rfl)

/-- A recorded call of setter `f`: the record grows by the entry mark and, when the
setter returns, by the return mark carrying its result. -/
theorem invoke_spec (f : Setter) (d : Device) (s : St) :
    Ran (fun g => g = f) s (invoke f d s).state ∧
    (∀ b s', invoke f d s = .ok b s' →
      ∃ p q, s'.log = s.log ++ [.enter f p, .leave f b q]) ∧
    (∀ e s', invoke f d s = .raise e s' → ∃ p, s'.log = s.log ++ [.enter f p]) := by
  have hr := run_ran f d { s with log := s.log ++ [.enter f s.trace.length] }
  simp only [invoke, mbind_run, mark_run, mpure_run]
  cases hrun : f.run d { s with log := s.log ++ [.enter f s.trace.length] } with
  | ok b s1 =>
    rw [hrun] at hr
    obtain ⟨⟨⟨ms, e1, p1⟩, q1, u1, g1, w1⟩, hl⟩ := hr
    simp only [Res.state] at hl q1 u1 g1 w1
    refine ⟨⟨⟨[.enter f s.trace.length, .leave f b s1.trace.length], ?_, ?_⟩,
      q1, u1, g1, w1⟩, ?_, ?_⟩
    · simp [Res.state, hl]
    · intro m hm
      simp only [List.mem_cons, List.mem_singleton, List.not_mem_nil, or_false] at hm
      rcases hm with h | h <;> rw [h] <;> rfl
    · intro b' s' h
      simp only [Res.ok.injEq] at h
      obtain ⟨hb, hs⟩ := h
      subst hb
      subst hs
      exact ⟨s.trace.length, s1.trace.length, by simp [hl]⟩
    · intro e s' h
      simp at h
  | raise e s1 =>
    rw [hrun] at hr
    obtain ⟨⟨⟨ms, e1, p1⟩, q1, u1, g1, w1⟩, hl⟩ := hr
    simp only [Res.state] at hl q1 u1 g1 w1
    refine ⟨⟨⟨[.enter f s.trace.length], ?_, ?_⟩, q1, u1, g1, w1⟩, ?_, ?_⟩
    · simp [Res.state, hl]
    · intro m hm
      simp only [List.mem_singleton] at hm
      rw [hm]; rfl
    · intro b' s' h
      simp at h
    · intro e' s' h
      simp only [Res.raise.injEq] at h
      obtain ⟨_, hs⟩ := h
      subst hs
      exact ⟨s.trace.length, hl⟩

/-! ## Rules for relations that hold across code calling no setter -/

instance ran_lifts (P : Setter → Prop) : Lifts (Ran P) where
  ofRan := fun s s' h => ran_mono _ _ (fun _ hf => absurd hf id) s s' h

theorem lift_frame {α : Type} (R : St → St → Prop) [Lifts R] (m : M α)
    (h : Sat (frameRel id true) m) : Sat R m :=
  ⟨fun d s => Lifts.ofRan _ _ (ran_of_frame_id _ _ (h.run d s))⟩

theorem lift_liftD {α : Type} (R : St → St → Prop) [Lifts R] (m : D α) :
    Sat R (liftD m) := lift_frame R _ (sat_liftD id true m)

theorem lift_getParams (R : St → St → Prop) [Lifts R] : Sat R getParams :=
  lift_frame R _ (sat_getParams id true)

theorem lift_getSelf (R : St → St → Prop) [Lifts R] : Sat R getSelf :=
  lift_frame R _ (sat_getSelf id true)

theorem lift_modifyParams (R : St → St → Prop) [Lifts R] (f : GencamParams → GencamParams)
    (h : ∀ p, (f p).blank = p.blank) : Sat R (modifyParams f) :=
  lift_frame R _ (sat_modifyParams id true f h)

theorem lift_modifySelf (R : St → St → Prop) [Lifts R] (f : Genicam → Genicam)
    (h : ∀ g, (f g).offsetXYwritable = g.offsetXYwritable) : Sat R (modifySelf f) :=
  lift_frame R _ (sat_modifySelf id true f (fun _ => h))

theorem lift_Stop (R : St → St → Prop) [Lifts R] : Sat R Stop :=
  lift_frame R _ (sat_Stop id true)

set_option linter.unusedTactic false in
set_option linter.unreachableTactic false in
theorem sat_getCameraInfo : Sat (frameRel id true) getCameraInfo := by
  unfold getCameraInfo
  repeat' first
    | exact sat_pure _ _ _
    | exact sat_liftD _ _ _
    | apply sat_bind
    | (apply sat_modifySelf; intro _ g; rfl)
    | split
    | intro _
    | dsimp only

set_option linter.unusedTactic false in
set_option linter.unreachableTactic false in
theorem sat_getCameraSerialNumber : Sat (frameRel id true) getCameraSerialNumber := by
  unfold getCameraSerialNumber
  repeat' first
    | exact sat_pure _ _ _
    | exact sat_liftD _ _ _
    | exact sat_getSelf _ _
    | apply sat_bind
    | (apply sat_modifySelf; intro _ g; rfl)
    | (apply sat_modifyParams; intro p; rfl)
    | split
    | intro _
    | dsimp only

/-! ## C7: a property left at its default is not applied -/

theorem closed_of_ran (f : Setter) (P : Setter → Prop) (s s' : St) (h : Ran P s s')
    (hc : Closed f s) : Closed f s' := by
  obtain ⟨hs, e, hp, hu⟩ := hc
  obtain ⟨_, q1, u1, _, _⟩ := h
  exact ⟨hs, e, fun i hi => by rw [q1]; exact hp i hi, by rw [u1]; exact hu⟩

instance notCalled_lifts (f : Setter) : Lifts (NotCalled f) where
  refl := fun s _ => ran_refl _ s
  trans := fun a b c h1 h2 hc =>
    ran_trans _ a b c (h1 hc) (h2 (closed_of_ran f _ a b (h1 hc) hc))
  ofRan := fun s s' h _ => ran_mono _ _ (fun _ hf => absurd hf id) s s' h

/-- A recorded call of a setter other than `f`, or of a setter that `Start` calls
without consulting provenance. -/
theorem notCalled_invoke (f g : Setter) (h : g ≠ f ∨ g.holders = none) :
    Sat (NotCalled f) (invoke g) := by
  constructor
  intro d s hc
  have hne : g ≠ f := by
    rcases h with h | h
    · exact h
    · intro e
      obtain ⟨hs, e1, _⟩ := hc
      rw [← e, h] at e1
      cases e1
  exact ran_mono _ _ (fun x hx => by rw [hx]; exact hne) _ _ (invoke_spec g d s).1

/-- A guarded setter call: with the gate of `f` closed the call of `f` is skipped. -/
theorem notCalled_exec (f g : Setter) : Sat (NotCalled f) g.exec := by
  by_cases hgf : g = f
  · subst hgf
    constructor
    intro d s hc
    obtain ⟨hs, e1, hp, hu⟩ := hc
    have hany : (hs.any fun i => s.params.propertyHolder i != -1) = false := by
      rw [List.any_eq_false]
      intro i hi
      simp [hp i hi]
    simp only [Setter.exec, mbind_run, getParams_run, getSelf_run, e1, hany, hu]
    split <;> exact ran_refl _ _
  · unfold Setter.exec
    have hi := notCalled_invoke f g (Or.inl hgf)
    repeat' first
      | exact rule_pure _ _
      | exact lift_getParams _
      | exact lift_getSelf _
      | exact hi
      | apply rule_bind
      | split
      | intro _

theorem notCalled_runSteps (f : Setter) (L : List Setter) : Sat (NotCalled f) (runSteps L) := by
  induction L with
  | nil => exact rule_pure _ _
  | cons g rest ih =>
    unfold runSteps
    exact rule_bind _ _ _ (notCalled_exec f g) (fun _ => ih)

set_option linter.unusedTactic false in
set_option linter.unreachableTactic false in
theorem notCalled_configure (f : Setter) : Sat (NotCalled f) Start.configure := by
  unfold Start.configure
  repeat' first
    | exact rule_pure _ _
    | exact lift_getParams _
    | exact notCalled_runSteps f _
    | exact notCalled_invoke f _ (Or.inr rfl)
    | apply rule_bind
    | split
    | intro _
    | dsimp only

set_option linter.unusedTactic false in
set_option linter.unreachableTactic false in
theorem notCalled_stream (f : Setter) : Sat (NotCalled f) Start.stream := by
  unfold Start.stream Start.trigger
  repeat' first
    | exact rule_pure _ _
    | exact lift_getSelf _
    | exact lift_liftD _ _
    | exact notCalled_invoke f _ (Or.inr rfl)
    | (apply lift_modifyParams; intro p; rfl)
    | (apply lift_modifySelf; intro g; rfl)
    | apply rule_bind
    | split
    | intro _
    | dsimp only

set_option linter.unusedTactic false in
set_option linter.unreachableTactic false in
theorem notCalled_open (f : Setter) : Sat (NotCalled f) Start.open := by
  unfold Start.open
  repeat' first
    | exact rule_pure _ _
    | exact lift_getParams _
    | exact lift_liftD _ _
    | exact lift_frame _ _ sat_getCameraInfo
    | exact lift_frame _ _ sat_getCameraSerialNumber
    | (apply lift_modifySelf; intro g; rfl)
    | apply rule_bind
    | split
    | intro _
    | dsimp only

set_option linter.unusedTactic false in
set_option linter.unreachableTactic false in
theorem notCalled_finish (f : Setter) : Sat (NotCalled f) Start.finish := by
  unfold Start.finish Start.acquire
  repeat' first
    | exact rule_pure _ _
    | exact lift_liftD _ _
    | exact notCalled_runSteps f _
    | exact notCalled_stream f
    | (apply lift_modifySelf; intro g; rfl)
    | apply rule_bind
    | split
    | intro _
    | dsimp only

set_option linter.unusedTactic false in
set_option linter.unreachableTactic false in
theorem notCalled_Start (f : Setter) : Sat (NotCalled f) Start := by
  unfold Start
  repeat' first
    | exact rule_pure _ _
    | exact lift_Stop _
    | exact notCalled_open f
    | exact notCalled_finish f
    | exact rule_tryAllM _ _ (notCalled_configure f)
    | apply rule_bind
    | split
    | intro _
    | dsimp only

theorem marksBy_of_log {α : Type} (s : St) (r : Res α) (ms : List Mark)
    (h : r.state.log = s.log ++ ms) : marksBy s r = ms := by
  unfold marksBy
  rw [h]
  exact List.drop_left _ _

/-- C7, as stated, fails: with every property left at its default (every entry
of `propertyHolder` is `-1`) and `useDefaultProperties = false`, `Start` still
writes the default width, height and pixel format to the device, and it writes `0`
to `OffsetX` and `OffsetY`. -/
theorem Start_writes_defaults :
    (gst_gencamsrc_init.propertyHolder 2 = -1 ∧ gst_gencamsrc_init.propertyHolder 3 = -1 ∧
      gst_gencamsrc_init.propertyHolder 4 = -1 ∧ gst_gencamsrc_init.propertyHolder 5 = -1 ∧
      gst_gencamsrc_init.propertyHolder 6 = -1 ∧
      gst_gencamsrc_init.useDefaultProperties = false) ∧
    Call.setInteger "OffsetX" 0 true ∈
      (Start (Device.camera ⟨0, 16, 9999, 1⟩ ["Mono8"]) (St.init gst_gencamsrc_init)).state.trace ∧
    Call.setInteger "OffsetY" 0 true ∈
      (Start (Device.camera ⟨0, 16, 9999, 1⟩ ["Mono8"]) (St.init gst_gencamsrc_init)).state.trace ∧
    Call.setInteger "Width" 7680 true ∈
      (Start (Device.camera ⟨0, 16, 9999, 1⟩ ["Mono8"]) (St.init gst_gencamsrc_init)).state.trace ∧
    Call.setInteger "Height" 4320 true ∈
      (Start (Device.camera ⟨0, 16, 9999, 1⟩ ["Mono8"]) (St.init gst_gencamsrc_init)).state.trace ∧
    Call.setEnum "PixelFormat" "Mono8" true ∈
      (Start (Device.camera ⟨0, 16, 9999, 1⟩ ["Mono8"]) (St.init gst_gencamsrc_init)).state.trace := by
  decide!

/-! ## C6: only the load-bearing steps decide the result of `Start` -/

theorem ran_invoke (f : Setter) : Sat (Ran (fun g => g = f)) (invoke f) :=
  ⟨fun d s => (invoke_spec f d s).1⟩

set_option linter.unusedTactic false in
set_option linter.unreachableTactic false in
theorem ran_exec (f : Setter) : Sat (Ran (fun g => g = f)) f.exec := by
  unfold Setter.exec
  repeat' first
    | exact rule_pure _ _
    | exact lift_getParams _
    | exact lift_getSelf _
    | exact ran_invoke f
    | apply rule_bind
    | split
    | intro _

theorem ran_runSteps (L : List Setter) : Sat (Ran (fun g => g ∈ L)) (runSteps L) := by
  induction L with
  | nil => exact rule_pure _ _
  | cons g rest ih =>
    unfold runSteps
    apply rule_bind
    · exact rule_mono _ _ _ (ran_mono _ _ (fun x hx => by rw [hx]; exact List.mem_cons_self _ _))
        (ran_exec g)
    · intro _
      exact rule_mono _ _ _ (ran_mono _ _ (fun x hx => List.mem_cons_of_mem _ hx)) ih

theorem isLeave_setter (f : Setter) (b : Bool) (m : Mark) (h : m.isLeave f b = true) :
    m.setter = f := by
  cases m with
  | enter g p => simp [Mark.isLeave] at h
  | leave g r p =>
    simp only [Mark.isLeave, Bool.and_eq_true, decide_eq_true_eq] at h
    exact h.1

theorem bind_ok {α β : Type} (m : M α) (f : α → M β) (d : Device) (s s' : St) (b : β)
    (h : (m >>= f) d s = .ok b s') :
    ∃ a s1, m d s = .ok a s1 ∧ f a d s1 = .ok b s' := by
  rw [mbind_run] at h
  cases hm : m d s with
  | ok a s1 =>
    rw [hm] at h
    exact ⟨a, s1, rfl, h⟩
  | raise e s1 =>
    rw [hm] at h
    cases h

theorem configure_run (d : Device) (s : St) :
    Start.configure d s =
      if s.params.deviceReset = true then
        (match invoke .resetDevice d s with
          | .ok r s1 => .ok (some r) s1
          | .raise e s1 => .raise e s1)
      else
        (match runSteps Start.binning d s with
          | .raise e s1 => .raise e s1
          | .ok _ s1 =>
            match invoke .setWidthHeight d s1 with
            | .raise e s2 => .raise e s2
            | .ok ok s2 =>
              if ok = false then .ok (some false) s2
              else
                match invoke .setPixelFormat d s2 with
                | .raise e s3 => .raise e s3
                | .ok ok2 s3 => if ok2 = false then .ok (some false) s3 else .ok none s3) := by
  cases h : s.params.deviceReset
  · simp only [Start.configure, mbind_run, getParams_run, h, Bool.false_eq_true, if_false]
    cases runSteps Start.binning d s with
    | raise e s1 => rfl
    | ok u s1 =>
      simp only []
      cases invoke .setWidthHeight d s1 with
      | raise e s2 => rfl
      | ok b s2 =>
        cases b
        · rfl
        · simp only [Bool.not_true, Bool.false_eq_true, Bool.true_eq_false, if_false, mbind_run]
          cases invoke .setPixelFormat d s2 with
          | raise e s3 => rfl
          | ok b2 s3 => cases b2 <;> rfl
  · simp only [Start.configure, mbind_run, getParams_run, h, if_true]
    cases invoke .resetDevice d s <;> rfl

/-- Unless the configuration block falls through, the marks it records do not show both
load-bearing steps returning `true`. -/
theorem configure_not_both (d : Device) (s : St) :
    (∃ s', Start.configure d s = .ok none s') ∨
    (∃ ms, (Start.configure d s).state.log = s.log ++ ms ∧
      ¬ ((∃ m ∈ ms, m.isLeave .setWidthHeight true = true) ∧
         (∃ m ∈ ms, m.isLeave .setPixelFormat true = true))) := by
  rw [configure_run]
  by_cases hreset : s.params.deviceReset = true
  · right
    rw [if_pos hreset]
    obtain ⟨⟨ms, e, hm⟩, _⟩ := (invoke_spec .resetDevice d s).1
    refine ⟨ms, ?_, ?_⟩
    · cases hr : invoke .resetDevice d s <;> rw [hr] at e <;> exact e
    · rintro ⟨⟨m, hmem, hl⟩, _⟩
      have h1 := isLeave_setter _ _ _ hl
      have h2 := hm m hmem
      rw [h1] at h2
      cases h2
  · rw [if_neg hreset]
    obtain ⟨⟨ms0, e0, hm0⟩, _⟩ := (ran_runSteps Start.binning).run d s
    have hb0 : ∀ m ∈ ms0, m.setter ≠ .setWidthHeight ∧ m.setter ≠ .setPixelFormat := by
      intro m hmem
      have := hm0 m hmem
      constructor <;> intro e <;> rw [e] at this <;> simp [Start.binning] at this
    cases hsteps : runSteps Start.binning d s with
    | raise e s1 =>
      right
      rw [hsteps] at e0
      refine ⟨ms0, e0, ?_⟩
      rintro ⟨⟨m, hmem, hl⟩, _⟩
      exact (hb0 m hmem).1 (isLeave_setter _ _ _ hl)
    | ok u s1 =>
      rw [hsteps] at e0
      simp only [Res.state] at e0
      simp only []
      obtain ⟨_, hok1, hraise1⟩ := invoke_spec .setWidthHeight d s1
      cases hwh : invoke .setWidthHeight d s1 with
      | raise e s2 =>
        right
        obtain ⟨p, e1⟩ := hraise1 e s2 hwh
        refine ⟨ms0 ++ [.enter .setWidthHeight p], by simp [Res.state, e1, e0], ?_⟩
        rintro ⟨⟨m, hmem, hl⟩, _⟩
        rcases List.mem_append.mp hmem with h | h
        · exact (hb0 m h).1 (isLeave_setter _ _ _ hl)
        · simp only [List.mem_singleton] at h
          rw [h] at hl
          simp [Mark.isLeave] at hl
      | ok b s2 =>
        obtain ⟨p, q, e1⟩ := hok1 b s2 hwh
        simp only []
        cases b with
        | false =>
          right
          refine ⟨ms0 ++ [.enter .setWidthHeight p, .leave .setWidthHeight false q],
            by simp [Res.state, e1, e0], ?_⟩
          rintro ⟨⟨m, hmem, hl⟩, _⟩
          rcases List.mem_append.mp hmem with h | h
          · exact (hb0 m h).1 (isLeave_setter _ _ _ hl)
          · simp only [List.mem_cons, List.mem_singleton, List.not_mem_nil, or_false] at h
            rcases h with h | h <;> rw [h] at hl <;> simp [Mark.isLeave] at hl
        | true =>
          simp only [Bool.true_eq_false, if_false]
          obtain ⟨_, hok2, hraise2⟩ := invoke_spec .setPixelFormat d s2
          cases hpf : invoke .setPixelFormat d s2 with
          | raise e s3 =>
            right
            obtain ⟨p2, e2⟩ := hraise2 e s3 hpf
            refine ⟨ms0 ++ [.enter .setWidthHeight p, .leave .setWidthHeight true q]
              ++ [.enter .setPixelFormat p2], by simp [Res.state, e2, e1, e0], ?_⟩
            rintro ⟨_, ⟨m, hmem, hl⟩⟩
            rcases List.mem_append.mp hmem with h | h
            · rcases List.mem_append.mp h with h | h
              · exact (hb0 m h).2 (isLeave_setter _ _ _ hl)
              · simp only [List.mem_cons, List.mem_singleton, List.not_mem_nil, or_false] at h
                rcases h with h | h <;> rw [h] at hl <;> simp [Mark.isLeave] at hl
            · simp only [List.mem_singleton] at h
              rw [h] at hl
              simp [Mark.isLeave] at hl
          | ok b2 s3 =>
            obtain ⟨p2, q2, e2⟩ := hok2 b2 s3 hpf
            simp only []
            cases b2 with
            | true =>
              left
              exact ⟨s3, by simp⟩
            | false =>
              right
              refine ⟨ms0 ++ [.enter .setWidthHeight p, .leave .setWidthHeight true q]
                ++ [.enter .setPixelFormat p2, .leave .setPixelFormat false q2],
                by simp [Res.state, e2, e1, e0], ?_⟩
              rintro ⟨_, ⟨m, hmem, hl⟩⟩
              rcases List.mem_append.mp hmem with h | h
              · rcases List.mem_append.mp h with h | h
                · exact (hb0 m h).2 (isLeave_setter _ _ _ hl)
                · simp only [List.mem_cons, List.mem_singleton, List.not_mem_nil, or_false] at h
                  rcases h with h | h <;> rw [h] at hl <;> simp [Mark.isLeave] at hl
              · simp only [List.mem_cons, List.mem_singleton, List.not_mem_nil, or_false] at h
                rcases h with h | h <;> rw [h] at hl <;> simp [Mark.isLeave] at hl

theorem log_of_ran_none (s s' : St) (h : Ran (fun _ => False) s s') : s'.log = s.log := by
  obtain ⟨⟨ms, e, hm⟩, _⟩ := h
  cases ms with
  | nil => simpa using e
  | cons m rest => exact (hm m (List.mem_cons_self _ _)).elim

set_option linter.unusedTactic false in
set_option linter.unreachableTactic false in
theorem lifts_open (R : St → St → Prop) [Lifts R] : Sat R Start.open := by
  unfold Start.open
  repeat' first
    | exact rule_pure _ _
    | exact lift_getParams _
    | exact lift_liftD _ _
    | exact lift_frame _ _ sat_getCameraInfo
    | exact lift_frame _ _ sat_getCameraSerialNumber
    | (apply lift_modifySelf; intro g; rfl)
    | apply rule_bind
    | split
    | intro _
    | dsimp only

theorem Start_run (d : Device) (s : St) :
    Start d s =
      match Start.open d s with
      | .raise e s0 => .raise e s0
      | .ok dev s0 =>
        if dev = true then
          match Start.configure d s0 with
          | .raise _ s1 =>
            (match Stop d s1 with
              | .ok _ s2 => .ok false s2
              | .raise e s2 => .raise e s2)
          | .ok (some b) s1 => .ok b s1
          | .ok none s1 =>
            (match Start.finish d s1 with
              | .ok _ s2 => .ok true s2
              | .raise e s2 => .raise e s2)
        else .ok false s0 := by
  simp only [Start, mbind_run]
  cases Start.open d s with
  | raise e s0 => rfl
  | ok dev s0 =>
    cases dev
    · rfl
    · simp only [if_true, mbind_run, tryAllM]
      cases Start.configure d s0 with
      | raise e s1 =>
        simp only [mbind_run]
        cases Stop d s1 <;> rfl
      | ok r s1 =>
        cases r with
        | none =>
          simp only [mbind_run]
          cases Start.finish d s1 <;> rfl
        | some b => rfl

/-- C6: whenever `Start` raises no exception and both the width/height step and the
pixel-format step are recorded as having returned `true`, `Start` returns `true`,
on every device and hence whatever any other setter reports.  (That the device was
found and that reset was not requested follow from the two steps having run.) -/
theorem Start_true_of_load_bearing (d : Device) (s : St)
    (hret : ∀ e s', Start d s ≠ .raise e s')
    (hWH : ∃ m ∈ marksBy s (Start d s), m.isLeave .setWidthHeight true = true)
    (hPF : ∃ m ∈ marksBy s (Start d s), m.isLeave .setPixelFormat true = true) :
    ∃ s', Start d s = .ok true s' := by
  have hopen := log_of_ran_none _ _ ((lifts_open (Ran (fun _ => False))).run d s)
  rw [Start_run] at hret hWH hPF ⊢
  cases ho : Start.open d s with
  | raise e s0 =>
    rw [ho] at hret
    exact absurd rfl (hret e s0)
  | ok dev s0 =>
    rw [ho] at hret hWH hPF hopen
    simp only [Res.state] at hopen
    simp only [] at hret hWH hPF ⊢
    cases dev with
    | false =>
      obtain ⟨m, hm, _⟩ := hWH
      rw [marksBy_of_log s _ [] (by simp [Res.state, hopen])] at hm
      cases hm
    | true =>
      simp only [if_true] at hret hWH hPF ⊢
      cases hc : Start.configure d s0 with
      | raise e s1 =>
        exfalso
        rcases configure_not_both d s0 with ⟨s1', hc'⟩ | ⟨ms, hlog, hnot⟩
        · rw [hc] at hc'
          cases hc'
        apply hnot
        rw [hc] at hret hWH hPF hlog
        simp only [Res.state] at hlog
        simp only [] at hret hWH hPF
        have hstop := log_of_ran_none _ _ ((lift_Stop (Ran (fun _ => False))).run d s1)
        cases hs : Stop d s1 with
        | raise e2 s2 =>
          rw [hs] at hret
          exact absurd rfl (hret e2 s2)
        | ok u s2 =>
          rw [hs] at hWH hPF hstop
          simp only [Res.state] at hstop
          have e : marksBy s (Res.ok false s2) = ms :=
            marksBy_of_log s _ ms (by simp [Res.state, hstop, hlog, hopen])
          rw [e] at hWH hPF
          exact ⟨hWH, hPF⟩
      | ok r s1 =>
        cases r with
        | some b =>
          exfalso
          rcases configure_not_both d s0 with ⟨s1', hc'⟩ | ⟨ms, hlog, hnot⟩
          · rw [hc] at hc'
            cases hc'
          apply hnot
          rw [hc] at hWH hPF hlog
          simp only [Res.state] at hlog
          simp only [] at hWH hPF
          have e : marksBy s (Res.ok b s1) = ms :=
            marksBy_of_log s _ ms (by simp [Res.state, hlog, hopen])
          rw [e] at hWH hPF
          exact ⟨hWH, hPF⟩
        | none =>
          rw [hc] at hret
          simp only [] at hret ⊢
          cases hf : Start.finish d s1 with
          | ok u s2 => exact ⟨s2, rfl⟩
          | raise e s2 =>
            rw [hf] at hret
            exact absurd rfl (hret e s2)

/-- Witness for C6: on a camera that accepts every write but offers no acquisition
modes, `setAcquisitionMode` reports failure and `Start` still returns `true`. -/
theorem Start_true_of_load_bearing_witness :
    (∃ m ∈ marksBy (St.init gst_gencamsrc_init)
        (Start (Device.camera ⟨0, 16, 9999, 1⟩ ["Mono8"]) (St.init gst_gencamsrc_init)),
      m.isLeave .setAcquisitionMode false = true) ∧
    ∃ s', Start (Device.camera ⟨0, 16, 9999, 1⟩ ["Mono8"]) (St.init gst_gencamsrc_init)
      = .ok true s' :=
  ⟨by decide!,
   Start_true_of_load_bearing (Device.camera ⟨0, 16, 9999, 1⟩ ["Mono8"])
    (St.init gst_gencamsrc_init)
    (fun e s' h =>
      absurd (show (Start (Device.camera ⟨0, 16, 9999, 1⟩ ["Mono8"])
          (St.init gst_gencamsrc_init)).value? = none by rw [h]; rfl) (by decide!))
    (by decide!) (by decide!)⟩

/-! ## C8: a setter whose gate is open through explicit provenance is called once -/

set_option linter.unusedTactic false in
set_option linter.unreachableTactic false in
theorem sat_open : Sat (frameRel id true) Start.open := by
  unfold Start.open
  repeat' first
    | exact sat_pure _ _ _
    | exact sat_liftD _ _ _
    | exact sat_getParams _ _
    | exact sat_getCameraInfo
    | exact sat_getCameraSerialNumber
    | apply sat_bind
    | (apply sat_modifySelf; intro _ g; rfl)
    | split
    | intro _
    | dsimp only

/-- The pass through the `try` block that falls through its end. -/
theorem configure_none (d : Device) (s0 s1 : St) (r : Option Bool)
    (hreset : s0.params.deviceReset = false)
    (h : Start.configure d s0 = .ok r s1) :
    r ≠ some true ∧ (r = none → ∃ sa sb, runSteps Start.binning d s0 = .ok () sa ∧
      invoke .setWidthHeight d sa = .ok true sb ∧ invoke .setPixelFormat d sb = .ok true s1) := by
  rw [configure_run, if_neg (by rw [hreset]; exact Bool.false_ne_true)] at h
  cases hA : runSteps Start.binning d s0 with
  | raise e sa =>
    rw [hA] at h
    cases h
  | ok u sa =>
    rw [hA] at h
    simp only [] at h
    cases hB : invoke .setWidthHeight d sa with
    | raise e sb =>
      rw [hB] at h
      cases h
    | ok b sb =>
      rw [hB] at h
      simp only [] at h
      cases b with
      | false =>
        simp only [if_true, Res.ok.injEq] at h
        refine ⟨by rw [← h.1]; simp, fun e => ?_⟩
        rw [e] at h
        cases h.1
      | true =>
        simp only [Bool.true_eq_false, if_false] at h
        cases hC : invoke .setPixelFormat d sb with
        | raise e sc =>
          rw [hC] at h
          cases h
        | ok b2 sc =>
          rw [hC] at h
          simp only [] at h
          cases b2 with
          | false =>
            simp only [if_true, Res.ok.injEq] at h
            refine ⟨by rw [← h.1]; simp, fun e => ?_⟩
            rw [e] at h
            cases h.1
          | true =>
            simp only [Bool.true_eq_false, if_false, Res.ok.injEq] at h
            refine ⟨by rw [← h.1]; simp, fun _ => ⟨sa, sb, rfl, hB, ?_⟩⟩
            rw [← h.2]
            exact hC

theorem Res.eq_ok_of_value {α : Type} (r : Res α) (a : α) (h : r.value? = some a) :
    r = .ok a r.state := by
  cases r with
  | ok b s =>
    simp only [Res.value?, Option.some.injEq] at h
    rw [h]
    rfl
  | raise e s => cases h

theorem intWrites_append (a b : List Call) : intWrites (a ++ b) = intWrites a ++ intWrites b := by
  induction a with
  | nil => rfl
  | cons c rest ih => cases c <;> simp [intWrites, ih]

theorem writesTo_append (n : String) (a b : List Call) :
    writesTo n (a ++ b) = writesTo n a ++ writesTo n b := by
  simp [writesTo, intWrites_append]

theorem writesTo_of_intWrites_nil (n : String) (cs : List Call) (h : intWrites cs = []) :
    writesTo n cs = [] := by
  simp [writesTo, h]

theorem quiet_pure {α : Type} (a : α) : Quiet (pure a : D α) :=
  fun _ t => ⟨[], by simp [pure_run, DRes.trace], rfl⟩

theorem quiet_bind {α β : Type} (m : D α) (f : α → D β) (hm : Quiet m)
    (hf : ∀ a, Quiet (f a)) : Quiet (m >>= f) := by
  intro d t
  obtain ⟨c1, e1, w1⟩ := hm d t
  rw [bind_run]
  cases hr : m d t with
  | raise e t1 =>
    rw [hr] at e1
    exact ⟨c1, e1, w1⟩
  | ok a t1 =>
    rw [hr] at e1
    simp only [DRes.trace] at e1
    obtain ⟨c2, e2, w2⟩ := hf a d t1
    exact ⟨c1 ++ c2, by rw [e2, e1, List.append_assoc], by rw [intWrites_append, w1, w2]; rfl⟩

theorem quiet_call {α : Type} (c : Call) (answer : Device → List Call → Except Exc α)
    (h : intWrites [c] = []) : Quiet (call c answer) := by
  intro d t
  refine ⟨[c], ?_, h⟩
  unfold call
  cases answer d t <;> rfl

theorem quiet_tryAll {α : Type} (m : D α) (h : Quiet m) : Quiet (tryAll m) := by
  intro d t
  obtain ⟨cs, e, w⟩ := h d t
  refine ⟨cs, ?_, w⟩
  unfold tryAll
  cases hr : m d t <;> rw [hr] at e <;> exact e

theorem quiet_logInfo {α : Type} (m : D α) (h : Quiet m) : Quiet (logInfo m) := by
  intro d t
  unfold logInfo
  by_cases hl : d.logInfo = true
  · rw [if_pos hl]
    exact quiet_bind m _ h (fun _ => quiet_pure ()) d t
  · rw [if_neg hl]
    exact ⟨[], by simp [DRes.trace], rfl⟩

theorem noIntWrite_refl (s : St) : NoIntWrite s s := ⟨[], by simp, rfl⟩

theorem noIntWrite_trans (a b c : St) (h1 : NoIntWrite a b) (h2 : NoIntWrite b c) :
    NoIntWrite a c := by
  obtain ⟨c1, e1, w1⟩ := h1
  obtain ⟨c2, e2, w2⟩ := h2
  exact ⟨c1 ++ c2, by rw [e2, e1, List.append_assoc], by rw [intWrites_append, w1, w2]; rfl⟩

instance noIntWrite_pre : Pre NoIntWrite := ⟨noIntWrite_refl, noIntWrite_trans⟩

theorem quiet_liftD {α : Type} (m : D α) (h : Quiet m) : Sat NoIntWrite (liftD m) := by
  constructor
  intro d s
  obtain ⟨cs, e, w⟩ := h d s.trace
  refine ⟨cs, ?_, w⟩
  rw [liftD_run]
  cases hr : m d s.trace <;> rw [hr] at e <;> exact e

theorem quiet_getSelf : Sat NoIntWrite getSelf := ⟨fun _ s => noIntWrite_refl s⟩

set_option linter.unusedTactic false in
set_option linter.unreachableTactic false in
theorem quiet_Stop : Sat NoIntWrite Stop := by
  unfold Stop
  repeat' first
    | exact rule_pure _ _
    | exact quiet_getSelf
    | apply rule_bind
    | apply quiet_liftD
    | apply quiet_tryAll
    | exact quiet_pure _
    | (apply quiet_call; rfl)
    | apply quiet_bind
    | split
    | intro _
    | dsimp only

/-- The offsets part returns when the offset writes answer or throw a
`std::exception`; it writes the offsets only and leaves the parameters alone. -/
theorem setWidthHeight_offsets_run (d : Device) (s : St)
    (hOX : ∀ h v, answersOrStd (d.setInteger h "OffsetX" v true) = true)
    (hOY : ∀ h v, answersOrStd (d.setInteger h "OffsetY" v true) = true) :
    ∃ s1 cs, setWidthHeight.offsets d s = .ok () s1 ∧ s1.params = s.params ∧
      s1.trace = s.trace ++ cs ∧
      ∀ n, n ≠ "OffsetX" → n ≠ "OffsetY" → writesTo n cs = [] := by
  have hx := hOX s.trace 0
  have hy := hOY (s.trace ++ [Call.setInteger "OffsetX" 0 true]) 0
  simp only [setWidthHeight.offsets, mbind_run, modifySelf_run, liftD_run, catchStd,
    rcg.setInteger, call, bind_run, pure_run]
  cases ex : d.setInteger s.trace "OffsetX" 0 true with
  | error e =>
    rw [ex] at hx
    cases e with
    | std what =>
      exact ⟨_, [Call.setInteger "OffsetX" 0 true], rfl, rfl, rfl,
        fun n h1 _ => by simp [writesTo, intWrites, Ne.symm h1]⟩
    | generic what => cases hx
    | unknown => cases hx
  | ok a =>
    simp only []
    cases ey : d.setInteger (s.trace ++ [Call.setInteger "OffsetX" 0 true]) "OffsetY" 0 true with
    | error e =>
      rw [ey] at hy
      cases e with
      | std what =>
        exact ⟨_, [Call.setInteger "OffsetX" 0 true, Call.setInteger "OffsetY" 0 true],
          rfl, rfl, by simp,
          fun n h1 h2 => by simp [writesTo, intWrites, Ne.symm h1, Ne.symm h2]⟩
      | generic what => cases hy
      | unknown => cases hy
    | ok b =>
      exact ⟨_, [Call.setInteger "OffsetX" 0 true, Call.setInteger "OffsetY" 0 true],
        rfl, rfl, by simp,
        fun n h1 h2 => by simp [writesTo, intWrites, Ne.symm h1, Ne.symm h2]⟩

/-- The part reading the maximum resolution returns when the two reads answer. -/
theorem setWidthHeight_maxima_run (d : Device) (s : St)
    (hWM : ∀ h, ∃ r, d.getInteger h "WidthMax" false false = .ok r)
    (hHM : ∀ h, ∃ r, d.getInteger h "HeightMax" false false = .ok r) :
    ∃ s1 cs, setWidthHeight.maxima d s = .ok () s1 ∧ s1.params = s.params ∧
      s1.trace = s.trace ++ cs ∧ intWrites cs = [] := by
  obtain ⟨r1, h1⟩ := hWM s.trace
  obtain ⟨r2, h2⟩ := hHM (s.trace ++ [Call.getInteger "WidthMax" false false])
  simp only [setWidthHeight.maxima, mbind_run, modifySelf_run, liftD_run, rcg.getInteger, call,
    h1, h2]
  exact ⟨_, [Call.getInteger "WidthMax" false false, Call.getInteger "HeightMax" false false],
    rfl, rfl, by simp, rfl⟩

/-- The capping part, on a device that reports the ranges `rX` and `rY`. -/
theorem setWidthHeight_cap_run (d : Device) (s : St) (rX rY : IntInfo)
    (hW : ∀ h, d.getInteger h "Width" false false = .ok rX)
    (hH : ∀ h, d.getInteger h "Height" false false = .ok rY) :
    ∃ s1 cs, setWidthHeight.cap d s = .ok () s1 ∧
      s1.params.width = (if s.params.width > rX.vMax
        then toInt (ROUNDED_DOWN rX.vMax (0x4 - 1)) else s.params.width) ∧
      s1.params.height = (if s.params.height > rY.vMax
        then toInt (ROUNDED_DOWN rY.vMax (0x4 - 1)) else s.params.height) ∧
      s1.trace = s.trace ++ cs ∧ intWrites cs = [] := by
  simp only [setWidthHeight.cap, mbind_run, liftD_run, rcg.getInteger, call, hW, hH,
    getParams_run]
  by_cases h1 : s.params.width > rX.vMax <;> by_cases h2 : s.params.height > rY.vMax <;>
    simp only [h1, h2, if_true, if_false, modifyParams_run, mpure_run, mbind_run, liftD_run,
      getParams_run, rcg.getInteger, call, hH] <;>
    exact ⟨_, [Call.getInteger "Width" false false, Call.getInteger "Height" false false],
      rfl, rfl, rfl, by simp, rfl⟩

set_option linter.unusedTactic false in
set_option linter.unreachableTactic false in
theorem quiet_report (b : Bool) : Sat NoIntWrite (setWidthHeight.report b) := by
  unfold setWidthHeight.report
  repeat' first
    | exact rule_pure _ _
    | exact quiet_Stop
    | apply rule_bind
    | apply quiet_liftD
    | apply quiet_logInfo
    | (apply quiet_call; rfl)
    | apply quiet_bind
    | split
    | intro _
    | dsimp only

/-- The writing part: the width held in the parameters is written, and the height
too when the width write answers. -/
theorem setWidthHeight_write_trace (d : Device) (s : St) :
    ∃ cs, (setWidthHeight.write d s).state.trace = s.trace ++ cs ∧
      writesTo "Width" cs = [s.params.width] ∧
      ((∃ b, d.setInteger s.trace "Width" s.params.width true = .ok b) →
        writesTo "Height" cs = [s.params.height]) := by
  simp only [setWidthHeight.write, mbind_run, getParams_run, liftD_run, rcg.setInteger, call]
  cases ew : d.setInteger s.trace "Width" s.params.width true with
  | error e =>
    refine ⟨[Call.setInteger "Width" s.params.width true], rfl, by simp [writesTo, intWrites], ?_⟩
    rintro ⟨b, hb⟩
    cases hb
  | ok w =>
    simp only []
    cases eh : d.setInteger (s.trace ++ [Call.setInteger "Width" s.params.width true]) "Height"
        s.params.height true with
    | error e =>
      exact ⟨[Call.setInteger "Width" s.params.width true,
          Call.setInteger "Height" s.params.height true], by simp [Res.state],
        by simp [writesTo, intWrites], fun _ => by simp [writesTo, intWrites]⟩
    | ok h =>
      simp only []
      obtain ⟨cs, e, hw⟩ := (quiet_report (w || h)).run d
        { s with trace := s.trace ++ [Call.setInteger "Width" s.params.width true] ++
            [Call.setInteger "Height" s.params.height true] }
      refine ⟨[Call.setInteger "Width" s.params.width true,
          Call.setInteger "Height" s.params.height true] ++ cs, ?_, ?_, fun _ => ?_⟩
      · rw [e]
        simp
      · rw [writesTo_append, writesTo_of_intWrites_nil _ cs hw]
        simp [writesTo, intWrites]
      · rw [writesTo_append, writesTo_of_intWrites_nil _ cs hw]
        simp [writesTo, intWrites]

/-- The size written by `setWidthHeight`: the requested width, or the value the
`int` member receives from `ROUNDED_DOWN` when the request exceeds the maximum. -/
theorem setWidthHeight_writes (d : Device) (s : St) (rX rY : IntInfo)
    (hd : d.reportsSize rX rY) :
    writesTo "Width" (issuedBy s (setWidthHeight d s)) =
      [if s.params.width > rX.vMax then toInt (ROUNDED_DOWN rX.vMax (0x4 - 1))
        else s.params.width] ∧
    ((∀ h v, ∃ b, d.setInteger h "Width" v true = .ok b) →
      writesTo "Height" (issuedBy s (setWidthHeight d s)) =
        [if s.params.height > rY.vMax then toInt (ROUNDED_DOWN rY.vMax (0x4 - 1))
          else s.params.height]) := by
  obtain ⟨hOX, hOY, hWM, hHM, hW, hH⟩ := hd
  obtain ⟨s1, c1, e1, p1, t1, w1⟩ := setWidthHeight_offsets_run d s hOX hOY
  obtain ⟨s2, c2, e2, p2, t2, w2⟩ := setWidthHeight_maxima_run d s1 hWM hHM
  obtain ⟨s3, c3, e3, pw, ph, t3, w3⟩ := setWidthHeight_cap_run d s2 rX rY hW hH
  obtain ⟨c4, t4, ww, wh⟩ := setWidthHeight_write_trace d s3
  have hrun : setWidthHeight d s = setWidthHeight.write d s3 := by
    simp only [setWidthHeight, mbind_run, e1, e2, e3]
  have htrace : issuedBy s (setWidthHeight d s) = c1 ++ c2 ++ c3 ++ c4 := by
    unfold issuedBy
    rw [hrun, t4, t3, t2, t1]
    simp only [List.append_assoc]
    exact List.drop_left _ _
  rw [p2, p1] at pw ph
  rw [htrace]
  simp only [writesTo_append, w1 "Width" (by decide) (by decide),
    w1 "Height" (by decide) (by decide), writesTo_of_intWrites_nil _ c2 w2,
    writesTo_of_intWrites_nil _ c3 w3, List.nil_append]
  refine ⟨by rw [ww, pw], fun hans => ?_⟩
  rw [wh (hans _ _), ph]

theorem camera_reportsSize (r : IntInfo) (formats : List String) :
    (Device.camera r formats).reportsSize r r :=
  ⟨fun _ _ => rfl, fun _ _ => rfl, fun _ => ⟨r, rfl⟩, fun _ => ⟨r, rfl⟩, fun _ => rfl,
    fun _ => rfl⟩

/-- C5, as stated, fails: the maximum is an `int64_t` and the width an `int`.  For
the requested width 7680 on a camera reporting the maximum width `-4294967296`
(itself a multiple of 4), `setWidthHeight` writes the width 0. -/
theorem setWidthHeight_writes_wrapped_maximum :
    (gst_gencamsrc_init.width > -4294967296 ∧
      roundDownToMultipleOf4 (-4294967296) = -4294967296) ∧
    writesTo "Width" (issuedBy (St.init gst_gencamsrc_init)
      (setWidthHeight (Device.camera ⟨0, -4294967300, -4294967296, 1⟩ ["Mono8"])
        (St.init gst_gencamsrc_init))) = [0] := by
  refine ⟨by decide, ?_⟩
  rw [(setWidthHeight_writes _ (St.init gst_gencamsrc_init) _ _
    (camera_reportsSize ⟨0, -4294967300, -4294967296, 1⟩ ["Mono8"])).1]
  have h : (St.init gst_gencamsrc_init).params.width > (-4294967296 : Int) := by decide
  simp only [h, if_true, ROUNDED_DOWN_three]
  norm_num [toInt, wrapSigned, roundDownToMultipleOf4]

/-- C5, amended: on a device that answers what `setWidthHeight` asks before writing,
for every requested width greater than the reported maximum of `Width`, when that
maximum is not below `INT_MIN`, `setWidthHeight` writes to `Width` exactly the
maximum rounded down to a multiple of 4; and the same for the height, whose write
follows the width write when that one answers. -/
theorem setWidthHeight_writes_capped (d : Device) (s : St) (rX rY : IntInfo)
    (hd : d.reportsSize rX rY)
    (hwi : s.params.width ≤ INT_MAX) (hhi : s.params.height ≤ INT_MAX) :
    (s.params.width > rX.vMax → INT_MIN ≤ rX.vMax →
      writesTo "Width" (issuedBy s (setWidthHeight d s)) = [roundDownToMultipleOf4 rX.vMax]) ∧
    (s.params.height > rY.vMax → INT_MIN ≤ rY.vMax →
      (∀ h v, ∃ b, d.setInteger h "Width" v true = .ok b) →
      writesTo "Height" (issuedBy s (setWidthHeight d s)) = [roundDownToMultipleOf4 rY.vMax]) := by
  obtain ⟨hw, hh⟩ := setWidthHeight_writes d s rX rY hd
  constructor
  · intro h1 h2
    rw [hw, if_pos h1, toInt_ROUNDED_DOWN rX.vMax h2 (by omega)]
  · intro h1 h2 hans
    rw [hh hans, if_pos h1, toInt_ROUNDED_DOWN rY.vMax h2 (by omega)]

/-- Witness for C5: width and height 10000 requested on a camera whose maximum width
and height are 9999: 9996 is written to both. -/
theorem setWidthHeight_writes_capped_witness :
    roundDownToMultipleOf4 9999 = 9996 ∧
    writesTo "Width" (issuedBy (St.init { gst_gencamsrc_init with width := 10000, height := 10000 })
      (setWidthHeight (Device.camera ⟨0, 16, 9999, 1⟩ ["Mono8"])
        (St.init { gst_gencamsrc_init with width := 10000, height := 10000 })))
      = [roundDownToMultipleOf4 9999] ∧
    writesTo "Height" (issuedBy (St.init { gst_gencamsrc_init with width := 10000, height := 10000 })
      (setWidthHeight (Device.camera ⟨0, 16, 9999, 1⟩ ["Mono8"])
        (St.init { gst_gencamsrc_init with width := 10000, height := 10000 })))
      = [roundDownToMultipleOf4 9999] :=
  ⟨by decide,
   (setWidthHeight_writes_capped (Device.camera ⟨0, 16, 9999, 1⟩ ["Mono8"])
      (St.init { gst_gencamsrc_init with width := 10000, height := 10000 })
      ⟨0, 16, 9999, 1⟩ ⟨0, 16, 9999, 1⟩ (camera_reportsSize _ _)
      (by decide) (by decide)).1 (by decide) (by decide),
   (setWidthHeight_writes_capped (Device.camera ⟨0, 16, 9999, 1⟩ ["Mono8"])
      (St.init { gst_gencamsrc_init with width := 10000, height := 10000 })
      ⟨0, 16, 9999, 1⟩ ⟨0, 16, 9999, 1⟩ (camera_reportsSize _ _)
      (by decide) (by decide)).2 (by decide) (by decide) (fun _ _ => ⟨true, rfl⟩)⟩

/-! ## C11, C12: `setEnumFeature` -/

theorem enumWrites_append (a b : List Call) :
    enumWrites (a ++ b) = enumWrites a ++ enumWrites b := by
  induction a with
  | nil => rfl
  | cons c rest ih => cases c <;> simp [enumWrites, ih]

/-- The statements after the `try` block of `setEnumFeature` issue no write, and
return the result handed to them when the read of the current value answers. -/
theorem setEnumFeature_report_run (d : Device) (t : List Call) (featureName : String)
    (matchFound b : Bool) :
    (∃ cs, (setEnumFeature.report featureName matchFound b d t).trace = t ++ cs ∧
      enumWrites cs = []) ∧
    ((∀ h, ∃ v, d.getEnum h featureName false = .ok v) →
      (setEnumFeature.report featureName matchFound b d t).value? = some b) := by
  unfold setEnumFeature.report logWarning rcg.getEnum
  simp only [bind_run, pure_run, call]
  cases matchFound <;> by_cases hl : d.logWarning = true <;>
    cases hg : d.getEnum t featureName false <;>
    simp [hl, hg, bind_run, pure_run, call, DRes.trace, DRes.value?, enumWrites] <;>
    exact ⟨t, fun v hv => by rw [hg] at hv; cases hv⟩

/-- The writes of `setEnumFeature` when the read of the legal values answers `L`:
the first entry equal to the request ignoring case, if there is one. -/
theorem setEnumFeature_enumWrites (d : Device) (t : List Call) (featureName str : String)
    (ex : Bool) (L : List String) (hlist : d.getEnumList t featureName ex = .ok L) :
    enumWrites (issued t (setEnumFeature featureName (some str) ex d t)) =
      match L.find? (fun entry => strcaseeq str entry) with
      | some entry => [(featureName, entry)]
      | none => [] := by
  simp only [setEnumFeature, bind_run, tryAll, rcg.getEnumList, rcg.setEnum, call, hlist]
  by_cases hlen : L.length = 0
  · have hL : L = [] := List.length_eq_zero.mp hlen
    subst hL
    simp [issued, DRes.trace, pure_run, enumWrites]
  · simp only [hlen, if_false]
    cases hfind : L.find? (fun entry => strcaseeq str entry) with
    | none =>
      show enumWrites (issued t (setEnumFeature.report featureName false false d
        (t ++ [Call.getEnumList featureName ex]))) = []
      obtain ⟨⟨cs, e, w⟩, _⟩ := setEnumFeature_report_run d
        (t ++ [Call.getEnumList featureName ex]) featureName false false
      unfold issued
      rw [e, List.append_assoc, List.drop_left, enumWrites_append, w]
      rfl
    | some entry =>
      show enumWrites (issued t ((tryAll (call (Call.setEnum featureName entry ex)
          (fun d h => d.setEnum h featureName entry ex)) >>= fun isEnumFeatureSet =>
        match isEnumFeatureSet with
        | .error _ => setEnumFeature.report featureName true false
        | .ok isEnumFeatureSet => setEnumFeature.report featureName true isEnumFeatureSet)
        d (t ++ [Call.getEnumList featureName ex]))) = [(featureName, entry)]
      simp only [bind_run, tryAll, call]
      cases hw : d.setEnum (t ++ [Call.getEnumList featureName ex]) featureName entry ex with
      | error x =>
        simp only []
        obtain ⟨⟨cs, e, w⟩, _⟩ := setEnumFeature_report_run d
          (t ++ [Call.getEnumList featureName ex] ++ [Call.setEnum featureName entry ex])
          featureName true false
        unfold issued
        rw [e, List.append_assoc, List.append_assoc, List.drop_left, enumWrites_append,
          enumWrites_append, w]
        rfl
      | ok b =>
        simp only []
        obtain ⟨⟨cs, e, w⟩, _⟩ := setEnumFeature_report_run d
          (t ++ [Call.getEnumList featureName ex] ++ [Call.setEnum featureName entry ex])
          featureName true b
        unfold issued
        rw [e, List.append_assoc, List.append_assoc, List.drop_left, enumWrites_append,
          enumWrites_append, w]
        rfl

/-- The result of `setEnumFeature`: `false` when no entry matches, the result of the
write when one does and the write answers. -/
theorem setEnumFeature_value (d : Device) (t : List Call) (featureName str : String)
    (ex : Bool) (L : List String) (hlist : d.getEnumList t featureName ex = .ok L)
    (hcur : ∀ h, ∃ v, d.getEnum h featureName false = .ok v) :
    (L.find? (fun entry => strcaseeq str entry) = none →
      (setEnumFeature featureName (some str) ex d t).value? = some false) ∧
    (∀ entry b, L.find? (fun entry => strcaseeq str entry) = some entry →
      d.setEnum (t ++ [Call.getEnumList featureName ex]) featureName entry ex = .ok b →
      (setEnumFeature featureName (some str) ex d t).value? = some b) := by
  simp only [setEnumFeature, bind_run, tryAll, rcg.getEnumList, rcg.setEnum, call, hlist]
  constructor
  · intro hfind
    by_cases hlen : L.length = 0
    · simp [hlen, pure_run, DRes.value?]
    · simp only [hlen, if_false, hfind]
      exact (setEnumFeature_report_run d _ featureName false false).2 hcur
  · intro entry b hfind hw
    have hlen : ¬ L.length = 0 := by
      intro h0
      rw [List.length_eq_zero.mp h0] at hfind
      cases hfind
    simp only [hlen, if_false, hfind, bind_run, tryAll, call, hw]
    exact (setEnumFeature_report_run d _ featureName true b).2 hcur

/-- C11: when the read of the legal values answers the list `L` (and the reads of the
current value answer), `setEnumFeature` issues an enumeration write if and only if
some entry of `L` equals the requested string ignoring case; the write then carries
the first such entry, in the spelling of the list; and when no entry matches (also
when the list is empty) it issues no write and returns `false`. -/
theorem setEnumFeature_writes_first_match (d : Device) (t : List Call)
    (featureName str : String) (ex : Bool) (L : List String)
    (hlist : d.getEnumList t featureName ex = .ok L)
    (hcur : ∀ h, ∃ v, d.getEnum h featureName false = .ok v) :
    (enumWrites (issued t (setEnumFeature featureName (some str) ex d t)) ≠ [] ↔
      ∃ entry ∈ L, strcaseeq str entry = true) ∧
    (∀ entry, L.find? (fun e => strcaseeq str e) = some entry →
      enumWrites (issued t (setEnumFeature featureName (some str) ex d t)) =
        [(featureName, entry)]) ∧
    ((∀ entry ∈ L, strcaseeq str entry = false) →
      enumWrites (issued t (setEnumFeature featureName (some str) ex d t)) = [] ∧
      (setEnumFeature featureName (some str) ex d t).value? = some false) := by
  have hw := setEnumFeature_enumWrites d t featureName str ex L hlist
  have hv := (setEnumFeature_value d t featureName str ex L hlist hcur).1
  cases hfind : L.find? (fun e => strcaseeq str e) with
  | none =>
    rw [hfind] at hw
    have hno : ∀ entry ∈ L, strcaseeq str entry = false := by
      intro entry hmem
      have := List.find?_eq_none.mp hfind entry hmem
      simpa using this
    refine ⟨?_, ?_, ?_⟩
    · rw [hw]
      constructor
      · intro h
        exact absurd rfl h
      · rintro ⟨entry, hmem, he⟩
        rw [hno entry hmem] at he
        cases he
    · intro entry he
      cases he
    · intro _
      exact ⟨hw, hv hfind⟩
  | some first =>
    rw [hfind] at hw
    refine ⟨?_, ?_, ?_⟩
    · rw [hw]
      constructor
      · intro _
        exact ⟨first, List.mem_of_find?_eq_some hfind, List.find?_some hfind⟩
      · intro _ h
        cases h
    · intro entry he
      cases he
      exact hw
    · intro hno
      have h1 := List.find?_some hfind
      rw [hno first (List.mem_of_find?_eq_some hfind)] at h1
      cases h1

/-- Witness for C11: `"off"` requested where the legal values are `"Off"` and `"On"`. -/
theorem setEnumFeature_writes_first_match_witness :
    enumWrites (issued [] (setEnumFeature "TriggerMode" (some "off") false Device.stuck []))
      = [("TriggerMode", "Off")] :=
  (setEnumFeature_writes_first_match Device.stuck [] "TriggerMode" "off" false ["Off", "On"]
    rfl (fun _ => ⟨"On", rfl⟩)).2.1 "Off" (by decide)

/-- C12, as stated, fails: the device accepts the write of `"Off"` and goes on
reporting `"On"`; `setEnumFeature` returns `true`. -/
theorem setEnumFeature_true_without_change :
    Device.stuck.setEnum [Call.getEnumList "TriggerMode" false] "TriggerMode" "Off" false
      = .ok true ∧
    enumWrites (issued [] (setEnumFeature "TriggerMode" (some "off") false Device.stuck []))
      = [("TriggerMode", "Off")] ∧
    Device.stuck.getEnum
      [Call.getEnumList "TriggerMode" false, Call.setEnum "TriggerMode" "Off" false]
      "TriggerMode" false = .ok "On" ∧
    (setEnumFeature "TriggerMode" (some "off") false Device.stuck []).value? = some true :=
  ⟨rfl, by decide, rfl, by decide⟩

/-- C12, amended: when an entry matches and the write answers, `setEnumFeature`
returns the result reported by the write, whatever value the device reports
afterwards (that value is read for the log only). -/
theorem setEnumFeature_returns_write_result (d : Device) (t : List Call)
    (featureName str : String) (ex : Bool) (L : List String) (entry : String) (b : Bool)
    (hlist : d.getEnumList t featureName ex = .ok L)
    (hfind : L.find? (fun e => strcaseeq str e) = some entry)
    (hw : d.setEnum (t ++ [Call.getEnumList featureName ex]) featureName entry ex = .ok b)
    (hcur : ∀ h, ∃ v, d.getEnum h featureName false = .ok v) :
    (setEnumFeature featureName (some str) ex d t).value? = some b :=
  (setEnumFeature_value d t featureName str ex L hlist hcur).2 entry b hfind hw

/-- Witness for C12: the device that goes on reporting `"On"`. -/
theorem setEnumFeature_returns_write_result_witness :
    (setEnumFeature "TriggerMode" (some "off") false Device.stuck []).value? = some true :=
  setEnumFeature_returns_write_result Device.stuck [] "TriggerMode" "off" false ["Off", "On"]
    "Off" true rfl (by decide) rfl (fun _ => ⟨"On", rfl⟩)

/-! ## C20: range of the float written by `setFloatFeature` -/

/-- The only float write of `setFloatFeature` carries the capped value. -/
theorem setFloatFeature_floatWrites (d : Device) (t : List Call) (featureName : String)
    (v : CFloat) (ex : Bool) (r : FloatInfo)
    (hr : d.getFloat t featureName false false = .ok r) :
    floatWrites (issued t (setFloatFeature featureName v ex d t))
      = [(featureName, setFloatFeature.capped d.toFloat v r)] := by
  simp only [setFloatFeature, setFloatFeature.prepare, setFloatFeature.commit, bind_run,
    pure_run, rcg.getFloat, rcg.setFloat, call, catchStd, platform, hr]
  cases d.setFloat (t ++ [Call.getFloat featureName false false]) featureName
      (setFloatFeature.capped d.toFloat v r) ex with
  | ok a =>
    simp only []
    cases d.getFloat (t ++ [Call.getFloat featureName false false] ++
      [Call.setFloat featureName (setFloatFeature.capped d.toFloat v r) ex])
      featureName false false <;>
    simp [issued, DRes.trace, floatWrites, pure_run]
  | error e =>
    cases e with
    | std what =>
      simp only [pure_run]
      cases d.getFloat (t ++ [Call.getFloat featureName false false] ++
        [Call.setFloat featureName (setFloatFeature.capped d.toFloat v r) ex])
        featureName false false <;>
      simp [issued, DRes.trace, floatWrites, pure_run]
    | generic what => simp [issued, DRes.trace, floatWrites]
    | unknown => simp [issued, DRes.trace, floatWrites]

/-- The comparison `≤` of two floating-point values holds for numbers and
infinities only. -/
theorem CFloat.le_refl_of_le (a b : CFloat) (h : a ≤ b) : a ≤ a ∧ b ≤ b := by
  change CFloat.le a b = true at h
  change CFloat.le a a = true ∧ CFloat.le b b = true
  cases a <;> cases b <;> simp_all [CFloat.le]

theorem CFloat.le_of_not_lt (a b : CFloat) (ha : a ≠ .nan) (hb : b ≠ .nan) (h : ¬ a < b) :
    b ≤ a := by
  change ¬ CFloat.lt a b = true at h
  change CFloat.le b a = true
  cases a <;> cases b <;> simp_all [CFloat.le, CFloat.lt]

theorem CFloat.not_lt_of_le (a b : CFloat) (h : b ≤ a) : ¬ a < b := by
  change CFloat.le b a = true at h
  change ¬ CFloat.lt a b = true
  cases a <;> cases b <;> simp_all [CFloat.le, CFloat.lt]

theorem CFloat.ne_nan_of_le (a b : CFloat) (h : a ≤ b) : a ≠ .nan ∧ b ≠ .nan := by
  change CFloat.le a b = true at h
  cases a <;> cases b <;> simp_all [CFloat.le]

theorem CFloat.nan_not_lt (b : CFloat) : ¬ CFloat.nan < b := by
  change ¬ CFloat.lt .nan b = true
  cases b <;> simp [CFloat.lt]

theorem CFloat.not_lt_nan (a : CFloat) : ¬ a < CFloat.nan := by
  change ¬ CFloat.lt a .nan = true
  cases a <;> simp [CFloat.lt]

/-- C20, as stated, fails, in two ways.  The bounds are `double` and the value a
`float`: for the request 0 and the range [16777217, 20000000], whose minimum is not
a `float`, the value written is 16777216, below the minimum.  And a request that is
not-a-number fails both comparisons with the bounds: with the range [0, 10] it is
written unchanged, and it lies in no range. -/
theorem setFloatFeature_write_below_min :
    (floatWrites (issued [] (setFloatFeature "Gain" 0 false
      (Device.floatRange ⟨16777217, 16777217, 20000000⟩) []))
      = [("Gain", 16777216)] ∧ (16777216 : CFloat) < 16777217) ∧
    (floatWrites (issued [] (setFloatFeature "Gain" .nan false
      (Device.floatRange ⟨2, 0, 10⟩) []))
      = [("Gain", .nan)] ∧ (0 : CFloat) ≤ 10 ∧ ¬ ((0 : CFloat) ≤ .nan) ∧
        ¬ (CFloat.nan ≤ 10)) := by
  refine ⟨⟨?_, by decide!⟩, ?_, by decide!, by decide!, by decide!⟩
  · rw [setFloatFeature_floatWrites _ _ _ _ _ ⟨16777217, 16777217, 20000000⟩ rfl]
    decide!
  · rw [setFloatFeature_floatWrites _ _ _ _ _ ⟨2, 0, 10⟩ rfl]
    decide!

/-- C20, amended: for every requested float `v` and device-reported range with
`min ≤ max` whose bounds are `float` values (the conversion to `float` leaves them
unchanged), the value that `setFloatFeature` passes to the device write lies in
`[min, max]` when `v` is a number or an infinity, and equals `v` when `v` is already
in range; a `v` that is not-a-number is written unchanged. -/
theorem setFloatFeature_write_in_range (d : Device) (t : List Call) (featureName : String)
    (v : CFloat) (ex : Bool) (r : FloatInfo)
    (hr : d.getFloat t featureName false false = .ok r)
    (hle : r.vMin ≤ r.vMax)
    (hmin : d.toFloat r.vMin = r.vMin) (hmax : d.toFloat r.vMax = r.vMax) :
    ∃ w, floatWrites (issued t (setFloatFeature featureName v ex d t)) = [(featureName, w)] ∧
      (v ≠ .nan → r.vMin ≤ w ∧ w ≤ r.vMax) ∧ (r.vMin ≤ v → v ≤ r.vMax → w = v) ∧
      (v = .nan → w = .nan) := by
  refine ⟨_, setFloatFeature_floatWrites d t featureName v ex r hr, ?_⟩
  have hn := CFloat.ne_nan_of_le _ _ hle
  have hrf := CFloat.le_refl_of_le _ _ hle
  unfold setFloatFeature.capped
  by_cases h1 : v < r.vMin
  · simp only [h1, if_true, hmin]
    exact ⟨fun _ => ⟨hrf.1, hle⟩, fun h _ => absurd h1 (CFloat.not_lt_of_le _ _ h),
      fun h => absurd (h ▸ h1) (CFloat.nan_not_lt _)⟩
  · by_cases h2 : v > r.vMax
    · simp only [h1, h2, if_true, if_false, hmax]
      exact ⟨fun _ => ⟨hle, hrf.2⟩, fun _ h => absurd h2 (CFloat.not_lt_of_le _ _ h),
        fun h => absurd (h ▸ h2) (CFloat.not_lt_nan _)⟩
    · simp only [h1, h2, if_false]
      exact ⟨fun hv => ⟨CFloat.le_of_not_lt _ _ hv hn.1 h1, CFloat.le_of_not_lt _ _ hn.2 hv h2⟩,
        fun _ _ => trivial, fun h => h⟩

/-- Witness for C20: the request 25 with the range [0, 10] is written as 10. -/
theorem setFloatFeature_write_in_range_witness :
    ∃ w, floatWrites (issued [] (setFloatFeature "Gain" 25 false
        (Device.floatRange ⟨2, 0, 10⟩) [])) = [("Gain", w)] ∧
      ((25 : CFloat) ≠ .nan → (0 : CFloat) ≤ w ∧ w ≤ 10) ∧
      ((0 : CFloat) ≤ 25 → (25 : CFloat) ≤ 10 → w = 25) ∧
      ((25 : CFloat) = .nan → w = .nan) :=
  setFloatFeature_write_in_range (Device.floatRange ⟨2, 0, 10⟩) [] "Gain" 25 false ⟨2, 0, 10⟩
    rfl (by decide!) (by decide!) (by decide!)

/-! ## C18: the precondition of `setExposureTime` -/

/-- The existence check `isFeature (name, NULL)`: one enumeration read. -/
theorem isFeature_exists_run (featureName : String) (d : Device) (t : List Call)
    (h : answersOrStd (d.getEnum t featureName true) = true) :
    isFeature featureName false d t =
      .ok (!(failsWith isFeature.featureStr (d.getEnum t featureName true)), none)
        (t ++ [.getEnum featureName true]) := by
  unfold isFeature
  rw [bind_run, isFeature_first_run featureName d t h]
  by_cases c1 : failsWith isFeature.featureStr (d.getEnum t featureName true) = true
  · simp [c1, pure_run]
  · by_cases c2 : failsWith (isFeature.typeStr .TYPE_ENUM) (d.getEnum t featureName true) = true
    · simp [c1, c2, pure_run]
    · simp [c1, c2, pure_run]

theorem floatCalls_append (a b : List Call) :
    floatCalls (a ++ b) = floatCalls a ++ floatCalls b := by
  simp [floatCalls]

theorem issuedBy_of_trace {α : Type} (s : St) (r : Res α) (cs : List Call)
    (h : r.state.trace = s.trace ++ cs) : issuedBy s r = cs := by
  unfold issuedBy
  rw [h]
  exact List.drop_left _ _

/-- C18: when the device reports an `ExposureMode` other than `"Timed"` or an
`ExposureAuto` other than `"Off"`, `setExposureTime` returns `false` and calls
neither `rcg::getFloat` nor `rcg::setFloat`: the float accessor runs only if the
mode is `"Timed"` and the automatic exposure is `"Off"`. -/
theorem setExposureTime_skips (d : Device) (s : St) (mode auto : String)
    (hp1 : ∀ h, answersOrStd (d.getEnum h "ExposureTime" true) = true)
    (hp2 : ∀ h, answersOrStd (d.getEnum h "ExposureTimeAbs" true) = true)
    (hmode : ∀ h, d.getEnum h "ExposureMode" false = .ok mode)
    (hauto : ∀ h, d.getEnum h "ExposureAuto" false = .ok auto)
    (hne : mode ≠ "Timed" ∨ auto ≠ "Off") :
    (setExposureTime d s).value? = some false ∧
    floatCalls (issuedBy s (setExposureTime d s)) = [] := by
  have hcond : (mode ≠ "Timed" || auto ≠ "Off") = true := by
    rcases hne with h | h <;> simp [h]
  simp only [setExposureTime, mbind_run, liftD_run, isFeature_exists_run _ d _ (hp1 _)]
  by_cases f1 : failsWith isFeature.featureStr (d.getEnum s.trace "ExposureTime" true) = true
  · simp only [f1, Bool.not_true, Bool.false_eq_true, if_false, mbind_run, liftD_run,
      isFeature_exists_run _ d _ (hp2 _)]
    by_cases f2 : failsWith isFeature.featureStr
        (d.getEnum (s.trace ++ [Call.getEnum "ExposureTime" true]) "ExposureTimeAbs" true) = true
    · simp only [f2, Bool.not_true, Bool.false_eq_true, if_false, mpure_run, mbind_run]
      refine ⟨rfl, ?_⟩
      rw [issuedBy_of_trace s _ [Call.getEnum "ExposureTime" true,
        Call.getEnum "ExposureTimeAbs" true] (by simp [Res.state])]
      rfl
    · simp only [f2, Bool.not_false, if_true, mpure_run, mbind_run, liftD_run, rcg.getEnum,
        call, hmode, hauto, hcond]
      refine ⟨rfl, ?_⟩
      rw [issuedBy_of_trace s _ [Call.getEnum "ExposureTime" true,
        Call.getEnum "ExposureTimeAbs" true, Call.getEnum "ExposureMode" false,
        Call.getEnum "ExposureAuto" false] (by simp [Res.state])]
      rfl
  · simp only [f1, Bool.not_false, if_true, mpure_run, mbind_run, liftD_run, rcg.getEnum,
      call, hmode, hauto, hcond]
    refine ⟨rfl, ?_⟩
    rw [issuedBy_of_trace s _ [Call.getEnum "ExposureTime" true,
      Call.getEnum "ExposureMode" false, Call.getEnum "ExposureAuto" false]
      (by simp [Res.state])]
    rfl

/-- Witness for C18: the automatic exposure is `"Once"`. -/
theorem setExposureTime_skips_witness :
    (setExposureTime Device.autoExposure (St.init gst_gencamsrc_init)).value? = some false ∧
    floatCalls (issuedBy (St.init gst_gencamsrc_init)
      (setExposureTime Device.autoExposure (St.init gst_gencamsrc_init))) = [] :=
  setExposureTime_skips Device.autoExposure (St.init gst_gencamsrc_init) "Timed" "Once"
    (fun _ => rfl) (fun _ => rfl) (fun _ => rfl) (fun _ => rfl) (Or.inr (by decide))

/-! ## C19: the spelling written by `setPixelFormat` -/

/-- A logged read of an enumeration value: no write, and it returns when the reads
of current values answer. -/
theorem logInfo_getEnum_run (d : Device) (t : List Call) (name : String)
    (hcur : ∀ h n, ∃ v, d.getEnum h n false = .ok v) :
    ∃ cs, logInfo (rcg.getEnum name false) d t = .ok () (t ++ cs) ∧ enumWrites cs = [] := by
  unfold logInfo
  by_cases hl : d.logInfo = true
  · obtain ⟨v, hv⟩ := hcur t name
    refine ⟨[Call.getEnum name false], ?_, rfl⟩
    simp only [hl, if_true, bind_run, rcg.getEnum, call, hv, pure_run]
  · refine ⟨[], ?_, rfl⟩
    simp [hl]

/-- The run of `setPixelFormat` when an entry of the list of pixel formats is among
the spellings `setPixelFormat` accepts for the configured format. -/
theorem setPixelFormat_find_run (d : Device) (s : St) (L : List String) (f : String)
    (hlist : d.getEnumList s.trace "PixelFormat" true = .ok L)
    (hfind : L.find? (fun e => (setPixelFormat.spellings s.params.pixelFormat).contains e)
      = some f)
    (hwrite : ∀ h v, ∃ b, d.setEnum h "PixelFormat" v true = .ok b)
    (hcur : ∀ h n, ∃ v, d.getEnum h n false = .ok v)
    (hsize : ∀ h, answersOrStd (d.getEnum h "PixelSize" true) = true) :
    (setPixelFormat d s).value? = some true ∧
    enumWrites (issuedBy s (setPixelFormat d s)) = [("PixelFormat", f)] := by
  obtain ⟨b, hb⟩ := hwrite (s.trace ++ [Call.getEnumList "PixelFormat" true]) f
  obtain ⟨c1, e1, w1⟩ := logInfo_getEnum_run d
    (s.trace ++ [Call.getEnumList "PixelFormat" true] ++ [Call.setEnum "PixelFormat" f true])
    "PixelFormat" hcur
  obtain ⟨c2, e2, w2⟩ := logInfo_getEnum_run d
    (s.trace ++ [Call.getEnumList "PixelFormat" true] ++ [Call.setEnum "PixelFormat" f true]
      ++ c1 ++ [Call.getEnum "PixelSize" true]) "PixelSize" hcur
  simp only [setPixelFormat, mbind_run, getParams_run, liftD_run, rcg.getEnumList,
    rcg.setEnum, call, hlist, hfind, hb, e1, isFeature_exists_run _ d _ (hsize _)]
  by_cases hf : failsWith isFeature.featureStr
      (d.getEnum (s.trace ++ [Call.getEnumList "PixelFormat" true]
        ++ [Call.setEnum "PixelFormat" f true] ++ c1) "PixelSize" true) = true
  · simp only [hf, Bool.not_true, Bool.false_eq_true, if_false, mpure_run, mbind_run]
    refine ⟨rfl, ?_⟩
    rw [issuedBy_of_trace s _ ([Call.getEnumList "PixelFormat" true,
      Call.setEnum "PixelFormat" f true] ++ c1 ++ [Call.getEnum "PixelSize" true])
      (by simp [Res.state])]
    simp [enumWrites_append, enumWrites, w1]
  · simp only [hf, Bool.not_false, if_true, mpure_run, mbind_run, liftD_run, e2]
    refine ⟨rfl, ?_⟩
    rw [issuedBy_of_trace s _ ([Call.getEnumList "PixelFormat" true,
      Call.setEnum "PixelFormat" f true] ++ c1 ++ [Call.getEnum "PixelSize" true] ++ c2)
      (by simp [Res.state])]
    simp [enumWrites_append, enumWrites, w1, w2]

/-- The spellings `setPixelFormat` accepts for a request that equals a supported name
ignoring case are the spellings known for that name. -/
theorem spellings_of_known (req name : String) (known : List String)
    (hname : (name, known) ∈ setPixelFormat.known)
    (hreq : req.data.map Char.toLower = name.data.map Char.toLower) :
    setPixelFormat.spellings req = known := by
  simp only [setPixelFormat.known, List.mem_cons, Prod.mk.injEq, List.mem_nil_iff,
    or_false] at hname
  unfold setPixelFormat.spellings strcaseeq
  rw [hreq]
  rcases hname with h | h | h | h | h | h | h | h | h <;>
  · obtain ⟨hn, hk⟩ := h
    subst hn
    subst hk
    decide!

/-- C19: for each of the nine supported logical pixel-format names, with the device
spellings known for it (`mono8`: `Mono8`; `ycbcr411_8`: `YCbCr411_8`; `ycbcr422_8`:
`YUV422_8`, `YUV422_YUYV_Packed`, `YCbCr422_8`; `rgb8`: `RGB8`, `RGB8Packed`; `bgr8`:
`BGR8`, `BGR8Packed`; `bayerbggr`: `BayerBG8`; `bayerrggb`: `BayerRG8`; `bayergrbg`:
`BayerGR8`; `bayergbrg`: `BayerGB8`): when the requested name equals the supported
name ignoring case and `f` is the first entry of the `PixelFormat` list of the device
that is a known spelling for it, `setPixelFormat` writes exactly `f`, makes no other
enumeration write, and returns `true`, on every device that answers the write and the
reads made for the log. -/
theorem setPixelFormat_writes_spelling (d : Device) (s : St) (name : String)
    (known L : List String) (f : String)
    (hname : (name, known) ∈ setPixelFormat.known)
    (hreq : s.params.pixelFormat.data.map Char.toLower = name.data.map Char.toLower)
    (hlist : d.getEnumList s.trace "PixelFormat" true = .ok L)
    (hfind : L.find? (fun e => known.contains e) = some f)
    (hwrite : ∀ h v, ∃ b, d.setEnum h "PixelFormat" v true = .ok b)
    (hcur : ∀ h n, ∃ v, d.getEnum h n false = .ok v)
    (hsize : ∀ h, answersOrStd (d.getEnum h "PixelSize" true) = true) :
    f ∈ L ∧ f ∈ known ∧
    (setPixelFormat d s).value? = some true ∧
    enumWrites (issuedBy s (setPixelFormat d s)) = [("PixelFormat", f)] := by
  have hk := spellings_of_known s.params.pixelFormat name known hname hreq
  have hmem : f ∈ known := by
    have := List.find?_some hfind
    simpa using this
  refine ⟨List.mem_of_find?_eq_some hfind, hmem, ?_⟩
  exact setPixelFormat_find_run d s L f hlist (by rw [hk]; exact hfind) hwrite hcur hsize

/-- Witness for C19: `"mono8"` requested on a camera whose list is `["Mono8"]`, and
`"RGB8"` requested on a camera whose list is `["BGR8", "RGB8Packed", "RGB8"]`. -/
theorem setPixelFormat_writes_spelling_witness :
    ("Mono8" ∈ ["Mono8"] ∧ "Mono8" ∈ ["Mono8"] ∧
      (setPixelFormat (Device.camera ⟨0, 16, 9999, 1⟩ ["Mono8"])
        (St.init gst_gencamsrc_init)).value? = some true ∧
      enumWrites (issuedBy (St.init gst_gencamsrc_init)
        (setPixelFormat (Device.camera ⟨0, 16, 9999, 1⟩ ["Mono8"])
          (St.init gst_gencamsrc_init))) = [("PixelFormat", "Mono8")]) ∧
    ("RGB8Packed" ∈ ["BGR8", "RGB8Packed", "RGB8"] ∧ "RGB8Packed" ∈ ["RGB8", "RGB8Packed"] ∧
      (setPixelFormat (Device.camera ⟨0, 16, 9999, 1⟩ ["BGR8", "RGB8Packed", "RGB8"])
        (St.init { gst_gencamsrc_init with pixelFormat := "RGB8" })).value? = some true ∧
      enumWrites (issuedBy (St.init { gst_gencamsrc_init with pixelFormat := "RGB8" })
        (setPixelFormat (Device.camera ⟨0, 16, 9999, 1⟩ ["BGR8", "RGB8Packed", "RGB8"])
          (St.init { gst_gencamsrc_init with pixelFormat := "RGB8" })))
        = [("PixelFormat", "RGB8Packed")]) :=
  ⟨setPixelFormat_writes_spelling (Device.camera ⟨0, 16, 9999, 1⟩ ["Mono8"])
      (St.init gst_gencamsrc_init) "mono8" ["Mono8"] ["Mono8"] "Mono8" (by decide!)
      (by decide!) rfl (by decide!)
      (fun _ _ => ⟨true, rfl⟩) (fun _ _ => ⟨"", rfl⟩) (fun _ => rfl),
   setPixelFormat_writes_spelling (Device.camera ⟨0, 16, 9999, 1⟩ ["BGR8", "RGB8Packed", "RGB8"])
      (St.init { gst_gencamsrc_init with pixelFormat := "RGB8" }) "rgb8" ["RGB8", "RGB8Packed"]
      ["BGR8", "RGB8Packed", "RGB8"] "RGB8Packed" (by decide!)
      (by decide!) rfl (by decide!)
      (fun _ _ => ⟨true, rfl⟩) (fun _ _ => ⟨"", rfl⟩) (fun _ => rfl)⟩

/-! ## C13, C14: the grab loop of `Create` -/

/-- The grab loop under a hardware trigger that never fires: entered with
`hwTriggerCheck = c` below the budget, it gives up after `budget - c` attempts. -/
theorem grabLoop_hardware (d : Device) (s : St) (hgrab : ∀ h, d.grab h = .ok none)
    (hacq : s.self.acquisitionMode ≠ "Continuous") (htrig : s.self.triggerMode = "On")
    (hsrc : s.self.triggerSource ≠ "Software") (hmax : s.params.hwTriggerTimeout ≤ INT_MAX) :
    ∀ (fuel : Nat) (c : Int) (t : List Call), 0 ≤ c → c < s.params.hwTriggerTimeout →
      (s.params.hwTriggerTimeout - c).toNat ≤ fuel →
      Create.grabLoop fuel c d { s with trace := t } =
        .ok (some none)
          { s with trace := (t ++ List.replicate (s.params.hwTriggerTimeout - c).toNat .grab) } := by
  have hmode : (decide (s.self.acquisitionMode ≠ "Continuous") &&
      decide (s.self.triggerMode = "On") && decide (s.self.triggerSource ≠ "Software")) = true := by
    simp [hacq, htrig, hsrc]
  intro fuel
  induction fuel with
  | zero =>
    intro c t _ h2 h3
    omega
  | succ n ih =>
    intro c t h1 h2 h3
    have hc : toInt (c + 1) = c + 1 :=
      toInt_of_range _ (by unfold INT_MIN; omega) (by omega)
    simp only [Create.grabLoop, mbind_run, liftD_run, call, hgrab, getSelf_run, getParams_run,
      hmode, if_true, hc]
    by_cases he : c + 1 = s.params.hwTriggerTimeout
    · simp only [he, if_true, mpure_run]
      have h1 : (s.params.hwTriggerTimeout - c).toNat = 1 := by omega
      rw [h1]
      rfl
    · simp only [he, if_false]
      rw [ih (c + 1) (t ++ [Call.grab]) (by omega) (by omega) (by omega)]
      have h1 : (s.params.hwTriggerTimeout - c).toNat
          = (s.params.hwTriggerTimeout - (c + 1)).toNat + 1 := by omega
      rw [h1, List.replicate_succ, List.append_assoc]
      rfl

/-- The grab loop outside the hardware-triggered mode, while no buffer arrives: the
attempts are not counted, so the loop goes on unless the budget equals the value of
`hwTriggerCheck` it was entered with. -/
theorem grabLoop_uncounted (d : Device) (s : St) (hgrab : ∀ h, d.grab h = .ok none)
    (hmode : ¬ (s.self.acquisitionMode ≠ "Continuous" ∧ s.self.triggerMode = "On" ∧
      s.self.triggerSource ≠ "Software")) (c : Int) :
    ∀ (fuel : Nat) (t : List Call),
      (c ≠ s.params.hwTriggerTimeout →
        Create.grabLoop fuel c d { s with trace := t } =
          .ok none { s with trace := t ++ List.replicate fuel Call.grab }) ∧
      (c = s.params.hwTriggerTimeout →
        Create.grabLoop (fuel + 1) c d { s with trace := t } =
          .ok (some none) { s with trace := t ++ [Call.grab] }) := by
  have hm : (decide (s.self.acquisitionMode ≠ "Continuous") &&
      decide (s.self.triggerMode = "On") && decide (s.self.triggerSource ≠ "Software")) = false := by
    rw [Bool.eq_false_iff]
    intro h
    simp only [Bool.and_eq_true, decide_eq_true_eq] at h
    exact hmode ⟨h.1.1, h.1.2, h.2⟩
  intro fuel
  induction fuel with
  | zero =>
    intro t
    constructor
    · intro _
      simp [Create.grabLoop, mpure_run]
    · intro he
      simp only [Create.grabLoop, mbind_run, liftD_run, call, hgrab, getSelf_run, getParams_run,
        hm, Bool.false_eq_true, if_false, he, if_true, mpure_run]
  | succ n ih =>
    intro t
    constructor
    · intro hne
      simp only [Create.grabLoop, mbind_run, liftD_run, call, hgrab, getSelf_run, getParams_run,
        hm, Bool.false_eq_true, if_false, hne]
      rw [(ih (t ++ [Call.grab])).1 hne, List.replicate_succ, List.append_assoc]
      rfl
    · intro he
      simp only [Create.grabLoop, mbind_run, liftD_run, call, hgrab, getSelf_run, getParams_run,
        hm, Bool.false_eq_true, if_false, he, if_true, mpure_run]

/-- `Create` when the grab loop gives up. -/
theorem Create_of_grabLoop_none (fuel : Nat) (d : Device) (s s1 : St)
    (h : Create.grabLoop fuel 0 d s = .ok (some none) s1) :
    Create fuel d s = .ok (some false) s1 := by
  simp only [Create, Create.body, mbind_run, tryAllM, h, mpure_run]

/-- `Create` when the grab loop has not ended. -/
theorem Create_of_grabLoop_fuel (fuel : Nat) (d : Device) (s s1 : St)
    (h : Create.grabLoop fuel 0 d s = .ok none s1) :
    Create fuel d s = .ok none s1 := by
  simp only [Create, Create.body, mbind_run, tryAllM, h, mpure_run]

/-- C13: in a non continuous mode with trigger mode `"On"`, a trigger source other
than `"Software"` and a timeout budget `T ≥ 1`, when every grab attempt returns no
buffer, `Create` returns `false` after exactly `T` grab attempts (given at least `T`
iterations to run). -/
theorem Create_fails_after_budget (d : Device) (s : St) (fuel : Nat)
    (hgrab : ∀ h, d.grab h = .ok none)
    (hacq : s.self.acquisitionMode ≠ "Continuous") (htrig : s.self.triggerMode = "On")
    (hsrc : s.self.triggerSource ≠ "Software")
    (hT : 1 ≤ s.params.hwTriggerTimeout) (hmax : s.params.hwTriggerTimeout ≤ INT_MAX)
    (hfuel : s.params.hwTriggerTimeout.toNat ≤ fuel) :
    (Create fuel d s).value? = some (some false) ∧
    issuedBy s (Create fuel d s) = List.replicate s.params.hwTriggerTimeout.toNat Call.grab := by
  have h : Create.grabLoop fuel 0 d s = .ok (some none)
      { s with trace := (s.trace ++ List.replicate (s.params.hwTriggerTimeout - 0).toNat .grab) } :=
    grabLoop_hardware d s hgrab hacq htrig hsrc hmax fuel 0 s.trace (le_refl 0) (by omega)
      (by simpa using hfuel)
  rw [Create_of_grabLoop_none fuel d s _ h]
  refine ⟨rfl, ?_⟩
  simp only [issuedBy, Res.state, List.drop_left, sub_zero]

/-- Witness for C13: a hardware trigger (`"Line1"`) that never fires, budget 3. -/
theorem Create_fails_after_budget_witness :
    (Create 5 Device.silent (St.session "SingleFrame" "On" "Line1" 3)).value?
      = some (some false) ∧
    issuedBy (St.session "SingleFrame" "On" "Line1" 3)
      (Create 5 Device.silent (St.session "SingleFrame" "On" "Line1" 3))
      = List.replicate (3 : Int).toNat Call.grab :=
  Create_fails_after_budget Device.silent (St.session "SingleFrame" "On" "Line1" 3) 5
    (fun _ => rfl) (by decide) (by decide) (by decide) (by decide) (by decide) (by decide)

/-- C14, as stated, fails: under a software trigger with the default budget 10, when
grab never returns a buffer, `Create` has not returned after 100 grab attempts. -/
theorem Create_software_not_bounded :
    (Create 100 Device.silent (St.session "SingleFrame" "On" "Software" 10)).value?
      = some none ∧
    (issuedBy (St.session "SingleFrame" "On" "Software" 10)
      (Create 100 Device.silent (St.session "SingleFrame" "On" "Software" 10))).length
      = 100 := by
  decide!

/-- C14, amended: while grab returns no buffer, the grab loop of `Create` counts the
attempts only under a hardware trigger (non continuous mode, trigger mode `"On"`,
source not `"Software"`), where with a budget `T ≥ 1` it returns `false` after `T`
attempts; in every other mode it returns `false` after the first attempt when the
budget is 0, and does not return when the budget is not 0: after any number `fuel`
of attempts it is still in the loop. -/
theorem Create_grab_loop_modes (d : Device) (s : St) (fuel : Nat)
    (hgrab : ∀ h, d.grab h = .ok none) (hmax : s.params.hwTriggerTimeout ≤ INT_MAX) :
    ((s.self.acquisitionMode ≠ "Continuous" ∧ s.self.triggerMode = "On" ∧
        s.self.triggerSource ≠ "Software") →
      1 ≤ s.params.hwTriggerTimeout → s.params.hwTriggerTimeout.toNat ≤ fuel →
      (Create fuel d s).value? = some (some false) ∧
      issuedBy s (Create fuel d s) = List.replicate s.params.hwTriggerTimeout.toNat .grab) ∧
    (¬ (s.self.acquisitionMode ≠ "Continuous" ∧ s.self.triggerMode = "On" ∧
        s.self.triggerSource ≠ "Software") →
      (s.params.hwTriggerTimeout = 0 →
        (Create (fuel + 1) d s).value? = some (some false) ∧
        issuedBy s (Create (fuel + 1) d s) = [.grab]) ∧
      (s.params.hwTriggerTimeout ≠ 0 →
        (Create fuel d s).value? = some none ∧
        issuedBy s (Create fuel d s) = List.replicate fuel .grab)) := by
  constructor
  · rintro ⟨hacq, htrig, hsrc⟩ hT hfuel
    have h : Create.grabLoop fuel 0 d s = .ok (some none)
        { s with trace :=
          (s.trace ++ List.replicate (s.params.hwTriggerTimeout - 0).toNat .grab) } :=
      grabLoop_hardware d s hgrab hacq htrig hsrc hmax fuel 0 s.trace (le_refl 0) (by omega)
        (by simpa using hfuel)
    rw [Create_of_grabLoop_none fuel d s _ h]
    refine ⟨rfl, ?_⟩
    simp only [issuedBy, Res.state, List.drop_left, sub_zero]
  · intro hmode
    obtain ⟨h1, h2⟩ := grabLoop_uncounted d s hgrab hmode 0 fuel s.trace
    constructor
    · intro h0
      have h : Create.grabLoop (fuel + 1) 0 d s = .ok (some none)
          { s with trace := (s.trace ++ [.grab]) } := h2 h0.symm
      rw [Create_of_grabLoop_none (fuel + 1) d s _ h]
      refine ⟨rfl, ?_⟩
      simp only [issuedBy, Res.state, List.drop_left]
    · intro hne
      have h : Create.grabLoop fuel 0 d s = .ok none
          { s with trace := (s.trace ++ List.replicate fuel .grab) } := h1 (Ne.symm hne)
      rw [Create_of_grabLoop_fuel fuel d s _ h]
      refine ⟨rfl, ?_⟩
      simp only [issuedBy, Res.state, List.drop_left]

/-- Witness for C14: the software-triggered session with budget 10, 20 attempts. -/
theorem Create_grab_loop_modes_witness :
    (Create 20 Device.silent (St.session "SingleFrame" "On" "Software" 10)).value?
      = some none ∧
    issuedBy (St.session "SingleFrame" "On" "Software" 10)
      (Create 20 Device.silent (St.session "SingleFrame" "On" "Software" 10))
      = List.replicate 20 .grab :=
  ((Create_grab_loop_modes Device.silent (St.session "SingleFrame" "On" "Software" 10) 20
    (fun _ => rfl) (by decide)).2 (by decide)).2 (by decide)

/-! ## C15: one software trigger per delivered frame -/

/-- The grab loop changes nothing but the trace, which it extends by grab attempts. -/
theorem grabLoop_state (d : Device) :
    ∀ (fuel : Nat) (c : Int) (s : St), ∃ n,
      (Create.grabLoop fuel c d s).state =
        { s with trace := (s.trace ++ List.replicate n .grab) } := by
  intro fuel
  induction fuel with
  | zero =>
    intro c s
    exact ⟨0, by simp [Create.grabLoop, mpure_run, Res.state]⟩
  | succ k ih =>
    intro c s
    simp only [Create.grabLoop, mbind_run, liftD_run, call]
    cases hg : d.grab s.trace with
    | error e => exact ⟨1, rfl⟩
    | ok b =>
      cases b with
      | some buf => exact ⟨1, rfl⟩
      | none =>
        simp only [mbind_run, getSelf_run, getParams_run]
        generalize (if (decide (s.self.acquisitionMode ≠ "Continuous") &&
                decide (s.self.triggerMode = "On") &&
                decide (s.self.triggerSource ≠ "Software")) = true
              then toInt (c + 1) else c) = c1
        by_cases he : c1 = s.params.hwTriggerTimeout
        · simp only [he, if_true, mpure_run]
          exact ⟨1, rfl⟩
        · simp only [he, if_false]
          obtain ⟨n, hn⟩ := ih c1 { s with trace := (s.trace ++ [.grab]) }
          refine ⟨n + 1, ?_⟩
          rw [hn, List.replicate_succ]
          simp

/-- The status poll changes nothing but the trace, which it extends by reads of
`AcquisitionStatus`. -/
theorem awaitStatus_state (d : Device) :
    ∀ (fuel : Nat) (s : St), ∃ n,
      (Create.awaitStatus fuel d s).state =
        { s with trace :=
          (s.trace ++ List.replicate n (.getBoolean "AcquisitionStatus" false false)) } := by
  intro fuel
  induction fuel with
  | zero =>
    intro s
    exact ⟨0, by simp [Create.awaitStatus, mpure_run, Res.state]⟩
  | succ k ih =>
    intro s
    simp only [Create.awaitStatus, mbind_run, liftD_run, rcg.getBoolean, call]
    cases hg : d.getBoolean s.trace "AcquisitionStatus" false false with
    | error e => exact ⟨1, rfl⟩
    | ok b =>
      simp only [mbind_run, getSelf_run]
      by_cases he : (!b && s.self.isAcquisitionStatusFeature) = true
      · simp only [he, if_true]
        obtain ⟨n, hn⟩ := ih
          { s with trace := (s.trace ++ [.getBoolean "AcquisitionStatus" false false]) }
        refine ⟨n + 1, ?_⟩
        rw [hn, List.replicate_succ]
        simp
      · simp only [he, if_false, mpure_run]
        exact ⟨1, rfl⟩

/-- The part of `Create` after the grab loop, in a non continuous mode with trigger
mode `"On"`, when it returns `true`: one `TriggerSoftware` command under a software
trigger, none otherwise. -/
theorem deliver_count (d : Device) (fuel : Nat) (buf : Buffer) (s1 s' : St)
    (hacq : s1.self.acquisitionMode ≠ "Continuous") (htrig : s1.self.triggerMode = "On")
    (h : Create.deliver fuel buf d s1 = .ok (some true) s') :
    ∃ cs, s'.trace = s1.trace ++ cs ∧
      cs.count (.callCommand "TriggerSoftware" false) =
        if s1.self.triggerSource = "Software" then 1 else 0 := by
  simp only [Create.deliver, mbind_run, liftD_run, platform, getSelf_run, call] at h
  by_cases halloc : d.allocate buf.globalSize = true
  swap
  · simp [halloc, mpure_run] at h
  simp only [halloc, Bool.not_true, Bool.false_eq_true, if_false, mbind_run, getSelf_run,
    hacq, ne_eq, not_false_eq_true, if_true, liftD_run, call] at h
  cases h1 : d.stopStreaming s1.trace with
  | error e => simp [h1] at h
  | ok u1 =>
    simp only [h1] at h
    cases h2 : d.startStreaming (s1.trace ++ [Call.stopStreaming]) with
    | error e => simp [h2] at h
    | ok u2 =>
      simp only [h2, htrig, decide_True, Bool.true_and] at h
      by_cases hsrc : s1.self.triggerSource = "Software"
      · simp only [hsrc, decide_True, if_true, mbind_run] at h
        obtain ⟨n, hn⟩ := awaitStatus_state d fuel
          { s1 with trace := (s1.trace ++ [Call.stopStreaming] ++ [Call.startStreaming]) }
        cases h3 : Create.awaitStatus fuel d
            { s1 with trace := (s1.trace ++ [Call.stopStreaming] ++ [Call.startStreaming]) } with
        | raise e s3 =>
          rw [h3] at h
          cases h
        | ok ended s3 =>
          rw [h3] at hn
          simp only [Res.state] at hn
          rw [h3] at h
          simp only [] at h
          cases ended with
          | false => simp [mpure_run] at h
          | true =>
            simp only [Bool.not_true, Bool.false_eq_true, if_false, mbind_run, setTriggerSoftware,
              getSelf_run] at h
            have hs3 : s3.self.triggerSource = "Software" := by rw [hn]; exact hsrc
            simp only [hs3, ne_eq, not_true_eq_false, if_false, liftD_run, rcg.callCommand,
              call] at h
            cases h4 : d.callCommand s3.trace "TriggerSoftware" false with
            | error e => simp [h4] at h
            | ok b =>
              simp only [h4, mpure_run, Res.ok.injEq, true_and] at h
              refine ⟨[Call.stopStreaming, Call.startStreaming]
                ++ List.replicate n (.getBoolean "AcquisitionStatus" false false)
                ++ [.callCommand "TriggerSoftware" false], ?_, ?_⟩
              · rw [← h, hn]
                simp
              · simp [List.count_append, List.count_replicate, List.count_cons, hsrc]
      · simp only [hsrc, decide_False, Bool.false_eq_true, if_false, mpure_run, Res.ok.injEq,
          true_and] at h
        refine ⟨[Call.stopStreaming, Call.startStreaming], ?_, ?_⟩
        · rw [← h]
          simp
        · simp [List.count_cons, hsrc]

/-- C15: in a non continuous mode with trigger mode `"On"`, a call of `Create` that
returns `true` (a frame) has issued exactly one `TriggerSoftware` command when the
session trigger source is `"Software"`, and none when it is not. -/
theorem Create_triggers_once (d : Device) (s s' : St) (fuel : Nat)
    (hacq : s.self.acquisitionMode ≠ "Continuous") (htrig : s.self.triggerMode = "On")
    (hret : Create fuel d s = .ok (some true) s') :
    (issuedBy s (Create fuel d s)).count (.callCommand "TriggerSoftware" false) =
      if s.self.triggerSource = "Software" then 1 else 0 := by
  have hret0 := hret
  obtain ⟨n, hn⟩ := grabLoop_state d fuel 0 s
  simp only [Create, Create.body, mbind_run, tryAllM] at hret
  cases hg : Create.grabLoop fuel 0 d s with
  | raise e sg =>
    rw [hg] at hret
    simp [mpure_run] at hret
  | ok r sg =>
    rw [hg] at hret hn
    simp only [Res.state] at hn
    cases r with
    | none => simp [mpure_run] at hret
    | some r1 =>
      cases r1 with
      | none => simp [mpure_run] at hret
      | some buf =>
        simp only [] at hret
        cases hd : Create.deliver fuel buf d sg with
        | raise e s2 =>
          rw [hd] at hret
          simp [mpure_run] at hret
        | ok a s2 =>
          rw [hd] at hret
          simp only [mpure_run, Res.ok.injEq] at hret
          obtain ⟨ha, hs2⟩ := hret
          subst ha
          subst hs2
          have hself : sg.self = s.self := by rw [hn]
          obtain ⟨cs, e, c⟩ := deliver_count d fuel buf sg s2 (by rw [hself]; exact hacq)
            (by rw [hself]; exact htrig) hd
          rw [hself] at c
          rw [hret0, issuedBy_of_trace s (Res.ok (some true) s2)
            (List.replicate n Call.grab ++ cs) (by rw [Res.state, e, hn, List.append_assoc])]
          rw [List.count_append, c, List.count_replicate]
          simp

/-- Witness for C15: a software-triggered session on a device that delivers. -/
theorem Create_triggers_once_witness :
    (issuedBy (St.session "SingleFrame" "On" "Software" 10)
      (Create 5 Device.streaming (St.session "SingleFrame" "On" "Software" 10))).count
        (.callCommand "TriggerSoftware" false) =
      if (St.session "SingleFrame" "On" "Software" 10).self.triggerSource = "Software"
        then 1 else 0 :=
  Create_triggers_once Device.streaming (St.session "SingleFrame" "On" "Software" 10)
    (Create 5 Device.streaming (St.session "SingleFrame" "On" "Software" 10)).state 5
    (by decide) (by decide) (Res.eq_ok_of_value _ _ (by decide!))

/-! ## C17: the timeout after `Start` in continuous mode -/

/-- The completion of the trigger settings leaves the members alone, and sets the
timeout to 0 in the acquisition mode `"Continuous"` with trigger mode `"Off"`. -/
theorem trigger_timeout (d : Device) (t s' : St) (h : Start.trigger d t = .ok () s') :
    s'.self = t.self ∧
    (t.self.acquisitionMode = "Continuous" → t.self.triggerMode = "Off" →
      s'.params.hwTriggerTimeout = 0) := by
  simp only [Start.trigger, mbind_run, getSelf_run] at h
  by_cases c1 : (decide (t.self.acquisitionMode ≠ "Continuous") &&
      decide (t.self.triggerMode = "On")) = true
  · have hne : t.self.acquisitionMode ≠ "Continuous" := by
      simp only [Bool.and_eq_true, decide_eq_true_eq] at c1
      exact c1.1
    rw [if_pos c1] at h
    by_cases c2 : t.self.triggerSource = "Software"
    · rw [if_pos c2] at h
      simp only [mbind_run, invoke, mark_run, mpure_run, Setter.run, setTriggerSoftware,
        getSelf_run, c2, ne_eq, not_true_eq_false, if_false, liftD_run, rcg.callCommand,
        call] at h
      cases hc : d.callCommand t.trace "TriggerSoftware" false with
      | error e =>
        rw [hc] at h
        cases h
      | ok b =>
        rw [hc] at h
        simp only [Res.ok.injEq, true_and] at h
        rw [← h]
        exact ⟨rfl, fun ha => absurd ha hne⟩
    · rw [if_neg c2, modifyParams_run] at h
      simp only [Res.ok.injEq, true_and] at h
      rw [← h]
      exact ⟨rfl, fun ha => absurd ha hne⟩
  · rw [if_neg c1] at h
    by_cases c3 : (decide (t.self.acquisitionMode = "Continuous") &&
        decide (t.self.triggerMode = "Off")) = true
    · rw [if_pos c3, modifyParams_run] at h
      simp only [Res.ok.injEq, true_and] at h
      rw [← h]
      exact ⟨rfl, fun _ _ => rfl⟩
    · rw [if_neg c3, mpure_run] at h
      simp only [Res.ok.injEq, true_and] at h
      rw [← h]
      refine ⟨rfl, fun ha ht => ?_⟩
      exact absurd (by simp [ha, ht]) c3

/-- The part of `Start` after the settings: when it returns with a stream open, the
acquisition mode `"Continuous"` and the trigger mode `"Off"`, the timeout is 0. -/
theorem stream_timeout (d : Device) (t s' : St) (h : Start.stream d t = .ok () s')
    (hn : s'.self.stream > 0) (hacq : s'.self.acquisitionMode = "Continuous")
    (htrig : s'.self.triggerMode = "Off") : s'.params.hwTriggerTimeout = 0 := by
  simp only [Start.stream, mbind_run, liftD_run, call, modifySelf_run] at h
  cases h0 : d.getStreams t.trace with
  | error e =>
    rw [h0] at h
    cases h
  | ok n =>
    rw [h0] at h
    simp only [] at h
    by_cases hpos : n > 0
    swap
    · simp only [hpos, if_false, mpure_run, Res.ok.injEq, true_and] at h
      rw [← h] at hn
      exact absurd hn hpos
    simp only [hpos, if_true, mbind_run, liftD_run, call] at h
    cases h1 : d.streamOpen (t.trace ++ [Call.getStreams]) with
    | error e =>
      rw [h1] at h
      cases h
    | ok u1 =>
      rw [h1] at h
      simp only [] at h
      cases h2 : d.startStreaming (t.trace ++ [Call.getStreams] ++ [Call.streamOpen]) with
      | error e =>
        rw [h2] at h
        cases h
      | ok u2 =>
        rw [h2] at h
        simp only [] at h
        obtain ⟨hs, ht⟩ := trigger_timeout d _ s' h
        rw [hs] at hacq htrig
        exact ht hacq htrig

/-- The run of `Start` that returns `true` without a device reset ends with the
settings whose failure does not abort. -/
theorem Start_true_finish (d : Device) (s s' : St)
    (hreset : s.params.deviceReset = false)
    (hrun : Start d s = .ok true s') :
    ∃ s1, Start.finish d s1 = .ok () s' := by
  have hfo := sat_open.run d s
  rw [Start_run] at hrun
  cases ho : Start.open d s with
  | raise e s0 =>
    rw [ho] at hrun
    cases hrun
  | ok dev s0 =>
    rw [ho] at hrun hfo
    simp only [Res.state] at hfo
    simp only [] at hrun
    cases dev with
    | false => simp at hrun
    | true =>
      simp only [if_true] at hrun
      have hreset0 : s0.params.deviceReset = false := by
        have := congrArg GencamParams.deviceReset hfo.2.1
        simp only [id, GencamParams.blank] at this
        rw [this]
        exact hreset
      cases hc : Start.configure d s0 with
      | raise e s1 =>
        rw [hc] at hrun
        simp only [] at hrun
        cases hst : Stop d s1 <;> rw [hst] at hrun <;> simp at hrun
      | ok r s1 =>
        obtain ⟨hne, _⟩ := configure_none d s0 s1 r hreset0 hc
        rw [hc] at hrun
        cases r with
        | some b =>
          simp only [Res.ok.injEq] at hrun
          exact absurd (by rw [hrun.1]) hne
        | none =>
          simp only [] at hrun
          cases hf : Start.finish d s1 with
          | raise e s2 =>
            rw [hf] at hrun
            cases hrun
          | ok u s2 =>
            rw [hf] at hrun
            simp only [Res.ok.injEq, true_and] at hrun
            subst hrun
            exact ⟨s1, hf⟩

/-- C17, as stated, fails.  On a camera without a stream, `Start` returns `true` in
the acquisition mode `"Continuous"` and leaves the timeout at 10; and from a state
whose session trigger mode is `"On"`, on a camera that refuses the write of
`TriggerMode`, it returns `true` in the mode `"Continuous"` with trigger mode `"On"`
and leaves the timeout at 10. -/
theorem Start_continuous_timeout_kept :
    ((Start (Device.continuous "" 0) (St.init gst_gencamsrc_init)).value? = some true ∧
      (Start (Device.continuous "" 0) (St.init gst_gencamsrc_init)).state.self.acquisitionMode
        = "Continuous" ∧
      (Start (Device.continuous "" 0) (St.init gst_gencamsrc_init)).state.params.hwTriggerTimeout
        = 10) ∧
    ((Start (Device.continuous "TriggerMode" 1) St.triggerOn).value? = some true ∧
      (Start (Device.continuous "TriggerMode" 1) St.triggerOn).state.self.acquisitionMode
        = "Continuous" ∧
      (Start (Device.continuous "TriggerMode" 1) St.triggerOn).state.self.triggerMode = "On" ∧
      (Start (Device.continuous "TriggerMode" 1) St.triggerOn).state.params.hwTriggerTimeout
        = 10) := by
  decide!

/-- C17, amended: at the end of a `Start` without device reset that returns `true`
with a stream open, if the acquisition mode is `"Continuous"` and the session trigger
mode is `"Off"`, then `hwTriggerTimeout` is 0, whatever timeout the caller supplied. -/
theorem Start_continuous_timeout (d : Device) (s s' : St)
    (hreset : s.params.deviceReset = false)
    (hrun : Start d s = .ok true s')
    (hn : s'.self.stream > 0) (hacq : s'.self.acquisitionMode = "Continuous")
    (htrig : s'.self.triggerMode = "Off") : s'.params.hwTriggerTimeout = 0 := by
  obtain ⟨s1, hf⟩ := Start_true_finish d s s' hreset hrun
  have hf2 : (runSteps Start.features >>= fun _ => Start.acquire) d s1 = .ok () s' := hf
  obtain ⟨_, sc, _, ha⟩ := bind_ok _ _ d s1 s' () hf2
  simp only [Start.acquire] at ha
  obtain ⟨a, sd, _, ha2⟩ := bind_ok _ _ d sc s' () ha
  obtain ⟨found, ty⟩ := a
  simp only [] at ha2
  obtain ⟨_, se, _, ha3⟩ := bind_ok _ _ d sd s' () ha2
  exact stream_timeout d se s' ha3 hn hacq htrig

/-- Witness for C17: the caller supplied the timeout 7. -/
theorem Start_continuous_timeout_witness :
    (Start (Device.continuous "" 1)
      (St.init { gst_gencamsrc_init with hwTriggerTimeout := 7 })).state.params.hwTriggerTimeout
      = 0 :=
  Start_continuous_timeout (Device.continuous "" 1)
    (St.init { gst_gencamsrc_init with hwTriggerTimeout := 7 })
    (Start (Device.continuous "" 1)
      (St.init { gst_gencamsrc_init with hwTriggerTimeout := 7 })).state
    rfl (Res.eq_ok_of_value _ _ (by decide!)) (by decide!) (by decide!) (by decide!)

/-! ## C16: which exceptions `Start` catches -/

set_option linter.unusedTactic false in
set_option linter.unreachableTactic false in
/-- `Stop` returns when `clearSystems` does, and has then called it. -/
theorem Stop_returns (d : Device) (s : St) (hclear : ∀ h, d.clearSystems h = .ok ()) :
    (Stop d s).value? = some true ∧ Call.clearSystems ∈ issuedBy s (Stop d s) := by
  have hq : Quiet (do
      if s.self.stream > 0 then
        call .stopStreaming (fun d h => d.stopStreaming h)
        call .streamClose (fun d h => d.streamClose h)
      if s.self.dev then
        call .devClose (fun d h => d.devClose h) : D Unit) := by
    repeat' first
      | exact quiet_pure _
      | (apply quiet_call; rfl)
      | apply quiet_bind
      | split
      | intro _
      | dsimp only
  obtain ⟨cs, e, _⟩ := hq d s.trace
  simp only [Stop, mbind_run, getSelf_run, liftD_run, tryAll, call, hclear, mpure_run]
  cases hb : (do
      if s.self.stream > 0 then
        call .stopStreaming (fun d h => d.stopStreaming h)
        call .streamClose (fun d h => d.streamClose h)
      if s.self.dev then
        call .devClose (fun d h => d.devClose h) : D Unit) d s.trace with
  | ok u t1 =>
    rw [hb] at e
    simp only [DRes.trace] at e
    refine ⟨rfl, ?_⟩
    simp [issuedBy, Res.state, e]
  | raise x t1 =>
    rw [hb] at e
    simp only [DRes.trace] at e
    refine ⟨rfl, ?_⟩
    simp [issuedBy, Res.state, e]

/-- A probing block reports the probed type or `TYPE_NO`. -/
theorem isFeature_probe_value {α : Type} (t t1 : featureType) (read : D α) (d : Device)
    (s s1 : List Call) (h : isFeature.probe t read d s = .ok t1 s1) :
    t1 = t ∨ t1 = .TYPE_NO := by
  unfold isFeature.probe catchStd at h
  rw [bind_run] at h
  cases hr : read d s with
  | ok a s2 =>
    rw [hr] at h
    simp only [pure_run, DRes.ok.injEq] at h
    exact Or.inl h.1.symm
  | raise e s2 =>
    rw [hr] at h
    cases e with
    | std what =>
      simp only [pure_run, DRes.ok.injEq] at h
      by_cases c : startsWith what (isFeature.typeStr t) = true
      · simp only [c, if_true] at h
        exact Or.inr h.1.symm
      · simp only [c, if_false] at h
        exact Or.inl h.1.symm
    | generic what => cases h
    | unknown => cases h

/-- The first block reports "not found", `TYPE_NO` or `TYPE_ENUM`. -/
theorem isFeature_first_value (featureName : String) (d : Device) (s s1 : List Call)
    (r : Option featureType) (h : isFeature.first featureName d s = .ok r s1) :
    r = none ∨ r = some .TYPE_NO ∨ r = some .TYPE_ENUM := by
  unfold isFeature.first catchStd at h
  rw [bind_run] at h
  cases hr : rcg.getEnum featureName true d s with
  | ok a s2 =>
    rw [hr] at h
    simp only [pure_run, DRes.ok.injEq] at h
    exact Or.inr (Or.inr h.1.symm)
  | raise e s2 =>
    rw [hr] at h
    cases e with
    | std what =>
      simp only [] at h
      by_cases c1 : startsWith what isFeature.featureStr = true
      · simp only [c1, if_true, pure_run, DRes.ok.injEq] at h
        exact Or.inl h.1.symm
      · by_cases c2 : startsWith what (isFeature.typeStr .TYPE_ENUM) = true
        · simp only [c1, c2, if_true, if_false, Bool.false_eq_true, pure_run, DRes.ok.injEq] at h
          exact Or.inr (Or.inl h.1.symm)
        · simp only [c1, c2, if_false, Bool.false_eq_true, pure_run, DRes.ok.injEq] at h
          exact Or.inr (Or.inr h.1.symm)
    | generic what => cases h
    | unknown => cases h

/-- C30: for every feature name and every device, whenever `isFeature` called with a
type output returns, it returns `false` exactly when the reported type is
`TYPE_NO`; and when it returns `true` the reported type is one of `TYPE_ENUM`,
`TYPE_INT`, `TYPE_FLOAT`, `TYPE_BOOL`, `TYPE_STRING`, `TYPE_CMD`. -/
theorem isFeature_false_iff_not_found (d : Device) (t : List Call) (featureName : String)
    (b : Bool) (ty : Option featureType)
    (h : (isFeature featureName true d t).value? = some (b, ty)) :
    (b = false ↔ ty = some .TYPE_NO) ∧
    (b = true → ty ∈ [some featureType.TYPE_ENUM, some .TYPE_INT, some .TYPE_FLOAT,
      some .TYPE_BOOL, some .TYPE_STRING, some .TYPE_CMD]) := by
  unfold isFeature at h
  rw [bind_run] at h
  cases h0 : isFeature.first featureName d t with
  | raise e t1 =>
    rw [h0] at h
    cases h
  | ok r t1 =>
    rw [h0] at h
    rcases isFeature_first_value featureName d t t1 r h0 with hr | hr | hr
    · subst hr
      simp only [pure_run, DRes.value?, if_true, Option.some.injEq, Prod.mk.injEq] at h
      obtain ⟨hb, hty⟩ := h
      subst hb
      subst hty
      simp
    · subst hr
      simp only [Bool.true_and, bne_self_eq_false, Bool.false_eq_true, if_false,
        Bool.not_true, bind_run] at h
      cases h1 : isFeature.probe .TYPE_INT (rcg.getInteger featureName true false) d t1 with
      | raise e t2 =>
        rw [h1] at h
        cases h
      | ok r1 t2 =>
        rw [h1] at h
        rcases isFeature_probe_value _ _ _ d t1 t2 h1 with e1 | e1
        · subst e1
          simp [pure_run, DRes.value?] at h
          obtain ⟨hb, hty⟩ := h
          subst hb
          subst hty
          simp
        · subst e1
          simp only [bne_self_eq_false, Bool.false_eq_true, if_false, bind_run] at h
          cases h2 : isFeature.probe .TYPE_FLOAT (rcg.getFloat featureName true false) d t2 with
          | raise e t3 =>
            rw [h2] at h
            cases h
          | ok r2 t3 =>
            rw [h2] at h
            rcases isFeature_probe_value _ _ _ d t2 t3 h2 with e2 | e2
            · subst e2
              simp [pure_run, DRes.value?] at h
              obtain ⟨hb, hty⟩ := h
              subst hb
              subst hty
              simp
            · subst e2
              simp only [bne_self_eq_false, Bool.false_eq_true, if_false, bind_run] at h
              cases h3 : isFeature.probe .TYPE_BOOL (rcg.getBoolean featureName true false)
                  d t3 with
              | raise e t4 =>
                rw [h3] at h
                cases h
              | ok r3 t4 =>
                rw [h3] at h
                rcases isFeature_probe_value _ _ _ d t3 t4 h3 with e3 | e3
                · subst e3
                  simp [pure_run, DRes.value?] at h
                  obtain ⟨hb, hty⟩ := h
                  subst hb
                  subst hty
                  simp
                · subst e3
                  simp only [bne_self_eq_false, Bool.false_eq_true, if_false, bind_run] at h
                  cases h4 : isFeature.probe .TYPE_STRING
                      (rcg.getString featureName true false) d t4 with
                  | raise e t5 =>
                    rw [h4] at h
                    cases h
                  | ok r4 t5 =>
                    rw [h4] at h
                    rcases isFeature_probe_value _ _ _ d t4 t5 h4 with e4 | e4 <;>
                    · subst e4
                      simp [pure_run, DRes.value?] at h
                      obtain ⟨hb, hty⟩ := h
                      subst hb
                      subst hty
                      simp
    · subst hr
      simp [pure_run, DRes.value?] at h
      obtain ⟨hb, hty⟩ := h
      subst hb
      subst hty
      simp

/-- Witness for C30: a float feature. -/
theorem isFeature_false_iff_not_found_witness :
    (isFeature "Gain" true Device.floatOnly []).value? = some (true, some .TYPE_FLOAT) ∧
    (true = false ↔ some featureType.TYPE_FLOAT = some featureType.TYPE_NO) ∧
    (true = true → some featureType.TYPE_FLOAT ∈ [some featureType.TYPE_ENUM, some .TYPE_INT,
      some .TYPE_FLOAT, some .TYPE_BOOL, some .TYPE_STRING, some .TYPE_CMD]) :=
  ⟨by decide,
    isFeature_false_iff_not_found Device.floatOnly [] "Gain" true (some .TYPE_FLOAT)
      (by decide)⟩

/-! ## C29: `Create` in continuous mode -/

/-- The settings after the load-bearing ones: when they return with a stream open,
the acquisition mode `"Continuous"` and the trigger mode `"Off"`, the timeout is 0. -/
theorem finish_timeout (d : Device) (s1 s' : St) (hf : Start.finish d s1 = .ok () s')
    (hn : s'.self.stream > 0) (hacq : s'.self.acquisitionMode = "Continuous")
    (htrig : s'.self.triggerMode = "Off") : s'.params.hwTriggerTimeout = 0 := by
  have hf2 : (runSteps Start.features >>= fun _ => Start.acquire) d s1 = .ok () s' := hf
  obtain ⟨_, sc, _, ha⟩ := bind_ok _ _ d s1 s' () hf2
  simp only [Start.acquire] at ha
  obtain ⟨a, sd, _, ha2⟩ := bind_ok _ _ d sc s' () ha
  obtain ⟨found, ty⟩ := a
  simp only [] at ha2
  obtain ⟨_, se, _, ha3⟩ := bind_ok _ _ d sd s' () ha2
  exact stream_timeout d se s' ha3 hn hacq htrig

/-- C29: after a `Start` (without device reset) that returned `true` with a stream
open in the acquisition mode `"Continuous"` with trigger mode `"Off"`, a call of
`Create` whose first grab attempt returns no buffer returns `false` after exactly
one grab attempt. -/
theorem Create_continuous_single_attempt (d : Device) (s s' : St) (fuel : Nat)
    (hreset : s.params.deviceReset = false)
    (hrun : Start d s = .ok true s')
    (hn : s'.self.stream > 0) (hacq : s'.self.acquisitionMode = "Continuous")
    (htrig : s'.self.triggerMode = "Off")
    (hgrab : d.grab s'.trace = .ok none) :
    (Create (fuel + 1) d s').value? = some (some false) ∧
    issuedBy s' (Create (fuel + 1) d s') = [.grab] := by
  obtain ⟨s1, hf⟩ := Start_true_finish d s s' hreset hrun
  have hT := finish_timeout d s1 s' hf hn hacq htrig
  have hloop : Create.grabLoop (fuel + 1) 0 d s' =
      .ok (some none) { s' with trace := (s'.trace ++ [.grab]) } := by
    simp only [Create.grabLoop, mbind_run, liftD_run, call, hgrab, getSelf_run, getParams_run,
      hacq, ne_eq, not_true_eq_false, decide_False, Bool.false_and, Bool.false_eq_true,
      if_false, hT, if_true, mpure_run]
  rw [Create_of_grabLoop_none (fuel + 1) d s' _ hloop]
  refine ⟨rfl, ?_⟩
  simp only [issuedBy, Res.state, List.drop_left]

/-- Witness for C29: the camera in continuous mode, no frame on the first attempt. -/
theorem Create_continuous_single_attempt_witness :
    (Create 3 (Device.continuous "" 1)
      (Start (Device.continuous "" 1) (St.init gst_gencamsrc_init)).state).value?
      = some (some false) ∧
    issuedBy (Start (Device.continuous "" 1) (St.init gst_gencamsrc_init)).state
      (Create 3 (Device.continuous "" 1)
        (Start (Device.continuous "" 1) (St.init gst_gencamsrc_init)).state) = [.grab] :=
  Create_continuous_single_attempt (Device.continuous "" 1) (St.init gst_gencamsrc_init)
    (Start (Device.continuous "" 1) (St.init gst_gencamsrc_init)).state 2
    rfl (Res.eq_ok_of_value _ _ (by decide!)) (by decide!) (by decide!) (by decide!) rfl

/-! ## C28: the index written by `gst_gencamsrc_set_property` -/

/-- C28 fails on the code: `PROP_USEDEFAULTPROPERTIES` has the value 45, which is
not an index of the 45 element array `propertyHolder`; for every other installed
property the index is inside the array. -/
theorem set_property_use_default_outside :
    PropertyId.PROP_USEDEFAULTPROPERTIES ∈ PropertyId.installed ∧
    PropertyId.PROP_USEDEFAULTPROPERTIES.id = 45 ∧
    ¬ (PropertyId.PROP_USEDEFAULTPROPERTIES.id < propertyHolderSize) ∧
    (gst_gencamsrc_set_property.provenance gst_gencamsrc_init
      PropertyId.PROP_USEDEFAULTPROPERTIES.id).isNone = true ∧
    (PropertyId.installed.filter (fun x => decide (¬ x.id < propertyHolderSize)))
      = [.PROP_USEDEFAULTPROPERTIES] := by
  decide

/-! ## C26: the automatic-mode guard of `setGain` and `setBlackLevel` -/

/-- An existence check that returned: it made one enumeration read. -/
theorem isFeature_exists_value (featureName : String) (d : Device) (t : List Call)
    (b : Bool) (o : Option featureType)
    (h : (isFeature featureName false d t).value? = some (b, o)) :
    isFeature featureName false d t = .ok (b, none) (t ++ [.getEnum featureName true]) := by
  have ha : answersOrStd (d.getEnum t featureName true) = true := by
    cases hr : d.getEnum t featureName true with
    | ok a => rfl
    | error e =>
      cases e with
      | std what => rfl
      | generic what =>
        simp [isFeature, isFeature.first, catchStd, rcg.getEnum, bind_run, call, hr,
          DRes.value?] at h
      | unknown =>
        simp [isFeature, isFeature.first, catchStd, rcg.getEnum, bind_run, call, hr,
          DRes.value?] at h
  rw [isFeature_exists_run featureName d t ha] at h ⊢
  simp only [DRes.value?, Option.some.injEq, Prod.mk.injEq] at h
  rw [h.1]

/-- C26, as the code has it: the guard of `setGain` and `setBlackLevel` reads the
value the session holds for the automatic mode (the one `setGainAuto` or
`setBlackLevelAuto` read back), not the device.  When the automatic feature exists
on the device and the session value is neither `"Off"` nor empty, the setter returns
`false` after the existence check alone, without any write. -/
theorem setGain_setBlackLevel_guard (d : Device) (s : St) :
    ((isFeature "GainAuto" false d s.trace).value? = some (true, none) →
      s.self.gainAuto ≠ "Off" → s.self.gainAuto ≠ "" →
      (setGain d s).value? = some false ∧
      issuedBy s (setGain d s) = [.getEnum "GainAuto" true]) ∧
    ((isFeature "BlackLevelAuto" false d s.trace).value? = some (true, none) →
      s.self.blackLevelAuto ≠ "Off" → s.self.blackLevelAuto ≠ "" →
      (setBlackLevel d s).value? = some false ∧
      issuedBy s (setBlackLevel d s) = [.getEnum "BlackLevelAuto" true]) := by
  constructor
  · intro h h1 h2
    simp only [setGain, mbind_run, liftD_run, isFeature_exists_value _ d _ _ _ h, getSelf_run,
      h1, h2, ne_eq, not_false_eq_true, decide_True, Bool.and_self, if_true, mpure_run]
    refine ⟨rfl, ?_⟩
    rw [issuedBy_of_trace s _ [Call.getEnum "GainAuto" true] (by simp [Res.state])]
  · intro h h1 h2
    simp only [setBlackLevel, mbind_run, liftD_run, isFeature_exists_value _ d _ _ _ h,
      getSelf_run, h1, h2, ne_eq, not_false_eq_true, decide_True, Bool.and_self, if_true,
      mpure_run]
    refine ⟨rfl, ?_⟩
    rw [issuedBy_of_trace s _ [Call.getEnum "BlackLevelAuto" true] (by simp [Res.state])]

/-- Witness for C26: the session holds `"Continuous"` for both automatic modes. -/
theorem setGain_setBlackLevel_guard_witness :
    ((setGain Device.autoGain St.autoOn).value? = some false ∧
      issuedBy St.autoOn (setGain Device.autoGain St.autoOn) = [.getEnum "GainAuto" true]) ∧
    ((setBlackLevel Device.autoGain St.autoOn).value? = some false ∧
      issuedBy St.autoOn (setBlackLevel Device.autoGain St.autoOn)
        = [.getEnum "BlackLevelAuto" true]) :=
  ⟨(setGain_setBlackLevel_guard Device.autoGain St.autoOn).1 (by decide!) (by decide)
      (by decide),
    (setGain_setBlackLevel_guard Device.autoGain St.autoOn).2 (by decide!) (by decide)
      (by decide)⟩

/-- C26 fails on the code as worded: on a device whose `GainAuto` and
`BlackLevelAuto` exist and currently read `"Continuous"`, a session that has not run
the automatic-mode setters (its value is empty) writes the gain and the black
level, and both setters return `true`. -/
theorem setGain_writes_under_auto :
    (isFeature "GainAuto" false Device.autoGain []).value? = some (true, none) ∧
    Device.autoGain.getEnum [] "GainAuto" false = .ok "Continuous" ∧
    (setGain Device.autoGain (St.init gst_gencamsrc_init)).value? = some true ∧
    floatWrites (issuedBy (St.init gst_gencamsrc_init)
      (setGain Device.autoGain (St.init gst_gencamsrc_init))) = [("Gain", 10)] ∧
    (isFeature "BlackLevelAuto" false Device.autoGain []).value? = some (true, none) ∧
    Device.autoGain.getEnum [] "BlackLevelAuto" false = .ok "Continuous" ∧
    (setBlackLevel Device.autoGain (St.init gst_gencamsrc_init)).value? = some true ∧
    floatWrites (issuedBy (St.init gst_gencamsrc_init)
      (setBlackLevel Device.autoGain (St.init gst_gencamsrc_init))) = [("BlackLevel", 10)] := by
  refine ⟨by decide!, rfl, by decide!, by decide!, by decide!, rfl, by decide!, by decide!⟩

/-! ## Which calls a piece of code issues -/

theorem only_pure {α : Type} (Q : Call → Prop) (a : α) : Only Q (pure a : D α) :=
  fun _ t => ⟨[], by simp [pure_run, DRes.trace], fun _ h => by cases h⟩

theorem only_bind {α β : Type} (Q : Call → Prop) (m : D α) (f : α → D β) (hm : Only Q m)
    (hf : ∀ a, Only Q (f a)) : Only Q (m >>= f) := by
  intro d t
  obtain ⟨c1, e1, w1⟩ := hm d t
  rw [bind_run]
  cases hr : m d t with
  | raise e t1 =>
    rw [hr] at e1
    exact ⟨c1, e1, w1⟩
  | ok a t1 =>
    rw [hr] at e1
    simp only [DRes.trace] at e1
    obtain ⟨c2, e2, w2⟩ := hf a d t1
    refine ⟨c1 ++ c2, by rw [e2, e1, List.append_assoc], fun c hc => ?_⟩
    rcases List.mem_append.mp hc with h | h
    · exact w1 c h
    · exact w2 c h

theorem only_call {α : Type} (Q : Call → Prop) (c : Call)
    (answer : Device → List Call → Except Exc α) (h : Q c) : Only Q (call c answer) := by
  intro d t
  refine ⟨[c], ?_, fun x hx => by rw [List.mem_singleton.mp hx]; exact h⟩
  unfold call
  cases answer d t <;> rfl

theorem only_tryAll {α : Type} (Q : Call → Prop) (m : D α) (h : Only Q m) :
    Only Q (tryAll m) := by
  intro d t
  obtain ⟨cs, e, w⟩ := h d t
  refine ⟨cs, ?_, w⟩
  unfold tryAll
  cases hr : m d t <;> rw [hr] at e <;> exact e

theorem only_catchStd {α : Type} (Q : Call → Prop) (body : D α) (handler : String → D α)
    (hb : Only Q body) (hh : ∀ what, Only Q (handler what)) :
    Only Q (catchStd body handler) := by
  intro d t
  obtain ⟨c1, e1, w1⟩ := hb d t
  unfold catchStd
  cases hr : body d t with
  | ok a t1 =>
    rw [hr] at e1
    exact ⟨c1, e1, w1⟩
  | raise e t1 =>
    rw [hr] at e1
    simp only [DRes.trace] at e1
    cases e with
    | std what =>
      obtain ⟨c2, e2, w2⟩ := hh what d t1
      refine ⟨c1 ++ c2, by simp only []; rw [e2, e1, List.append_assoc], fun c hc => ?_⟩
      rcases List.mem_append.mp hc with h | h
      · exact w1 c h
      · exact w2 c h
    | generic what => exact ⟨c1, e1, w1⟩
    | unknown => exact ⟨c1, e1, w1⟩

theorem only_logInfo {α : Type} (Q : Call → Prop) (m : D α) (h : Only Q m) :
    Only Q (logInfo m) := by
  intro d t
  unfold logInfo
  by_cases hl : d.logInfo = true
  · rw [if_pos hl]
    exact only_bind Q m _ h (fun _ => only_pure Q ()) d t
  · rw [if_neg hl]
    exact ⟨[], by simp [DRes.trace], fun _ h => by cases h⟩

theorem only_logWarning {α : Type} (Q : Call → Prop) (m : D α) (h : Only Q m) :
    Only Q (logWarning m) := by
  intro d t
  unfold logWarning
  by_cases hl : d.logWarning = true
  · rw [if_pos hl]
    exact only_bind Q m _ h (fun _ => only_pure Q ()) d t
  · rw [if_neg hl]
    exact ⟨[], by simp [DRes.trace], fun _ h => by cases h⟩

theorem only_platform {α : Type} (Q : Call → Prop) (f : Device → α) : Only Q (platform f) :=
  fun _ t => ⟨[], by simp [platform, DRes.trace], fun _ h => by cases h⟩

theorem onlyCalls_refl (Q : Call → Prop) (s : St) : OnlyCalls Q s s :=
  ⟨[], by simp, fun _ h => by cases h⟩

theorem onlyCalls_trans (Q : Call → Prop) (a b c : St) (h1 : OnlyCalls Q a b)
    (h2 : OnlyCalls Q b c) : OnlyCalls Q a c := by
  obtain ⟨c1, e1, w1⟩ := h1
  obtain ⟨c2, e2, w2⟩ := h2
  refine ⟨c1 ++ c2, by rw [e2, e1, List.append_assoc], fun x hx => ?_⟩
  rcases List.mem_append.mp hx with h | h
  · exact w1 x h
  · exact w2 x h

instance onlyCalls_pre (Q : Call → Prop) : Pre (OnlyCalls Q) :=
  ⟨onlyCalls_refl Q, onlyCalls_trans Q⟩

theorem onlyCalls_mono (Q Q' : Call → Prop) (h : ∀ c, Q c → Q' c) (s s' : St)
    (hs : OnlyCalls Q s s') : OnlyCalls Q' s s' := by
  obtain ⟨cs, e, w⟩ := hs
  exact ⟨cs, e, fun c hc => h c (w c hc)⟩

theorem only_liftD {α : Type} (Q : Call → Prop) (m : D α) (h : Only Q m) :
    Sat (OnlyCalls Q) (liftD m) := by
  constructor
  intro d s
  obtain ⟨cs, e, w⟩ := h d s.trace
  refine ⟨cs, ?_, w⟩
  rw [liftD_run]
  cases hr : m d s.trace <;> rw [hr] at e <;> exact e

theorem only_getParams (Q : Call → Prop) : Sat (OnlyCalls Q) getParams :=
  ⟨fun _ s => onlyCalls_refl Q s⟩

theorem only_getSelf (Q : Call → Prop) : Sat (OnlyCalls Q) getSelf :=
  ⟨fun _ s => onlyCalls_refl Q s⟩

theorem only_modifyParams (Q : Call → Prop) (f : GencamParams → GencamParams) :
    Sat (OnlyCalls Q) (modifyParams f) :=
  ⟨fun _ s => ⟨[], by simp [modifyParams_run, Res.state], fun _ h => by cases h⟩⟩

theorem only_modifySelf (Q : Call → Prop) (f : Genicam → Genicam) :
    Sat (OnlyCalls Q) (modifySelf f) :=
  ⟨fun _ s => ⟨[], by simp [modifySelf_run, Res.state], fun _ h => by cases h⟩⟩

theorem only_mark (Q : Call → Prop) (m : Nat → Mark) : Sat (OnlyCalls Q) (mark m) :=
  ⟨fun _ s => ⟨[], by simp [mark_run, Res.state], fun _ h => by cases h⟩⟩

set_option linter.unusedTactic false in
set_option linter.unreachableTactic false in
/-- The feature check issues reads only. -/
theorem only_isFeature (Q : Call → Prop) (hr : ∀ c, c.isWrite = false → Q c)
    (featureName : String) (fType : Bool) : Only Q (isFeature featureName fType) := by
  unfold isFeature isFeature.first isFeature.probe
  repeat' first
    | exact only_pure _ _
    | (apply only_call; exact hr _ rfl)
    | apply only_bind
    | apply only_catchStd
    | split
    | intro _
    | dsimp only

set_option linter.unusedTactic false in
set_option linter.unreachableTactic false in
/-- The enumeration setter issues reads, and writes to its feature only. -/
theorem only_setEnumFeature (Q : Call → Prop) (hr : ∀ c, c.isWrite = false → Q c)
    (featureName : String) (str : Option String) (ex : Bool)
    (hw : ∀ v, Q (.setEnum featureName v ex)) : Only Q (setEnumFeature featureName str ex) := by
  unfold setEnumFeature setEnumFeature.report
  repeat' first
    | exact only_pure _ _
    | (apply only_call; exact hr _ rfl)
    | (apply only_call; exact hw _)
    | apply only_bind
    | apply only_tryAll
    | apply only_logWarning
    | split
    | intro _
    | dsimp only

set_option linter.unusedTactic false in
set_option linter.unreachableTactic false in
/-- The integer setter issues reads, and writes to its feature only. -/
theorem only_setIntFeature (Q : Call → Prop) (hr : ∀ c, c.isWrite = false → Q c)
    (featureName : String) (val : Int) (ex : Bool)
    (hw : ∀ v, Q (.setInteger featureName v ex)) : Only Q (setIntFeature featureName val ex) := by
  unfold setIntFeature setIntFeature.prepare setIntFeature.commit
  repeat' first
    | exact only_pure _ _
    | (apply only_call; exact hr _ rfl)
    | (apply only_call; exact hw _)
    | apply only_bind
    | apply only_catchStd
    | split
    | intro _
    | dsimp only

set_option linter.unusedTactic false in
set_option linter.unreachableTactic false in
theorem only_setIntFeatureOn (Q : Call → Prop) (hr : ∀ c, c.isWrite = false → Q c)
    (featureName : String) (get : GencamParams → Int) (set : Int → GencamParams → GencamParams)
    (ex : Bool) (hw : ∀ v, Q (.setInteger featureName v ex)) :
    Sat (OnlyCalls Q) (setIntFeatureOn featureName get set ex) := by
  unfold setIntFeatureOn setIntFeature.prepare setIntFeature.commit
  repeat' first
    | exact rule_pure _ _
    | exact only_getParams _
    | exact only_modifyParams _ _
    | apply rule_bind
    | apply only_liftD
    | exact only_pure _ _
    | (apply only_call; exact hr _ rfl)
    | (apply only_call; exact hw _)
    | apply only_bind
    | apply only_catchStd
    | split
    | intro _
    | dsimp only

set_option linter.unusedTactic false in
set_option linter.unreachableTactic false in
theorem only_setFloatFeatureOn (Q : Call → Prop) (hr : ∀ c, c.isWrite = false → Q c)
    (featureName : String) (get : GencamParams → CFloat) (set : CFloat → GencamParams → GencamParams)
    (ex : Bool) (hw : ∀ v, Q (.setFloat featureName v ex)) :
    Sat (OnlyCalls Q) (setFloatFeatureOn featureName get set ex) := by
  unfold setFloatFeatureOn setFloatFeature.prepare setFloatFeature.commit
  repeat' first
    | exact rule_pure _ _
    | exact only_getParams _
    | exact only_modifyParams _ _
    | apply rule_bind
    | apply only_liftD
    | exact only_pure _ _
    | exact only_platform _ _
    | (apply only_call; exact hr _ rfl)
    | (apply only_call; exact hw _)
    | apply only_bind
    | apply only_catchStd
    | split
    | intro _
    | dsimp only

set_option linter.unusedTactic false in
set_option linter.unreachableTactic false in
/-- The device is stopped without any write. -/
theorem only_Stop (Q : Call → Prop) (hr : ∀ c, c.isWrite = false → Q c) :
    Sat (OnlyCalls Q) Stop := by
  unfold Stop
  repeat' first
    | exact rule_pure _ _
    | exact only_getSelf _
    | apply rule_bind
    | apply only_liftD
    | apply only_tryAll
    | exact only_pure _ _
    | (apply only_call; exact hr _ rfl)
    | apply only_bind
    | split
    | intro _
    | dsimp only

set_option linter.unusedTactic false in
set_option linter.unreachableTactic false in
/-- The device is looked up and opened without any write. -/
theorem only_open (Q : Call → Prop) (hr : ∀ c, c.isWrite = false → Q c) :
    Sat (OnlyCalls Q) Start.open := by
  unfold Start.open getCameraInfo getCameraSerialNumber
  repeat' first
    | exact rule_pure _ _
    | exact only_getSelf _
    | exact only_getParams _
    | exact only_modifySelf _ _
    | exact only_modifyParams _ _
    | apply rule_bind
    | apply only_liftD
    | exact only_isFeature _ hr _ _
    | exact only_pure _ _
    | (apply only_call; exact hr _ rfl)
    | apply only_bind
    | split
    | intro _
    | dsimp only

theorem only_invoke (Q : Call → Prop) (f : Setter) (h : Sat (OnlyCalls Q) f.run) :
    Sat (OnlyCalls Q) (invoke f) := by
  unfold invoke
  apply rule_bind
  · exact only_mark Q _
  · intro _
    apply rule_bind
    · exact h
    · intro _
      apply rule_bind
      · exact only_mark Q _
      · intro _
        exact rule_pure _ _

/-! ## C21: the device reset -/

/-- `Stop` on a device whose `clearSystems` answers: it returns `true`, changes the
trace only, issues no write and ends the session with `clearSystems`. -/
theorem Stop_run (d : Device) (s : St) (hclear : ∀ h, d.clearSystems h = .ok ()) :
    ∃ cs s', Stop d s = .ok true s' ∧ s'.trace = s.trace ++ cs ∧ s'.log = s.log ∧
      Call.clearSystems ∈ cs ∧ ∀ c ∈ cs, c.isWrite = false := by
  obtain ⟨hv, hmem⟩ := Stop_returns d s hclear
  obtain ⟨cs, e, w⟩ := (only_Stop (fun c => c.isWrite = false) (fun _ h => h)).run d s
  have hl := ((sat_Stop id true).run d s).1
  rw [issuedBy_of_trace s _ cs e] at hmem
  exact ⟨cs, (Stop d s).state, Res.eq_ok_of_value _ _ hv, e, hl, hmem, w⟩

/-- A recorded call of `resetDevice`: the `DeviceReset` command is the first call and
the only write; when the command answers, the device is stopped and the result is
`false`. -/
theorem invoke_resetDevice_run (d : Device) (s : St)
    (hclear : ∀ h, d.clearSystems h = .ok ()) :
    ∃ cs ms s', (invoke .resetDevice d s).state = s' ∧
      s'.trace = s.trace ++ Call.callCommand "DeviceReset" true :: cs ∧
      s'.log = s.log ++ ms ∧ (∀ m ∈ ms, m.setter = .resetDevice) ∧
      (∀ c ∈ cs, c.isWrite = false) ∧
      ((invoke .resetDevice d s = .ok false s' ∧ Call.clearSystems ∈ cs) ∨
        (∃ e, invoke .resetDevice d s = .raise e s')) := by
  simp only [invoke, Setter.run, resetDevice, mbind_run, mark_run, liftD_run, rcg.callCommand,
    call, mpure_run]
  cases hc : d.callCommand s.trace "DeviceReset" true with
  | error e =>
    refine ⟨[], [.enter .resetDevice s.trace.length], _, rfl, rfl, rfl, ?_, ?_,
      Or.inr ⟨e, rfl⟩⟩
    · intro m hm
      rw [List.mem_singleton.mp hm]
      rfl
    · intro c hcm
      cases hcm
  | ok b =>
    simp only []
    obtain ⟨cs, s2, hs, ht, hl, hmem, hw⟩ := Stop_run d
      { s with log := s.log ++ [.enter .resetDevice s.trace.length]
               trace := (s.trace ++ [Call.callCommand "DeviceReset" true]) } hclear
    rw [hs]
    refine ⟨cs, [.enter .resetDevice s.trace.length, .leave .resetDevice false s2.trace.length],
      _, rfl, ?_, ?_, ?_, hw, Or.inl ⟨rfl, hmem⟩⟩
    · simp [Res.state, ht]
    · simp [Res.state, hl]
    · intro m hm
      simp only [List.mem_cons, List.mem_singleton, List.not_mem_nil, or_false] at hm
      rcases hm with h | h <;> rw [h] <;> rfl

/-- C21: with the device-reset flag set, on a device that is found and opened and
whose `clearSystems` answers, `Start` issues the `DeviceReset` command, issues no other
write (no feature write and no other command), calls no other setter, stops the
device (ending with `clearSystems`) and returns `false`. -/
theorem Start_reset (d : Device) (s : St) (hreset : s.params.deviceReset = true)
    (hdev : (Start.open d s).value? = some true)
    (hclear : ∀ h, d.clearSystems h = .ok ()) :
    (Start d s).value? = some false ∧
    (∃ a b, issuedBy s (Start d s) = a ++ Call.callCommand "DeviceReset" true :: b ∧
      (∀ c ∈ a ++ b, c.isWrite = false) ∧ Call.clearSystems ∈ b) ∧
    (∀ m ∈ marksBy s (Start d s), m.setter = .resetDevice) := by
  have hopen := Res.eq_ok_of_value _ _ hdev
  obtain ⟨c0, e0, w0⟩ := (only_open (fun c => c.isWrite = false) (fun _ h => h)).run d s
  have hf := (sat_open.run d s)
  have hl0 : (Start.open d s).state.log = s.log := hf.1
  have hp0 : (Start.open d s).state.params.deviceReset = true := by
    have := congrArg GencamParams.deviceReset hf.2.1
    exact this.trans hreset
  generalize (Start.open d s).state = s0 at hopen e0 hl0 hp0
  obtain ⟨cs, ms, s1, hst, ht, hl, hms, hw, hcase⟩ := invoke_resetDevice_run d s0 hclear
  rw [Start_run, hopen]
  simp only [if_true, configure_run, hp0]
  rcases hcase with ⟨hok, hmem⟩ | ⟨e, hraise⟩
  · rw [hok]
    simp only []
    refine ⟨rfl, ⟨c0, cs, ?_, ?_, hmem⟩, ?_⟩
    · rw [issuedBy_of_trace s _ (c0 ++ Call.callCommand "DeviceReset" true :: cs)
        (by simp [Res.state, ht, e0])]
    · intro c hc
      rcases List.mem_append.mp hc with h | h
      · exact w0 c h
      · exact hw c h
    · intro m hm
      have : marksBy s (Res.ok false s1) = ms := by
        simp [marksBy, Res.state, hl, hl0]
      rw [this] at hm
      exact hms m hm
  · rw [hraise]
    simp only []
    obtain ⟨c2, s2, hs2, ht2, hl2, hmem2, hw2⟩ := Stop_run d s1 hclear
    rw [hs2]
    simp only []
    refine ⟨rfl, ⟨c0, cs ++ c2, ?_, ?_, List.mem_append_right _ hmem2⟩, ?_⟩
    · rw [issuedBy_of_trace s _ (c0 ++ Call.callCommand "DeviceReset" true :: (cs ++ c2))
        (by simp [Res.state, ht2, ht, e0])]
    · intro c hc
      rcases List.mem_append.mp hc with h | h
      · exact w0 c h
      · rcases List.mem_append.mp h with h | h
        · exact hw c h
        · exact hw2 c h
    · intro m hm
      have : marksBy s (Res.ok false s2) = ms := by
        simp [marksBy, Res.state, hl2, hl, hl0]
      rw [this] at hm
      exact hms m hm

/-- Witness for C21: a camera that is found, with the reset flag set. -/
theorem Start_reset_witness :
    (Start (Device.camera ⟨0, 16, 9999, 1⟩ ["Mono8"])
      (St.init { gst_gencamsrc_init with deviceReset := true })).value? = some false ∧
    (∃ a b, issuedBy (St.init { gst_gencamsrc_init with deviceReset := true })
        (Start (Device.camera ⟨0, 16, 9999, 1⟩ ["Mono8"])
          (St.init { gst_gencamsrc_init with deviceReset := true }))
        = a ++ Call.callCommand "DeviceReset" true :: b ∧
      (∀ c ∈ a ++ b, c.isWrite = false) ∧ Call.clearSystems ∈ b) ∧
    (∀ m ∈ marksBy (St.init { gst_gencamsrc_init with deviceReset := true })
        (Start (Device.camera ⟨0, 16, 9999, 1⟩ ["Mono8"])
          (St.init { gst_gencamsrc_init with deviceReset := true })),
      m.setter = .resetDevice) :=
  Start_reset (Device.camera ⟨0, 16, 9999, 1⟩ ["Mono8"])
    (St.init { gst_gencamsrc_init with deviceReset := true }) rfl (by decide!) (fun _ => rfl)

/-! ## C22: the trigger mode after `setAcquisitionMode` -/

/-- C22, as the code has it: when `setAcquisitionMode` returns, the session
acquisition mode is the one the device reported; the `TriggerMode` write of `"Off"`
(mode `"Continuous"`) or `"On"` (any other mode) has been issued, and the session
trigger mode has that value if the device accepted the write and is unchanged if it
did not; in a mode other than `"Continuous"` the write of `"FrameTriggerWait"` to
`AcquisitionStatusSelector` has been issued as well. -/
theorem setAcquisitionMode_trigger (d : Device) (s s' : St) (b : Bool)
    (hret : setAcquisitionMode d s = .ok b s') :
    (∃ t, d.getEnum t "AcquisitionMode" false = .ok s'.self.acquisitionMode) ∧
    (s'.self.acquisitionMode = "Continuous" →
      (∃ t ret, d.setEnum t "TriggerMode" "Off" false = .ok ret ∧
        s'.self.triggerMode = if ret = true then "Off" else s.self.triggerMode) ∧
      Call.setEnum "TriggerMode" "Off" false ∈ issuedBy s (setAcquisitionMode d s)) ∧
    (s'.self.acquisitionMode ≠ "Continuous" →
      (∃ t ret, d.setEnum t "TriggerMode" "On" false = .ok ret ∧
        s'.self.triggerMode = if ret = true then "On" else s.self.triggerMode) ∧
      Call.setEnum "TriggerMode" "On" false ∈ issuedBy s (setAcquisitionMode d s) ∧
      Call.setEnum "AcquisitionStatusSelector" "FrameTriggerWait" false
        ∈ issuedBy s (setAcquisitionMode d s)) := by
  obtain ⟨c1, e1, _⟩ := only_setEnumFeature (fun _ => True) (fun _ _ => trivial)
    "AcquisitionMode" s.params.acquisitionMode false (fun _ => trivial) d s.trace
  rw [hret]
  simp only [setAcquisitionMode, setTriggerMode, mbind_run, getParams_run, liftD_run,
    rcg.getEnum, rcg.setEnum, call] at hret
  cases h1 : setEnumFeature "AcquisitionMode" s.params.acquisitionMode false d s.trace with
  | raise e t1 =>
    rw [h1] at hret
    cases hret
  | ok x t1 =>
    rw [h1] at hret e1
    simp only [DRes.trace] at e1
    simp only [] at hret
    cases h2 : d.getEnum t1 "AcquisitionMode" false with
    | error e =>
      rw [h2] at hret
      cases hret
    | ok aMode =>
      rw [h2] at hret
      simp only [modifySelf_run, mbind_run] at hret
      by_cases hA : aMode = "Continuous"
      · simp only [hA, if_true, mbind_run, liftD_run, rcg.setEnum, call] at hret
        cases h3 : d.setEnum (t1 ++ [Call.getEnum "AcquisitionMode" false]) "TriggerMode" "Off"
            false with
        | error e =>
          rw [h3] at hret
          cases hret
        | ok ret =>
          rw [h3] at hret
          cases ret <;>
            simp only [Bool.false_eq_true, if_false, if_true, mpure_run, mbind_run,
              modifySelf_run, Res.ok.injEq] at hret <;>
            obtain ⟨_, hs⟩ := hret <;> subst hs <;>
            refine ⟨⟨t1, by rw [h2, hA]⟩, fun _ => ⟨⟨_, _, h3, by simp⟩, ?_⟩,
              fun hne => absurd rfl hne⟩ <;>
            simp [issuedBy, Res.state, e1]
      · simp only [hA, if_false, mbind_run, liftD_run, rcg.setEnum, call] at hret
        cases h3 : d.setEnum (t1 ++ [Call.getEnum "AcquisitionMode" false]) "TriggerMode" "On"
            false with
        | error e =>
          rw [h3] at hret
          cases hret
        | ok ret =>
          rw [h3] at hret
          cases ret
          · simp only [Bool.false_eq_true, if_false, mpure_run, mbind_run, liftD_run,
              rcg.setEnum, call] at hret
            cases h4 : d.setEnum (t1 ++ [Call.getEnum "AcquisitionMode" false]
                ++ [Call.setEnum "TriggerMode" "On" false]) "AcquisitionStatusSelector"
                "FrameTriggerWait" false with
            | error e =>
              rw [h4] at hret
              cases hret
            | ok r4 =>
              rw [h4] at hret
              simp only [Res.ok.injEq] at hret
              obtain ⟨_, hs⟩ := hret
              subst hs
              refine ⟨⟨t1, h2⟩, fun hc => absurd hc hA, fun _ => ⟨⟨_, _, h3, by simp⟩, ?_, ?_⟩⟩ <;>
                simp [issuedBy, Res.state, e1]
          · simp only [if_true, mpure_run, mbind_run, liftD_run, modifySelf_run,
              rcg.setEnum, call] at hret
            cases h4 : d.setEnum (t1 ++ [Call.getEnum "AcquisitionMode" false]
                ++ [Call.setEnum "TriggerMode" "On" false]) "AcquisitionStatusSelector"
                "FrameTriggerWait" false with
            | error e =>
              rw [h4] at hret
              cases hret
            | ok r4 =>
              rw [h4] at hret
              simp only [Res.ok.injEq] at hret
              obtain ⟨_, hs⟩ := hret
              subst hs
              refine ⟨⟨t1, h2⟩, fun hc => absurd hc hA, fun _ => ⟨⟨_, _, h3, by simp⟩, ?_, ?_⟩⟩ <;>
                simp [issuedBy, Res.state, e1]

/-- Witness for C22: a camera reporting `"SingleFrame"` that accepts the writes. -/
theorem setAcquisitionMode_trigger_witness :
    (∃ t, Device.triggered.getEnum t "AcquisitionMode" false =
      .ok (setAcquisitionMode Device.triggered (St.init gst_gencamsrc_init)).state.self.acquisitionMode) ∧
    ((setAcquisitionMode Device.triggered (St.init gst_gencamsrc_init)).state.self.acquisitionMode
        = "Continuous" →
      (∃ t ret, Device.triggered.setEnum t "TriggerMode" "Off" false = .ok ret ∧
        (setAcquisitionMode Device.triggered (St.init gst_gencamsrc_init)).state.self.triggerMode
          = if ret = true then "Off" else (St.init gst_gencamsrc_init).self.triggerMode) ∧
      Call.setEnum "TriggerMode" "Off" false ∈ issuedBy (St.init gst_gencamsrc_init)
        (setAcquisitionMode Device.triggered (St.init gst_gencamsrc_init))) ∧
    ((setAcquisitionMode Device.triggered (St.init gst_gencamsrc_init)).state.self.acquisitionMode
        ≠ "Continuous" →
      (∃ t ret, Device.triggered.setEnum t "TriggerMode" "On" false = .ok ret ∧
        (setAcquisitionMode Device.triggered (St.init gst_gencamsrc_init)).state.self.triggerMode
          = if ret = true then "On" else (St.init gst_gencamsrc_init).self.triggerMode) ∧
      Call.setEnum "TriggerMode" "On" false ∈ issuedBy (St.init gst_gencamsrc_init)
        (setAcquisitionMode Device.triggered (St.init gst_gencamsrc_init)) ∧
      Call.setEnum "AcquisitionStatusSelector" "FrameTriggerWait" false
        ∈ issuedBy (St.init gst_gencamsrc_init)
          (setAcquisitionMode Device.triggered (St.init gst_gencamsrc_init))) :=
  setAcquisitionMode_trigger Device.triggered (St.init gst_gencamsrc_init) _ false
    (Res.eq_ok_of_value _ _ (by decide!))

/-- C22 fails on the code as worded: the session trigger mode follows the mode only
when the device accepts the `TriggerMode` write.  On a device that reports
`"SingleFrame"` and refuses the write, the session trigger mode stays `"Off"`; on a
device that reports `"Continuous"` and refuses the write, a session trigger mode
`"On"` stays `"On"`. -/
theorem setAcquisitionMode_keeps_trigger_mode :
    (setAcquisitionMode Device.singleFrame (St.init gst_gencamsrc_init)).value? = some false ∧
    (setAcquisitionMode Device.singleFrame (St.init gst_gencamsrc_init)).state.self.acquisitionMode
      = "SingleFrame" ∧
    (setAcquisitionMode Device.singleFrame (St.init gst_gencamsrc_init)).state.self.triggerMode
      = "Off" ∧
    (setAcquisitionMode (Device.continuous "TriggerMode" 1) St.triggerOn).value? = some false ∧
    (setAcquisitionMode (Device.continuous "TriggerMode" 1) St.triggerOn).state.self.acquisitionMode
      = "Continuous" ∧
    (setAcquisitionMode (Device.continuous "TriggerMode" 1) St.triggerOn).state.self.triggerMode
      = "On" := by
  refine ⟨by decide!, by decide!, by decide!, by decide!, by decide!, by decide!⟩

/-! ## The features each setter writes -/

theorem within_read (names : List String) (c : Call) (h : c.isWrite = false) :
    c.within names = true := by
  cases c <;> first | rfl | cases h

theorem within_float (names : List String) (n : String) (v : CFloat) (ex : Bool) :
    (Call.setFloat n v ex).within names = true := rfl

theorem rule_bind_val {α β : Type} (R : St → St → Prop) [Pre R] (P : α → Prop)
    (m : M α) (f : α → M β) (h1 : Sat R m)
    (hP : ∀ d s a s', m d s = .ok a s' → P a) (h2 : ∀ a, P a → Sat R (f a)) :
    Sat R (m >>= f) := by
  constructor
  intro d s
  have e := h1.run d s
  rw [mbind_run]
  cases hm : m d s with
  | raise x s1 =>
    rw [hm] at e
    exact e
  | ok a s1 =>
    rw [hm] at e
    exact Pre.trans _ _ _ e ((h2 a (hP d s a s1 hm)).run d s1)

/-- The feature name chosen by `setBlackLevel`. -/
theorem setBlackLevel_feature_value (d : Device) (s : St)
    (a : Option (String × Option featureType)) (s' : St)
    (h : setBlackLevel.feature d s = .ok a s') :
    a = none ∨ ∃ ty, a = some ("BlackLevel", ty) ∨ a = some ("BlackLevelRaw", ty) := by
  simp only [setBlackLevel.feature, mbind_run, liftD_run] at h
  cases h1 : isFeature "BlackLevel" true d s.trace with
  | raise e t1 =>
    rw [h1] at h
    cases h
  | ok r t1 =>
    rw [h1] at h
    obtain ⟨found, ty⟩ := r
    cases found
    · simp only [Bool.false_eq_true, if_false, mbind_run, liftD_run] at h
      cases h2 : isFeature "BlackLevelRaw" true d t1 with
      | raise e t2 =>
        rw [h2] at h
        cases h
      | ok r2 t2 =>
        rw [h2] at h
        obtain ⟨found2, ty2⟩ := r2
        cases found2
        · simp only [Bool.false_eq_true, if_false, mpure_run, Res.ok.injEq] at h
          exact Or.inl h.1.symm
        · simp only [if_true, mpure_run, Res.ok.injEq] at h
          exact Or.inr ⟨ty2, Or.inr h.1.symm⟩
    · simp only [if_true, mpure_run, Res.ok.injEq] at h
      exact Or.inr ⟨ty, Or.inl h.1.symm⟩

set_option linter.unusedTactic false in
set_option linter.unreachableTactic false in
theorem only_setBlackLevel_write (blackLevelStr : String) (fType : Option featureType)
    (h : blackLevelStr = "BlackLevel" ∨ blackLevelStr = "BlackLevelRaw") :
    Sat (OnlyCalls (fun c => c.within (Setter.writes .setBlackLevel) = true))
      (setBlackLevel.write blackLevelStr fType) := by
  unfold setBlackLevel.write
  rcases h with h | h <;> subst h <;>
  repeat' first
    | exact rule_pure _ _
    | (apply only_liftD; exact only_platform _ _)
    | exact only_setIntFeatureOn _ (within_read _) _ _ _ _ (fun _ => rfl)
    | exact only_setFloatFeatureOn _ (within_read _) _ _ _ _ (fun _ => rfl)
    | apply rule_bind
    | split
    | intro _
    | dsimp only

set_option linter.unusedTactic false in
set_option linter.unreachableTactic false in
theorem only_setBlackLevel_feature (Q : Call → Prop) (hr : ∀ c, c.isWrite = false → Q c) :
    Sat (OnlyCalls Q) setBlackLevel.feature := by
  unfold setBlackLevel.feature
  repeat' first
    | exact rule_pure _ _
    | (apply only_liftD; exact only_isFeature _ hr _ _)
    | apply rule_bind
    | split
    | intro _
    | dsimp only

theorem only_setBlackLevel_tail (a : Option (String × Option featureType))
    (ha : a = none ∨ ∃ ty, a = some ("BlackLevel", ty) ∨ a = some ("BlackLevelRaw", ty)) :
    Sat (OnlyCalls (fun c => c.within (Setter.writes .setBlackLevel) = true))
      (match a with
        | none => pure false
        | some (blackLevelStr, fType) => setBlackLevel.write blackLevelStr fType) := by
  rcases ha with ha | ⟨ty, ha | ha⟩ <;> subst ha
  · exact rule_pure _ _
  · exact only_setBlackLevel_write _ _ (Or.inl rfl)
  · exact only_setBlackLevel_write _ _ (Or.inr rfl)

set_option linter.unusedTactic false in
set_option linter.unreachableTactic false in
theorem only_setBlackLevel :
    Sat (OnlyCalls (fun c => c.within (Setter.writes .setBlackLevel) = true)) setBlackLevel := by
  unfold setBlackLevel
  repeat' first
    | exact rule_pure _ _
    | exact only_getSelf _
    | exact rule_bind_val _ _ _ _ (only_setBlackLevel_feature _ (within_read _))
        setBlackLevel_feature_value only_setBlackLevel_tail
    | (apply only_liftD; exact only_isFeature _ (within_read _) _ _)
    | (apply only_liftD; apply only_call; rfl)
    | apply rule_bind
    | split
    | intro _
    | dsimp only

set_option linter.unusedTactic false in
set_option linter.unreachableTactic false in
set_option maxHeartbeats 3200000 in
/-- Every setter addresses its integer writes, enumeration writes and commands to the
features listed for it. -/
theorem Setter_writes (f : Setter) :
    Sat (OnlyCalls (fun c => c.within f.writes = true)) f.run := by
  cases f
  case setBlackLevel => exact only_setBlackLevel
  all_goals unfold Setter.run
  all_goals
    repeat' first
      | exact rule_pure _ _
      | exact only_getParams _
      | exact only_getSelf _
      | exact only_modifyParams _ _
      | exact only_modifySelf _ _
      | exact only_Stop _ (within_read _)
      | exact only_setIntFeatureOn _ (within_read _) _ _ _ _ (fun _ => rfl)
      | exact only_setFloatFeatureOn _ (within_read _) _ _ _ _ (fun _ => rfl)
      | (apply only_liftD; exact only_isFeature _ (within_read _) _ _)
      | (apply only_liftD; exact only_setEnumFeature _ (within_read _) _ _ _ (fun _ => rfl))
      | (apply only_liftD; exact only_setIntFeature _ (within_read _) _ _ _ (fun _ => rfl))
      | (apply only_liftD; exact only_platform _ _)
      | (apply only_liftD; apply only_logInfo)
      | (apply only_liftD; apply only_catchStd)
      | (apply only_liftD; apply only_call; rfl)
      | exact only_pure _ _
      | (apply only_call; rfl)
      | apply only_bind
      | apply rule_bind
      | split
      | intro _
      | dsimp only
      | unfold setBinningMode
      | unfold setTriggerMode
      | unfold setWidthHeight
      | unfold setWidthHeight.offsets
      | unfold setWidthHeight.maxima
      | unfold setWidthHeight.cap
      | unfold setWidthHeight.write
      | unfold setWidthHeight.report

/-! ## C24: the order of the writes of `Start` -/

theorem avoids_read (names : List String) (c : Call) (h : c.isWrite = false) :
    c.avoids names = true := by
  cases c <;> first | rfl | cases h

theorem avoids_of_within (A B : List String) (h : ∀ n ∈ A, n ∉ B) (c : Call)
    (hc : c.within A = true) : c.avoids B = true := by
  unfold Call.within at hc
  unfold Call.avoids
  cases ht : c.target with
  | none => rfl
  | some n =>
    rw [ht] at hc
    simp only [] at hc ⊢
    simpa using h n (by simpa using hc)

theorem within_mono (A B : List String) (h : ∀ n ∈ A, n ∈ B) (c : Call)
    (hc : c.within A = true) : c.within B = true := by
  unfold Call.within at hc ⊢
  cases ht : c.target with
  | none => rfl
  | some n =>
    rw [ht] at hc
    simpa using h n (by simpa using hc)

theorem only_exec (Q : Call → Prop) (f : Setter) (h : Sat (OnlyCalls Q) f.run) :
    Sat (OnlyCalls Q) f.exec := by
  unfold Setter.exec
  repeat' first
    | exact rule_pure _ _
    | exact only_getParams _
    | exact only_getSelf _
    | exact only_invoke Q f h
    | apply rule_bind
    | split
    | intro _

theorem only_runSteps (Q : Call → Prop) (L : List Setter)
    (h : ∀ f ∈ L, Sat (OnlyCalls Q) f.run) : Sat (OnlyCalls Q) (runSteps L) := by
  induction L with
  | nil => exact rule_pure _ _
  | cons f rest ih =>
    unfold runSteps
    apply rule_bind
    · exact only_exec Q f (h f (List.mem_cons_self _ _))
    · intro _
      exact ih (fun g hg => h g (List.mem_cons_of_mem _ hg))

/-- A setter whose features all satisfy a condition issues only calls satisfying it. -/
theorem Setter_only (Q : Call → Prop) (f : Setter)
    (hq : ∀ c, c.within f.writes = true → Q c) : Sat (OnlyCalls Q) f.run :=
  rule_mono _ _ _ (fun s s' => onlyCalls_mono _ _ hq s s') (Setter_writes f)

set_option linter.unusedTactic false in
set_option linter.unreachableTactic false in
/-- The settings after the load-bearing ones write none of the binning and decimation
features, nor `Width`, `Height` or `PixelFormat`. -/
theorem only_finish :
    Sat (OnlyCalls (fun c =>
      c.avoids (Start.binningFeatures ++ ["Width", "Height", "PixelFormat"]) = true))
      Start.finish := by
  have hset : ∀ f, f ∈ Start.features ∨ f = .setTriggerSoftware →
      Sat (OnlyCalls (fun c =>
        c.avoids (Start.binningFeatures ++ ["Width", "Height", "PixelFormat"]) = true))
        f.run := by
    intro f hf
    apply Setter_only
    apply avoids_of_within
    rcases hf with hf | hf
    · revert f
      decide!
    · subst hf
      decide!
  unfold Start.finish Start.acquire Start.stream Start.trigger
  repeat' first
    | exact rule_pure _ _
    | exact only_getParams _
    | exact only_getSelf _
    | exact only_modifyParams _ _
    | exact only_modifySelf _ _
    | exact only_runSteps _ _ (fun f hf => hset f (Or.inl hf))
    | exact only_invoke _ _ (hset _ (Or.inr rfl))
    | (apply only_liftD; exact only_isFeature _ (avoids_read _) _ _)
    | (apply only_liftD; apply only_call; rfl)
    | apply rule_bind
    | split
    | intro _
    | dsimp only

theorem writesOnly_read (names : List String) (c : Call) (h : c.isWrite = false) :
    c.writesOnly names = true := by
  simp [Call.writesOnly, h]

theorem writesOnly_mono (A B : List String) (h : ∀ n ∈ A, n ∈ B) (c : Call)
    (hc : c.writesOnly A = true) : c.writesOnly B = true := by
  unfold Call.writesOnly at hc ⊢
  cases hw : c.isWrite with
  | false => rfl
  | true =>
    rw [hw] at hc
    cases ht : c.target with
    | none =>
      rw [ht] at hc
      simp at hc
    | some n =>
      rw [ht] at hc
      simpa using h n (by simpa using hc)

/-- The offsets part of `setWidthHeight` issues the write of 0 to `OffsetX` and, when
that write answers, the write of 0 to `OffsetY`; nothing else. -/
theorem setWidthHeight_offsets_trace (d : Device) (s : St) :
    ∃ off, (setWidthHeight.offsets d s).state.trace = s.trace ++ off ∧
      Call.setInteger "OffsetX" 0 true ∈ off ∧
      ((∃ b, d.setInteger s.trace "OffsetX" 0 true = .ok b) →
        Call.setInteger "OffsetY" 0 true ∈ off) ∧
      ∀ c ∈ off, c = .setInteger "OffsetX" 0 true ∨ c = .setInteger "OffsetY" 0 true := by
  simp only [setWidthHeight.offsets, mbind_run, modifySelf_run, liftD_run, catchStd,
    rcg.setInteger, call, bind_run, pure_run]
  cases ex : d.setInteger s.trace "OffsetX" 0 true with
  | error e =>
    refine ⟨[Call.setInteger "OffsetX" 0 true], ?_, by simp, ?_, by simp⟩
    · cases e <;> rfl
    · rintro ⟨b, hb⟩
      cases hb
  | ok a =>
    simp only []
    refine ⟨[Call.setInteger "OffsetX" 0 true, Call.setInteger "OffsetY" 0 true], ?_,
      by simp, fun _ => by simp, by simp⟩
    cases ey : d.setInteger (s.trace ++ [Call.setInteger "OffsetX" 0 true]) "OffsetY" 0 true with
    | error e => cases e <;> simp [Res.state]
    | ok b => simp [Res.state]

set_option linter.unusedTactic false in
set_option linter.unreachableTactic false in
/-- The parts of `setWidthHeight` after the offsets write `Width` and `Height` only. -/
theorem only_setWidthHeight_size :
    Sat (OnlyCalls (fun c => c.writesOnly ["Width", "Height"] = true))
      (do setWidthHeight.maxima; setWidthHeight.cap; setWidthHeight.write) := by
  unfold setWidthHeight.maxima setWidthHeight.cap setWidthHeight.write setWidthHeight.report
  repeat' first
    | exact rule_pure _ _
    | exact only_getParams _
    | exact only_modifyParams _ _
    | exact only_modifySelf _ _
    | exact only_Stop _ (writesOnly_read _)
    | (apply only_liftD; apply only_logInfo)
    | (apply only_liftD; apply only_call; rfl)
    | (apply only_call; rfl)
    | apply only_bind
    | apply rule_bind
    | split
    | intro _
    | dsimp only

theorem invoke_trace (f : Setter) (d : Device) (s : St) :
    (invoke f d s).state.trace =
      (f.run d { s with log := s.log ++ [.enter f s.trace.length] }).state.trace := by
  simp only [invoke, mbind_run, mark_run, mpure_run]
  cases f.run d { s with log := s.log ++ [.enter f s.trace.length] } <;> rfl

/-- The calls of `setWidthHeight`: first the offsets, written as 0, then reads and
the writes of `Width` and `Height`. -/
theorem setWidthHeight_phases (d : Device) (s : St) :
    ∃ off size, (setWidthHeight d s).state.trace = s.trace ++ off ++ size ∧
      (∀ c ∈ off, c = .setInteger "OffsetX" 0 true ∨ c = .setInteger "OffsetY" 0 true) ∧
      (size ≠ [] → Call.setInteger "OffsetX" 0 true ∈ off) ∧
      (size ≠ [] → (∃ b, d.setInteger s.trace "OffsetX" 0 true = .ok b) →
        Call.setInteger "OffsetY" 0 true ∈ off) ∧
      (∀ c ∈ size, c.writesOnly ["Width", "Height"] = true) := by
  have key := mbind_run setWidthHeight.offsets
    (fun _ => (do setWidthHeight.maxima; setWidthHeight.cap; setWidthHeight.write)) d s
  have e : setWidthHeight d s = (setWidthHeight.offsets >>= fun _ =>
    (do setWidthHeight.maxima; setWidthHeight.cap; setWidthHeight.write)) d s := rfl
  obtain ⟨off, e1, hx, hy, hoff⟩ := setWidthHeight_offsets_trace d s
  rw [e, key]
  cases ho : setWidthHeight.offsets d s with
  | raise e s1 =>
    rw [ho] at e1
    refine ⟨off, [], by simpa [Res.state] using e1, hoff,
      fun h => absurd rfl h, fun h => absurd rfl h, fun c hc => by cases hc⟩
  | ok u s1 =>
    rw [ho] at e1
    simp only [Res.state] at e1
    obtain ⟨size, e2, hsize⟩ := only_setWidthHeight_size.run d s1
    refine ⟨off, size, ?_, hoff, fun _ => hx, fun _ => hy, hsize⟩
    simp only []
    rw [e2, e1]

theorem invoke_setWidthHeight_phases (d : Device) (s : St) :
    ∃ off size, (invoke .setWidthHeight d s).state.trace = s.trace ++ off ++ size ∧
      (∀ c ∈ off, c = .setInteger "OffsetX" 0 true ∨ c = .setInteger "OffsetY" 0 true) ∧
      (size ≠ [] → Call.setInteger "OffsetX" 0 true ∈ off) ∧
      (size ≠ [] → (∃ b, d.setInteger s.trace "OffsetX" 0 true = .ok b) →
        Call.setInteger "OffsetY" 0 true ∈ off) ∧
      (∀ c ∈ size, c.writesOnly ["Width", "Height"] = true) := by
  rw [invoke_trace]
  exact setWidthHeight_phases d _

set_option linter.unusedTactic false in
set_option linter.unreachableTactic false in
set_option maxHeartbeats 1600000 in
/-- The device reset, the binning and decimation setters and `setPixelFormat` issue no
write other than integer writes, enumeration writes and commands to the features
listed for them. -/
theorem Setter_writesOnly (f : Setter)
    (hf : f ∈ Setter.resetDevice :: Setter.setPixelFormat :: Start.binning) :
    Sat (OnlyCalls (fun c => c.writesOnly f.writes = true)) f.run := by
  cases f
  case resetDevice | setPixelFormat | setBinningSelector | setBinningHorizontalMode |
      setBinningHorizontal | setBinningVerticalMode | setBinningVertical |
      setDecimationHorizontal | setDecimationVertical =>
    unfold Setter.run
    repeat' first
      | exact rule_pure _ _
      | exact only_getParams _
      | exact only_getSelf _
      | exact only_modifyParams _ _
      | exact only_modifySelf _ _
      | exact only_Stop _ (writesOnly_read _)
      | exact only_setIntFeatureOn _ (writesOnly_read _) _ _ _ _ (fun _ => rfl)
      | (apply only_liftD; exact only_isFeature _ (writesOnly_read _) _ _)
      | (apply only_liftD; exact only_setEnumFeature _ (writesOnly_read _) _ _ _ (fun _ => rfl))
      | (apply only_liftD; apply only_logInfo)
      | (apply only_liftD; apply only_call; rfl)
      | exact only_pure _ _
      | (apply only_call; rfl)
      | apply only_bind
      | apply rule_bind
      | split
      | intro _
      | dsimp only
      | unfold setBinningMode
  all_goals exact absurd hf (by decide)

theorem writeOrder_of_trace {α : Type} (d : Device) (s : St) (r : Res α)
    (pre off size fmt rest : List Call)
    (ht : r.state.trace = s.trace ++ (pre ++ off ++ size ++ fmt ++ rest))
    (hpre : ∀ c ∈ pre, c.writesOnly (Start.binningFeatures ++ ["DeviceReset"]) = true)
    (hoff : ∀ c ∈ off, c = .setInteger "OffsetX" 0 true ∨ c = .setInteger "OffsetY" 0 true)
    (hx : size ≠ [] → Call.setInteger "OffsetX" 0 true ∈ off)
    (hy : size ≠ [] → (∃ b, d.setInteger (s.trace ++ pre) "OffsetX" 0 true = .ok b) →
      Call.setInteger "OffsetY" 0 true ∈ off)
    (hsize : ∀ c ∈ size, c.writesOnly ["Width", "Height"] = true)
    (hfmt : ∀ c ∈ fmt, c.writesOnly ["PixelFormat"] = true)
    (hrest : ∀ c ∈ rest,
      c.avoids (Start.binningFeatures ++ ["Width", "Height", "PixelFormat"]) = true) :
    Start.WriteOrder d s.trace (issuedBy s r) := by
  rw [issuedBy_of_trace s r _ ht]
  exact ⟨pre, off, size, fmt, rest, rfl, hpre, hoff, hx, hy, hsize, hfmt, hrest⟩

theorem stop_trace (d : Device) (s : St) :
    ∃ cs, (Stop d s).state.trace = s.trace ++ cs ∧ ∀ c ∈ cs, c.isWrite = false :=
  (only_Stop (fun c => c.isWrite = false) (fun _ h => h)).run d s

/-- The calls of a whole run of `Start` come in the order binning and decimation,
offsets as 0, width and height, pixel format, remaining settings. -/
theorem writeOrder_Start (d : Device) (s : St) :
    Start.WriteOrder d s.trace (issuedBy s (Start d s)) := by
  have hnil : ∀ c ∈ ([] : List Call), c.writesOnly ["Width", "Height"] = true :=
    fun c hc => by cases hc
  have hnilo : ∀ c ∈ ([] : List Call), c = .setInteger "OffsetX" 0 true ∨
      c = .setInteger "OffsetY" 0 true := fun c hc => by cases hc
  have hnilf : ∀ c ∈ ([] : List Call), c.writesOnly ["PixelFormat"] = true :=
    fun c hc => by cases hc
  have hnilr : ∀ c ∈ ([] : List Call),
      c.avoids (Start.binningFeatures ++ ["Width", "Height", "PixelFormat"]) = true :=
    fun c hc => by cases hc
  have hxnil : ([] : List Call) ≠ [] → Call.setInteger "OffsetX" 0 true ∈ ([] : List Call) :=
    fun h => absurd rfl h
  have hynil : ∀ (P : Prop), ([] : List Call) ≠ [] → P →
      Call.setInteger "OffsetY" 0 true ∈ ([] : List Call) :=
    fun _ h => absurd rfl h
  obtain ⟨c0, e0, w0⟩ := (only_open (fun c => c.isWrite = false) (fun _ h => h)).run d s
  have hp0 : ∀ c ∈ c0, c.writesOnly (Start.binningFeatures ++ ["DeviceReset"]) = true :=
    fun c hc => writesOnly_read _ c (w0 c hc)
  rw [Start_run]
  cases ho : Start.open d s with
  | raise e s0 =>
    rw [ho] at e0
    exact writeOrder_of_trace d s _ c0 [] [] [] [] (by simpa [Res.state] using e0) hp0 hnilo
      hxnil (hynil _) hnil hnilf hnilr
  | ok dev s0 =>
    rw [ho] at e0
    simp only [Res.state] at e0
    cases dev with
    | false =>
      exact writeOrder_of_trace d s _ c0 [] [] [] [] (by simpa [Res.state] using e0) hp0 hnilo
        hxnil (hynil _) hnil hnilf hnilr
    | true =>
      simp only [if_true]
      rw [configure_run]
      by_cases hreset : s0.params.deviceReset = true
      · rw [if_pos hreset]
        obtain ⟨c1, e1, w1⟩ := (only_invoke _ _ (rule_mono _
          (OnlyCalls (fun c => c.writesOnly (Start.binningFeatures ++ ["DeviceReset"]) = true))
          _ (fun a b => onlyCalls_mono _ _ (writesOnly_mono _ _ (by decide!)) a b)
          (Setter_writesOnly .resetDevice (by decide)))).run d s0
        cases hr : invoke .resetDevice d s0 with
        | ok r s1 =>
          rw [hr] at e1
          simp only [Res.state] at e1
          exact writeOrder_of_trace d s _ (c0 ++ c1) [] [] [] []
            (by simp [Res.state, e1, e0]) (List.forall_mem_append.mpr ⟨hp0, w1⟩) hnilo
            hxnil (hynil _) hnil hnilf hnilr
        | raise e s1 =>
          rw [hr] at e1
          simp only [Res.state] at e1
          obtain ⟨c2, e2, w2⟩ := stop_trace d s1
          simp only []
          cases hs : Stop d s1 <;> rw [hs] at e2 <;> simp only [Res.state] at e2 <;>
            exact writeOrder_of_trace d s _ (c0 ++ c1 ++ c2) [] [] [] []
              (by simp [Res.state, e2, e1, e0])
              (List.forall_mem_append.mpr ⟨List.forall_mem_append.mpr ⟨hp0, w1⟩,
                fun c hc => writesOnly_read _ c (w2 c hc)⟩) hnilo hxnil (hynil _) hnil hnilf
              hnilr
      · rw [if_neg hreset]
        obtain ⟨cB, eB, wB⟩ := (only_runSteps
          (fun c => c.writesOnly (Start.binningFeatures ++ ["DeviceReset"]) = true)
          Start.binning
          (fun f hf => rule_mono _ _ _
            (fun a b => onlyCalls_mono _ _ (writesOnly_mono _ _ (by
              revert f
              decide!)) a b)
            (Setter_writesOnly f (List.mem_cons_of_mem _ (List.mem_cons_of_mem _ hf))))).run
          d s0
        cases hb : runSteps Start.binning d s0 with
        | raise e sa =>
          rw [hb] at eB
          simp only [Res.state] at eB
          obtain ⟨c2, e2, w2⟩ := stop_trace d sa
          simp only []
          cases hs : Stop d sa <;> rw [hs] at e2 <;> simp only [Res.state] at e2 <;>
            exact writeOrder_of_trace d s _ (c0 ++ cB ++ c2) [] [] [] []
              (by simp [Res.state, e2, eB, e0])
              (List.forall_mem_append.mpr ⟨List.forall_mem_append.mpr ⟨hp0, wB⟩,
                fun c hc => writesOnly_read _ c (w2 c hc)⟩) hnilo hxnil (hynil _) hnil hnilf
              hnilr
        | ok u sa =>
          rw [hb] at eB
          simp only [Res.state] at eB
          have hpB := List.forall_mem_append.mpr ⟨hp0, wB⟩
          obtain ⟨off, size, eW, hoff, hx, hy0, hsize⟩ := invoke_setWidthHeight_phases d sa
          have hy : size ≠ [] →
              (∃ b, d.setInteger (s.trace ++ (c0 ++ cB)) "OffsetX" 0 true = .ok b) →
              Call.setInteger "OffsetY" 0 true ∈ off := by
            intro h1 h2
            apply hy0 h1
            rw [eB, e0, List.append_assoc]
            exact h2
          simp only []
          cases hw : invoke .setWidthHeight d sa with
          | raise e sb =>
            rw [hw] at eW
            simp only [Res.state] at eW
            obtain ⟨c2, e2, w2⟩ := stop_trace d sb
            simp only []
            cases hs : Stop d sb <;> rw [hs] at e2 <;> simp only [Res.state] at e2 <;>
              exact writeOrder_of_trace d s _ (c0 ++ cB) off size [] c2
                (by simp [Res.state, e2, eW, eB, e0]) hpB hoff hx hy hsize hnilf
                (fun c hc => avoids_read _ c (w2 c hc))
          | ok b sb =>
            rw [hw] at eW
            simp only [Res.state] at eW
            simp only []
            cases b with
            | false =>
              exact writeOrder_of_trace d s _ (c0 ++ cB) off size [] []
                (by simp [Res.state, eW, eB, e0]) hpB hoff hx hy hsize hnilf hnilr
            | true =>
              simp only [Bool.true_eq_false, if_false]
              obtain ⟨cP, eP, wP⟩ := (only_invoke _ _
                (Setter_writesOnly .setPixelFormat (by decide))).run d sb
              cases hp : invoke .setPixelFormat d sb with
              | raise e sc =>
                rw [hp] at eP
                simp only [Res.state] at eP
                obtain ⟨c2, e2, w2⟩ := stop_trace d sc
                simp only []
                cases hs : Stop d sc <;> rw [hs] at e2 <;> simp only [Res.state] at e2 <;>
                  exact writeOrder_of_trace d s _ (c0 ++ cB) off size cP c2
                    (by simp [Res.state, e2, eP, eW, eB, e0]) hpB hoff hx hy hsize wP
                    (fun c hc => avoids_read _ c (w2 c hc))
              | ok b2 sc =>
                rw [hp] at eP
                simp only [Res.state] at eP
                simp only []
                cases b2 with
                | false =>
                  exact writeOrder_of_trace d s _ (c0 ++ cB) off size cP []
                    (by simp [Res.state, eP, eW, eB, e0]) hpB hoff hx hy hsize wP hnilr
                | true =>
                  simp only [Bool.true_eq_false, if_false]
                  obtain ⟨cF, eF, wF⟩ := only_finish.run d sc
                  cases hf : Start.finish d sc <;> rw [hf] at eF <;>
                    simp only [Res.state] at eF <;>
                    exact writeOrder_of_trace d s _ (c0 ++ cB) off size cP cF
                      (by simp [Res.state, eF, eP, eW, eB, e0]) hpB hoff hx hy hsize wP wF

/-- C24: the device calls issued by `Start` split into five consecutive parts.  The
only writes of the first are integer writes, enumeration writes and commands to the
binning and decimation features (or the `DeviceReset` command); the second consists
of the writes of 0 to the offsets (`OffsetX`, and `OffsetY` when the `OffsetX` write
answers); the only writes of the third are to `Width` and `Height`, and it is empty
unless `OffsetX` was written as 0 in the second; the only writes of the fourth are to
`PixelFormat`; the fifth, which therefore holds every write of the remaining features
(the offsets with the configured values among them), has no integer or enumeration
write to the binning and decimation features, `Width`, `Height` or `PixelFormat`. -/
theorem Start_write_order (d : Device) (s : St) :
    ∃ pre off size fmt rest,
      issuedBy s (Start d s) = pre ++ off ++ size ++ fmt ++ rest ∧
      (∀ c ∈ pre, c.writesOnly (Start.binningFeatures ++ ["DeviceReset"]) = true) ∧
      (∀ c ∈ off, c = .setInteger "OffsetX" 0 true ∨ c = .setInteger "OffsetY" 0 true) ∧
      (size ≠ [] → Call.setInteger "OffsetX" 0 true ∈ off) ∧
      (size ≠ [] → (∃ b, d.setInteger (s.trace ++ pre) "OffsetX" 0 true = .ok b) →
        Call.setInteger "OffsetY" 0 true ∈ off) ∧
      (∀ c ∈ size, c.writesOnly ["Width", "Height"] = true) ∧
      (∀ c ∈ fmt, c.writesOnly ["PixelFormat"] = true) ∧
      (∀ c ∈ rest,
        c.avoids (Start.binningFeatures ++ ["Width", "Height", "PixelFormat"]) = true) :=
  writeOrder_Start d s

/-! ## What the setters leave unchanged -/

instance keeps_pre {β : Type} (φ : GencamParams → Genicam → β) : Pre (Keeps φ) :=
  ⟨fun _ => rfl, fun _ _ _ h1 h2 => Eq.trans h2 h1⟩

theorem keeps_liftD {α β : Type} (φ : GencamParams → Genicam → β) (m : D α) :
    Sat (Keeps φ) (liftD m) := by
  constructor
  intro d s
  rw [liftD_run]
  cases m d s.trace <;> rfl

theorem keeps_getParams {β : Type} (φ : GencamParams → Genicam → β) :
    Sat (Keeps φ) getParams := ⟨fun _ _ => rfl⟩

theorem keeps_getSelf {β : Type} (φ : GencamParams → Genicam → β) :
    Sat (Keeps φ) getSelf := ⟨fun _ _ => rfl⟩

theorem keeps_mark {β : Type} (φ : GencamParams → Genicam → β) (m : Nat → Mark) :
    Sat (Keeps φ) (mark m) := ⟨fun _ _ => rfl⟩

theorem keeps_modifyParams {β : Type} (φ : GencamParams → Genicam → β)
    (f : GencamParams → GencamParams) (h : ∀ p g, φ (f p) g = φ p g) :
    Sat (Keeps φ) (modifyParams f) := ⟨fun _ s => h s.params s.self⟩

theorem keeps_modifySelf {β : Type} (φ : GencamParams → Genicam → β)
    (f : Genicam → Genicam) (h : ∀ p g, φ p (f g) = φ p g) :
    Sat (Keeps φ) (modifySelf f) := ⟨fun _ s => h s.params s.self⟩

theorem keeps_setIntFeatureOn {β : Type} (φ : GencamParams → Genicam → β)
    (name : String) (get : GencamParams → Int) (set : Int → GencamParams → GencamParams)
    (ex : Bool) (h : ∀ v p g, φ (set v p) g = φ p g) :
    Sat (Keeps φ) (setIntFeatureOn name get set ex) := by
  unfold setIntFeatureOn
  apply rule_bind; exact keeps_getParams φ
  intro p
  apply rule_bind; exact keeps_liftD φ _
  intro v
  apply rule_bind; exact keeps_modifyParams φ _ (h v)
  intro _
  exact keeps_liftD φ _

theorem keeps_setFloatFeatureOn {β : Type} (φ : GencamParams → Genicam → β)
    (name : String) (get : GencamParams → CFloat) (set : CFloat → GencamParams → GencamParams)
    (ex : Bool) (h : ∀ v p g, φ (set v p) g = φ p g) :
    Sat (Keeps φ) (setFloatFeatureOn name get set ex) := by
  unfold setFloatFeatureOn
  apply rule_bind; exact keeps_getParams φ
  intro p
  apply rule_bind; exact keeps_liftD φ _
  intro v
  apply rule_bind; exact keeps_modifyParams φ _ (h v)
  intro _
  exact keeps_liftD φ _

set_option linter.unusedTactic false in
set_option linter.unreachableTactic false in
theorem keeps_Stop {β : Type} (φ : GencamParams → Genicam → β) : Sat (Keeps φ) Stop := by
  unfold Stop
  repeat' first
    | exact rule_pure _ _
    | exact keeps_liftD _ _
    | exact keeps_getSelf _
    | apply rule_bind
    | split
    | intro _

theorem keeps_invoke {β : Type} (φ : GencamParams → Genicam → β) (f : Setter)
    (h : Sat (Keeps φ) f.run) : Sat (Keeps φ) (invoke f) := by
  unfold invoke
  apply rule_bind
  · exact keeps_mark φ _
  · intro _
    apply rule_bind
    · exact h
    · intro _
      apply rule_bind
      · exact keeps_mark φ _
      · intro _
        exact rule_pure _ _

theorem keeps_exec {β : Type} (φ : GencamParams → Genicam → β) (f : Setter)
    (h : Sat (Keeps φ) f.run) : Sat (Keeps φ) f.exec := by
  unfold Setter.exec
  repeat' first
    | exact rule_pure _ _
    | exact keeps_getParams _
    | exact keeps_getSelf _
    | exact keeps_invoke φ f h
    | apply rule_bind
    | split
    | intro _

theorem keeps_runSteps {β : Type} (φ : GencamParams → Genicam → β) (L : List Setter)
    (h : ∀ f ∈ L, Sat (Keeps φ) f.run) : Sat (Keeps φ) (runSteps L) := by
  induction L with
  | nil => exact rule_pure _ _
  | cons f rest ih =>
    unfold runSteps
    apply rule_bind
    · exact keeps_exec φ f (h f (List.mem_cons_self _ _))
    · intro _
      exact ih (fun g hg => h g (List.mem_cons_of_mem _ hg))

set_option linter.unusedTactic false in
set_option linter.unreachableTactic false in
theorem keeps_open {β : Type} (φ : GencamParams → Genicam → β)
    (hp : ∀ p g x, φ { p with deviceSerialNumber := x } g = φ p g)
    (h1 : ∀ p g x, φ p { g with dev := x } = φ p g)
    (h2 : ∀ p g x, φ p { g with serials := x } = φ p g)
    (h3 : ∀ p g x, φ p { g with vendorName := x } = φ p g)
    (h4 : ∀ p g x, φ p { g with modelName := x } = φ p g) :
    Sat (Keeps φ) Start.open := by
  unfold Start.open getCameraInfo getCameraSerialNumber
  repeat' first
    | exact rule_pure _ _
    | exact keeps_liftD _ _
    | exact keeps_getParams _
    | exact keeps_getSelf _
    | exact keeps_modifyParams _ _ (fun p g => hp p g _)
    | exact keeps_modifySelf _ _ (fun p g => h1 p g _)
    | exact keeps_modifySelf _ _ (fun p g => h2 p g _)
    | exact keeps_modifySelf _ _ (fun p g => h3 p g _)
    | exact keeps_modifySelf _ _ (fun p g => h4 p g _)
    | apply rule_bind
    | split
    | intro _
    | dsimp only

set_option linter.unusedTactic false in
set_option linter.unreachableTactic false in
theorem keeps_configure {β : Type} (φ : GencamParams → Genicam → β)
    (h : ∀ f, f ∈ Setter.resetDevice :: Setter.setWidthHeight :: Setter.setPixelFormat ::
      Start.binning → Sat (Keeps φ) f.run) :
    Sat (Keeps φ) Start.configure := by
  unfold Start.configure
  repeat' first
    | exact rule_pure _ _
    | exact keeps_getParams _
    | exact keeps_runSteps _ _ (fun f hf =>
        h f (List.mem_cons_of_mem _ (List.mem_cons_of_mem _ (List.mem_cons_of_mem _ hf))))
    | exact keeps_invoke _ _ (h _ (by decide))
    | apply rule_bind
    | split
    | intro _
    | dsimp only

set_option linter.unusedTactic false in
set_option linter.unreachableTactic false in
set_option maxHeartbeats 3200000 in
/-- No setter assigns the timeout budget, the provenance table or the defaults
policy. -/
theorem keeps_budget_run (f : Setter) :
    Sat (Keeps (fun p _ => (p.hwTriggerTimeout, p.propertyHolder, p.useDefaultProperties)))
      f.run := by
  cases f
  all_goals unfold Setter.run
  all_goals
    repeat' first
      | exact rule_pure _ _
      | exact keeps_liftD _ _
      | exact keeps_getParams _
      | exact keeps_getSelf _
      | exact keeps_Stop _
      | (apply keeps_setIntFeatureOn; intro v p g; rfl)
      | (apply keeps_setFloatFeatureOn; intro v p g; rfl)
      | (apply keeps_modifyParams; intro p g; rfl)
      | (apply keeps_modifySelf; intro p g; rfl)
      | apply rule_bind
      | split
      | intro _
      | dsimp only
      | unfold setBinningMode
      | unfold setTriggerMode
      | unfold setWidthHeight
      | unfold setWidthHeight.offsets
      | unfold setWidthHeight.maxima
      | unfold setWidthHeight.cap
      | unfold setWidthHeight.write
      | unfold setWidthHeight.report
      | unfold setBlackLevel.feature
      | unfold setBlackLevel.write

set_option linter.unusedTactic false in
set_option linter.unreachableTactic false in
set_option maxHeartbeats 3200000 in
/-- Only `setTriggerSource` assigns the session trigger source, and only
`setAcquisitionMode` assigns the session trigger mode and acquisition mode. -/
theorem keeps_trigger_run (f : Setter) (h1 : f ≠ .setTriggerSource)
    (h2 : f ≠ .setAcquisitionMode) :
    Sat (Keeps (fun _ g => (g.triggerSource, g.triggerMode, g.acquisitionMode))) f.run := by
  cases f
  case setTriggerSource => exact absurd rfl h1
  case setAcquisitionMode => exact absurd rfl h2
  all_goals unfold Setter.run
  all_goals
    repeat' first
      | exact rule_pure _ _
      | exact keeps_liftD _ _
      | exact keeps_getParams _
      | exact keeps_getSelf _
      | exact keeps_Stop _
      | (apply keeps_setIntFeatureOn; intro v p g; rfl)
      | (apply keeps_setFloatFeatureOn; intro v p g; rfl)
      | (apply keeps_modifyParams; intro p g; rfl)
      | (apply keeps_modifySelf; intro p g; rfl)
      | apply rule_bind
      | split
      | intro _
      | dsimp only
      | unfold setBinningMode
      | unfold setWidthHeight
      | unfold setWidthHeight.offsets
      | unfold setWidthHeight.maxima
      | unfold setWidthHeight.cap
      | unfold setWidthHeight.write
      | unfold setWidthHeight.report
      | unfold setBlackLevel.feature
      | unfold setBlackLevel.write

set_option linter.unusedTactic false in
set_option linter.unreachableTactic false in
/-- The setter `setAcquisitionMode` leaves the session trigger source alone. -/
theorem keeps_source_setAcquisitionMode :
    Sat (Keeps (fun _ g => g.triggerSource)) setAcquisitionMode := by
  unfold setAcquisitionMode setTriggerMode
  repeat' first
    | exact rule_pure _ _
    | exact keeps_liftD _ _
    | exact keeps_getParams _
    | (apply keeps_modifySelf; intro p g; rfl)
    | apply rule_bind
    | split
    | intro _
    | dsimp only

theorem keeps_map {β γ : Type} (φ : GencamParams → Genicam → β) (k : β → γ) (s s' : St)
    (h : Keeps φ s s') : Keeps (fun p g => k (φ p g)) s s' :=
  congrArg k h

/-! ## C23: the timeout budget under a hardware trigger -/

/-- The run of `Start` that returns `true` without a device reset: the device is
opened, the configuration block falls through, and the remaining settings return. -/
theorem Start_true_cut (d : Device) (s s' : St)
    (hreset : s.params.deviceReset = false)
    (hrun : Start d s = .ok true s') :
    ∃ s0 s1, Start.open d s = .ok true s0 ∧ Start.configure d s0 = .ok none s1 ∧
      Start.finish d s1 = .ok () s' := by
  have hfo := sat_open.run d s
  rw [Start_run] at hrun
  cases ho : Start.open d s with
  | raise e s0 =>
    rw [ho] at hrun
    cases hrun
  | ok dev s0 =>
    rw [ho] at hrun hfo
    simp only [Res.state] at hfo
    simp only [] at hrun
    cases dev with
    | false => simp at hrun
    | true =>
      simp only [if_true] at hrun
      have hreset0 : s0.params.deviceReset = false := by
        have := congrArg GencamParams.deviceReset hfo.2.1
        simp only [id, GencamParams.blank] at this
        rw [this]
        exact hreset
      cases hc : Start.configure d s0 with
      | raise e s1 =>
        rw [hc] at hrun
        simp only [] at hrun
        cases hst : Stop d s1 <;> rw [hst] at hrun <;> simp at hrun
      | ok r s1 =>
        obtain ⟨hne, _⟩ := configure_none d s0 s1 r hreset0 hc
        rw [hc] at hrun
        cases r with
        | some b =>
          simp only [Res.ok.injEq] at hrun
          exact absurd (by rw [hrun.1]) hne
        | none =>
          simp only [] at hrun
          cases hf : Start.finish d s1 with
          | raise e s2 =>
            rw [hf] at hrun
            cases hrun
          | ok u s2 =>
            rw [hf] at hrun
            simp only [Res.ok.injEq, true_and] at hrun
            subst hrun
            exact ⟨s0, s1, rfl, hc, hf⟩

/-- The settings after the load-bearing ones, when they return: the guarded setter
calls return, then the stream is set up by calls that write nothing and leave the
parameters and the session trigger settings alone, and with a stream open the
trigger settings are completed. -/
theorem finish_cut (d : Device) (s1 s' : St) (hf : Start.finish d s1 = .ok () s') :
    ∃ sc t cs, runSteps Start.features d s1 = .ok () sc ∧ t.params = sc.params ∧
      t.self.triggerSource = sc.self.triggerSource ∧
      t.self.triggerMode = sc.self.triggerMode ∧
      t.self.acquisitionMode = sc.self.acquisitionMode ∧
      t.trace = sc.trace ++ cs ∧ (∀ c ∈ cs, c.isWrite = false) ∧
      ((t.self.stream > 0 ∧ Start.trigger d t = .ok () s') ∨
        (¬ t.self.stream > 0 ∧ s' = t)) := by
  have hf2 : (runSteps Start.features >>= fun _ => Start.acquire) d s1 = .ok () s' := hf
  obtain ⟨_, sc, hsteps, ha⟩ := bind_ok _ _ d s1 s' () hf2
  refine ⟨sc, ?_⟩
  simp only [Start.acquire, Start.stream, mbind_run, liftD_run, modifySelf_run, call] at ha
  obtain ⟨c1, e1, w1⟩ := only_isFeature (fun c => c.isWrite = false) (fun _ h => h)
    "AcquisitionStatus" false d sc.trace
  cases h1 : isFeature "AcquisitionStatus" false d sc.trace with
  | raise e t1 =>
    rw [h1] at ha
    cases ha
  | ok r t1 =>
    rw [h1] at ha e1
    simp only [DRes.trace] at e1
    obtain ⟨found, ty⟩ := r
    simp only [] at ha
    cases h2 : d.getStreams t1 with
    | error e =>
      rw [h2] at ha
      cases ha
    | ok n =>
      rw [h2] at ha
      simp only [] at ha
      by_cases hpos : n > 0
      · simp only [hpos, if_true, mbind_run, liftD_run, call] at ha
        cases h3 : d.streamOpen (t1 ++ [Call.getStreams]) with
        | error e =>
          rw [h3] at ha
          cases ha
        | ok u3 =>
          rw [h3] at ha
          simp only [] at ha
          cases h4 : d.startStreaming (t1 ++ [Call.getStreams] ++ [Call.streamOpen]) with
          | error e =>
            rw [h4] at ha
            cases ha
          | ok u4 =>
            rw [h4] at ha
            simp only [] at ha
            refine ⟨{ sc with
                self := { sc.self with isAcquisitionStatusFeature := found, stream := n }
                trace := (t1 ++ [Call.getStreams] ++ [Call.streamOpen]
                  ++ [Call.startStreaming]) },
              c1 ++ [Call.getStreams, Call.streamOpen, Call.startStreaming],
              hsteps, rfl, rfl, rfl, rfl, by simp [e1], ?_, Or.inl ⟨hpos, ha⟩⟩
            intro c hc
            rcases List.mem_append.mp hc with h | h
            · exact w1 c h
            · simp only [List.mem_cons, List.mem_singleton, List.not_mem_nil, or_false] at h
              rcases h with h | h | h <;> rw [h] <;> rfl
      · simp only [hpos, if_false, mpure_run, Res.ok.injEq, true_and] at ha
        refine ⟨s', c1 ++ [Call.getStreams], hsteps, ?_, ?_, ?_, ?_, ?_, ?_, Or.inr ⟨?_, rfl⟩⟩
        · rw [← ha]
        · rw [← ha]
        · rw [← ha]
        · rw [← ha]
        · rw [← ha]
          simp [e1]
        · intro c hc
          rcases List.mem_append.mp hc with h | h
          · exact w1 c h
          · rw [List.mem_singleton.mp h]
            rfl
        · rw [← ha]
          exact hpos

/-- The completion of the trigger settings under a hardware trigger: the members
are left alone, no call is issued, and a timeout budget of zero or less is replaced
by 10. -/
theorem trigger_hardware (d : Device) (t s' : St) (h : Start.trigger d t = .ok () s')
    (hsrc : t.self.triggerSource ≠ "Software") :
    s'.self = t.self ∧ s'.trace = t.trace ∧
    (t.self.acquisitionMode ≠ "Continuous" → t.self.triggerMode = "On" →
      s'.params.hwTriggerTimeout =
        if t.params.hwTriggerTimeout ≤ 0 then 10 else t.params.hwTriggerTimeout) := by
  simp only [Start.trigger, mbind_run, getSelf_run] at h
  by_cases c1 : (decide (t.self.acquisitionMode ≠ "Continuous") &&
      decide (t.self.triggerMode = "On")) = true
  · rw [if_pos c1, if_neg hsrc, modifyParams_run] at h
    simp only [Res.ok.injEq, true_and] at h
    rw [← h]
    exact ⟨rfl, rfl, fun _ _ => rfl⟩
  · rw [if_neg c1] at h
    have hcontra : t.self.acquisitionMode ≠ "Continuous" → t.self.triggerMode = "On" →
        False := fun ha ht => c1 (by simp [ha, ht])
    by_cases c3 : (decide (t.self.acquisitionMode = "Continuous") &&
        decide (t.self.triggerMode = "Off")) = true
    · rw [if_pos c3, modifyParams_run] at h
      simp only [Res.ok.injEq, true_and] at h
      rw [← h]
      exact ⟨rfl, rfl, fun ha ht => (hcontra ha ht).elim⟩
    · rw [if_neg c3, mpure_run] at h
      simp only [Res.ok.injEq, true_and] at h
      rw [← h]
      exact ⟨rfl, rfl, fun ha ht => (hcontra ha ht).elim⟩

/-- The part of `Start` before the trigger settings are completed leaves the timeout
budget, the provenance table and the defaults policy alone. -/
theorem Start_keeps_budget (d : Device) (s s0 s1 sc : St)
    (ho : Start.open d s = .ok true s0) (hc : Start.configure d s0 = .ok none s1)
    (hs : runSteps Start.features d s1 = .ok () sc) :
    sc.params.hwTriggerTimeout = s.params.hwTriggerTimeout ∧
    sc.params.propertyHolder = s.params.propertyHolder ∧
    sc.params.useDefaultProperties = s.params.useDefaultProperties := by
  have k0 := (keeps_open
    (fun p _ => (p.hwTriggerTimeout, p.propertyHolder, p.useDefaultProperties))
    (fun _ _ _ => rfl) (fun _ _ _ => rfl) (fun _ _ _ => rfl) (fun _ _ _ => rfl)
    (fun _ _ _ => rfl)).run d s
  have k1 := (keeps_configure
    (fun p _ => (p.hwTriggerTimeout, p.propertyHolder, p.useDefaultProperties))
    (fun f _ => keeps_budget_run f)).run d s0
  have k2 := (keeps_runSteps
    (fun p _ => (p.hwTriggerTimeout, p.propertyHolder, p.useDefaultProperties))
    Start.features (fun f _ => keeps_budget_run f)).run d s1
  rw [ho] at k0
  rw [hc] at k1
  rw [hs] at k2
  have k := Eq.trans k2 (Eq.trans k1 k0)
  simp only [Res.state, Prod.mk.injEq] at k
  exact k

/-- The timeout budget after a `Start` that ends under a hardware trigger. -/
theorem hardware_timeout_after_Start (d : Device) (s s' : St)
    (hreset : s.params.deviceReset = false)
    (hrun : Start d s = .ok true s')
    (hn : s'.self.stream > 0) (hacq : s'.self.acquisitionMode ≠ "Continuous")
    (htrig : s'.self.triggerMode = "On") (hsrc : s'.self.triggerSource ≠ "Software") :
    s'.params.hwTriggerTimeout =
      if s.params.hwTriggerTimeout ≤ 0 then 10 else s.params.hwTriggerTimeout := by
  obtain ⟨s0, s1, ho, hc, hf⟩ := Start_true_cut d s s' hreset hrun
  obtain ⟨sc, t, cs, hs, hp, h1, h2, h3, _, _, hcase⟩ := finish_cut d s1 s' hf
  obtain ⟨hk, _, _⟩ := Start_keeps_budget d s s0 s1 sc ho hc hs
  rcases hcase with ⟨_, ht⟩ | ⟨hz, he⟩
  · by_cases hsw : t.self.triggerSource = "Software"
    · have hself := (trigger_timeout d t s' ht).1
      rw [hself] at hsrc
      exact absurd hsw hsrc
    · obtain ⟨hself, _, hto⟩ := trigger_hardware d t s' ht hsw
      rw [hself] at hacq htrig
      rw [hto hacq htrig, hp, hk]
  · rw [he] at hn
    exact absurd hn hz

/-- C23, as the code has it: when `Start` (without device reset) returns `true`
with a stream open, in an acquisition mode other than `"Continuous"` with trigger mode
`"On"` and a trigger source other than `"Software"`, a timeout budget of zero or less
has been replaced by 10 (the default of the property), and a positive budget is
unchanged. -/
theorem Start_hardware_timeout (d : Device) (s s' : St)
    (hreset : s.params.deviceReset = false)
    (hrun : Start d s = .ok true s')
    (hn : s'.self.stream > 0) (hacq : s'.self.acquisitionMode ≠ "Continuous")
    (htrig : s'.self.triggerMode = "On") (hsrc : s'.self.triggerSource ≠ "Software") :
    s'.params.hwTriggerTimeout =
      if s.params.hwTriggerTimeout ≤ 0 then 10 else s.params.hwTriggerTimeout :=
  hardware_timeout_after_Start d s s' hreset hrun hn hacq htrig hsrc

/-- Witness for C23: a camera reporting `"SingleFrame"`, with the budget 3. -/
theorem Start_hardware_timeout_witness :
    (Start Device.triggered
      (St.init { gst_gencamsrc_init with hwTriggerTimeout := 3 })).state.params.hwTriggerTimeout
      = if (St.init { gst_gencamsrc_init with hwTriggerTimeout := 3 }).params.hwTriggerTimeout ≤ 0
        then 10
        else (St.init { gst_gencamsrc_init with hwTriggerTimeout := 3 }).params.hwTriggerTimeout :=
  Start_hardware_timeout Device.triggered
    (St.init { gst_gencamsrc_init with hwTriggerTimeout := 3 }) _ rfl
    (Res.eq_ok_of_value _ _ (by decide!)) (by decide!) (by decide!) (by decide!) (by decide!)

/-- C23 fails on the code as worded: with the budget 0 supplied, on a camera that
reports `"SingleFrame"`, `Start` returns `true` with a stream open, trigger mode `"On"`
and an empty trigger source, and the budget is 10, not 1. -/
theorem Start_timeout_zero_gives_ten :
    (Start Device.triggered
      (St.init { gst_gencamsrc_init with hwTriggerTimeout := 0 })).value? = some true ∧
    (Start Device.triggered
      (St.init { gst_gencamsrc_init with hwTriggerTimeout := 0 })).state.self.stream = 1 ∧
    (Start Device.triggered
      (St.init { gst_gencamsrc_init with hwTriggerTimeout := 0 })).state.self.acquisitionMode
      = "SingleFrame" ∧
    (Start Device.triggered
      (St.init { gst_gencamsrc_init with hwTriggerTimeout := 0 })).state.self.triggerMode
      = "On" ∧
    (Start Device.triggered
      (St.init { gst_gencamsrc_init with hwTriggerTimeout := 0 })).state.self.triggerSource
      = "" ∧
    (Start Device.triggered
      (St.init { gst_gencamsrc_init with hwTriggerTimeout := 0 })).state.params.hwTriggerTimeout
      = 10 := by
  refine ⟨by decide!, by decide!, by decide!, by decide!, by decide!, by decide!⟩

/-! ## C27: where the session trigger source comes from -/

theorem features_split :
    Start.features =
      Start.beforeTriggerSource ++ Setter.setTriggerSource :: Start.afterTriggerSource ∧
    Setter.setTriggerSource ∉ Start.beforeTriggerSource ∧
    Setter.setTriggerSource ∉ Start.afterTriggerSource ∧
    Setter.setAcquisitionMode ∉ Start.afterTriggerSource := by
  decide

theorem runSteps_append_run (A B : List Setter) (d : Device) :
    ∀ s, runSteps (A ++ B) d s =
      match runSteps A d s with
      | .ok _ s1 => runSteps B d s1
      | .raise e s1 => .raise e s1 := by
  induction A with
  | nil =>
    intro s
    rfl
  | cons f rest ih =>
    intro s
    show (f.exec >>= fun _ => runSteps (rest ++ B)) d s = _
    rw [mbind_run]
    show _ = match (f.exec >>= fun _ => runSteps rest) d s with
      | .ok _ s1 => runSteps B d s1
      | .raise e s1 => .raise e s1
    rw [mbind_run]
    cases f.exec d s with
    | raise e s1 => rfl
    | ok u s1 => exact ih s1

theorem keeps_source_run (f : Setter) (h : f ≠ .setTriggerSource) :
    Sat (Keeps (fun _ g => g.triggerSource)) f.run := by
  by_cases h2 : f = .setAcquisitionMode
  · subst h2
    exact keeps_source_setAcquisitionMode
  · exact rule_mono _ _ _ (fun a b hk => keeps_map _ (fun x => x.1) a b hk)
      (keeps_trigger_run f h h2)

set_option linter.unusedTactic false in
set_option linter.unreachableTactic false in
theorem keeps_mode_setTriggerSource :
    Sat (Keeps (fun p g => (g.triggerMode, g.acquisitionMode, p))) setTriggerSource := by
  unfold setTriggerSource
  repeat' first
    | exact rule_pure _ _
    | exact keeps_liftD _ _
    | exact keeps_getParams _
    | exact keeps_getSelf _
    | (apply keeps_modifySelf; intro p g; rfl)
    | apply rule_bind
    | split
    | intro _
    | dsimp only

/-- What `setTriggerSource` does to the session trigger source: it changes only if the
trigger mode is `"On"`, to the value the device reports for `TriggerSource`. -/
theorem setTriggerSource_source (d : Device) (s : St)
    (hne : (setTriggerSource d s).state.self.triggerSource ≠ s.self.triggerSource) :
    s.self.triggerMode = "On" ∧
    ∃ h, d.getEnum h "TriggerSource" false =
      .ok (setTriggerSource d s).state.self.triggerSource := by
  revert hne
  simp only [setTriggerSource, mbind_run, liftD_run, rcg.getEnumList, rcg.getEnum, call]
  cases h1 : d.getEnumList s.trace "TriggerSource" false with
  | error e => exact fun h => absurd rfl h
  | ok L =>
    simp only []
    by_cases hlen : L.length = 0
    · rw [if_pos hlen]
      exact fun h => absurd rfl h
    · rw [if_neg hlen]
      simp only [mbind_run, getSelf_run]
      by_cases hon : s.self.triggerMode = "On"
      · rw [if_neg (not_not.mpr hon)]
        simp only [mbind_run, getParams_run, liftD_run]
        cases h2 : setEnumFeature "TriggerSource" s.params.triggerSource false d
            (s.trace ++ [Call.getEnumList "TriggerSource" false]) with
        | raise e t2 => exact fun h => absurd rfl h
        | ok b t2 =>
          simp only [call]
          cases h3 : d.getEnum t2 "TriggerSource" false with
          | error e => exact fun h => absurd rfl h
          | ok v =>
            simp only [modifySelf_run, mbind_run, mpure_run]
            exact fun _ => ⟨hon, t2, h3⟩
      · rw [if_pos hon]
        exact fun h => absurd rfl h

theorem invoke_self (f : Setter) (d : Device) (s : St) :
    (invoke f d s).state.self =
      (f.run d { s with log := s.log ++ [.enter f s.trace.length] }).state.self := by
  simp only [invoke, mbind_run, mark_run, mpure_run]
  cases f.run d { s with log := s.log ++ [.enter f s.trace.length] } <;> rfl

/-- A guarded setter call either changes nothing or, with the provenance gate open,
is the recorded call of the setter. -/
theorem exec_state (f : Setter) (d : Device) (s : St) :
    (f.exec d s).state = s ∨
    ((∀ hs, f.holders = some hs →
        (∃ i ∈ hs, s.params.propertyHolder i ≠ -1) ∨ s.params.useDefaultProperties = true) ∧
      (f.exec d s).state = (invoke f d s).state) := by
  simp only [Setter.exec, mbind_run, getParams_run, getSelf_run]
  by_cases hg : f.guard s.params s.self.offsetXYwritable = true
  · rw [if_pos hg]
    cases hh : f.holders with
    | none =>
      right
      refine ⟨fun hs h => absurd h (by simp), ?_⟩
      simp only [mbind_run, mpure_run]
      cases invoke f d s <;> rfl
    | some hs =>
      simp only []
      by_cases hany : (hs.any (fun i => s.params.propertyHolder i != -1)) = true
      · rw [if_pos hany]
        right
        refine ⟨fun hs2 h => ?_, ?_⟩
        · simp only [Option.some.injEq] at h
          subst h
          left
          obtain ⟨i, hi, hne⟩ := List.any_eq_true.mp hany
          exact ⟨i, hi, by simpa using hne⟩
        · simp only [mbind_run, mpure_run]
          cases invoke f d s <;> rfl
      · rw [if_neg hany]
        by_cases hu : s.params.useDefaultProperties = true
        · rw [if_pos hu]
          right
          refine ⟨fun _ _ => Or.inr hu, ?_⟩
          simp only [mbind_run, mpure_run]
          cases invoke f d s <;> rfl
        · rw [if_neg hu]
          left
          rfl
  · rw [if_neg hg]
    left
    rfl

/-- The guarded call of `setTriggerSource`: the session trigger mode and acquisition
mode are left alone; the session trigger source changes only if the trigger source
is explicit or the defaults policy is set, the session trigger mode is `"On"`, and
then to the value the device reports for `TriggerSource`. -/
theorem exec_setTriggerSource_state (d : Device) (t : St) :
    (Setter.exec .setTriggerSource d t).state.self.triggerMode = t.self.triggerMode ∧
    (Setter.exec .setTriggerSource d t).state.self.acquisitionMode = t.self.acquisitionMode ∧
    ((Setter.exec .setTriggerSource d t).state.self.triggerSource ≠ t.self.triggerSource →
      (t.params.propertyHolder 22 ≠ -1 ∨ t.params.useDefaultProperties = true) ∧
      t.self.triggerMode = "On" ∧
      ∃ h, d.getEnum h "TriggerSource" false =
        .ok (Setter.exec .setTriggerSource d t).state.self.triggerSource) := by
  have hk := (keeps_exec _ .setTriggerSource keeps_mode_setTriggerSource).run d t
  simp only [Keeps, Prod.mk.injEq] at hk
  refine ⟨hk.1, hk.2.1, fun hne => ?_⟩
  rcases exec_state .setTriggerSource d t with h | ⟨hgate, h⟩
  · rw [h] at hne
    exact absurd rfl hne
  · rw [h] at hne ⊢
    rw [invoke_self] at hne ⊢
    obtain ⟨hon, hdev⟩ := setTriggerSource_source d _ hne
    refine ⟨?_, hon, hdev⟩
    rcases hgate [22] rfl with ⟨i, hi, hne2⟩ | hu
    · left
      rw [List.mem_singleton.mp hi] at hne2
      exact hne2
    · exact Or.inr hu

set_option linter.unusedTactic false in
set_option linter.unreachableTactic false in
/-- The start of streaming leaves the session trigger source, trigger mode and
acquisition mode alone. -/
theorem keeps_acquire :
    Sat (Keeps (fun _ g => (g.triggerSource, g.triggerMode, g.acquisitionMode)))
      Start.acquire := by
  unfold Start.acquire Start.stream Start.trigger
  repeat' first
    | exact rule_pure _ _
    | exact keeps_liftD _ _
    | exact keeps_getSelf _
    | exact keeps_invoke _ _ (keeps_trigger_run .setTriggerSoftware (by decide) (by decide))
    | (apply keeps_modifyParams; intro p g; rfl)
    | (apply keeps_modifySelf; intro p g; rfl)
    | apply rule_bind
    | split
    | intro _
    | dsimp only

/-- Where a run of `Start` ends: after the device is opened, after the configuration
block, after the device is stopped, or after the remaining settings. -/
theorem Start_state (d : Device) (s : St) :
    (Start d s).state = (Start.open d s).state ∨
    (Start d s).state = (Start.configure d (Start.open d s).state).state ∨
    (Start d s).state = (Stop d (Start.configure d (Start.open d s).state).state).state ∨
    (Start d s).state = (Start.finish d (Start.configure d (Start.open d s).state).state).state := by
  rw [Start_run]
  cases ho : Start.open d s with
  | raise e s0 => exact Or.inl rfl
  | ok dev s0 =>
    cases dev with
    | false => exact Or.inl rfl
    | true =>
      simp only [if_true, Res.state]
      cases hc : Start.configure d s0 with
      | raise e s1 =>
        simp only []
        right; right; left
        cases Stop d s1 <;> rfl
      | ok r s1 =>
        cases r with
        | some b => exact Or.inr (Or.inl rfl)
        | none =>
          simp only []
          right; right; right
          cases Start.finish d s1 <;> rfl

/-- Along the remaining settings: up to the guarded call of `setTriggerSource` the
session trigger source, the provenance table and the defaults policy are unchanged;
after it the session trigger source, trigger mode and acquisition mode are. -/
theorem finish_state (d : Device) (s1 : St) :
    ∃ t1 t2, t1.self.triggerSource = s1.self.triggerSource ∧
      t1.params.propertyHolder = s1.params.propertyHolder ∧
      t1.params.useDefaultProperties = s1.params.useDefaultProperties ∧
      (t2 = t1 ∨ t2 = (Setter.exec .setTriggerSource d t1).state) ∧
      Keeps (fun _ g => (g.triggerSource, g.triggerMode, g.acquisitionMode)) t2
        (Start.finish d s1).state := by
  have kA := (keeps_runSteps (fun _ g => g.triggerSource) Start.beforeTriggerSource
    (fun f hf => keeps_source_run f (fun e => features_split.2.1 (e ▸ hf)))).run d s1
  have kB := (keeps_runSteps
    (fun p _ => (p.hwTriggerTimeout, p.propertyHolder, p.useDefaultProperties))
    Start.beforeTriggerSource (fun f _ => keeps_budget_run f)).run d s1
  simp only [Keeps, Prod.mk.injEq] at kA kB
  rw [show Start.finish d s1 = (runSteps Start.features >>= fun _ => Start.acquire) d s1
    from rfl, mbind_run, features_split.1, runSteps_append_run]
  cases h1 : runSteps Start.beforeTriggerSource d s1 with
  | raise e t1 =>
    rw [h1] at kA kB
    exact ⟨t1, t1, kA, kB.2.1, kB.2.2, Or.inl rfl, rfl⟩
  | ok u t1 =>
    rw [h1] at kA kB
    simp only [Res.state] at kA kB
    simp only []
    rw [show runSteps (Setter.setTriggerSource :: Start.afterTriggerSource) d t1 =
      (Setter.exec .setTriggerSource >>= fun _ => runSteps Start.afterTriggerSource) d t1
      from rfl, mbind_run]
    refine ⟨t1, (Setter.exec .setTriggerSource d t1).state, kA, kB.2.1, kB.2.2, Or.inr rfl, ?_⟩
    cases h2 : Setter.exec .setTriggerSource d t1 with
    | raise e t2 => exact rfl
    | ok u2 t2 =>
      simp only [Res.state]
      have kC := (keeps_runSteps
        (fun _ g => (g.triggerSource, g.triggerMode, g.acquisitionMode))
        Start.afterTriggerSource
        (fun f hf => keeps_trigger_run f (fun e => features_split.2.2.1 (e ▸ hf))
          (fun e => features_split.2.2.2 (e ▸ hf)))).run d t2
      cases h3 : runSteps Start.afterTriggerSource d t2 with
      | raise e sc =>
        rw [h3] at kC
        exact kC
      | ok u3 sc =>
        rw [h3] at kC
        simp only [Res.state] at kC
        simp only []
        exact Pre.trans _ _ _ kC (keeps_acquire.run d sc)

/-- Along a run of `Start`: up to the guarded call of `setTriggerSource` the session
trigger source, the provenance table and the defaults policy are unchanged; after
it the session trigger source, trigger mode and acquisition mode are. -/
theorem Start_source_state (d : Device) (s : St) :
    ∃ t1 t2, t1.self.triggerSource = s.self.triggerSource ∧
      t1.params.propertyHolder = s.params.propertyHolder ∧
      t1.params.useDefaultProperties = s.params.useDefaultProperties ∧
      (t2 = t1 ∨ t2 = (Setter.exec .setTriggerSource d t1).state) ∧
      Keeps (fun _ g => (g.triggerSource, g.triggerMode, g.acquisitionMode)) t2
        (Start d s).state := by
  have a0 := (keeps_open (fun _ g => g.triggerSource)
    (fun _ _ _ => rfl) (fun _ _ _ => rfl) (fun _ _ _ => rfl) (fun _ _ _ => rfl)
    (fun _ _ _ => rfl)).run d s
  have b0 := (keeps_open
    (fun p _ => (p.hwTriggerTimeout, p.propertyHolder, p.useDefaultProperties))
    (fun _ _ _ => rfl) (fun _ _ _ => rfl) (fun _ _ _ => rfl) (fun _ _ _ => rfl)
    (fun _ _ _ => rfl)).run d s
  have a1 := (keeps_configure (fun _ g => g.triggerSource)
    (fun f hf => keeps_source_run f (by
      intro e
      subst e
      revert hf
      decide))).run d (Start.open d s).state
  have b1 := (keeps_configure
    (fun p _ => (p.hwTriggerTimeout, p.propertyHolder, p.useDefaultProperties))
    (fun f _ => keeps_budget_run f)).run d (Start.open d s).state
  have a2 := (keeps_Stop (fun _ g => g.triggerSource)).run d
    (Start.configure d (Start.open d s).state).state
  have b2 := (keeps_Stop
    (fun p _ => (p.hwTriggerTimeout, p.propertyHolder, p.useDefaultProperties))).run d
    (Start.configure d (Start.open d s).state).state
  simp only [Keeps, Prod.mk.injEq] at a0 b0 a1 b1 a2 b2
  rcases Start_state d s with h | h | h | h
  · rw [h]
    exact ⟨_, _, a0, b0.2.1, b0.2.2, Or.inl rfl, rfl⟩
  · rw [h]
    exact ⟨_, _, a1.trans a0, b1.2.1.trans b0.2.1, b1.2.2.trans b0.2.2, Or.inl rfl, rfl⟩
  · rw [h]
    exact ⟨_, _, a2.trans (a1.trans a0), b2.2.1.trans (b1.2.1.trans b0.2.1),
      b2.2.2.trans (b1.2.2.trans b0.2.2), Or.inl rfl, rfl⟩
  · rw [h]
    obtain ⟨t1, t2, c1, c2, c3, c4, c5⟩ :=
      finish_state d (Start.configure d (Start.open d s).state).state
    exact ⟨t1, t2, c1.trans (a1.trans a0), c2.trans (b1.2.1.trans b0.2.1),
      c3.trans (b1.2.2.trans b0.2.2), c4, c5⟩

/-- The session trigger source after `Start` differs from the one before only if
the trigger source is explicit or the defaults policy is set; the session trigger
mode is then `"On"`, and the new value is what the device reported for
`TriggerSource`. -/
theorem Start_source_changed (d : Device) (s : St)
    (hne : (Start d s).state.self.triggerSource ≠ s.self.triggerSource) :
    (s.params.propertyHolder 22 ≠ -1 ∨ s.params.useDefaultProperties = true) ∧
    (Start d s).state.self.triggerMode = "On" ∧
    ∃ h, d.getEnum h "TriggerSource" false = .ok (Start d s).state.self.triggerSource := by
  obtain ⟨t1, t2, c1, c2, c3, c4, c5⟩ := Start_source_state d s
  simp only [Keeps, Prod.mk.injEq] at c5
  obtain ⟨k1, k2, _⟩ := c5
  rw [k1, ← c1] at hne
  rw [k1, k2, ← c2, ← c3]
  rcases c4 with h | h
  · rw [h] at hne
    exact absurd rfl hne
  · subst h
    obtain ⟨m1, _, m3⟩ := exec_setTriggerSource_state d t1
    obtain ⟨g, hon, hdev⟩ := m3 hne
    exact ⟨g, by rw [m1, hon], hdev⟩

theorem noSoftwareTrigger_refl (s : St) : NoSoftwareTrigger s s :=
  fun _ => ⟨onlyCalls_refl _ s, rfl⟩

theorem noSoftwareTrigger_trans (a b c : St) (h1 : NoSoftwareTrigger a b)
    (h2 : NoSoftwareTrigger b c) : NoSoftwareTrigger a c := by
  intro ha
  obtain ⟨o1, e1⟩ := h1 ha
  obtain ⟨o2, e2⟩ := h2 (by rw [e1]; exact ha)
  exact ⟨onlyCalls_trans _ a b c o1 o2, e2.trans e1⟩

instance noSoftwareTrigger_pre : Pre NoSoftwareTrigger :=
  ⟨noSoftwareTrigger_refl, noSoftwareTrigger_trans⟩

theorem noSoftwareTrigger_of {α : Type} (m : M α)
    (h1 : Sat (OnlyCalls (fun c => c.avoids ["TriggerSoftware"] = true)) m)
    (h2 : Sat (Keeps (fun _ g => g.triggerSource)) m) : Sat NoSoftwareTrigger m :=
  ⟨fun d s _ => ⟨h1.run d s, h2.run d s⟩⟩

/-- The completion of the trigger settings issues the `TriggerSoftware` command only
under the session trigger source `"Software"`. -/
theorem noSoftwareTrigger_trigger : Sat NoSoftwareTrigger Start.trigger := by
  constructor
  intro d s hsrc
  simp only [Start.trigger, mbind_run, getSelf_run]
  by_cases c1 : (decide (s.self.acquisitionMode ≠ "Continuous") &&
      decide (s.self.triggerMode = "On")) = true
  · rw [if_pos c1, if_neg hsrc, modifyParams_run]
    exact ⟨⟨[], by simp [Res.state], fun _ h => by cases h⟩, rfl⟩
  · rw [if_neg c1]
    by_cases c3 : (decide (s.self.acquisitionMode = "Continuous") &&
        decide (s.self.triggerMode = "Off")) = true
    · rw [if_pos c3, modifyParams_run]
      exact ⟨⟨[], by simp [Res.state], fun _ h => by cases h⟩, rfl⟩
    · rw [if_neg c3, mpure_run]
      exact ⟨⟨[], by simp [Res.state], fun _ h => by cases h⟩, rfl⟩

set_option linter.unusedTactic false in
set_option linter.unreachableTactic false in
theorem noSoftwareTrigger_acquire : Sat NoSoftwareTrigger Start.acquire := by
  unfold Start.acquire Start.stream
  repeat' first
    | exact rule_pure _ _
    | exact noSoftwareTrigger_trigger
    | exact noSoftwareTrigger_of _ (only_liftD _ _ (only_isFeature _ (avoids_read _) _ _))
        (keeps_liftD _ _)
    | exact noSoftwareTrigger_of _ (only_liftD _ _ (only_call _ _ _ rfl)) (keeps_liftD _ _)
    | exact noSoftwareTrigger_of _ (only_modifySelf _ _)
        (keeps_modifySelf _ _ (fun _ _ => rfl))
    | apply rule_bind
    | split
    | intro _
    | dsimp only

theorem Setter_no_trigger (f : Setter) (hf : f ≠ .setTriggerSoftware) :
    Sat (OnlyCalls (fun c => c.avoids ["TriggerSoftware"] = true)) f.run := by
  apply Setter_only
  apply avoids_of_within
  revert hf
  cases f <;> decide

set_option linter.unusedTactic false in
set_option linter.unreachableTactic false in
theorem only_configure (Q : Call → Prop)
    (h : ∀ f, f ∈ Setter.resetDevice :: Setter.setWidthHeight :: Setter.setPixelFormat ::
      Start.binning → Sat (OnlyCalls Q) f.run) :
    Sat (OnlyCalls Q) Start.configure := by
  unfold Start.configure
  repeat' first
    | exact rule_pure _ _
    | exact only_getParams _
    | exact only_runSteps _ _ (fun f hf =>
        h f (List.mem_cons_of_mem _ (List.mem_cons_of_mem _ (List.mem_cons_of_mem _ hf))))
    | exact only_invoke _ _ (h _ (by decide))
    | apply rule_bind
    | split
    | intro _
    | dsimp only

/-- The remaining settings issue no `TriggerSoftware` command when they end with a
session trigger source other than `"Software"`. -/
theorem finish_no_trigger (d : Device) (s1 : St)
    (h : (Start.finish d s1).state.self.triggerSource ≠ "Software") :
    OnlyCalls (fun c => c.avoids ["TriggerSoftware"] = true) s1 (Start.finish d s1).state := by
  have o1 := (only_runSteps (fun c => c.avoids ["TriggerSoftware"] = true) Start.features
    (fun f hf => Setter_no_trigger f (by
      intro e
      subst e
      revert hf
      decide))).run d s1
  revert h
  rw [show Start.finish d s1 = (runSteps Start.features >>= fun _ => Start.acquire) d s1
    from rfl, mbind_run]
  cases h1 : runSteps Start.features d s1 with
  | raise e sc =>
    rw [h1] at o1
    exact fun _ => o1
  | ok u sc =>
    rw [h1] at o1
    simp only [Res.state] at o1
    simp only []
    intro h
    have k := keeps_acquire.run d sc
    simp only [Keeps, Prod.mk.injEq] at k
    have hsc : sc.self.triggerSource ≠ "Software" := by
      rw [← k.1]
      exact h
    exact onlyCalls_trans _ _ _ _ o1 (noSoftwareTrigger_acquire.run d sc hsc).1

/-- A run of `Start` that ends with a session trigger source other than `"Software"`
has issued no `TriggerSoftware` command. -/
theorem Start_no_trigger (d : Device) (s : St)
    (h : (Start d s).state.self.triggerSource ≠ "Software") :
    ∀ c ∈ issuedBy s (Start d s), c.avoids ["TriggerSoftware"] = true := by
  have o0 := (only_open (fun c => c.avoids ["TriggerSoftware"] = true)
    (avoids_read _)).run d s
  have o1 := (only_configure (fun c => c.avoids ["TriggerSoftware"] = true)
    (fun f hf => Setter_no_trigger f (by
      intro e
      subst e
      revert hf
      decide))).run d (Start.open d s).state
  have o2 := (only_Stop (fun c => c.avoids ["TriggerSoftware"] = true)
    (avoids_read _)).run d (Start.configure d (Start.open d s).state).state
  have key : OnlyCalls (fun c => c.avoids ["TriggerSoftware"] = true) s (Start d s).state := by
    rcases Start_state d s with e | e | e | e
    · rw [e]
      exact o0
    · rw [e]
      exact onlyCalls_trans _ _ _ _ o0 o1
    · rw [e]
      exact onlyCalls_trans _ _ _ _ o0 (onlyCalls_trans _ _ _ _ o1 o2)
    · rw [e] at h ⊢
      exact onlyCalls_trans _ _ _ _ o0 (onlyCalls_trans _ _ _ _ o1 (finish_no_trigger d _ h))
  obtain ⟨cs, e, w⟩ := key
  rw [issuedBy_of_trace s _ cs e]
  exact w

/-- The part of `Create` after the grab loop issues no write under a session trigger
source other than `"Software"`. -/
theorem deliver_no_trigger (d : Device) (fuel : Nat) (buf : Buffer) (s : St)
    (hsrc : s.self.triggerSource ≠ "Software") :
    OnlyCalls (fun c => c.avoids ["TriggerSoftware"] = true) s
      (Create.deliver fuel buf d s).state := by
  simp only [Create.deliver, mbind_run, liftD_run, platform, getSelf_run]
  by_cases ha : (!d.allocate buf.globalSize) = true
  · rw [if_pos ha]
    exact ⟨[], by simp [Res.state, mpure_run], fun _ h => by cases h⟩
  · rw [if_neg ha]
    simp only [mbind_run, getSelf_run]
    by_cases hacq : s.self.acquisitionMode ≠ "Continuous"
    · rw [if_pos hacq]
      simp only [mbind_run, liftD_run, call]
      cases h1 : d.stopStreaming s.trace with
      | error e =>
        exact ⟨[Call.stopStreaming], by simp [Res.state], fun c hc => by
          rw [List.mem_singleton.mp hc]
          rfl⟩
      | ok u1 =>
        simp only []
        cases h2 : d.startStreaming (s.trace ++ [Call.stopStreaming]) with
        | error e =>
          exact ⟨[Call.stopStreaming, Call.startStreaming], by simp [Res.state], fun c hc => by
            simp only [List.mem_cons, List.mem_singleton, List.not_mem_nil, or_false] at hc
            rcases hc with h | h <;> rw [h] <;> rfl⟩
        | ok u2 =>
          simp only [hsrc, decide_False, Bool.and_false, Bool.false_eq_true, if_false,
            mpure_run]
          exact ⟨[Call.stopStreaming, Call.startStreaming], by simp [Res.state], fun c hc => by
            simp only [List.mem_cons, List.mem_singleton, List.not_mem_nil, or_false] at hc
            rcases hc with h | h <;> rw [h] <;> rfl⟩
    · rw [if_neg hacq]
      exact ⟨[], by simp [Res.state, mpure_run], fun _ h => by cases h⟩

theorem Create_state (fuel : Nat) (d : Device) (s : St) :
    (Create fuel d s).state = (Create.body fuel d s).state := by
  simp only [Create, tryAllM, mbind_run]
  cases Create.body fuel d s with
  | raise e s1 => rfl
  | ok a s1 => rfl

/-- `Create` issues no `TriggerSoftware` command under a session trigger source other
than `"Software"`. -/
theorem Create_no_trigger (d : Device) (s : St) (fuel : Nat)
    (hsrc : s.self.triggerSource ≠ "Software") :
    ∀ c ∈ issuedBy s (Create fuel d s), c.avoids ["TriggerSoftware"] = true := by
  have key : OnlyCalls (fun c => c.avoids ["TriggerSoftware"] = true) s
      (Create fuel d s).state := by
    obtain ⟨n, hn⟩ := grabLoop_state d fuel 0 s
    have hgl : OnlyCalls (fun c => c.avoids ["TriggerSoftware"] = true) s
        (Create.grabLoop fuel 0 d s).state := by
      rw [hn]
      exact ⟨List.replicate n .grab, rfl, fun c hc => by
        rw [List.eq_of_mem_replicate hc]
        rfl⟩
    rw [Create_state]
    simp only [Create.body, mbind_run]
    cases hg : Create.grabLoop fuel 0 d s with
    | raise e s1 =>
      rw [hg] at hgl
      exact hgl
    | ok r s1 =>
      rw [hg] at hgl hn
      simp only [Res.state] at hgl hn
      cases r with
      | none => exact hgl
      | some r2 =>
        cases r2 with
        | none => exact hgl
        | some buf =>
          simp only []
          have hs1 : s1.self.triggerSource ≠ "Software" := by
            rw [hn]
            exact hsrc
          exact onlyCalls_trans _ _ _ _ hgl (deliver_no_trigger d fuel buf s1 hs1)
  obtain ⟨cs, e, w⟩ := key
  rw [issuedBy_of_trace s _ cs e]
  exact w

/-- After a `Start` that ends under a hardware trigger, a `Create` to which no
buffer arrives counts its grab attempts and gives up when the budget is used. -/
theorem Create_counts_after_Start (d : Device) (s : St)
    (hv : (Start d s).value? = some true) (hreset : s.params.deviceReset = false)
    (hsrc : (Start d s).state.self.triggerSource ≠ "Software")
    (hn : (Start d s).state.self.stream > 0)
    (hacq : (Start d s).state.self.acquisitionMode ≠ "Continuous")
    (htrig : (Start d s).state.self.triggerMode = "On")
    (hmax : s.params.hwTriggerTimeout ≤ INT_MAX) (hgrab : ∀ h, d.grab h = .ok none)
    (fuel : Nat) (hfuel : (Start d s).state.params.hwTriggerTimeout.toNat ≤ fuel) :
    0 < (Start d s).state.params.hwTriggerTimeout ∧
    (Create fuel d (Start d s).state).value? = some (some false) ∧
    issuedBy (Start d s).state (Create fuel d (Start d s).state) =
      List.replicate (Start d s).state.params.hwTriggerTimeout.toNat .grab := by
  have hrun := Res.eq_ok_of_value _ _ hv
  have hto := hardware_timeout_after_Start d s _ hreset hrun hn hacq htrig hsrc
  generalize (Start d s).state = s' at *
  have hpos : 0 < s'.params.hwTriggerTimeout := by
    rw [hto]
    split <;> omega
  have hmax' : s'.params.hwTriggerTimeout ≤ INT_MAX := by
    rw [hto]
    split
    · decide
    · exact hmax
  have h : Create.grabLoop fuel 0 d s' = .ok (some none)
      { s' with trace :=
        (s'.trace ++ List.replicate (s'.params.hwTriggerTimeout - 0).toNat .grab) } :=
    grabLoop_hardware d s' hgrab hacq htrig hsrc hmax' fuel 0 s'.trace (le_refl 0) hpos
      (by simpa using hfuel)
  rw [Create_of_grabLoop_none fuel d s' _ h]
  refine ⟨hpos, rfl, ?_⟩
  simp only [issuedBy, Res.state, List.drop_left, sub_zero]

/-- C27: the session trigger source at the end of `Start` differs from the one before
(empty for a new session) only if `setTriggerSource` was called (the trigger source
explicit, or the defaults policy set) with the session trigger mode `"On"`, and is
then the value the device reported for `TriggerSource`.  Whenever it is not
`"Software"` at the end of `Start` (as with the trigger source left at its default and
the defaults policy off), neither `Start` nor a following `Create` issues the
`TriggerSoftware` command, and after a successful `Start` with a stream open, in an
acquisition mode other than `"Continuous"` with trigger mode `"On"`, a `Create` to
which no buffer arrives counts its grab attempts as under a hardware trigger: it
returns `false` after as many attempts as the timeout budget. -/
theorem Start_trigger_source (d : Device) (s : St) :
    ((Start d s).state.self.triggerSource ≠ s.self.triggerSource →
      (s.params.propertyHolder 22 ≠ -1 ∨ s.params.useDefaultProperties = true) ∧
      (Start d s).state.self.triggerMode = "On" ∧
      ∃ h, d.getEnum h "TriggerSource" false = .ok (Start d s).state.self.triggerSource) ∧
    ((Start d s).state.self.triggerSource ≠ "Software" →
      (∀ c ∈ issuedBy s (Start d s), c.avoids ["TriggerSoftware"] = true) ∧
      (∀ fuel, ∀ c ∈ issuedBy (Start d s).state (Create fuel d (Start d s).state),
        c.avoids ["TriggerSoftware"] = true) ∧
      ((Start d s).value? = some true → s.params.deviceReset = false →
        (Start d s).state.self.stream > 0 →
        (Start d s).state.self.acquisitionMode ≠ "Continuous" →
        (Start d s).state.self.triggerMode = "On" →
        s.params.hwTriggerTimeout ≤ INT_MAX → (∀ h, d.grab h = .ok none) →
        ∀ fuel, (Start d s).state.params.hwTriggerTimeout.toNat ≤ fuel →
          0 < (Start d s).state.params.hwTriggerTimeout ∧
          (Create fuel d (Start d s).state).value? = some (some false) ∧
          issuedBy (Start d s).state (Create fuel d (Start d s).state) =
            List.replicate (Start d s).state.params.hwTriggerTimeout.toNat .grab)) :=
  ⟨Start_source_changed d s,
    fun hsrc => ⟨Start_no_trigger d s hsrc,
      fun fuel => Create_no_trigger d _ fuel hsrc,
      fun hv hreset hn hacq htrig hmax hgrab fuel hfuel =>
        Create_counts_after_Start d s hv hreset hsrc hn hacq htrig hmax hgrab fuel hfuel⟩⟩

/-- Witness for C27: the default parameters (trigger source `"Software"` by default,
not explicit, defaults policy off) on a camera that reports `"SingleFrame"` and
delivers no frame: the session trigger source stays empty, `Start` issues no
`TriggerSoftware` command, and `Create` returns `false` after 10 grab attempts. -/
theorem Start_trigger_source_witness :
    (St.init gst_gencamsrc_init).params.triggerSource = some "Software" ∧
    (Start Device.triggered (St.init gst_gencamsrc_init)).state.self.triggerSource = "" ∧
    (∀ c ∈ issuedBy (St.init gst_gencamsrc_init)
        (Start Device.triggered (St.init gst_gencamsrc_init)),
      c.avoids ["TriggerSoftware"] = true) ∧
    (Create 10 Device.triggered
      (Start Device.triggered (St.init gst_gencamsrc_init)).state).value? = some (some false) ∧
    issuedBy (Start Device.triggered (St.init gst_gencamsrc_init)).state
      (Create 10 Device.triggered (Start Device.triggered (St.init gst_gencamsrc_init)).state)
      = List.replicate 10 .grab :=
  ⟨rfl, by decide!,
    ((Start_trigger_source Device.triggered (St.init gst_gencamsrc_init)).2 (by decide!)).1,
    (((Start_trigger_source Device.triggered (St.init gst_gencamsrc_init)).2
      (by decide!)).2.2 (by decide!) rfl (by decide!) (by decide!) (by decide!) (by decide)
      (fun _ => rfl) 10 (by decide!)).2.1,
    by
      have h := (((Start_trigger_source Device.triggered (St.init gst_gencamsrc_init)).2
        (by decide!)).2.2 (by decide!) rfl (by decide!) (by decide!) (by decide!) (by decide)
        (fun _ => rfl) 10 (by decide!)).2.2
      have e : (Start Device.triggered
          (St.init gst_gencamsrc_init)).state.params.hwTriggerTimeout.toNat = 10 := by
        decide!
      rw [e] at h
      exact h⟩

/-! ## C25: the order of the setter calls -/

theorem entered_of_log (s s' : St) (h : s'.log = s.log) : Entered [] s s' :=
  ⟨[], by simp [h], by simp⟩

theorem entered_trans (L1 L2 : List Setter) (a b c : St) (h1 : Entered L1 a b)
    (h2 : Entered L2 b c) : Entered (L1 ++ L2) a c := by
  obtain ⟨m1, e1, p1⟩ := h1
  obtain ⟨m2, e2, p2⟩ := h2
  refine ⟨m1 ++ m2, by rw [e2, e1, List.append_assoc], ?_⟩
  rw [List.filterMap_append]
  exact List.Sublist.append p1 p2

theorem entered_mono (L L' : List Setter) (h : L.Sublist L') (s s' : St)
    (hs : Entered L s s') : Entered L' s s' := by
  obtain ⟨ms, e, p⟩ := hs
  exact ⟨ms, e, p.trans h⟩

theorem entered_invoke (f : Setter) (d : Device) (s : St) :
    Entered [f] s (invoke f d s).state := by
  obtain ⟨_, hok, hraise⟩ := invoke_spec f d s
  cases h : invoke f d s with
  | ok b s1 =>
    obtain ⟨p, q, e⟩ := hok b s1 h
    exact ⟨_, e, by simp [Mark.entered]⟩
  | raise x s1 =>
    obtain ⟨p, e⟩ := hraise x s1 h
    exact ⟨_, e, by simp [Mark.entered]⟩

theorem entered_exec (f : Setter) (d : Device) (s : St) :
    Entered [f] s (f.exec d s).state := by
  rcases exec_state f d s with h | ⟨_, h⟩
  · rw [h]
    exact entered_mono [] [f] (by simp) s s (entered_of_log s s rfl)
  · rw [h]
    exact entered_invoke f d s

theorem entered_runSteps (L : List Setter) (d : Device) :
    ∀ s, Entered L s (runSteps L d s).state := by
  induction L with
  | nil =>
    intro s
    exact entered_of_log s s rfl
  | cons f rest ih =>
    intro s
    show Entered (f :: rest) s ((f.exec >>= fun _ => runSteps rest) d s).state
    rw [mbind_run]
    have h1 := entered_exec f d s
    cases he : f.exec d s with
    | raise e s1 =>
      rw [he] at h1
      exact entered_mono [f] (f :: rest) (by simp) s s1 h1
    | ok u s1 =>
      rw [he] at h1
      exact entered_trans [f] rest s s1 _ h1 (ih s1)

/-- The setter calls of the configuration block come in source order. -/
theorem entered_configure (d : Device) (s : St) :
    Entered (Setter.resetDevice :: Start.binning ++ [.setWidthHeight, .setPixelFormat]) s
      (Start.configure d s).state := by
  rw [configure_run]
  by_cases hreset : s.params.deviceReset = true
  · rw [if_pos hreset]
    have h := entered_invoke .resetDevice d s
    refine entered_mono [.resetDevice] _ (by simp) s _ ?_
    cases hr : invoke .resetDevice d s <;> rw [hr] at h <;> exact h
  · rw [if_neg hreset]
    refine entered_mono (Start.binning ++ ([.setWidthHeight] ++ [.setPixelFormat])) _
      (by simp) s _ ?_
    have hb := entered_runSteps Start.binning d s
    cases h1 : runSteps Start.binning d s with
    | raise e sa =>
      rw [h1] at hb
      exact entered_mono _ _ (by simp) s sa hb
    | ok u sa =>
      rw [h1] at hb
      simp only []
      refine entered_trans _ _ s sa _ hb ?_
      have hw := entered_invoke .setWidthHeight d sa
      cases h2 : invoke .setWidthHeight d sa with
      | raise e sb =>
        rw [h2] at hw
        exact entered_mono _ _ (by simp) sa sb hw
      | ok b sb =>
        rw [h2] at hw
        simp only []
        cases b with
        | false => exact entered_mono _ _ (by simp) sa sb hw
        | true =>
          simp only [Bool.true_eq_false, if_false]
          refine entered_trans _ _ sa sb _ hw ?_
          have hp := entered_invoke .setPixelFormat d sb
          cases h3 : invoke .setPixelFormat d sb with
          | raise e sc =>
            rw [h3] at hp
            exact hp
          | ok b2 sc =>
            rw [h3] at hp
            cases b2 <;> exact hp

theorem entered_bind_frame {α β : Type} (m : M α) (f : α → M β) (L : List Setter)
    (hm : ∀ d s, (m d s).state.log = s.log)
    (hf : ∀ a d s, Entered L s (f a d s).state) :
    ∀ d s, Entered L s ((m >>= f) d s).state := by
  intro d s
  rw [mbind_run]
  have h := hm d s
  cases hr : m d s with
  | raise e s1 =>
    rw [hr] at h
    exact entered_mono [] L (by simp) s s1 (entered_of_log s s1 h)
  | ok a s1 =>
    rw [hr] at h
    simp only [Res.state] at h
    obtain ⟨ms, e, p⟩ := hf a d s1
    exact ⟨ms, by rw [e, h], p⟩

theorem log_liftD {α : Type} (m : D α) (d : Device) (s : St) :
    (liftD m d s).state.log = s.log := ((sat_liftD id true m).run d s).1

theorem log_modifySelf (f : Genicam → Genicam) (d : Device) (s : St) :
    (modifySelf f d s).state.log = s.log := rfl

/-- The completion of the trigger settings calls at most `setTriggerSoftware`. -/
theorem entered_trigger (d : Device) (s : St) :
    Entered [.setTriggerSoftware] s (Start.trigger d s).state := by
  simp only [Start.trigger, mbind_run, getSelf_run]
  by_cases c1 : (decide (s.self.acquisitionMode ≠ "Continuous") &&
      decide (s.self.triggerMode = "On")) = true
  · rw [if_pos c1]
    by_cases c2 : s.self.triggerSource = "Software"
    · rw [if_pos c2]
      have h := entered_invoke .setTriggerSoftware d s
      simp only [mbind_run, mpure_run]
      cases hr : invoke .setTriggerSoftware d s <;> rw [hr] at h <;> exact h
    · rw [if_neg c2]
      exact entered_mono [] _ (by simp) s _ (entered_of_log s _ rfl)
  · rw [if_neg c1]
    by_cases c3 : (decide (s.self.acquisitionMode = "Continuous") &&
        decide (s.self.triggerMode = "Off")) = true
    · rw [if_pos c3]
      exact entered_mono [] _ (by simp) s _ (entered_of_log s _ rfl)
    · rw [if_neg c3]
      exact entered_mono [] _ (by simp) s _ (entered_of_log s _ rfl)

/-- The start of streaming calls at most `setTriggerSoftware`. -/
theorem entered_acquire (d : Device) (s : St) :
    Entered [.setTriggerSoftware] s (Start.acquire d s).state := by
  unfold Start.acquire
  apply entered_bind_frame _ _ _ (log_liftD _)
  intro a d s
  obtain ⟨found, ty⟩ := a
  apply entered_bind_frame _ _ _ (log_modifySelf _)
  intro _ d s
  unfold Start.stream
  apply entered_bind_frame _ _ _ (log_liftD _)
  intro n d s
  apply entered_bind_frame _ _ _ (log_modifySelf _)
  intro _ d s
  split
  · apply entered_bind_frame _ _ _ (log_liftD _)
    intro _ d s
    apply entered_bind_frame _ _ _ (log_liftD _)
    intro _ d s
    exact entered_trigger d s
  · exact entered_mono [] _ (by simp) s _ (entered_of_log s _ rfl)

/-- The setter calls of the remaining settings come in source order. -/
theorem entered_finish (d : Device) (s : St) :
    Entered (Start.features ++ [.setTriggerSoftware]) s (Start.finish d s).state := by
  rw [show Start.finish d s = (runSteps Start.features >>= fun _ => Start.acquire) d s
    from rfl, mbind_run]
  have h1 := entered_runSteps Start.features d s
  cases hr : runSteps Start.features d s with
  | raise e s1 =>
    rw [hr] at h1
    exact entered_mono _ _ (by simp) s s1 h1
  | ok u s1 =>
    rw [hr] at h1
    exact entered_trans _ _ s s1 _ h1 (entered_acquire d s1)

/-- The setters that a run of `Start` enters, in order of entry, form a subsequence
of the setter calls of `Start` in source order. -/
theorem entered_Start (d : Device) (s : St) :
    ((marksBy s (Start d s)).filterMap Mark.entered).Sublist Start.order := by
  have h0 : (Start.open d s).state.log = s.log := (sat_open.run d s).1
  have h1 := entered_configure d (Start.open d s).state
  have h2 : (Stop d (Start.configure d (Start.open d s).state).state).state.log =
      (Start.configure d (Start.open d s).state).state.log := ((sat_Stop id true).run d _).1
  have h3 := entered_finish d (Start.configure d (Start.open d s).state).state
  have key : Entered Start.order s (Start d s).state := by
    rcases Start_state d s with e | e | e | e
    · rw [e]
      exact entered_mono [] _ (by simp) s _ (entered_of_log s _ h0)
    · rw [e]
      obtain ⟨ms, e1, p⟩ := h1
      exact ⟨ms, by rw [e1, h0], p.trans (by decide)⟩
    · rw [e]
      obtain ⟨ms, e1, p⟩ := h1
      exact ⟨ms, by rw [h2, e1, h0], p.trans (by decide)⟩
    · rw [e]
      obtain ⟨m1, e1, p1⟩ := h1
      obtain ⟨m2, e2, p2⟩ := h3
      refine ⟨m1 ++ m2, by rw [e2, e1, h0, List.append_assoc], ?_⟩
      rw [List.filterMap_append]
      have hkey : ((Setter.resetDevice :: Start.binning ++
          [Setter.setWidthHeight, Setter.setPixelFormat])
          ++ (Start.features ++ [Setter.setTriggerSoftware])).Sublist Start.order := by
        decide
      exact (List.Sublist.append p1 p2).trans hkey
  obtain ⟨ms, e, p⟩ := key
  have : marksBy s (Start d s) = ms := by
    simp [marksBy, e]
  rw [this]
  exact p

/-- C25, as the code has it: among the exposure, white-balance, black-level, gamma,
gain and packet settings, the setters that a run of `Start` enters, in order of entry,
form a subsequence of the source order: exposure mode, exposure auto, balance-white
auto, balance ratio (which sets the balance-ratio selector), exposure time selector,
exposure time, black-level selector, gamma, black-level auto, black level, gain
selector, gain auto, gain, gain auto balance, packet size, packet delay.  These are
the last 16 guarded setter calls of `Start`. -/
theorem Start_settings_order (d : Device) (s : St) :
    Start.features.drop 13 = Start.settings ∧
    (((marksBy s (Start d s)).filterMap Mark.entered).filter
      (fun f => decide (f ∈ Start.settings))).Sublist Start.settings := by
  refine ⟨by decide, ?_⟩
  have h := (entered_Start d s).filter (fun f => decide (f ∈ Start.settings))
  have e : Start.order.filter (fun f => decide (f ∈ Start.settings)) = Start.settings := by
    decide
  rw [e] at h
  exact h

/-- C25 fails on the code as worded: with exposure time, black-level auto, gamma and
balance-white auto set explicitly, `Start` applies balance-white auto before the
exposure time and gamma before black-level auto, which is not the order of the
claim (exposure time, black-level auto, gamma, balance-white auto). -/
theorem Start_settings_not_in_specified_order :
    ((marksBy (St.init GencamParams.fourSettings)
        (Start (Device.camera ⟨0, 16, 9999, 1⟩ ["Mono8"])
          (St.init GencamParams.fourSettings))).filterMap Mark.entered).filter
      (fun f => decide (f ∈ Start.settings))
      = [.setBalanceWhiteAuto, .setExposureTime, .setGamma, .setBlackLevelAuto] ∧
    ¬ ([Setter.setBalanceWhiteAuto, .setExposureTime, .setGamma, .setBlackLevelAuto].Sublist
      Start.specifiedOrder) ∧
    [Setter.setExposureTime, .setBlackLevelAuto, .setGamma, .setBalanceWhiteAuto].Sublist
      Start.specifiedOrder := by
  refine ⟨by decide!, by decide, by decide⟩

/-! ## C3, C4: a refused write of `Width`, `Height` or `PixelFormat` -/

theorem accepted_nil (d : Device) (t : List Call) : Accepted d t [] := by
  intro a c b h
  cases a <;> cases h

theorem accepted_append (d : Device) (t cs1 cs2 : List Call) (h1 : Accepted d t cs1)
    (h2 : Accepted d (t ++ cs1) cs2) : Accepted d t (cs1 ++ cs2) := by
  intro a c b h hc
  rcases List.append_eq_append_iff.mp h with ⟨a', rfl, h'⟩ | ⟨c', rfl, h'⟩
  · have := h2 a' c b h' hc
    rwa [List.append_assoc] at this
  · cases c' with
    | nil =>
      simp only [List.nil_append] at h'
      have := h2 [] c b (by simpa using h'.symm) hc
      simpa using this
    | cons x c'' =>
      simp only [List.cons_append, List.cons.injEq] at h'
      obtain ⟨rfl, h''⟩ := h'
      exact h1 a c c'' rfl hc

theorem accepted_of_avoid (d : Device) (t cs : List Call)
    (h : ∀ c ∈ cs, c.loadBearing = false) : Accepted d t cs := by
  intro a c b e hc
  have : c ∈ cs := by rw [e]; simp
  rw [h c this] at hc
  cases hc

theorem tracked_of_only {α : Type} (d : Device) (s : St) (r : Res α)
    (h : OnlyCalls (fun c => c.loadBearing = false) s r.state) : Tracked d s r := by
  obtain ⟨cs, e, hcs⟩ := h
  exact Or.inl ⟨cs, e, accepted_of_avoid d _ cs hcs⟩

theorem tracks_of_only {α : Type} (m : M α)
    (h : Sat (OnlyCalls (fun c => c.loadBearing = false)) m) : Tracks m :=
  ⟨fun d s => tracked_of_only d s _ (h.run d s)⟩

theorem tracks_pure {α : Type} (a : α) : Tracks (pure a : M α) :=
  ⟨fun d s => Or.inl ⟨[], by simp [mpure_run, Res.state], accepted_nil d _⟩⟩

theorem tracks_bind {α β : Type} (m : M α) (f : α → M β) (h1 : Tracks m)
    (h2 : ∀ a, Tracks (f a)) : Tracks (m >>= f) := by
  constructor
  intro d s
  rw [mbind_run]
  have hm := h1.run d s
  cases hr : m d s with
  | raise e s1 =>
    rw [hr] at hm
    exact hm
  | ok a s1 =>
    rw [hr] at hm
    simp only []
    rcases hm with ⟨cs, e1, a1⟩ | ⟨P, c, e, hx, _⟩
    · simp only [Res.state] at e1
      rcases (h2 a).run d s1 with ⟨cs2, e2, a2⟩ | ⟨P, c, e, hx, e2, a2, hc, hre⟩
      · rw [e1] at e2 a2
        exact Or.inl ⟨cs ++ cs2, by rw [e2, List.append_assoc],
          accepted_append d _ _ _ a1 a2⟩
      · rw [e1] at e2 a2 hre
        refine Or.inr ⟨cs ++ P, c, e, hx, by rw [e2]; simp,
          accepted_append d _ _ _ a1 a2, hc, ?_⟩
        rw [← List.append_assoc]
        exact hre
    · cases hx

theorem tracks_write (c : Call) (answer : Device → List Call → Except Exc Bool)
    (h : ∀ d t, d.refusal t c = match answer d t with
      | .error e => some e
      | .ok _ => none) :
    Tracks (liftD (call c answer)) := by
  constructor
  intro d s
  rw [liftD_run]
  unfold call
  have hd := h d s.trace
  cases ha : answer d s.trace with
  | ok b =>
    rw [ha] at hd
    refine Or.inl ⟨[c], rfl, ?_⟩
    intro a c' b' e _
    cases a with
    | nil =>
      simp only [List.nil_append, List.cons.injEq] at e
      rw [← e.1]
      simpa using hd
    | cons x a' =>
      simp only [List.cons_append, List.cons.injEq] at e
      cases a' <;> cases e.2
  | error e =>
    rw [ha] at hd
    by_cases hc : c.loadBearing = true
    · exact Or.inr ⟨[], c, e, rfl, by simp [Res.state], accepted_nil d _, hc, by simpa using hd⟩
    · refine Or.inl ⟨[c], rfl, accepted_of_avoid d _ _ ?_⟩
      intro x hx
      rw [List.mem_singleton.mp hx]
      simpa using hc


theorem setWidthHeight_report_ok (b b' : Bool) (d : Device) (s s' : St)
    (h : setWidthHeight.report b d s = .ok b' s') : b' = b := by
  unfold setWidthHeight.report at h
  cases b <;> simp only [if_true, if_false, Bool.false_eq_true, mbind_run, mpure_run] at h <;>
    (repeat' split at h) <;> first
      | (cases h; rfl)
      | cases h

set_option linter.unusedTactic false in
set_option linter.unreachableTactic false in
theorem only_setWidthHeight_report (b : Bool) :
    Sat (OnlyCalls (fun c => c.isWrite = false)) (setWidthHeight.report b) := by
  unfold setWidthHeight.report
  repeat' first
    | exact rule_pure _ _
    | exact only_Stop _ (fun _ h => h)
    | (apply only_liftD; apply only_logInfo)
    | exact only_pure _ _
    | (apply only_call; rfl)
    | apply only_bind
    | apply rule_bind
    | split
    | intro _
    | dsimp only
    | unfold rcg.getInteger

/-- The run of `setWidthHeight.write`: the `Width` write, then the `Height` write,
each leaving the function when it throws, then the report. -/
theorem setWidthHeight_write_cases (d : Device) (s : St) :
    (∃ e, d.setInteger s.trace "Width" s.params.width true = .error e ∧
      (setWidthHeight.write d s).value? = none ∧
      (setWidthHeight.write d s).state.trace
        = s.trace ++ [.setInteger "Width" s.params.width true]) ∨
    (∃ bw e, d.setInteger s.trace "Width" s.params.width true = .ok bw ∧
      d.setInteger (s.trace ++ [.setInteger "Width" s.params.width true]) "Height"
        s.params.height true = .error e ∧
      (setWidthHeight.write d s).value? = none ∧
      (setWidthHeight.write d s).state.trace
        = s.trace ++ [.setInteger "Width" s.params.width true,
            .setInteger "Height" s.params.height true]) ∨
    (∃ bw bh R, d.setInteger s.trace "Width" s.params.width true = .ok bw ∧
      d.setInteger (s.trace ++ [.setInteger "Width" s.params.width true]) "Height"
        s.params.height true = .ok bh ∧
      (∀ b, (setWidthHeight.write d s).value? = some b → b = (bw || bh)) ∧
      (setWidthHeight.write d s).state.trace
        = s.trace ++ [.setInteger "Width" s.params.width true,
            .setInteger "Height" s.params.height true] ++ R ∧
      ∀ c ∈ R, c.isWrite = false) := by
  unfold setWidthHeight.write
  simp only [mbind_run, getParams_run, liftD_run, rcg.setInteger, call]
  cases hw : d.setInteger s.trace "Width" s.params.width true with
  | error e => exact Or.inl ⟨e, rfl, rfl, rfl⟩
  | ok bw =>
    simp only []
    cases hh : d.setInteger (s.trace ++ [.setInteger "Width" s.params.width true]) "Height"
        s.params.height true with
    | error e => exact Or.inr (Or.inl ⟨bw, e, rfl, rfl, rfl, by simp [Res.state]⟩)
    | ok bh =>
      simp only []
      obtain ⟨R, e, hR⟩ := (only_setWidthHeight_report (bw || bh)).run d
        { s with trace := s.trace ++ [.setInteger "Width" s.params.width true] ++
          [.setInteger "Height" s.params.height true] }
      refine Or.inr (Or.inr ⟨bw, bh, R, rfl, rfl, ?_, ?_, hR⟩)
      · intro b hb
        exact setWidthHeight_report_ok _ _ _ _ _ (Res.eq_ok_of_value _ _ hb)
      · rw [e]
        simp

set_option linter.unusedTactic false in
set_option linter.unreachableTactic false in
theorem only_setWidthHeight_offsets (Q : Call → Prop)
    (hx : Q (.setInteger "OffsetX" 0 true)) (hy : Q (.setInteger "OffsetY" 0 true)) :
    Sat (OnlyCalls Q) setWidthHeight.offsets := by
  unfold setWidthHeight.offsets
  repeat' first
    | exact rule_pure _ _
    | exact only_modifySelf _ _
    | (apply only_liftD; apply only_catchStd)
    | exact only_pure _ _
    | (apply only_call; assumption)
    | apply only_bind
    | apply rule_bind
    | split
    | intro _
    | dsimp only
    | unfold rcg.setInteger

set_option linter.unusedTactic false in
set_option linter.unreachableTactic false in
theorem only_setWidthHeight_maxima (Q : Call → Prop) (hr : ∀ c, c.isWrite = false → Q c) :
    Sat (OnlyCalls Q) setWidthHeight.maxima := by
  unfold setWidthHeight.maxima
  repeat' first
    | exact rule_pure _ _
    | exact only_modifySelf _ _
    | exact only_pure _ _
    | (apply only_liftD; apply only_call; apply hr; rfl)
    | apply only_bind
    | apply rule_bind
    | split
    | intro _
    | dsimp only
    | unfold rcg.getInteger

set_option linter.unusedTactic false in
set_option linter.unreachableTactic false in
theorem only_setWidthHeight_cap (Q : Call → Prop) (hr : ∀ c, c.isWrite = false → Q c) :
    Sat (OnlyCalls Q) setWidthHeight.cap := by
  unfold setWidthHeight.cap
  repeat' first
    | exact rule_pure _ _
    | exact only_modifyParams _ _
    | exact only_getParams _
    | exact only_pure _ _
    | (apply only_liftD; apply only_call; apply hr; rfl)
    | apply only_bind
    | apply rule_bind
    | split
    | intro _
    | dsimp only
    | unfold rcg.getInteger


theorem loadBearing_of_avoids (c : Call)
    (h : c.avoids ["Width", "Height", "PixelFormat"] = true) : c.loadBearing = false := by
  cases c <;> first
    | rfl
    | (simp [Call.avoids, Call.target] at h
       simp [Call.loadBearing, h])

theorem loadBearing_of_read (c : Call) (h : c.isWrite = false) : c.loadBearing = false := by
  cases c <;> first | rfl | cases h

theorem tracks_of_writes (f : Setter)
    (h : ∀ n ∈ f.writes, n ∉ ["Width", "Height", "PixelFormat"]) : Tracks f.run :=
  tracks_of_only _ (Setter_only _ f
    (fun c hc => loadBearing_of_avoids c (avoids_of_within _ _ h c hc)))

theorem tracks_invoke (f : Setter) (h : Tracks f.run) : Tracks (invoke f) := by
  unfold invoke
  apply tracks_bind
  · exact tracks_of_only _ (only_mark _ _)
  · intro _
    apply tracks_bind
    · exact h
    · intro _
      apply tracks_bind
      · exact tracks_of_only _ (only_mark _ _)
      · intro _
        exact tracks_pure _

set_option linter.unusedTactic false in
set_option linter.unreachableTactic false in
theorem tracks_exec (f : Setter) (h : Tracks f.run) : Tracks f.exec := by
  unfold Setter.exec
  repeat' first
    | exact tracks_pure _
    | exact tracks_of_only _ (only_getParams _)
    | exact tracks_of_only _ (only_getSelf _)
    | exact tracks_invoke f h
    | apply tracks_bind
    | split
    | intro _
    | dsimp only

theorem tracks_runSteps (L : List Setter) (h : ∀ f ∈ L, Tracks f.run) :
    Tracks (runSteps L) := by
  induction L with
  | nil => exact tracks_pure _
  | cons f rest ih =>
    unfold runSteps
    apply tracks_bind
    · exact tracks_exec f (h f (List.mem_cons_self _ _))
    · intro _
      exact ih (fun g hg => h g (List.mem_cons_of_mem _ hg))

set_option linter.unusedTactic false in
set_option linter.unreachableTactic false in
theorem tracks_setWidthHeight : Tracks setWidthHeight := by
  unfold setWidthHeight setWidthHeight.write
  repeat' first
    | exact tracks_pure _
    | exact tracks_of_only _ (only_getParams _)
    | exact tracks_of_only _ (only_setWidthHeight_offsets _ rfl rfl)
    | exact tracks_of_only _ (only_setWidthHeight_maxima _ loadBearing_of_read)
    | exact tracks_of_only _ (only_setWidthHeight_cap _ loadBearing_of_read)
    | exact tracks_of_only _ (rule_mono _ _ _
        (fun a b => onlyCalls_mono _ _ loadBearing_of_read a b)
        (only_setWidthHeight_report _))
    | exact tracks_write _ _ (fun _ _ => rfl)
    | apply tracks_bind
    | intro _
    | dsimp only
    | unfold rcg.setInteger

set_option linter.unusedTactic false in
set_option linter.unreachableTactic false in
theorem tracks_setPixelFormat : Tracks setPixelFormat := by
  unfold setPixelFormat
  repeat' first
    | exact tracks_pure _
    | exact tracks_of_only _ (only_getParams _)
    | exact tracks_of_only _ (only_Stop _ loadBearing_of_read)
    | exact tracks_write _ _ (fun _ _ => rfl)
    | (apply tracks_of_only; apply only_liftD; exact only_isFeature _ loadBearing_of_read _ _)
    | (apply tracks_of_only; apply only_liftD; apply only_logInfo; apply only_call; rfl)
    | (apply tracks_of_only; apply only_liftD; apply only_call; rfl)
    | apply tracks_bind
    | split
    | intro _
    | dsimp only
    | unfold rcg.setEnum
    | unfold rcg.getEnumList
    | unfold rcg.getEnum

set_option linter.unusedTactic false in
set_option linter.unreachableTactic false in
theorem tracks_configure : Tracks Start.configure := by
  unfold Start.configure
  repeat' first
    | exact tracks_pure _
    | exact tracks_of_only _ (only_getParams _)
    | exact tracks_invoke _ tracks_setWidthHeight
    | exact tracks_invoke _ tracks_setPixelFormat
    | exact tracks_invoke _ (tracks_of_writes .resetDevice (by decide!))
    | exact tracks_runSteps _ (fun f hf => tracks_of_writes f (by
        revert f
        decide!))
    | apply tracks_bind
    | split
    | intro _
    | dsimp only


theorem avoids_mono (A B : List String) (h : ∀ n ∈ B, n ∈ A) (c : Call)
    (hc : c.avoids A = true) : c.avoids B = true := by
  unfold Call.avoids at hc ⊢
  cases ht : c.target with
  | none => rfl
  | some n =>
    rw [ht] at hc
    simp only [] at hc ⊢
    simp only [Bool.not_eq_true', List.contains_eq_any_beq, List.any_eq_false, beq_iff_eq,
      Bool.not_eq_eq_eq_not, Bool.not_true] at hc ⊢
    intro x hx e
    exact hc x (h x hx) e

theorem tracks_finish : Tracks Start.finish :=
  tracks_of_only _ (rule_mono _ _ _
    (fun a b => onlyCalls_mono _ _
      (fun c hc => loadBearing_of_avoids c (avoids_mono _ _ (by decide!) c hc)) a b)
    only_finish)

theorem tracked_ext {α : Type} (d : Device) (s : St) (r : Res α) (h : Tracked d s r) :
    ∃ cs, r.state.trace = s.trace ++ cs := by
  rcases h with ⟨cs, e, _⟩ | ⟨P, c, _, _, e, _⟩
  · exact ⟨cs, e⟩
  · exact ⟨P ++ [c], by rw [e, List.append_assoc]⟩

/-- The run of `Start` with respect to the load-bearing writes: either all of them
were answered without an exception, or the first one that was refused is followed by
the calls of `Stop` only, and `Start` returns `false`. -/
theorem Start_tracked (d : Device) (s : St) (hclear : ∀ h, d.clearSystems h = .ok ()) :
    (∃ cs, (Start d s).state.trace = s.trace ++ cs ∧ Accepted d s.trace cs) ∨
    (∃ P c e R, (Start d s).value? = some false ∧
      (Start d s).state.trace = s.trace ++ P ++ c :: R ∧ Accepted d s.trace P ∧
      c.loadBearing = true ∧ d.refusal (s.trace ++ P) c = some e ∧
      (∀ x ∈ R, x.isWrite = false) ∧ Call.clearSystems ∈ R) := by
  obtain ⟨c0, e0, w0⟩ := (only_open (fun c => c.isWrite = false) (fun _ h => h)).run d s
  have a0 : Accepted d s.trace c0 :=
    accepted_of_avoid d _ _ (fun c hc => loadBearing_of_read c (w0 c hc))
  rw [Start_run]
  cases ho : Start.open d s with
  | raise e s0 =>
    rw [ho] at e0
    exact Or.inl ⟨c0, e0, a0⟩
  | ok dev s0 =>
    rw [ho] at e0
    simp only [Res.state] at e0
    cases dev with
    | false => exact Or.inl ⟨c0, e0, a0⟩
    | true =>
      simp only [if_true]
      have hc := tracks_configure.run d s0
      cases hcf : Start.configure d s0 with
      | raise x s1 =>
        rw [hcf] at hc
        simp only []
        obtain ⟨cs, s2, hs, ht, _, hmem, hw⟩ := Stop_run d s1 hclear
        rw [hs]
        rcases hc with ⟨c1, e1, a1⟩ | ⟨P, c, e, _, e1, a1, hlb, href⟩
        · simp only [Res.state] at e1
          rw [e0] at e1 a1
          refine Or.inl ⟨c0 ++ c1 ++ cs, by simp [Res.state, ht, e1], ?_⟩
          exact accepted_append d _ _ _ (accepted_append d _ _ _ a0 a1)
            (accepted_of_avoid d _ _ (fun c hc => loadBearing_of_read c (hw c hc)))
        · simp only [Res.state] at e1
          rw [e0] at e1 a1 href
          refine Or.inr ⟨c0 ++ P, c, e, cs, rfl, by simp [Res.state, ht, e1],
            accepted_append d _ _ _ a0 a1, hlb, ?_, hw, hmem⟩
          rw [← List.append_assoc]
          exact href
      | ok r s1 =>
        rw [hcf] at hc
        have hacc : ∃ c1, s1.trace = s.trace ++ c1 ∧ Accepted d s.trace c1 := by
          rcases hc with ⟨c1, e1, a1⟩ | ⟨P, c, e, hx, _⟩
          · simp only [Res.state] at e1
            rw [e0] at e1 a1
            exact ⟨c0 ++ c1, by rw [e1, List.append_assoc], accepted_append d _ _ _ a0 a1⟩
          · cases hx
        obtain ⟨c1, e1, a1⟩ := hacc
        cases r with
        | some b => exact Or.inl ⟨c1, e1, a1⟩
        | none =>
          simp only []
          have hf := tracks_finish.run d s1
          have hfin : ∃ c2, (Start.finish d s1).state.trace = s1.trace ++ c2 ∧
              Accepted d s1.trace c2 := by
            rcases hf with ⟨c2, e2, a2⟩ | ⟨P, c, e, _, e2, a2, hlb, _⟩
            · exact ⟨c2, e2, a2⟩
            · exfalso
              obtain ⟨c2, e3, h3⟩ := (rule_mono _ _ _
                (fun a b => onlyCalls_mono _ _
                  (fun c hc => loadBearing_of_avoids c (avoids_mono _ _ (by decide!) c hc)) a b)
                only_finish).run d s1
              rw [e2, List.append_assoc] at e3
              have := List.append_cancel_left e3
              have hm : c ∈ c2 := by rw [← this]; simp
              rw [h3 c hm] at hlb
              cases hlb
          obtain ⟨c2, e2, a2⟩ := hfin
          rw [e1] at e2 a2
          cases hfr : Start.finish d s1 with
          | ok u s2 =>
            rw [hfr] at e2
            exact Or.inl ⟨c1 ++ c2, by simpa [Res.state] using e2,
              accepted_append d _ _ _ a1 a2⟩
          | raise x s2 =>
            rw [hfr] at e2
            exact Or.inl ⟨c1 ++ c2, by simpa [Res.state] using e2,
              accepted_append d _ _ _ a1 a2⟩

/-- Position of a refused load-bearing write in a run that is tracked. -/
theorem refusal_position (d : Device) (t P R a b : List Call) (c c' : Call)
    (h : P ++ c :: R = a ++ c' :: b) (hP : Accepted d t P)
    (hR : ∀ x ∈ R, x.isWrite = false) (hc' : c'.loadBearing = true)
    (href : d.refusal (t ++ a) c' ≠ none) : a = P ∧ c' = c ∧ b = R := by
  have hw : c'.isWrite = true := by
    cases c' <;> first | rfl | cases hc'
  rcases List.append_eq_append_iff.mp h with ⟨a', e1, e2⟩ | ⟨c'', e1, e2⟩
  · cases a' with
    | nil =>
      simp only [List.nil_append, List.cons.injEq] at e2
      simp only [List.append_nil] at e1
      exact ⟨e1, e2.1.symm, e2.2.symm⟩
    | cons x a'' =>
      simp only [List.cons_append, List.cons.injEq] at e2
      have : c' ∈ R := by rw [e2.2]; simp
      rw [hR c' this] at hw
      cases hw
  · cases c'' with
    | nil =>
      simp only [List.nil_append, List.cons.injEq] at e2
      simp only [List.append_nil] at e1
      exact ⟨e1.symm, e2.1, e2.2⟩
    | cons x c3 =>
      simp only [List.cons_append, List.cons.injEq] at e2
      obtain ⟨rfl, _⟩ := e2
      exact absurd (hP a c' c3 e1 hc') href

theorem invoke_run (f : Setter) (d : Device) (s : St) :
    invoke f d s =
      match f.run d { s with log := s.log ++ [.enter f s.trace.length] } with
      | .ok b s1 => .ok b { s1 with log := s1.log ++ [.leave f b s1.trace.length] }
      | .raise e s1 => .raise e s1 := by
  simp only [invoke, mbind_run, mark_run, mpure_run]
  cases f.run d { s with log := s.log ++ [.enter f s.trace.length] } <;> rfl

/-- When `setWidthHeight` returns `true`, its writes of `Width` and `Height` were
both answered, one of them with `true`. -/
theorem setWidthHeight_true_run (d : Device) (s s' : St)
    (h : setWidthHeight d s = .ok true s') :
    ∃ P w h' bw bh R, s'.trace = s.trace ++ P ++
        Call.setInteger "Width" w true :: Call.setInteger "Height" h' true :: R ∧
      d.setInteger (s.trace ++ P) "Width" w true = .ok bw ∧
      d.setInteger (s.trace ++ P ++ [.setInteger "Width" w true]) "Height" h' true = .ok bh ∧
      (bw || bh) = true := by
  have e : setWidthHeight d s = (setWidthHeight.offsets >>= fun _ =>
    setWidthHeight.maxima >>= fun _ => setWidthHeight.cap >>= fun _ =>
    setWidthHeight.write) d s := rfl
  rw [e] at h
  obtain ⟨_, s1, h1, h⟩ := bind_ok _ _ d s s' true h
  obtain ⟨_, s2, h2, h⟩ := bind_ok _ _ d s1 s' true h
  obtain ⟨_, s3, h3, h⟩ := bind_ok _ _ d s2 s' true h
  obtain ⟨c1, e1, _⟩ := (only_setWidthHeight_offsets (fun _ => True) trivial trivial).run d s
  obtain ⟨c2, e2, _⟩ := (only_setWidthHeight_maxima (fun _ => True) (fun _ _ => trivial)).run d s1
  obtain ⟨c3, e3, _⟩ := (only_setWidthHeight_cap (fun _ => True) (fun _ _ => trivial)).run d s2
  rw [h1] at e1
  rw [h2] at e2
  rw [h3] at e3
  simp only [Res.state] at e1 e2 e3
  have et : s3.trace = s.trace ++ (c1 ++ c2 ++ c3) := by
    rw [e3, e2, e1]
    simp
  rcases setWidthHeight_write_cases d s3 with ⟨e, _, hv, _⟩ | ⟨bw, e, _, _, hv, _⟩ |
      ⟨bw, bh, R, hw, hh, hv, ht, _⟩
  · rw [h] at hv
    cases hv
  · rw [h] at hv
    cases hv
  · rw [h] at hv ht
    simp only [Res.state] at ht
    refine ⟨c1 ++ c2 ++ c3, s3.params.width, s3.params.height, bw, bh, R, ?_, ?_, ?_,
      (hv true rfl).symm⟩
    · rw [ht, et]
      simp
    · rw [← et]
      exact hw
    · rw [← et]
      exact hh


theorem resetDevice_false (d : Device) (s s' : St) (b : Bool)
    (h : invoke .resetDevice d s = .ok b s') : b = false := by
  rw [invoke_run] at h
  cases hr : Setter.run .resetDevice d { s with log := s.log ++ [.enter .resetDevice s.trace.length] } with
  | raise e s1 =>
    rw [hr] at h
    cases h
  | ok r s1 =>
    rw [hr] at h
    simp only [Res.ok.injEq] at h
    rw [← h.1]
    unfold Setter.run resetDevice at hr
    obtain ⟨_, s2, _, hr⟩ := bind_ok _ _ d _ s1 r hr
    obtain ⟨_, s3, _, hr⟩ := bind_ok _ _ d _ s1 r hr
    rw [mpure_run] at hr
    simp only [Res.ok.injEq] at hr
    exact hr.1.symm

/-- A run of `Start` that returns `true` has gone through the whole `try` block and
the rest of `Start`. -/
theorem Start_true_through (d : Device) (s s' : St) (hrun : Start d s = .ok true s') :
    ∃ s0 sa sb s1, Start.open d s = .ok true s0 ∧
      runSteps Start.binning d s0 = .ok () sa ∧
      invoke .setWidthHeight d sa = .ok true sb ∧
      invoke .setPixelFormat d sb = .ok true s1 ∧
      Start.finish d s1 = .ok () s' := by
  rw [Start_run] at hrun
  cases ho : Start.open d s with
  | raise e s0 =>
    rw [ho] at hrun
    cases hrun
  | ok dev s0 =>
    rw [ho] at hrun
    cases dev with
    | false => simp at hrun
    | true =>
      simp only [if_true] at hrun
      cases hc : Start.configure d s0 with
      | raise e s1 =>
        rw [hc] at hrun
        simp only [] at hrun
        cases hs : Stop d s1 <;> rw [hs] at hrun <;> simp at hrun
      | ok r s1 =>
        rw [hc] at hrun
        by_cases hreset : s0.params.deviceReset = true
        · exfalso
          rw [configure_run, if_pos hreset] at hc
          cases hi : invoke .resetDevice d s0 with
          | raise e s2 =>
            rw [hi] at hc
            cases hc
          | ok b s2 =>
            rw [hi] at hc
            have hb := resetDevice_false d s0 s2 b hi
            simp only [Res.ok.injEq] at hc
            rw [← hc.1, hb] at hrun
            simp at hrun
        · have hreset' : s0.params.deviceReset = false := by
            cases h : s0.params.deviceReset
            · rfl
            · exact absurd h hreset
          obtain ⟨hne, hnone⟩ := configure_none d s0 s1 r hreset' hc
          cases r with
          | some b =>
            simp only [Res.ok.injEq] at hrun
            rw [hrun.1] at hne
            exact absurd rfl hne
          | none =>
            obtain ⟨sa, sb, h1, h2, h3⟩ := hnone rfl
            simp only [] at hrun
            cases hf : Start.finish d s1 with
            | raise e s2 =>
              rw [hf] at hrun
              cases hrun
            | ok u s2 =>
              rw [hf] at hrun
              simp only [Res.ok.injEq, true_and] at hrun
              subst hrun
              exact ⟨s0, sa, sb, s1, rfl, h1, h2, h3, hf⟩

/-- A run of `Start` that returns `true` has issued the writes of `Width` and
`Height`, both were answered, one of them with `true`. -/
theorem Start_true_size (d : Device) (s s' : St) (hrun : Start d s = .ok true s') :
    ∃ P w h bw bh R, s'.trace = s.trace ++ P ++
        Call.setInteger "Width" w true :: Call.setInteger "Height" h true :: R ∧
      d.setInteger (s.trace ++ P) "Width" w true = .ok bw ∧
      d.setInteger (s.trace ++ P ++ [.setInteger "Width" w true]) "Height" h true = .ok bh ∧
      (bw || bh) = true := by
  obtain ⟨s0, sa, sb, s1, h0, h1, h2, h3, h4⟩ := Start_true_through d s s' hrun
  obtain ⟨c0, e0⟩ := tracked_ext d s _
    ((tracks_of_only _ (only_open _ loadBearing_of_read)).run d s)
  obtain ⟨c1, e1⟩ := tracked_ext d s0 _ ((tracks_runSteps Start.binning
    (fun f hf => tracks_of_writes f (by revert f; decide!))).run d s0)
  obtain ⟨c3, e3⟩ := tracked_ext d sb _ ((tracks_invoke .setPixelFormat tracks_setPixelFormat).run d sb)
  obtain ⟨c4, e4⟩ := tracked_ext d s1 _ (tracks_finish.run d s1)
  rw [h0] at e0
  rw [h1] at e1
  rw [h3] at e3
  rw [h4] at e4
  simp only [Res.state] at e0 e1 e3 e4
  rw [invoke_run] at h2
  cases hr : Setter.run .setWidthHeight d
      { sa with log := sa.log ++ [.enter .setWidthHeight sa.trace.length] } with
  | raise e s2 =>
    rw [hr] at h2
    cases h2
  | ok b s2 =>
    rw [hr] at h2
    simp only [Res.ok.injEq] at h2
    obtain ⟨hb, hs⟩ := h2
    subst hb
    obtain ⟨P, w, h, bw, bh, R, et, hw, hh, hor⟩ := setWidthHeight_true_run d _ s2 hr
    simp only [] at et hw hh
    have esb : sb.trace = s2.trace := by rw [← hs]
    refine ⟨c0 ++ c1 ++ P, w, h, bw, bh, R ++ c3 ++ c4, ?_, ?_, ?_, hor⟩
    · rw [e4, e3, esb, et, e1, e0]
      simp
    · rw [e1, e0] at hw
      simpa using hw
    · rw [e1, e0] at hh
      simpa using hh

/-- C3: `setWidthHeight`, and therefore `Start`, reports success only if both the
`Width` write and the `Height` write succeeded, and a refused write aborts the
configuration.  Both writes are issued with the exception flag: the access layer
answers such a write with `true` or throws.  When `setWidthHeight` returns `true`,
or `Start` returns `true`, both writes were issued and answered `true`.  When the
device refuses the `Width` write or the `Height` write that `Start` issues (the write
at that position of the run is answered with an exception), no write follows the
refused write, `clearSystems` is called after it (the end of `Stop`), and `Start`
returns `false` (`clearSystems` is taken to answer). -/
theorem Start_needs_width_and_height (d : Device) (s : St)
    (haccess : ∀ h n v, d.setInteger h n v true ≠ .ok false)
    (hclear : ∀ h, d.clearSystems h = .ok ()) :
    (∀ sa sb, setWidthHeight d sa = .ok true sb →
      ∃ P w h R, sb.trace = sa.trace ++ P ++
          Call.setInteger "Width" w true :: Call.setInteger "Height" h true :: R ∧
        d.setInteger (sa.trace ++ P) "Width" w true = .ok true ∧
        d.setInteger (sa.trace ++ P ++ [.setInteger "Width" w true]) "Height" h true
          = .ok true) ∧
    (∀ s', Start d s = .ok true s' →
      ∃ P w h R, s'.trace = s.trace ++ P ++
          Call.setInteger "Width" w true :: Call.setInteger "Height" h true :: R ∧
        d.setInteger (s.trace ++ P) "Width" w true = .ok true ∧
        d.setInteger (s.trace ++ P ++ [.setInteger "Width" w true]) "Height" h true
          = .ok true) ∧
    (∀ a n v ex b e, issuedBy s (Start d s) = a ++ Call.setInteger n v ex :: b →
      n = "Width" ∨ n = "Height" → d.setInteger (s.trace ++ a) n v ex = .error e →
      (Start d s).value? = some false ∧ Call.clearSystems ∈ b ∧
        ∀ c ∈ b, c.isWrite = false) := by
  have hb : ∀ t n v b, d.setInteger t n v true = .ok b → d.setInteger t n v true = .ok true := by
    intro t n v b h
    cases b
    · exact absurd h (haccess t n v)
    · exact h
  refine ⟨?_, ?_, ?_⟩
  · intro sa sb h
    obtain ⟨P, w, h', bw, bh, R, et, hw, hh, _⟩ := setWidthHeight_true_run d sa sb h
    exact ⟨P, w, h', R, et, hb _ _ _ _ hw, hb _ _ _ _ hh⟩
  · intro s' h
    obtain ⟨P, w, h', bw, bh, R, et, hw, hh, _⟩ := Start_true_size d s s' h
    exact ⟨P, w, h', R, et, hb _ _ _ _ hw, hb _ _ _ _ hh⟩
  · intro a n v ex b e hsplit hn herr
    have hlb : (Call.setInteger n v ex).loadBearing = true := by
      rcases hn with h | h <;> simp [Call.loadBearing, h]
    have href : d.refusal (s.trace ++ a) (.setInteger n v ex) = some e := by
      simp [Device.refusal, herr]
    rcases Start_tracked d s hclear with ⟨cs, et, hacc⟩ | ⟨P, c, e', R, hv, et, hacc, _, _, hR, hmem⟩
    · rw [issuedBy_of_trace s _ cs et] at hsplit
      have := hacc a _ b hsplit hlb
      rw [href] at this
      cases this
    · rw [issuedBy_of_trace s _ (P ++ c :: R) (by rw [et, List.append_assoc])] at hsplit
      obtain ⟨_, _, hbR⟩ := refusal_position d s.trace P R a b c _ hsplit hacc hR hlb
        (by rw [href]; simp)
      rw [hbR]
      exact ⟨hv, hmem, hR⟩


theorem value_bind {α β : Type} (m : M α) (f : α → M β) (d : Device) (s : St) (v : β)
    (h : ((m >>= f) d s).value? = some v) : ∃ a s1, (f a d s1).value? = some v := by
  rw [mbind_run] at h
  cases hm : m d s with
  | ok a s1 =>
    rw [hm] at h
    exact ⟨a, s1, h⟩
  | raise e s1 =>
    rw [hm] at h
    cases h

/-- When `setPixelFormat` returns `false`, no entry of the list of pixel formats is a
spelling of the requested format. -/
theorem setPixelFormat_false_find (d : Device) (s : St)
    (h : (setPixelFormat d s).value? = some false) :
    ∃ L, d.getEnumList s.trace "PixelFormat" true = .ok L ∧
      L.find? (fun f => (setPixelFormat.spellings s.params.pixelFormat).contains f) = none := by
  revert h
  unfold setPixelFormat
  simp only [mbind_run, getParams_run, liftD_run, rcg.getEnumList, call]
  cases hl : d.getEnumList s.trace "PixelFormat" true with
  | error e =>
    intro h
    cases h
  | ok L =>
    simp only []
    cases hf : L.find? (fun f => (setPixelFormat.spellings s.params.pixelFormat).contains f) with
    | none =>
      intro _
      exact ⟨L, rfl, hf⟩
    | some f =>
      simp only []
      intro h
      exfalso
      obtain ⟨_, _, h⟩ := value_bind _ _ _ _ _ h
      obtain ⟨_, _, h⟩ := value_bind _ _ _ _ _ h
      obtain ⟨_, _, h⟩ := value_bind _ _ _ _ _ h
      split at h <;>
      · obtain ⟨_, _, h⟩ := value_bind _ _ _ _ _ h
        cases h

/-- When no entry of the list of pixel formats is a spelling of the requested format,
`setPixelFormat` issues no write. -/
theorem setPixelFormat_none_trace (d : Device) (s : St) (L : List String)
    (hl : d.getEnumList s.trace "PixelFormat" true = .ok L)
    (hf : L.find? (fun f => (setPixelFormat.spellings s.params.pixelFormat).contains f)
      = none) :
    ∀ c ∈ issuedBy s (setPixelFormat d s), c.isWrite = false := by
  obtain ⟨cs, e, hw⟩ := stop_trace d
    { s with trace := s.trace ++ [Call.getEnumList "PixelFormat" true] }
  have ht : (setPixelFormat d s).state.trace
      = s.trace ++ (Call.getEnumList "PixelFormat" true :: cs) := by
    unfold setPixelFormat
    simp only [mbind_run, getParams_run, liftD_run, rcg.getEnumList, call, hl, hf]
    cases hs : Stop d { s with trace := s.trace ++ [Call.getEnumList "PixelFormat" true] } <;>
      rw [hs] at e <;> simpa [Res.state, mpure_run] using e
  rw [issuedBy_of_trace s _ _ ht]
  intro c hc
  rcases List.mem_cons.mp hc with h1 | h1
  · rw [h1]
    rfl
  · exact hw c h1


/-- Witness for C3: the camera refuses the `Height` write. -/
theorem Start_needs_width_and_height_witness :
    (Start (Device.rejecting ⟨0, 16, 9999, 1⟩ ["Mono8"] "Height")
      (St.init gst_gencamsrc_init)).value? = some false ∧
    Call.clearSystems ∈ [Call.devClose, Call.clearSystems] := by
  have h := (Start_needs_width_and_height (Device.rejecting ⟨0, 16, 9999, 1⟩ ["Mono8"] "Height")
    (St.init gst_gencamsrc_init)
    (fun h n v => by
      simp only [Device.rejecting]
      split <;> simp)
    (fun _ => rfl)).2.2
    ((issuedBy (St.init gst_gencamsrc_init)
      (Start (Device.rejecting ⟨0, 16, 9999, 1⟩ ["Mono8"] "Height")
        (St.init gst_gencamsrc_init))).take 15)
    "Height" 4320 true [Call.devClose, Call.clearSystems] (.std "Value not accepted")
    (by decide!) (Or.inr rfl) rfl
  exact ⟨h.1, h.2.1⟩

/-- C4, as stated, fails: the camera accepts the write of `"Mono8"` to `PixelFormat`
(the write answers `true`) and leaves the value unchanged, `"BayerRG8"` before and
after; `setPixelFormat` returns `true`, the device is not stopped and `Start` returns
`true`. -/
theorem Start_true_after_unchanged_pixel_format :
    Device.keepsFormat.getEnum [] "PixelFormat" false = .ok "BayerRG8" ∧
    Call.setEnum "PixelFormat" "Mono8" true ∈
      (Start Device.keepsFormat (St.init gst_gencamsrc_init)).state.trace ∧
    Device.keepsFormat.getEnum
      (Start Device.keepsFormat (St.init gst_gencamsrc_init)).state.trace "PixelFormat" false
      = .ok "BayerRG8" ∧
    (∃ m ∈ marksBy (St.init gst_gencamsrc_init)
        (Start Device.keepsFormat (St.init gst_gencamsrc_init)),
      m.isLeave .setPixelFormat true = true) ∧
    Call.devClose ∉ (Start Device.keepsFormat (St.init gst_gencamsrc_init)).state.trace ∧
    (Start Device.keepsFormat (St.init gst_gencamsrc_init)).value? = some true :=
  ⟨rfl, by decide!, rfl, by decide!, by decide!, by decide!⟩

/-- C4, amended: a write issued with the exception flag reports a refusal by
throwing.  When the device refuses the `PixelFormat` write that `Start` issues (the
write at that position of the run is answered with an exception), no write follows
the refused write, `clearSystems` is called after it (the end of `Stop`), and `Start`
returns `false` (`clearSystems` is taken to answer).
`setPixelFormat` itself returns `false` only when no entry of the list is a spelling
of the requested format, and then it has issued no write: once the write is answered
the value the device holds is not compared with the value written. -/
theorem Start_stops_on_refused_pixel_format (d : Device) (s : St)
    (hclear : ∀ h, d.clearSystems h = .ok ()) :
    (∀ a v ex b e, issuedBy s (Start d s) = a ++ Call.setEnum "PixelFormat" v ex :: b →
      d.setEnum (s.trace ++ a) "PixelFormat" v ex = .error e →
      (Start d s).value? = some false ∧ Call.clearSystems ∈ b ∧
        ∀ c ∈ b, c.isWrite = false) ∧
    (∀ sa, (setPixelFormat d sa).value? = some false →
      (∃ L, d.getEnumList sa.trace "PixelFormat" true = .ok L ∧
        L.find? (fun f => (setPixelFormat.spellings sa.params.pixelFormat).contains f)
          = none) ∧
      ∀ c ∈ issuedBy sa (setPixelFormat d sa), c.isWrite = false) := by
  refine ⟨?_, ?_⟩
  · intro a v ex b e hsplit herr
    have hlb : (Call.setEnum "PixelFormat" v ex).loadBearing = true := rfl
    have href : d.refusal (s.trace ++ a) (.setEnum "PixelFormat" v ex) = some e := by
      simp [Device.refusal, herr]
    rcases Start_tracked d s hclear with ⟨cs, et, hacc⟩ | ⟨P, c, e', R, hv, et, hacc, _, _, hR, hmem⟩
    · rw [issuedBy_of_trace s _ cs et] at hsplit
      have := hacc a _ b hsplit hlb
      rw [href] at this
      cases this
    · rw [issuedBy_of_trace s _ (P ++ c :: R) (by rw [et, List.append_assoc])] at hsplit
      obtain ⟨_, _, hbR⟩ := refusal_position d s.trace P R a b c _ hsplit hacc hR hlb
        (by rw [href]; simp)
      rw [hbR]
      exact ⟨hv, hmem, hR⟩
  · intro sa h
    obtain ⟨L, hl, hf⟩ := setPixelFormat_false_find d sa h
    exact ⟨⟨L, hl, hf⟩, setPixelFormat_none_trace d sa L hl hf⟩

/-- Witness for C4: the camera refuses the `PixelFormat` write. -/
theorem Start_stops_on_refused_pixel_format_witness :
    (Start (Device.rejecting ⟨0, 16, 9999, 1⟩ ["Mono8"] "PixelFormat")
      (St.init gst_gencamsrc_init)).value? = some false ∧
    Call.clearSystems ∈ [Call.devClose, Call.clearSystems] := by
  have h := (Start_stops_on_refused_pixel_format
    (Device.rejecting ⟨0, 16, 9999, 1⟩ ["Mono8"] "PixelFormat")
    (St.init gst_gencamsrc_init) (fun _ => rfl)).1
    ((issuedBy (St.init gst_gencamsrc_init)
      (Start (Device.rejecting ⟨0, 16, 9999, 1⟩ ["Mono8"] "PixelFormat")
        (St.init gst_gencamsrc_init))).take 17)
    "Mono8" true [Call.devClose, Call.clearSystems] (.std "Value not accepted")
    (by decide!) rfl
  exact ⟨h.1, h.2.1⟩

/-! ## C7: no write for a property whose gate is closed -/

theorem at_of_sat {α : Type} (d : Device) (R : St → St → Prop) (m : M α) (h : Sat R m) :
    SatAt d R m := ⟨fun s => h.run d s⟩

theorem at_pure {α : Type} (d : Device) (R : St → St → Prop) [Pre R] (a : α) :
    SatAt d R (pure a : M α) := at_of_sat d R _ (rule_pure R a)

theorem at_bind {α β : Type} (d : Device) (R : St → St → Prop) [Pre R]
    (m : M α) (f : α → M β) (h1 : SatAt d R m) (h2 : ∀ a, SatAt d R (f a)) :
    SatAt d R (m >>= f) := by
  constructor
  intro s
  have e := h1.run s
  rw [mbind_run]
  cases hm : m d s with
  | ok a s1 =>
    rw [hm] at e
    exact Pre.trans _ _ _ e ((h2 a).run s1)
  | raise x s1 =>
    rw [hm] at e
    exact e

theorem at_bind_pure {α β : Type} (d : Device) (R : St → St → Prop) (a : α) (f : α → M β)
    (h : SatAt d R (f a)) : SatAt d R ((pure a : M α) >>= f) := ⟨fun s => h.run s⟩

theorem at_bind_ite {α β : Type} (d : Device) (R : St → St → Prop) (c : Prop) [Decidable c]
    (a : α) (m : M α) (f : α → M β) (h1 : SatAt d R (f a)) (h2 : SatAt d R (m >>= f)) :
    SatAt d R ((if c then (pure a : M α) else m) >>= f) := by
  by_cases hc : c
  · rw [if_pos hc]
    exact at_bind_pure d R a f h1
  · rw [if_neg hc]
    exact h2

theorem at_bind_assoc {α β γ : Type} (d : Device) (R : St → St → Prop) (m : M α)
    (g : α → M β) (f : β → M γ) (h : SatAt d R (m >>= fun a => g a >>= f)) :
    SatAt d R ((m >>= g) >>= f) := by
  constructor
  intro s
  have e := h.run s
  simp only [mbind_run] at e ⊢
  cases hm : m d s with
  | ok a s1 =>
    rw [hm] at e
    exact e
  | raise x s1 =>
    rw [hm] at e
    exact e

theorem at_bind_platform {α β : Type} (d : Device) (R : St → St → Prop) (g : Device → α)
    (f : α → M β) (h : SatAt d R (f (g d))) : SatAt d R (liftD (platform g) >>= f) :=
  ⟨fun s => h.run s⟩

theorem touchesOnly_read (names : List String) (c : Call) (h : c.isWrite = false) :
    c.touchesOnly names = true := by
  cases c <;> first | rfl | cases h

theorem touchesOnly_garbage (G : String) (v : CFloat) (ex : Bool) :
    (Call.setFloat G v ex).touchesOnly (Setter.touchesOn G .setAcquisitionFrameRate) = true := by
  simp [Call.touchesOnly, Call.feature, Setter.touchesOn]

set_option linter.unusedTactic false in
set_option linter.unreachableTactic false in
set_option maxHeartbeats 6400000 in
/-- The setters that choose the name of the feature they write address their writes,
of any kind, to the features listed for them. -/
theorem Setter_touches_named (d : Device) (f : Setter)
    (hf : f ∈ [Setter.setAcquisitionFrameRate, .setExposureTime, .setTriggerDelay,
      .setBalanceRatio, .setBlackLevel]) :
    SatAt d (OnlyCalls (fun c => c.touchesOnly (f.touchesOn d.garbage) = true)) f.run := by
  cases f
  case setAcquisitionFrameRate | setExposureTime | setTriggerDelay | setBalanceRatio |
      setBlackLevel =>
    unfold Setter.run
    repeat' first
      | exact at_pure _ _ _
      | unfold setBlackLevel
      | unfold setBlackLevel.feature
      | unfold setBlackLevel.write
      | (with_reducible apply at_bind_pure)
      | (with_reducible apply at_bind_ite)
      | (with_reducible apply at_bind_platform)
      | (with_reducible apply at_bind_assoc)
      | exact at_of_sat _ _ _ (only_getParams _)
      | exact at_of_sat _ _ _ (only_getSelf _)
      | exact at_of_sat _ _ _ (only_modifyParams _ _)
      | exact at_of_sat _ _ _ (only_modifySelf _ _)
      | exact at_of_sat _ _ _
          (only_setIntFeatureOn _ (touchesOnly_read _) _ _ _ _ (fun _ => rfl))
      | exact at_of_sat _ _ _
          (only_setFloatFeatureOn _ (touchesOnly_read _) _ _ _ _ (fun _ => rfl))
      | exact at_of_sat _ _ _
          (only_setFloatFeatureOn _ (touchesOnly_read _) _ _ _ _
            (fun _ => touchesOnly_garbage _ _ _))
      | (apply at_of_sat; apply only_liftD; exact only_isFeature _ (touchesOnly_read _) _ _)
      | (apply at_of_sat; apply only_liftD;
         exact only_setEnumFeature _ (touchesOnly_read _) _ _ _ (fun _ => rfl))
      | (apply at_of_sat; apply only_liftD; exact only_platform _ _)
      | (apply at_of_sat; apply only_liftD; apply only_call; rfl)
      | apply at_bind
      | split
      | intro _
      | dsimp only
      | unfold setAcquisitionFrameRate
      | unfold setExposureTime
      | unfold setTriggerDelay
      | unfold setBalanceRatio
      | unfold rcg.setFloat
      | unfold rcg.setBoolean
      | unfold rcg.getFloat
      | unfold rcg.getEnum
  all_goals simp at hf

set_option linter.unusedTactic false in
set_option linter.unreachableTactic false in
set_option maxHeartbeats 6400000 in
/-- The setters whose feature names are fixed address their writes, of any kind, to the
features listed for them. -/
theorem Setter_touches_fixed (f : Setter)
    (hf : f ∉ [Setter.setAcquisitionFrameRate, .setExposureTime, .setTriggerDelay,
      .setBalanceRatio, .setBlackLevel]) :
    Sat (OnlyCalls (fun c => c.touchesOnly f.touches = true)) f.run := by
  cases f
  case setAcquisitionFrameRate | setExposureTime | setTriggerDelay | setBalanceRatio |
      setBlackLevel => simp at hf
  all_goals unfold Setter.run
  all_goals
    repeat' first
      | exact rule_pure _ _
      | exact only_getParams _
      | exact only_getSelf _
      | exact only_modifyParams _ _
      | exact only_modifySelf _ _
      | exact only_Stop _ (touchesOnly_read _)
      | exact only_setIntFeatureOn _ (touchesOnly_read _) _ _ _ _ (fun _ => rfl)
      | exact only_setFloatFeatureOn _ (touchesOnly_read _) _ _ _ _ (fun _ => rfl)
      | (apply only_liftD; exact only_isFeature _ (touchesOnly_read _) _ _)
      | (apply only_liftD; exact only_setEnumFeature _ (touchesOnly_read _) _ _ _ (fun _ => rfl))
      | (apply only_liftD; exact only_setIntFeature _ (touchesOnly_read _) _ _ _ (fun _ => rfl))
      | (apply only_liftD; exact only_platform _ _)
      | (apply only_liftD; apply only_logInfo)
      | (apply only_liftD; apply only_catchStd)
      | (apply only_liftD; apply only_call; rfl)
      | exact only_pure _ _
      | (apply only_call; rfl)
      | apply only_bind
      | apply rule_bind
      | split
      | intro _
      | dsimp only
      | unfold setBinningMode
      | unfold setTriggerMode
      | unfold setWidthHeight
      | unfold setWidthHeight.offsets
      | unfold setWidthHeight.maxima
      | unfold setWidthHeight.cap
      | unfold setWidthHeight.write
      | unfold setWidthHeight.report

/-- Every setter addresses its writes, of any kind, to the features listed for it. -/
theorem Setter_touches (d : Device) (f : Setter) :
    SatAt d (OnlyCalls (fun c => c.touchesOnly (f.touchesOn d.garbage) = true)) f.run := by
  by_cases hf : f ∈ [Setter.setAcquisitionFrameRate, .setExposureTime, .setTriggerDelay,
      .setBalanceRatio, .setBlackLevel]
  · exact Setter_touches_named d f hf
  · have h := at_of_sat d _ _ (Setter_touches_fixed f hf)
    have e : f.touchesOn d.garbage = f.touches := by
      cases f <;> first | rfl | simp at hf
    rw [e]
    exact h

instance skips_pre (d : Device) (f : Setter) : Pre (Skips d f) where
  refl := fun s _ => ⟨ran_refl _ s, onlyCalls_refl _ s⟩
  trans := fun a b c h1 h2 hc => by
    obtain ⟨r1, o1⟩ := h1 hc
    obtain ⟨r2, o2⟩ := h2 (closed_of_ran f _ a b r1 hc)
    exact ⟨ran_trans _ a b c r1 r2, onlyCalls_trans _ a b c o1 o2⟩

theorem attributed_read (G : String) (f : Setter) (c : Call) (h : c.isWrite = false) :
    Attributed G f c := Or.inr (Or.inr (Or.inl (touchesOnly_read _ c h)))

theorem skips_of {α : Type} (d : Device) (f : Setter) (m : M α) (h1 : Sat (NotCalled f) m)
    (h2 : SatAt d (OnlyCalls (Attributed d.garbage f)) m) : SatAt d (Skips d f) m :=
  ⟨fun s hc => ⟨h1.run d s hc, h2.run s⟩⟩

theorem skips_reads {α : Type} (d : Device) (f : Setter) (m : M α)
    (h1 : Sat (NotCalled f) m) (h2 : Sat (OnlyCalls (fun c => c.isWrite = false)) m) :
    SatAt d (Skips d f) m :=
  skips_of d f m h1 (at_of_sat d _ _ (rule_mono _ _ _
    (fun a b => onlyCalls_mono _ _ (attributed_read _ f) a b) h2))

theorem touchesOnly_of_writesOnly (names : List String) (c : Call)
    (h : c.writesOnly names = true) : c.touchesOnly names = true := by
  cases c <;> first
    | rfl
    | (simp [Call.writesOnly, Call.isWrite, Call.target] at h
       simp [Call.touchesOnly, Call.feature, h])
    | (simp [Call.writesOnly, Call.isWrite, Call.target] at h)

theorem at_invoke (d : Device) (Q : Call → Prop) (g : Setter)
    (h : SatAt d (OnlyCalls Q) g.run) : SatAt d (OnlyCalls Q) (invoke g) := by
  unfold invoke
  apply at_bind
  · exact at_of_sat _ _ _ (only_mark Q _)
  · intro _
    apply at_bind
    · exact h
    · intro _
      apply at_bind
      · exact at_of_sat _ _ _ (only_mark Q _)
      · intro _
        exact at_pure _ _ _

theorem only_invoke_attributed (d : Device) (f g : Setter) (hg : g ≠ f) :
    SatAt d (OnlyCalls (Attributed d.garbage f)) (invoke g) := by
  by_cases hw : g = .setWidthHeight
  · subst hw
    constructor
    intro s
    obtain ⟨off, size, e, ho, _, _, hs⟩ := invoke_setWidthHeight_phases d s
    refine ⟨off ++ size, by rw [e, List.append_assoc], ?_⟩
    intro c hc
    rcases List.mem_append.mp hc with h | h
    · rcases ho c h with h1 | h1
      · exact Or.inl h1
      · exact Or.inr (Or.inl h1)
    · exact Or.inr (Or.inr (Or.inl (touchesOnly_of_writesOnly _ c (hs c h))))
  · apply at_invoke
    constructor
    intro s
    exact onlyCalls_mono _ _ (fun c hc => Or.inr (Or.inr (Or.inr ⟨g, hg, hw, hc⟩))) _ _
      ((Setter_touches d g).run s)

theorem skips_invoke (d : Device) (f g : Setter) (hg : g ≠ f) :
    SatAt d (Skips d f) (invoke g) :=
  skips_of d f _ (notCalled_invoke f g (Or.inl hg)) (only_invoke_attributed d f g hg)

set_option linter.unusedTactic false in
set_option linter.unreachableTactic false in
theorem skips_exec (d : Device) (f g : Setter) : SatAt d (Skips d f) g.exec := by
  by_cases hgf : g = f
  · subst hgf
    constructor
    intro s hc
    obtain ⟨hs, e1, hp, hu⟩ := hc
    have hany : (hs.any fun i => s.params.propertyHolder i != -1) = false := by
      rw [List.any_eq_false]
      intro i hi
      simp [hp i hi]
    simp only [Setter.exec, mbind_run, getParams_run, getSelf_run, e1, hany, hu]
    split <;> exact ⟨ran_refl _ _, onlyCalls_refl _ _⟩
  · unfold Setter.exec
    repeat' first
      | exact at_pure _ _ _
      | exact skips_reads d f _ (lift_getParams _) (only_getParams _)
      | exact skips_reads d f _ (lift_getSelf _) (only_getSelf _)
      | exact skips_invoke d f g hgf
      | apply at_bind
      | split
      | intro _

theorem skips_runSteps (d : Device) (f : Setter) (L : List Setter) :
    SatAt d (Skips d f) (runSteps L) := by
  induction L with
  | nil => exact at_pure _ _ _
  | cons g rest ih =>
    unfold runSteps
    exact at_bind _ _ _ _ (skips_exec d f g) (fun _ => ih)

set_option linter.unusedTactic false in
set_option linter.unreachableTactic false in
theorem skips_configure (d : Device) (f : Setter) (hf : f.holders.isSome = true) :
    SatAt d (Skips d f) Start.configure := by
  have h1 : Setter.resetDevice ≠ f := fun e => by rw [← e] at hf; cases hf
  have h2 : Setter.setWidthHeight ≠ f := fun e => by rw [← e] at hf; cases hf
  have h3 : Setter.setPixelFormat ≠ f := fun e => by rw [← e] at hf; cases hf
  unfold Start.configure
  repeat' first
    | exact at_pure _ _ _
    | exact skips_reads d f _ (lift_getParams _) (only_getParams _)
    | exact skips_runSteps d f _
    | exact skips_invoke d f _ h1
    | exact skips_invoke d f _ h2
    | exact skips_invoke d f _ h3
    | apply at_bind
    | split
    | intro _
    | dsimp only

set_option linter.unusedTactic false in
set_option linter.unreachableTactic false in
theorem skips_acquire (d : Device) (f : Setter) (hf : f.holders.isSome = true) :
    SatAt d (Skips d f) Start.acquire := by
  have h1 : Setter.setTriggerSoftware ≠ f := fun e => by rw [← e] at hf; cases hf
  unfold Start.acquire Start.stream Start.trigger
  repeat' first
    | exact at_pure _ _ _
    | exact skips_reads d f _ (lift_getSelf _) (only_getSelf _)
    | exact skips_reads d f _ (lift_modifyParams _ _ (fun p => rfl)) (only_modifyParams _ _)
    | exact skips_reads d f _ (lift_modifySelf _ _ (fun g => rfl)) (only_modifySelf _ _)
    | exact skips_reads d f _ (lift_liftD _ _)
        (only_liftD _ _ (only_isFeature _ (fun _ h => h) _ _))
    | exact skips_reads d f _ (lift_liftD _ _) (only_liftD _ _ (only_call _ _ _ rfl))
    | exact skips_invoke d f _ h1
    | apply at_bind
    | split
    | intro _
    | dsimp only

theorem skips_finish (d : Device) (f : Setter) (hf : f.holders.isSome = true) :
    SatAt d (Skips d f) Start.finish := by
  unfold Start.finish
  exact at_bind _ _ _ _ (skips_runSteps d f _) (fun _ => skips_acquire d f hf)

theorem skips_Start (d : Device) (f : Setter) (hf : f.holders.isSome = true) :
    SatAt d (Skips d f) Start := by
  constructor
  intro s
  have h0 := (skips_reads d f _ (notCalled_open f)
    (only_open _ (fun _ h => h))).run s
  have h1 := (skips_configure d f hf).run (Start.open d s).state
  have h2 := (skips_reads d f _ (lift_Stop _) (only_Stop _ (fun _ h => h))).run
    (Start.configure d (Start.open d s).state).state
  have h3 := (skips_finish d f hf).run (Start.configure d (Start.open d s).state).state
  rcases Start_state d s with e | e | e | e <;> rw [e]
  · exact h0
  · exact Pre.trans _ _ _ h0 h1
  · exact Pre.trans _ _ _ h0 (Pre.trans _ _ _ h1 h2)
  · exact Pre.trans _ _ _ h0 (Pre.trans _ _ _ h1 h3)

theorem mem_order (f : Setter) : f ∈ Start.order := by
  cases f <;> decide

/-- No feature is addressed by two setters, the offsets apart, which `setWidthHeight`
addresses too. -/
theorem touches_disjoint (f g : Setter) (hg : g ≠ f) (hw : g ≠ .setWidthHeight)
    (hf : f.holders.isSome = true) (n : String) (h1 : n ∈ f.touches) (h2 : n ∈ g.touches) :
    False := by
  have hall : Start.order.all (fun f => Start.order.all (fun g =>
      g == f || g == .setWidthHeight || !f.holders.isSome ||
        f.touches.all (fun n => !g.touches.contains n))) = true := by decide!
  have h := List.all_eq_true.mp (List.all_eq_true.mp hall f (mem_order f)) g (mem_order g)
  simp only [Bool.or_eq_true, beq_iff_eq, Bool.not_eq_true', List.all_eq_true,
    List.contains_eq_any_beq, List.any_eq_false] at h
  rcases h with ((h | h) | h) | h
  · exact hg h
  · exact hw h
  · rw [hf] at h
    cases h
  · exact h n h1 n h2 (by simp)

theorem touches_size (f : Setter) (hf : f.holders.isSome = true) (n : String)
    (h1 : n ∈ f.touches) (h2 : n ∈ ["Width", "Height"]) : False := by
  have hall : Start.order.all (fun f => !f.holders.isSome ||
      (!f.touches.contains "Width" && !f.touches.contains "Height")) = true := by decide!
  have h := List.all_eq_true.mp hall f (mem_order f)
  simp only [Bool.or_eq_true, Bool.not_eq_true', Bool.and_eq_true,
    List.contains_eq_any_beq, List.any_eq_false] at h
  rcases h with h | ⟨hw, hh⟩
  · rw [hf] at h
    cases h
  · simp only [List.mem_cons, List.mem_singleton, List.not_mem_nil, or_false] at h2
    rcases h2 with h2 | h2
    · subst h2
      exact hw _ h1 (by simp)
    · subst h2
      exact hh _ h1 (by simp)

theorem touchesOn_mem (G : String) (g : Setter) (n : String) (h : n ∈ g.touchesOn G) :
    n ∈ g.touches ∨ n = G := by
  cases g <;> first
    | exact Or.inl h
    | (simp only [Setter.touchesOn, List.mem_append, List.mem_singleton] at h
       exact h)

theorem touchesOnly_mem (names : List String) (c : Call) (n : String)
    (h : c.touchesOnly names = true) (hn : c.feature = some n) : n ∈ names := by
  unfold Call.touchesOnly at h
  rw [hn] at h
  simpa using h

/-- C7, amended: for every setter whose call `Start` gates on provenance (all
setters but those of width, height, pixel format and acquisition mode, which are
called unconditionally), if every entry of `propertyHolder` consulted for it is
`-1` and `useDefaultProperties` is `false`, then, whatever the device does, `Start`
does not call that setter and issues no write of any kind (feature write or command)
to any feature the setter addresses, with two exceptions: the writes of `0` to
`OffsetX` and `OffsetY`, which `setWidthHeight` issues unconditionally, and a write
to the feature whose name is the content of the uninitialised name buffer of
`setAcquisitionFrameRate`. -/
theorem Start_skips_default (d : Device) (s : St) (f : Setter) (hs : List (Fin 45))
    (hh : f.holders = some hs)
    (hdef : ∀ i ∈ hs, s.params.propertyHolder i = -1)
    (hpol : s.params.useDefaultProperties = false) :
    (∀ m ∈ marksBy s (Start d s), m.setter ≠ f) ∧
    ∀ c ∈ issuedBy s (Start d s), ∀ n ∈ f.touches, c.feature = some n →
      (c = .setInteger "OffsetX" 0 true ∨ c = .setInteger "OffsetY" 0 true) ∨
        n = d.garbage := by
  have hf : f.holders.isSome = true := by rw [hh]; rfl
  obtain ⟨⟨⟨ms, e, hm⟩, _⟩, ⟨cs, et, hcs⟩⟩ := (skips_Start d f hf).run s ⟨hs, hh, hdef, hpol⟩
  refine ⟨?_, ?_⟩
  · rw [marksBy_of_log s _ ms e]
    exact hm
  · rw [issuedBy_of_trace s _ cs et]
    intro c hc n hn hfe
    rcases hcs c hc with h | h | h | ⟨g, hg, hw, h⟩
    · exact Or.inl (Or.inl h)
    · exact Or.inl (Or.inr h)
    · exact (touches_size f hf n hn (touchesOnly_mem _ c n h hfe)).elim
    · rcases touchesOn_mem _ g n (touchesOnly_mem _ c n h hfe) with h2 | h2
      · exact (touches_disjoint f g hg hw hf n hn h2).elim
      · exact Or.inr h2

/-- Witness for C7: the exposure mode left at its default `"Timed"`, which passes the
value check made before the call of `setExposureMode`, on a camera that accepts
everything. -/
theorem Start_skips_default_witness :
    Setter.guard .setExposureMode gst_gencamsrc_init false = true ∧
    (marksBy (St.init gst_gencamsrc_init)
        (Start (Device.camera ⟨0, 16, 9999, 1⟩ ["Mono8"]) (St.init gst_gencamsrc_init))).all
      (fun m => decide (m.setter ≠ .setExposureMode)) = true ∧
    (issuedBy (St.init gst_gencamsrc_init)
        (Start (Device.camera ⟨0, 16, 9999, 1⟩ ["Mono8"]) (St.init gst_gencamsrc_init))).all
      (fun c => match c.feature with
        | none => true
        | some n => !(Setter.touches .setExposureMode).contains n) = true := by
  have h := Start_skips_default (Device.camera ⟨0, 16, 9999, 1⟩ ["Mono8"])
    (St.init gst_gencamsrc_init) .setExposureMode [24] rfl (by intro i _; rfl) rfl
  refine ⟨by decide, List.all_eq_true.mpr (fun m hm => decide_eq_true (h.1 m hm)),
    List.all_eq_true.mpr (fun c hc => ?_)⟩
  cases hfe : c.feature with
  | none => rfl
  | some n =>
    simp only [Bool.not_eq_true', List.contains_eq_any_beq, List.any_eq_false, beq_iff_eq]
    intro x hx hnx
    subst hnx
    rcases h.2 c hc n hx hfe with (h1 | h1) | h1
    · subst h1
      simp only [Call.feature, Option.some.injEq] at hfe
      subst hfe
      revert hx
      decide
    · subst h1
      simp only [Call.feature, Option.some.injEq] at hfe
      subst hfe
      revert hx
      decide
    · subst h1
      revert hx
      decide

end Gencam
